import Mathlib

/-! PCSX2 CDVD core and ATA identify block: a shallow embedding of
`pcsx2/CDVD/CDVD.cpp` and of `pcsx2/DEV9/ATA/ATA_Info.cpp`.

Bytes and machine words are natural numbers, reduced modulo `2 ^ w` where the
C++ code wraps.  Byte buffers are lists of naturals; `IsBytes n l` says that
`l` is a buffer of `n` bytes.
-/

namespace CDVD

/-! ## Bytes and buffers -/

/-- A buffer of exactly `n` bytes. -/
def IsBytes (n : Nat) (l : List Nat) : Prop :=
  l.length = n ∧ ∀ x ∈ l, x < 256

instance instDecidableIsBytes (n : Nat) (l : List Nat) : Decidable (IsBytes n l) := by
  unfold IsBytes
  infer_instance

/-- The `n` bytes of `buf` that start at offset `off` (`&buf[off]`, read for `n` bytes). -/
def slice (buf : List Nat) (off n : Nat) : List Nat :=
  (buf.drop off).take n

/-- Overwrite `buf` from offset `off` with `data` (`memcpy(&buf[off], data, data.length)`)
where the source copies inside the buffer: behind its own test of the offset (S-command
0x8D), at fixed offsets of a fixed array, or below `data_buffer_offset`.  The result has
the length of `buf`. -/
def blit (buf : List Nat) (off : Nat) (data : List Nat) : List Nat :=
  buf.take off ++ (data.take (buf.length - off)) ++ buf.drop (off + data.length)

/-- A store of `n` bytes through a pointer that the source does not bound
(`doubleDesDecrypt(Kbit, &buf[off])` and `xor_bit(.., &buf[off], 8)` in place).  The
list stands for the memory from `&buf[0]` on: a store that reaches behind the end of
`buf` makes the list longer, so nothing that is stored is lost and an overrun shows as
a growth of the length.  Memory behind the end that was never stored to counts as 0,
as it does for `List.getD`. -/
def store (buf : List Nat) (off n : Nat) (data : List Nat) : List Nat :=
  (buf ++ List.replicate (off - buf.length) 0).take off ++ (data ++ List.replicate n 0).take n ++
    buf.drop (off + n)

/-- Little-endian value of a byte list (`*(u16*)p`, `*(u32*)p`). -/
def leValue : List Nat → Nat
  | [] => 0
  | b :: bs => b + 256 * leValue bs

/-- The `n` little-endian bytes of `v`. -/
def leBytes : Nat → Nat → List Nat
  | 0, _ => []
  | n + 1, v => v % 256 :: leBytes n (v / 256)

/-- Conversion of an unsigned 32-bit value to `s32`. -/
def toS32 (v : Nat) : Int :=
  if v % 4294967296 < 2147483648 then (v % 4294967296 : Nat) else (v % 4294967296 : Nat) - 4294967296

/-! ## Crypto primitives

`des.h` (`DesContext`, `desInit`, `desEncryptBlock`, `desDecryptBlock`) is a library
outside the sources, so the single-key block cipher is a parameter of the model. -/

/-- The single-key block cipher behind `desEncrypt` / `desDecrypt`:
`encryptBlock key block` stands for `desInit(&dc, key, 8); desEncryptBlock(&dc, block, block)`. -/
structure DesCipher where
  encryptBlock : List Nat → List Nat → List Nat
  decryptBlock : List Nat → List Nat → List Nat

/-- The cipher maps an 8-byte key and an 8-byte block to an 8-byte block
(in C++ this is the type `uint8_t[8]` of the in-place buffer). -/
def DesCipher.WellTyped (D : DesCipher) : Prop :=
  ∀ k b, IsBytes 8 k → IsBytes 8 b →
    IsBytes 8 (D.encryptBlock k b) ∧ IsBytes 8 (D.decryptBlock k b)

/-- Single-key decryption inverts single-key encryption under the same key. -/
def DesCipher.Inverts (D : DesCipher) : Prop :=
  ∀ k b, IsBytes 8 k → IsBytes 8 b → D.decryptBlock k (D.encryptBlock k b) = b

/-- `desEncrypt(key, data)`: the block at `data` encrypted under the 8 bytes at `key`. -/
def desEncrypt (D : DesCipher) (key data : List Nat) : List Nat :=
  D.encryptBlock (key.take 8) data

/-- `desDecrypt(key, data)`. -/
def desDecrypt (D : DesCipher) (key data : List Nat) : List Nat :=
  D.decryptBlock (key.take 8) data

/-- `doubleDesEncrypt(key, data)`: encrypt with `key[0:8]`, decrypt with `key[8:16]`,
encrypt with `key[0:8]`. -/
def doubleDesEncrypt (D : DesCipher) (key data : List Nat) : List Nat :=
  desEncrypt D key (desDecrypt D (key.drop 8) (desEncrypt D key data))

/-- `doubleDesDecrypt(key, data)`: decrypt with `key[0:8]`, encrypt with `key[8:16]`,
decrypt with `key[0:8]`. -/
def doubleDesDecrypt (D : DesCipher) (key data : List Nat) : List Nat :=
  desDecrypt D key (desEncrypt D (key.drop 8) (desDecrypt D key data))

/-- `xor_bit(a, b, Result, Length)`: byte-wise XOR of the first `len` bytes. -/
def xor_bit (a b : List Nat) (len : Nat) : List Nat :=
  List.zipWith (fun x y => x ^^^ y) (a.take len) (b.take len)

/-! ## The Data Encryption Standard

Modelled from the spec ("single-key DES"): the block cipher of FIPS 46-3 on 8-byte
keys and blocks, the instance of `DesCipher` the emulator links against. -/
namespace Des

/-- Modelled from the spec: initial permutation IP of DES. -/
def tblIP : List Nat :=
  [58, 50, 42, 34, 26, 18, 10, 2, 60, 52, 44, 36, 28, 20, 12, 4,
   62, 54, 46, 38, 30, 22, 14, 6, 64, 56, 48, 40, 32, 24, 16, 8,
   57, 49, 41, 33, 25, 17, 9, 1, 59, 51, 43, 35, 27, 19, 11, 3,
   61, 53, 45, 37, 29, 21, 13, 5, 63, 55, 47, 39, 31, 23, 15, 7]

/-- Modelled from the spec: final permutation of DES, the inverse of IP. -/
def tblFP : List Nat :=
  [40, 8, 48, 16, 56, 24, 64, 32, 39, 7, 47, 15, 55, 23, 63, 31,
   38, 6, 46, 14, 54, 22, 62, 30, 37, 5, 45, 13, 53, 21, 61, 29,
   36, 4, 44, 12, 52, 20, 60, 28, 35, 3, 43, 11, 51, 19, 59, 27,
   34, 2, 42, 10, 50, 18, 58, 26, 33, 1, 41, 9, 49, 17, 57, 25]

/-- Modelled from the spec: expansion E of DES. -/
def tblE : List Nat :=
  [32, 1, 2, 3, 4, 5, 4, 5, 6, 7, 8, 9, 8, 9, 10, 11, 12, 13,
   12, 13, 14, 15, 16, 17, 16, 17, 18, 19, 20, 21, 20, 21, 22, 23, 24, 25,
   24, 25, 26, 27, 28, 29, 28, 29, 30, 31, 32, 1]

/-- Modelled from the spec: permutation P of DES. -/
def tblP : List Nat :=
  [16, 7, 20, 21, 29, 12, 28, 17, 1, 15, 23, 26, 5, 18, 31, 10,
   2, 8, 24, 14, 32, 27, 3, 9, 19, 13, 30, 6, 22, 11, 4, 25]

/-- Modelled from the spec: permuted choice 1 of the DES key schedule. -/
def tblPC1 : List Nat :=
  [57, 49, 41, 33, 25, 17, 9, 1, 58, 50, 42, 34, 26, 18,
   10, 2, 59, 51, 43, 35, 27, 19, 11, 3, 60, 52, 44, 36,
   63, 55, 47, 39, 31, 23, 15, 7, 62, 54, 46, 38, 30, 22,
   14, 6, 61, 53, 45, 37, 29, 21, 13, 5, 28, 20, 12, 4]

/-- Modelled from the spec: permuted choice 2 of the DES key schedule. -/
def tblPC2 : List Nat :=
  [14, 17, 11, 24, 1, 5, 3, 28, 15, 6, 21, 10,
   23, 19, 12, 4, 26, 8, 16, 7, 27, 20, 13, 2,
   41, 52, 31, 37, 47, 55, 30, 40, 51, 45, 33, 48,
   44, 49, 39, 56, 34, 53, 46, 42, 50, 36, 29, 32]

/-- Modelled from the spec: left shifts of the DES key schedule. -/
def tblShifts : List Nat := [1, 1, 2, 2, 2, 2, 2, 2, 1, 2, 2, 2, 2, 2, 2, 1]

/-- Modelled from the spec: the eight S-boxes of DES, each row after row. -/
def tblS : List (List Nat) :=
  [[14, 4, 13, 1, 2, 15, 11, 8, 3, 10, 6, 12, 5, 9, 0, 7,
    0, 15, 7, 4, 14, 2, 13, 1, 10, 6, 12, 11, 9, 5, 3, 8,
    4, 1, 14, 8, 13, 6, 2, 11, 15, 12, 9, 7, 3, 10, 5, 0,
    15, 12, 8, 2, 4, 9, 1, 7, 5, 11, 3, 14, 10, 0, 6, 13],
   [15, 1, 8, 14, 6, 11, 3, 4, 9, 7, 2, 13, 12, 0, 5, 10,
    3, 13, 4, 7, 15, 2, 8, 14, 12, 0, 1, 10, 6, 9, 11, 5,
    0, 14, 7, 11, 10, 4, 13, 1, 5, 8, 12, 6, 9, 3, 2, 15,
    13, 8, 10, 1, 3, 15, 4, 2, 11, 6, 7, 12, 0, 5, 14, 9],
   [10, 0, 9, 14, 6, 3, 15, 5, 1, 13, 12, 7, 11, 4, 2, 8,
    13, 7, 0, 9, 3, 4, 6, 10, 2, 8, 5, 14, 12, 11, 15, 1,
    13, 6, 4, 9, 8, 15, 3, 0, 11, 1, 2, 12, 5, 10, 14, 7,
    1, 10, 13, 0, 6, 9, 8, 7, 4, 15, 14, 3, 11, 5, 2, 12],
   [7, 13, 14, 3, 0, 6, 9, 10, 1, 2, 8, 5, 11, 12, 4, 15,
    13, 8, 11, 5, 6, 15, 0, 3, 4, 7, 2, 12, 1, 10, 14, 9,
    10, 6, 9, 0, 12, 11, 7, 13, 15, 1, 3, 14, 5, 2, 8, 4,
    3, 15, 0, 6, 10, 1, 13, 8, 9, 4, 5, 11, 12, 7, 2, 14],
   [2, 12, 4, 1, 7, 10, 11, 6, 8, 5, 3, 15, 13, 0, 14, 9,
    14, 11, 2, 12, 4, 7, 13, 1, 5, 0, 15, 10, 3, 9, 8, 6,
    4, 2, 1, 11, 10, 13, 7, 8, 15, 9, 12, 5, 6, 3, 0, 14,
    11, 8, 12, 7, 1, 14, 2, 13, 6, 15, 0, 9, 10, 4, 5, 3],
   [12, 1, 10, 15, 9, 2, 6, 8, 0, 13, 3, 4, 14, 7, 5, 11,
    10, 15, 4, 2, 7, 12, 9, 5, 6, 1, 13, 14, 0, 11, 3, 8,
    9, 14, 15, 5, 2, 8, 12, 3, 7, 0, 4, 10, 1, 13, 11, 6,
    4, 3, 2, 12, 9, 5, 15, 10, 11, 14, 1, 7, 6, 0, 8, 13],
   [4, 11, 2, 14, 15, 0, 8, 13, 3, 12, 9, 7, 5, 10, 6, 1,
    13, 0, 11, 7, 4, 9, 1, 10, 14, 3, 5, 12, 2, 15, 8, 6,
    1, 4, 11, 13, 12, 3, 7, 14, 10, 15, 6, 8, 0, 5, 9, 2,
    6, 11, 13, 8, 1, 4, 10, 7, 9, 5, 0, 15, 14, 2, 3, 12],
   [13, 2, 8, 4, 6, 15, 11, 1, 10, 9, 3, 14, 5, 0, 12, 7,
    1, 15, 13, 8, 10, 3, 7, 4, 12, 5, 6, 11, 0, 14, 9, 2,
    7, 11, 4, 1, 9, 12, 14, 2, 0, 6, 10, 13, 15, 3, 5, 8,
    2, 1, 14, 7, 4, 10, 8, 13, 15, 12, 9, 0, 3, 5, 6, 11]]

/-- Big-endian value of a byte list. -/
def beValue (l : List Nat) : Nat := l.foldl (fun acc b => 256 * acc + b) 0

/-- The `n` big-endian bytes of `v`. -/
def beBytes : Nat → Nat → List Nat
  | 0, _ => []
  | n + 1, v => (v >>> (8 * n)) % 256 :: beBytes n v

/-- The bits of the `w`-bit value `x` selected by the 1-based positions of `tbl`
(position 1 is the most significant bit), most significant first. -/
def permute (tbl : List Nat) (w x : Nat) : Nat :=
  tbl.foldl (fun acc p => 2 * acc + (x >>> (w - p)) % 2) 0

/-- Rotation to the left by `n` of a 28-bit value. -/
def rotl28 (n x : Nat) : Nat := ((x <<< n) % 268435456) ||| (x >>> (28 - n))

/-- The 16 round keys (48 bits each) from the two 28-bit halves. -/
def roundKeysAux : List Nat → Nat → Nat → List Nat
  | [], _, _ => []
  | s :: ss, c, d =>
    let c1 := rotl28 s c
    let d1 := rotl28 s d
    permute tblPC2 56 (c1 * 268435456 + d1) :: roundKeysAux ss c1 d1

/-- The 16 round keys of an 8-byte key. -/
def roundKeys (key : List Nat) : List Nat :=
  let k := permute tblPC1 64 (beValue key)
  roundKeysAux tblShifts (k >>> 28) (k % 268435456)

/-- The 4 output bits of S-box `j` on the 6 input bits `b`. -/
def sbox (j b : Nat) : Nat :=
  let row := 2 * (b >>> 5) + b % 2
  let col := (b >>> 1) % 16
  (tblS.getD j []).getD (16 * row + col) 0

/-- The eight S-boxes on a 48-bit value. -/
def sboxes (x : Nat) : Nat :=
  (List.range 8).foldl (fun acc j => 16 * acc + sbox j ((x >>> (42 - 6 * j)) % 64)) 0

/-- The Feistel function `f(R, K)`. -/
def feistel (r k : Nat) : Nat :=
  permute tblP 32 (sboxes (permute tblE 32 r ^^^ k))

/-- The Feistel rounds under the given round keys, on the halves `(L, R)`. -/
def rounds : List Nat → Nat × Nat → Nat × Nat
  | [], s => s
  | k :: ks, (l, r) => rounds ks (r, l ^^^ feistel r k)

/-- DES on one block under the given round keys. -/
def crypt (keys : List Nat) (block : List Nat) : List Nat :=
  let b := permute tblIP 64 (beValue block)
  let s := rounds keys (b >>> 32, b % 4294967296)
  beBytes 8 (permute tblFP 64 (s.2 * 4294967296 + s.1))

/-- DES encryption of a block. -/
def encryptBlock (key block : List Nat) : List Nat := crypt (roundKeys key) block
/-- DES decryption of a block: the round keys in reverse order. -/
def decryptBlock (key block : List Nat) : List Nat := crypt (roundKeys key).reverse block

end Des

/-- Modelled from the spec: the cipher of `des.h`, single-key DES. -/
def des : DesCipher :=
  { encryptBlock := Des.encryptBlock, decryptBlock := Des.decryptBlock }

/-! ## Constants of the register interface

`CDVD.h`, `CDVD_internal.h` and `CDVDcommon.h` are not among the sources; the
enumerations and bit masks the code names are given here. -/

/-- Modelled from the spec: the bits of the ready register (`enum cdvdready`). -/
def CDVD_DRIVE_ERROR : Nat := 0x01
/-- Modelled from the spec: drive busy bit of the ready register. -/
def CDVD_DRIVE_BUSY : Nat := 0x02
/-- Modelled from the spec: DEV9 connected bit of the ready register. -/
def CDVD_DRIVE_DEV9CON : Nat := 0x08
/-- Modelled from the spec: drive ready bit of the ready register. -/
def CDVD_DRIVE_READY : Nat := 0x40
/-- Modelled from the spec: mechacon initialised bit of the ready register. -/
def CDVD_DRIVE_MECHA_INIT : Nat := 0x80

/-- Modelled from the spec: the drive status values (`enum cdvdStatus`). -/
def CDVD_STATUS_STOP : Nat := 0x00
/-- Modelled from the spec: tray open status bit. -/
def CDVD_STATUS_TRAY_OPEN : Nat := 0x01
/-- Modelled from the spec: spindle motor spinning. -/
def CDVD_STATUS_SPIN : Nat := 0x02
/-- Modelled from the spec: reading data sectors. -/
def CDVD_STATUS_READ : Nat := 0x06
/-- Modelled from the spec: paused. -/
def CDVD_STATUS_PAUSE : Nat := 0x0A
/-- Modelled from the spec: seeking. -/
def CDVD_STATUS_SEEK : Nat := 0x12

/-- Modelled from the spec: the disc type codes (`CDVD_TYPE_*`). -/
def CDVD_TYPE_NODISC : Nat := 0x00
/-- Modelled from the spec: detecting. -/
def CDVD_TYPE_DETCT : Nat := 0x01
/-- Modelled from the spec: detecting, CD. -/
def CDVD_TYPE_DETCTCD : Nat := 0x02
/-- Modelled from the spec: detecting, single-layer DVD. -/
def CDVD_TYPE_DETCTDVDS : Nat := 0x03
/-- Modelled from the spec: detecting, dual-layer DVD. -/
def CDVD_TYPE_DETCTDVDD : Nat := 0x04
/-- Modelled from the spec: PS2 DVD. -/
def CDVD_TYPE_PS2DVD : Nat := 0x14
/-- Modelled from the spec: DVD video. -/
def CDVD_TYPE_DVDV : Nat := 0xFE

/-- Modelled from the spec: spindle control, speed field. -/
def CDVD_SPINDLE_SPEED : Nat := 0x7
/-- Modelled from the spec: spindle control, nominal switch. -/
def CDVD_SPINDLE_NOMINAL : Nat := 0x40
/-- Modelled from the spec: spindle control, constant angular velocity. -/
def CDVD_SPINDLE_CAV : Nat := 0x80

/-- Modelled from the spec: read modes (`CDVD_MODE_*`). -/
def CDVD_MODE_2352 : Nat := 0
/-- Modelled from the spec: read mode, 2340 bytes. -/
def CDVD_MODE_2340 : Nat := 1
/-- Modelled from the spec: read mode, 2328 bytes. -/
def CDVD_MODE_2328 : Nat := 2
/-- Modelled from the spec: read mode, 2048 bytes. -/
def CDVD_MODE_2048 : Nat := 3
/-- Modelled from the spec: read mode, 2368 bytes. -/
def CDVD_MODE_2368 : Nat := 4

/-- Modelled from the spec: `CDVD_MODE_TYPE`, the medium of a seek. -/
def MODE_CDROM : Nat := 0
/-- Modelled from the spec: `CDVD_MODE_TYPE`, DVD. -/
def MODE_DVDROM : Nat := 1

/-- Modelled from the spec: the N-command codes (`enum nCmds`); they agree with
the positions of `cdvdParamLength`. -/
def N_CD_NOP : Nat := 0x00
/-- Modelled from the spec: CdSync. -/
def N_CD_RESET : Nat := 0x01
/-- Modelled from the spec: CdStandby. -/
def N_CD_STANDBY : Nat := 0x02
/-- Modelled from the spec: CdStop. -/
def N_CD_STOP : Nat := 0x03
/-- Modelled from the spec: CdPause. -/
def N_CD_PAUSE : Nat := 0x04
/-- Modelled from the spec: CdSeek. -/
def N_CD_SEEK : Nat := 0x05
/-- Modelled from the spec: CdRead. -/
def N_CD_READ : Nat := 0x06
/-- Modelled from the spec: CdReadCDDA. -/
def N_CD_READ_CDDA : Nat := 0x07
/-- Modelled from the spec: DvdRead. -/
def N_DVD_READ : Nat := 0x08
/-- Modelled from the spec: CdGetToc. -/
def N_CD_GET_TOC : Nat := 0x09
/-- Modelled from the spec: CdReadKey. -/
def N_CD_READ_KEY : Nat := 0x0C
/-- Modelled from the spec: CdReadXCDDA. -/
def N_CD_READ_XCDDA : Nat := 0x0E
/-- Modelled from the spec: CdChgSpdlCtrl. -/
def N_CD_CHG_SPDL_CTRL : Nat := 0x0F

/-- Modelled from the spec: interrupt reason bit `1 << Irq_CommandComplete`. -/
def IRQ_COMMAND_COMPLETE : Nat := 2
/-- Modelled from the spec: interrupt reason bit `1 << Irq_Eject`. -/
def IRQ_EJECT : Nat := 4

/-- Modelled from the spec: bit-table block flag, block is encrypted. -/
def BIT_BLOCK_ENCRYPTED : Nat := 1
/-- Modelled from the spec: bit-table block flag, block is signed. -/
def BIT_BLOCK_SIGNED : Nat := 2

/-- The clock of the IOP, `s64 PSXCLK = 36864000`. -/
def PSXCLK : Nat := 36864000

/-- The table `monthmap` (13 entries, the last is zero-initialised). -/
def monthmap : List Nat := [31, 28, 31, 30, 31, 30, 31, 31, 30, 31, 30, 31, 0]

/-- The table `cdvdParamLength`. -/
def cdvdParamLength : List Nat := [0, 0, 0, 0, 0, 4, 11, 11, 11, 1, 255, 255, 7, 2, 11, 1]

/-- Modelled from the spec: `itob`, binary to BCD. -/
def itob (i : Nat) : Nat := (i / 10 * 16 + i % 10) % 256
/-- Modelled from the spec: `btoi`, BCD to binary. -/
def btoi (b : Nat) : Nat := (b / 16 * 10 + b % 16) % 256

/-- Modelled from the spec: `enum cdvdActions`. -/
inductive cdvdActions where
  | cdvdAction_None
  | cdvdAction_Seek
  | cdvdAction_Standby
  | cdvdAction_Stop
  | cdvdAction_Error
  deriving DecidableEq, Repr

/-- Modelled from the spec: the tray states, in the order of their values. -/
inductive TrayState where
  | CDVD_DISC_ENGAGED
  | CDVD_DISC_DETECTING
  | CDVD_DISC_SEEKING
  | CDVD_DISC_EJECT
  deriving DecidableEq, Repr

/-- Modelled from the spec: `enum MECHA_STATE`; `MECHA_STATE_0` is the value 0 that
`memzero(cdvd)` leaves and `if (cdvd.mecha_state)` tests. -/
inductive MECHA_STATE where
  | MECHA_STATE_0
  | MECHA_STATE_READY
  | MECHA_STATE_KEY_INDEXES_SET
  | MECHA_STATE_CARD_IV_SEED_SET
  | MECHA_STATE_CARD_NONCE_SET
  | MECHA_STATE_CARD_CHALLANGE_GENERATED
  | MECHA_STATE_CARD_CHALLENGE12_SENT
  | MECHA_STATE_CARD_CHALLENGE23_SENT
  | MECHA_STATE_CARD_RESPONSE12_RECEIVED
  | MECHA_STATE_CARD_RESPONSE3_RECEIVED
  | MECHA_STATE_CARD_VERIFIED
  | MECHA_STATE_KELF_HEADER_PARAMS_SET
  | MECHA_STATE_KELF_HEADER_RECEIVED
  | MECHA_STATE_KELF_HEADER_VERIFED
  | MECHA_STATE_BIT_LENGTH_SENT
  | MECHA_STATE_DATA_IN_LENGTH_SET
  | MECHA_STATE_UNK17
  | MECHA_STATE_KELF_CONTENT_RECEIVED
  | MECHA_STATE_KELF_CONTENT_DECRYPT_IN_PROGRESS
  | MECHA_STATE_KELF_CONTENT_DECRYPT_DONE
  | MECHA_STATE_DATA_OUT_LENGTH_SET
  | MECHA_STATE_KBIT1_SENT
  | MECHA_STATE_KBIT2_SENT
  | MECHA_STATE_KC1_SENT
  | MECHA_STATE_KC2_SENT
  | MECHA_STATE_CRYPTO_DATA_IN_SIZE_SET
  | MECHA_STATE_CRYPTO_DATA_RECVED
  | MECHA_STATE_CRYPTO_DATA_OUT_SIZE_SET
  | MECHA_STATE_CRYPTO_KEYGEN_DONE
  deriving DecidableEq, Repr

/-- Modelled from the spec: `enum MECHA_RESULT`. -/
inductive MECHA_RESULT where
  | MECHA_RESULT_0
  | MECHA_RESULT_FAILED
  | MECHA_RESULT_CARD_CHALLANGE_GENERATED
  | MECHA_RESULT_CARD_VERIFIED
  | MECHA_RESULT_KELF_HEADER_VERIFED
  | MECHA_RESULT_KELF_CONTENT_DECRYPTED
  deriving DecidableEq, Repr

/-- Modelled from the spec: `CDVD_SourceType`, what the disc backend reads from. -/
inductive CDVD_SourceType where
  | Iso
  | Disc
  | NoDisc
  deriving DecidableEq, Repr

/-- The events of the IOP scheduler this core arms. -/
inductive IopEvt where
  | IopEvt_Cdvd
  | IopEvt_CdvdRead
  | IopEvt_CdvdSectorReady
  deriving DecidableEq, Repr

/-- Which branch of `cdvdStartSeek` ran (its `CDVD_LOG` line). -/
inductive SeekLog where
  | spinUp
  | fullSeek
  | fastSeek
  | contiguous
  deriving DecidableEq, Repr

/-- Calls that leave the core, in the order they happen. -/
inductive Event where
  | psxInt (evt : IopEvt) (eCycle : Nat)
  | iopIntcIrq
  | readTrack (sector mode : Nat)
  | getBuffer
  | psxDmaInterrupt
  | dmaWrite (madr : Nat) (bytes : List Nat)
  | seekLog (k : SeekLog)
  | getToc (madr : Nat)
  deriving DecidableEq, Repr

/-! ## The drive state -/

/-- The real-time clock `cdvdRTC` (all fields `u8`). -/
structure cdvdRTC where
  status : Nat := 0
  second : Nat := 0
  minute : Nat := 0
  hour : Nat := 0
  pad : Nat := 0
  day : Nat := 0
  month : Nat := 0
  year : Nat := 0
  deriving DecidableEq, Repr

/-- The tray timer `cdvdTrayTimer`. -/
structure cdvdTrayTimer where
  cdvdActionSeconds : Nat := 0
  trayState : TrayState := TrayState.CDVD_DISC_ENGAGED
  deriving DecidableEq, Repr

/-- One entry of `cdvd.bitBlocks`. -/
structure BitBlock where
  Flags : Nat := 0
  Size : Nat := 0
  Signature : List Nat := List.replicate 8 0
  deriving DecidableEq, Repr

/-- The decrypted key store `g_keyStore` (`struct KeyStore`, 304 bytes). -/
structure KeyStore where
  CardKeyLow : List (List Nat) := List.replicate 3 (List.replicate 8 0)
  CardKeyHi : List (List Nat) := List.replicate 3 (List.replicate 8 0)
  CardKey2Low : List (List Nat) := List.replicate 3 (List.replicate 8 0)
  CardKey2Hi : List (List Nat) := List.replicate 3 (List.replicate 8 0)
  CardIV : List (List Nat) := List.replicate 3 (List.replicate 8 0)
  CardIV2 : List (List Nat) := List.replicate 3 (List.replicate 8 0)
  KbitMasterKey : List Nat := List.replicate 16 0
  KcMasterKey : List Nat := List.replicate 16 0
  KbitIv : List Nat := List.replicate 8 0
  KcIv : List Nat := List.replicate 8 0
  icvps2LowKey : List Nat := List.replicate 16 0
  icvps2HiKey : List Nat := List.replicate 16 0
  icvps2LowIV : List Nat := List.replicate 8 0
  icvps2HiIV : List Nat := List.replicate 8 0
  SignatureMasterKey : List Nat := List.replicate 8 0
  SignatureHashKey : List Nat := List.replicate 8 0
  RootSigHashKey : List Nat := List.replicate 16 0
  RootSigMasterKey : List Nat := List.replicate 8 0
  ContentIV : List Nat := List.replicate 8 0
  ContentTableIV : List Nat := List.replicate 8 0
  ChallengeIV : List Nat := List.replicate 8 0
  deriving DecidableEq, Repr

/-- The drive and session state `cdvdStruct cdvd`.  Pointers into `data_buffer`
(`bitTablePtr`, `data_out_ptr`) are offsets into it; `DiscType` is the field `cdvd.Type`. -/
structure cdvdStruct where
  nCommand : Nat := 0
  Ready : Nat := 0
  Error : Nat := 0
  IntrStat : Nat := 0
  Status : Nat := 0
  StatusSticky : Nat := 0
  DiscType : Nat := 0
  sCommand : Nat := 0
  sDataIn : Nat := 0
  sDataOut : Nat := 0
  HowTo : Nat := 0
  NCMDParam : List Nat := List.replicate 16 0
  SCMDParam : List Nat := List.replicate 16 0
  SCMDResult : List Nat := List.replicate 16 0
  NCMDParamC : Nat := 0
  NCMDParamP : Nat := 0
  SCMDParamC : Nat := 0
  SCMDParamP : Nat := 0
  SCMDResultC : Nat := 0
  SCMDResultP : Nat := 0
  CBlockIndex : Nat := 0
  COffset : Nat := 0
  CReadWrite : Nat := 0
  CNumBlocks : Nat := 0
  RTCcount : Nat := 0
  RTC : cdvdRTC := {}
  Sector : Nat := 0
  nSectors : Int := 0
  Readed : Nat := 0
  Reading : Nat := 0
  WaitingDMA : Nat := 0
  ReadMode : Nat := 0
  BlockSize : Nat := 0
  Speed : Nat := 0
  RetryCnt : Nat := 0
  RetryCntP : Nat := 0
  RErr : Int := 0
  SpindlCtrl : Nat := 0
  Key : List Nat := List.replicate 16 0
  KeyXor : Nat := 0
  decSet : Nat := 0
  SeekToSector : Nat := 0
  MaxSector : Nat := 0
  ReadTime : Nat := 0
  Spinning : Bool := false
  Tray : cdvdTrayTimer := {}
  nextSectorsBuffered : Nat := 0
  AbortRequested : Bool := false
  Action : cdvdActions := cdvdActions.cdvdAction_None
  mecha_state : MECHA_STATE := MECHA_STATE.MECHA_STATE_0
  mecha_result : MECHA_RESULT := MECHA_RESULT.MECHA_RESULT_0
  mecha_errorcode : Nat := 0
  mode : Nat := 0
  cardKeySlot : Nat := 0
  cardKeyIndex : Nat := 0
  mode3KeyIndex : Nat := 0
  memcard_iv : List Nat := List.replicate 8 0
  memcard_seed : List Nat := List.replicate 8 0
  memcard_nonce : List Nat := List.replicate 8 0
  memcard_key : List Nat := List.replicate 16 0
  memcard_random : List Nat := List.replicate 8 0
  memcard_challenge1 : List Nat := List.replicate 8 0
  memcard_challenge2 : List Nat := List.replicate 8 0
  memcard_challenge3 : List Nat := List.replicate 8 0
  memcard_reponse1 : List Nat := List.replicate 8 0
  memcard_reponse2 : List Nat := List.replicate 8 0
  memcard_reponse3 : List Nat := List.replicate 8 0
  CardKey : List (List Nat) := List.replicate 16 (List.replicate 8 0)
  icvps2Key : List Nat := List.replicate 16 0
  DataSize : Nat := 0
  data_buffer : List Nat := List.replicate 2048 0
  data_buffer_offset : Nat := 0
  data_out_offset : Nat := 0
  data_out_ptr : Nat := 0
  bitTablePtr : Nat := 0
  lastBitTable : Nat := 0
  bitBlocks : List BitBlock := List.replicate 64 {}
  bit_length : Nat := 0
  Kc : List Nat := List.replicate 16 0
  pub_Kbit : List Nat := List.replicate 16 0
  pub_Kc : List Nat := List.replicate 16 0
  pub_icvps2 : List Nat := List.replicate 8 0
  verifiedKelfHeader : List Nat := List.replicate 32 0
  DoneBlocks : Nat := 0
  currentBlockIdx : Nat := 0
  ContentLastCiphertext : List Nat := List.replicate 8 0
  SignatureLastCiphertext : List Nat := List.replicate 8 0
  deriving Repr

/-- The table of NVM offsets `NVMLayout`. -/
structure NVMLayout where
  biosVer : Nat
  config0 : Nat
  config1 : Nat
  config2 : Nat
  consoleId : Nat
  ilinkId : Nat
  modelNum : Nat
  regparams : Nat
  mac : Nat
  deriving DecidableEq, Repr

/-- One pending event of the IOP scheduler (`psxRegs.interrupt`, `sCycle`, `eCycle`). -/
structure IopEvent where
  pending : Bool := false
  sCycle : Nat := 0
  eCycle : Nat := 0
  deriving DecidableEq, Repr

/-- The IOP side the core touches: the scheduler and DMA channel 3. -/
structure Iop where
  cycle : Nat := 0
  evCdvd : IopEvent := {}
  evCdvdRead : IopEvent := {}
  evCdvdSectorReady : IopEvent := {}
  HW_DMA3_MADR : Nat := 0
  HW_DMA3_BCR_H16 : Nat := 0
  HW_DMA3_BCR_L16 : Nat := 0
  HW_DMA3_CHCR : Nat := 0
  deriving DecidableEq, Repr

/-- Files of the host and the globals next to `cdvd`. -/
structure Host where
  nvmLower : Option (List Nat) := none
  nvmUpper : Option (List Nat) := none
  nvmCreatable : Bool := true
  ilinkFile : Option (List Nat) := none
  randQueue : List Nat := []
  transfer : List Nat := []
  getBufferResult : Int := 0
  temp_mechaver : List Nat := [0, 0, 0, 0]
  DiscSerial : List Nat := []
  g_GameStarted : Bool := false
  g_SkipBiosHack : Bool := false
  DiscSwapTimerSeconds : Nat := 0
  deriving Repr

/-- Constants and collaborators declared outside the sources: the block cipher,
the seek tables of `CDVD_internal.h`, the floating-point timing functions, the
NVM layouts, the BIOS data and the disc backend. -/
structure Env where
  D : DesCipher
  tbl_ContigiousSeekDelta : Nat → Nat
  tbl_FastSeekDelta : Nat → Nat
  Cdvd_FullSeek_Cycles : Nat
  Cdvd_FastSeek_Cycles : Nat
  cdvdRotationalLatency : cdvdStruct → Nat → Nat
  cdvdBlockReadTime : cdvdStruct → Nat → Nat
  verticalFrequency : Nat
  fastCDVD : Bool
  nvmlayouts0 : NVMLayout
  nvmlayouts1 : NVMLayout
  BiosVersion : Nat
  BiosRegion : Nat
  biosLangDefaults : Nat → List Nat
  MRenewalDate : Nat → List Nat
  sourceType : CDVD_SourceType
  detectDiskType : Nat
  trackLsn : Nat
  dualType : Nat
  layer1Start : Nat
  readTrackResult : Nat → Nat → Int
  readSubQ : Nat → Int × List Nat
  cdvdParamLengthBeyond : Nat → Nat
  sParamBelow : Nat → Nat
  monthmapOutside : Nat → Nat
  cdvdReadKey : List Nat → Nat → Nat → Nat → List Nat
  cdvdOffset : Nat

/-- Everything the core reads and writes. -/
structure Machine where
  cdvd : cdvdStruct := {}
  ks : KeyStore := {}
  iop : Iop := {}
  host : Host := {}
  trace : List Event := []

/-! ## Helpers of the dispatcher -/

/-- Apply an update to the `cdvd` struct. -/
def Machine.upd (m : Machine) (f : cdvdStruct → cdvdStruct) : Machine :=
  { m with cdvd := f m.cdvd }

/-- Record a call that leaves the core. -/
def Machine.emit (m : Machine) (e : Event) : Machine :=
  { m with trace := m.trace ++ [e] }

/-- The scheduler slot of an event. -/
def Iop.getEv (i : Iop) : IopEvt → IopEvent
  | IopEvt.IopEvt_Cdvd => i.evCdvd
  | IopEvt.IopEvt_CdvdRead => i.evCdvdRead
  | IopEvt.IopEvt_CdvdSectorReady => i.evCdvdSectorReady

/-- Replace the scheduler slot of an event. -/
def Iop.setEv (i : Iop) (n : IopEvt) (e : IopEvent) : Iop :=
  match n with
  | IopEvt.IopEvt_Cdvd => { i with evCdvd := e }
  | IopEvt.IopEvt_CdvdRead => { i with evCdvdRead := e }
  | IopEvt.IopEvt_CdvdSectorReady => { i with evCdvdSectorReady := e }

/-- `psxRegs.interrupt &= ~(1 << n)`. -/
def clearInterrupt (m : Machine) (n : IopEvt) : Machine :=
  { m with iop := m.iop.setEv n { m.iop.getEv n with pending := false } }

/-- Modelled from the spec: `PSX_INT(n, ecycle)` of the IOP scheduler, which marks
the event pending and records the current cycle and the requested delta. -/
def PSX_INT (m : Machine) (n : IopEvt) (eCycle : Nat) : Machine :=
  ({ m with iop := m.iop.setEv n { pending := true, sCycle := m.iop.cycle, eCycle := eCycle } }).emit
    (Event.psxInt n eCycle)

/-- The fast-CDVD speed hack: `if (eCycle < Cdvd_FullSeek_Cycles && eCycle > 1) eCycle *= 0.5f`. -/
def speedHack (E : Env) (eCycle : Nat) : Nat :=
  if E.fastCDVD then
    if eCycle < E.Cdvd_FullSeek_Cycles ∧ eCycle > 1 then eCycle / 2 else eCycle
  else eCycle

/-- `CDVDSECTORREADY_INT(eCycle)`. -/
def CDVDSECTORREADY_INT (E : Env) (m : Machine) (eCycle : Nat) : Machine :=
  if m.iop.evCdvdSectorReady.pending then m
  else PSX_INT m IopEvt.IopEvt_CdvdSectorReady (speedHack E eCycle)

/-- `CDVDREAD_INT(eCycle)`. -/
def CDVDREAD_INT (E : Env) (m : Machine) (eCycle : Nat) : Machine :=
  PSX_INT m IopEvt.IopEvt_CdvdRead (speedHack E eCycle)

/-- `SetSCMDResultSize(size)`. -/
def SetSCMDResultSize (m : Machine) (size : Nat) : Machine :=
  m.upd fun c => { c with SCMDResultC := size, SCMDResultP := 0, sDataIn := c.sDataIn &&& 0xBF }

/-- `cdvdSetIrq(id)`. -/
def cdvdSetIrq (m : Machine) (id : Nat) : Machine :=
  (m.upd fun c => { c with IntrStat := c.IntrStat ||| id, AbortRequested := false }).emit
    Event.iopIntcIrq

/-- `cdvdUpdateStatus(NewStatus)`. -/
def cdvdUpdateStatus (m : Machine) (NewStatus : Nat) : Machine :=
  m.upd fun c => { c with Status := NewStatus, StatusSticky := c.StatusSticky ||| NewStatus }

/-- `cdvdUpdateReady(NewReadyStatus)`. -/
def cdvdUpdateReady (m : Machine) (NewReadyStatus : Nat) : Machine :=
  m.upd fun c => { c with Ready := NewReadyStatus ||| (CDVD_DRIVE_MECHA_INIT ||| CDVD_DRIVE_DEV9CON) }

/-- `cdvdIsDVD()`. -/
def cdvdIsDVD (c : cdvdStruct) : Bool :=
  c.DiscType == CDVD_TYPE_DETCTDVDS || c.DiscType == CDVD_TYPE_DETCTDVDD ||
    c.DiscType == CDVD_TYPE_PS2DVD || c.DiscType == CDVD_TYPE_DVDV

/-- `(CDVD_MODE_TYPE)cdvdIsDVD()`. -/
def cdvdIsDVDMode (c : cdvdStruct) : Nat :=
  if cdvdIsDVD c then MODE_DVDROM else MODE_CDROM

/-- `cdvdDetectDisk()`. -/
def cdvdDetectDisk (E : Env) (m : Machine) : Machine :=
  let m := m.upd fun c => { c with DiscType := E.detectDiskType }
  if m.cdvd.DiscType ≠ 0 then m.upd fun c => { c with MaxSector := E.trackLsn } else m

/-- `cdvdCtrlTrayClose()`; the value returned is always 0. -/
def cdvdCtrlTrayClose (E : Env) (m : Machine) : Machine :=
  let m :=
    if !m.host.g_GameStarted && m.host.g_SkipBiosHack then
      let m := cdvdUpdateReady m CDVD_DRIVE_READY
      let m := cdvdUpdateStatus m CDVD_STATUS_PAUSE
      m.upd fun c => { c with Tray := { trayState := TrayState.CDVD_DISC_ENGAGED, cdvdActionSeconds := 0 } }
    else
      let m := cdvdUpdateReady m CDVD_DRIVE_BUSY
      let m := cdvdUpdateStatus m CDVD_STATUS_SEEK
      m.upd fun c => { c with Tray := { trayState := TrayState.CDVD_DISC_DETECTING, cdvdActionSeconds := 3 } }
  cdvdDetectDisk E m

/-- `cdvdNewDiskCB()`. -/
def cdvdNewDiskCB (E : Env) (m : Machine) : Machine :=
  let m := cdvdDetectDisk E m
  if (m.host.g_GameStarted || !m.host.g_SkipBiosHack) && m.cdvd.Tray.trayState ≠ TrayState.CDVD_DISC_EJECT then
    let m := cdvdUpdateStatus m CDVD_STATUS_TRAY_OPEN
    let m := cdvdUpdateReady m CDVD_DRIVE_BUSY
    let m := m.upd fun c => { c with Tray := { c.Tray with trayState := TrayState.CDVD_DISC_EJECT }, Spinning := false }
    let m := cdvdSetIrq m IRQ_EJECT
    if m.cdvd.DiscType > 0 then m.upd fun c => { c with Tray := { c.Tray with cdvdActionSeconds := 3 } } else m
  else if m.cdvd.DiscType > 0 then
    let m := cdvdUpdateReady m CDVD_DRIVE_BUSY
    let m := cdvdUpdateStatus m CDVD_STATUS_SEEK
    m.upd fun c => { c with Spinning := true,
                            Tray := { trayState := TrayState.CDVD_DISC_DETECTING, cdvdActionSeconds := 3 } }
  else m

/-- `cdvdCtrlTrayOpen()`; the value returned is always 0. -/
def cdvdCtrlTrayOpen (E : Env) (m : Machine) : Machine :=
  if E.sourceType = CDVD_SourceType.Disc then cdvdNewDiskCB E m
  else
    let m := cdvdDetectDisk E m
    let m := { m with host := { m.host with DiscSwapTimerSeconds := m.cdvd.RTC.second } }
    let m := cdvdUpdateStatus m CDVD_STATUS_TRAY_OPEN
    let m := cdvdUpdateReady m 0
    let m := m.upd fun c => { c with Spinning := false }
    let m := cdvdSetIrq m IRQ_EJECT
    if m.cdvd.DiscType > 0 ∨ E.sourceType = CDVD_SourceType.NoDisc then
      m.upd fun c => { c with Tray := { trayState := TrayState.CDVD_DISC_EJECT, cdvdActionSeconds := 3 } }
    else m

/-- `cdvdActionInterrupt()`. -/
def cdvdActionInterrupt (E : Env) (m : Machine) : Machine :=
  let m :=
    match m.cdvd.Action with
    | cdvdActions.cdvdAction_Seek =>
      let m := m.upd fun c => { c with Spinning := true }
      let m := cdvdUpdateReady m CDVD_DRIVE_READY
      let m := m.upd fun c => { c with Sector := c.SeekToSector }
      let m := cdvdUpdateStatus m CDVD_STATUS_PAUSE
      let m := m.upd fun c => { c with nextSectorsBuffered := 0 }
      CDVDSECTORREADY_INT E m m.cdvd.ReadTime
    | cdvdActions.cdvdAction_Standby =>
      let m := m.upd fun c => { c with Spinning := true }
      let m := cdvdUpdateReady m CDVD_DRIVE_READY
      let m := m.upd fun c => { c with Sector := c.SeekToSector }
      let m := cdvdUpdateStatus m CDVD_STATUS_PAUSE
      let m := m.upd fun c => { c with nextSectorsBuffered := 0 }
      CDVDSECTORREADY_INT E m m.cdvd.ReadTime
    | cdvdActions.cdvdAction_Stop =>
      let m := m.upd fun c => { c with Spinning := false }
      let m := cdvdUpdateReady m CDVD_DRIVE_READY
      let m := m.upd fun c => { c with Sector := 0 }
      cdvdUpdateStatus m CDVD_STATUS_STOP
    | cdvdActions.cdvdAction_Error =>
      let m := cdvdUpdateReady m (CDVD_DRIVE_READY ||| CDVD_DRIVE_ERROR)
      cdvdUpdateStatus m CDVD_STATUS_PAUSE
    | cdvdActions.cdvdAction_None => m
  let m :=
    if m.cdvd.Action ≠ cdvdActions.cdvdAction_Seek then
      m.upd fun c => { c with Action := cdvdActions.cdvdAction_None }
    else m
  cdvdSetIrq m IRQ_COMMAND_COMPLETE

/-- `CDVD_INT(eCycle)`. -/
def CDVD_INT (E : Env) (m : Machine) (eCycle : Nat) : Machine :=
  if eCycle = 0 then cdvdActionInterrupt E m
  else PSX_INT m IopEvt.IopEvt_Cdvd eCycle

/-- `cdvdSectorReady()`. -/
def cdvdSectorReady (E : Env) (m : Machine) : Machine :=
  let m :=
    if m.cdvd.nextSectorsBuffered < 16 then
      m.upd fun c => { c with nextSectorsBuffered := c.nextSectorsBuffered + 1 }
    else m
  if m.cdvd.nextSectorsBuffered < 16 then CDVDSECTORREADY_INT E m m.cdvd.ReadTime
  else cdvdUpdateStatus m CDVD_STATUS_PAUSE

/-! ## Sector delivery and the read interrupt -/

/-- One byte through `mechaDecryptBytes`. -/
def mechaDecryptByte (c : cdvdStruct) (b : Nat) : Nat :=
  let shiftAmount := (c.decSet >>> 4) &&& 7
  let b := if c.decSet &&& 1 ≠ 0 then b ^^^ (c.Key.getD 4 0) else b
  if c.decSet &&& 2 ≠ 0 then ((b >>> shiftAmount) ||| (b <<< (8 - shiftAmount))) % 256 else b

/-- The first `n` bytes of `cdr.Transfer`. -/
def transferBytes (m : Machine) (n : Nat) : List Nat :=
  (m.host.transfer ++ List.replicate n 0).take n

/-- The layer flag and the logical sector number that `cdvdReadSector` puts into the
header of a raw DVD sector. -/
def dvdSectorHeaderLsn (E : Env) (sector : Nat) : Nat × Nat :=
  if E.dualType = 1 ∧ sector ≥ E.layer1Start then
    (1, (sector + 4294967296 - E.layer1Start % 4294967296 + 0x30000) % 4294967296)
  else if E.dualType = 2 ∧ sector ≥ E.layer1Start then
    (1, 4294967295 - (E.layer1Start + 0x30000 + 4294967295) % 4294967296)
  else
    (0, (sector + 0x30000) % 4294967296)

/-- The block `cdvdReadSector` writes at `HW_DMA3_MADR`, before decryption. -/
def sectorBlock (E : Env) (m : Machine) : List Nat :=
  if m.cdvd.BlockSize = 2064 then
    let hl := dvdSectorHeaderLsn E m.cdvd.Sector
    [0x20 ||| hl.1, (hl.2 >>> 16) % 256, (hl.2 >>> 8) % 256, hl.2 % 256,
      0, 0, 0, 0, 0, 0, 0, 0] ++ transferBytes m 2048 ++ [0, 0, 0, 0]
  else transferBytes m m.cdvd.BlockSize

/-- Stop DMA channel 3 when it is running: `HW_DMA3_CHCR &= ~0x01000000; psxDmaInterrupt(3)`. -/
def dma3Finish (m : Machine) : Machine :=
  if m.iop.HW_DMA3_CHCR &&& 0x01000000 ≠ 0 then
    ({ m with iop := { m.iop with HW_DMA3_CHCR := m.iop.HW_DMA3_CHCR - 0x01000000 } }).emit
      Event.psxDmaInterrupt
  else m

/-- `cdvdReadSector()`: the new state and the value returned (0 or -1).  The local
`bcr` is an `s32`: the product of the two 16-bit registers times 4 is taken modulo
2^32 and read as a signed value, and it is compared with the `int` `cdvd.BlockSize`. -/
def cdvdReadSector (E : Env) (m : Machine) : Machine × Int :=
  let bcr := toS32 ((m.iop.HW_DMA3_BCR_H16 * m.iop.HW_DMA3_BCR_L16) * 4)
  if bcr < (m.cdvd.BlockSize : Int) ∨ m.iop.HW_DMA3_CHCR &&& 0x01000000 = 0 then
    (dma3Finish m, -1)
  else
    let block := sectorBlock E m
    let block := if m.cdvd.decSet ≠ 0 then block.map (mechaDecryptByte m.cdvd) else block
    let m := m.emit (Event.dmaWrite m.iop.HW_DMA3_MADR block)
    let m := { m with iop := { m.iop with
      HW_DMA3_BCR_H16 := (m.iop.HW_DMA3_BCR_H16 + 65536 -
        (m.cdvd.BlockSize / (m.iop.HW_DMA3_BCR_L16 * 4)) % 65536) % 65536,
      HW_DMA3_MADR := (m.iop.HW_DMA3_MADR + m.cdvd.BlockSize) % 4294967296 } }
    let m := if m.iop.HW_DMA3_BCR_H16 = 0 then dma3Finish m else m
    (m, 0)

/-- `DoCDVDreadTrack(sector, mode)` assigned to `cdvd.RErr`. -/
def doReadTrack (E : Env) (m : Machine) (sector mode : Nat) : Machine :=
  (m.upd fun c => { c with RErr := E.readTrackResult sector mode }).emit (Event.readTrack sector mode)

/-- `cdvdReadInterrupt()`.  The busy-wait on `DoCDVDgetBuffer` ends with the first
result that is not -2, which the host supplies. -/
def cdvdReadInterrupt (E : Env) (m : Machine) : Machine :=
  let m := cdvdUpdateReady m CDVD_DRIVE_BUSY
  let m := cdvdUpdateStatus m CDVD_STATUS_READ
  let m := m.upd fun c => { c with WaitingDMA := 0 }
  let m :=
    if m.cdvd.Readed = 0 then
      m.upd fun c =>
        { c with Spinning := true, RetryCntP := 0, Reading := 1, Readed := 1, Sector := c.SeekToSector }
    else m
  if m.cdvd.AbortRequested then
    let m := m.upd fun c => { c with Error := 0x1 }
    let m := cdvdUpdateReady m (CDVD_DRIVE_READY ||| CDVD_DRIVE_ERROR)
    let m := cdvdUpdateStatus m CDVD_STATUS_PAUSE
    let m := m.upd fun c => { c with WaitingDMA := 0 }
    cdvdSetIrq m IRQ_COMMAND_COMPLETE
  else if m.cdvd.Sector ≥ m.cdvd.MaxSector then
    let m := m.upd fun c => { c with Error := 0x32 }
    let m := cdvdUpdateReady m (CDVD_DRIVE_READY ||| CDVD_DRIVE_ERROR)
    let m := cdvdUpdateStatus m CDVD_STATUS_PAUSE
    let m := m.upd fun c => { c with WaitingDMA := 0 }
    cdvdSetIrq m IRQ_COMMAND_COMPLETE
  else
    -- `if (cdvd.Reading)`: poll the buffer when the track read was started without error
    let m :=
      if m.cdvd.Reading ≠ 0 ∧ m.cdvd.RErr = 0 then
        (m.upd fun c => { c with RErr := m.host.getBufferResult }).emit Event.getBuffer
      else m
    if m.cdvd.Reading ≠ 0 ∧ m.cdvd.RErr = -1 then
      let m := m.upd fun c => { c with RetryCntP := c.RetryCntP + 1 }
      if m.cdvd.RetryCntP ≤ m.cdvd.RetryCnt then
        let m := doReadTrack E m m.cdvd.Sector m.cdvd.ReadMode
        CDVDREAD_INT E m m.cdvd.ReadTime
      else m
    else
      let m := if m.cdvd.Reading ≠ 0 then m.upd fun c => { c with Reading := 0 } else m
      if m.cdvd.nSectors > 0 ∧ m.cdvd.nextSectorsBuffered ≠ 0 then
        let r := cdvdReadSector E m
        if r.2 = -1 then
          let m := cdvdUpdateStatus r.1 CDVD_STATUS_PAUSE
          m.upd fun c => { c with WaitingDMA := 1 }
        else
          let m := r.1
          let m := m.upd fun c => { c with nextSectorsBuffered := c.nextSectorsBuffered - 1 }
          let m := CDVDSECTORREADY_INT E m m.cdvd.ReadTime
          let m := m.upd fun c => { c with Sector := (c.Sector + 1) % 4294967296 }
          let m := m.upd fun c => { c with SeekToSector := (c.SeekToSector + 1) % 4294967296 }
          let m := m.upd fun c => { c with nSectors := c.nSectors - 1 }
          if m.cdvd.nSectors ≤ 0 then
            let m := cdvdSetIrq m IRQ_COMMAND_COMPLETE
            let m := cdvdUpdateReady m CDVD_DRIVE_READY
            if m.cdvd.nextSectorsBuffered < 16 then cdvdUpdateStatus m CDVD_STATUS_READ
            else cdvdUpdateStatus m CDVD_STATUS_PAUSE
          else
            let m := m.upd fun c => { c with RetryCntP := 0, Reading := 1 }
            let m := doReadTrack E m m.cdvd.Sector m.cdvd.ReadMode
            if m.cdvd.nextSectorsBuffered ≠ 0 then
              CDVDREAD_INT E m ((m.cdvd.BlockSize / 4) * 12)
            else
              CDVDREAD_INT E m (((m.iop.cycle + 4294967296 - m.iop.evCdvdSectorReady.sCycle % 4294967296)
                % 4294967296 + (m.cdvd.BlockSize / 4) * 12) % 4294967296)
      else
        if m.cdvd.nSectors ≤ 0 then
          let m := cdvdSetIrq m IRQ_COMMAND_COMPLETE
          let m := m.emit Event.iopIntcIrq
          let m := cdvdUpdateReady m CDVD_DRIVE_READY
          cdvdUpdateStatus m CDVD_STATUS_PAUSE
        else
          CDVDREAD_INT E m ((m.cdvd.BlockSize / 4) * 12)

/-! ## Seeking -/

/-- `abs((s32)(cdvd.SeekToSector - cdvd.Sector))`. -/
def seekDelta (c : cdvdStruct) : Nat :=
  (toS32 ((c.SeekToSector + 4294967296 - c.Sector % 4294967296) % 4294967296)).natAbs

/-- `(psxRegs.cycle - psxRegs.sCycle[IopEvt_CdvdSectorReady]) + ((cdvd.BlockSize / 4) * 12)`. -/
def remainingBufferTime (m : Machine) : Nat :=
  ((m.iop.cycle + 4294967296 - m.iop.evCdvdSectorReady.sCycle % 4294967296) % 4294967296
    + (m.cdvd.BlockSize / 4) * 12) % 4294967296

/-- The tail of `cdvdStartSeek` behind the classification: rotational latency for
reads, the sector-ready event, and the action reset.  `isSeeking` and `delta` are
the locals of that name. -/
def cdvdStartSeekFinish (E : Env) (m : Machine) (seektime delta : Nat) (isSeeking : Bool) :
    Machine × Nat :=
  let r : Machine × Nat :=
    if (delta ≠ 0 ∨ m.cdvd.Action = cdvdActions.cdvdAction_Seek) ∧ isSeeking = false then
      let rotationalLatency := E.cdvdRotationalLatency m.cdvd (cdvdIsDVDMode m.cdvd)
      let seektime := (seektime + (rotationalLatency + m.cdvd.ReadTime)) % 4294967296
      let m := CDVDSECTORREADY_INT E m seektime
      (m, (seektime + (m.cdvd.BlockSize / 4) * 12) % 4294967296)
    else
      (CDVDSECTORREADY_INT E m seektime, seektime)
  let m := r.1
  let m :=
    if m.cdvd.nCommand ≠ N_CD_SEEK then m.upd fun c => { c with Action := cdvdActions.cdvdAction_None }
    else m
  (m, r.2)

/-- `cdvdStartSeek(newsector, mode)`: the new state and the number of IOP cycles
until the event completes. -/
def cdvdStartSeek (E : Env) (m : Machine) (newsector mode : Nat) : Machine × Nat :=
  let m := m.upd fun c => { c with SeekToSector := newsector }
  let delta := seekDelta m.cdvd
  let isSeeking : Bool := m.cdvd.nCommand = N_CD_SEEK
  let m := cdvdUpdateReady m CDVD_DRIVE_BUSY
  let m := m.upd fun c => { c with Reading := 1, Readed := 0 }
  let m := cdvdUpdateStatus m CDVD_STATUS_SEEK
  if m.cdvd.Spinning = false then
    let m := m.emit (Event.seekLog SeekLog.spinUp)
    let seektime := PSXCLK / 3
    let m := m.upd fun c => { c with Spinning := true, nextSectorsBuffered := 0 }
    let m := CDVDSECTORREADY_INT E m ((seektime + m.cdvd.ReadTime) % 4294967296)
    cdvdStartSeekFinish E m seektime delta isSeeking
  else if E.tbl_ContigiousSeekDelta mode = 0 ∨ delta ≥ E.tbl_ContigiousSeekDelta mode then
    let m := clearInterrupt m IopEvt.IopEvt_CdvdSectorReady
    let m := m.upd fun c => { c with nextSectorsBuffered := 0 }
    if delta ≥ E.tbl_FastSeekDelta mode then
      let m := m.emit (Event.seekLog SeekLog.fullSeek)
      cdvdStartSeekFinish E m E.Cdvd_FullSeek_Cycles delta true
    else
      let m := m.emit (Event.seekLog SeekLog.fastSeek)
      cdvdStartSeekFinish E m E.Cdvd_FastSeek_Cycles delta true
  else
    let m := m.emit (Event.seekLog SeekLog.contiguous)
    if delta = 0 then
      let m := cdvdUpdateStatus m CDVD_STATUS_READ
      let m := m.upd fun c => { c with Readed := 1, Reading := 1, RetryCntP := 0 }
      if m.cdvd.nextSectorsBuffered = 0 then
        if m.iop.evCdvdSectorReady.pending then
          cdvdStartSeekFinish E m (remainingBufferTime m) delta false
        else
          cdvdStartSeekFinish E m 0 1 false
      else
        (m, (m.cdvd.BlockSize / 4) * 12)
    else
      let m := clearInterrupt m IopEvt.IopEvt_CdvdSectorReady
      let m := m.upd fun c => { c with nextSectorsBuffered := 0 }
      cdvdStartSeekFinish E m 0 delta false

/-! ## The N-command channel -/

/-- `cdvdReadErrorHandler()`. -/
def cdvdReadErrorHandler (m : Machine) : Machine × Bool :=
  if m.cdvd.nSectors ≤ 0 then
    (m.upd fun c => { c with Error := 0x21 }, false)
  else if m.cdvd.SeekToSector ≥ m.cdvd.MaxSector then
    (m.upd fun c => { c with Error := 0x30 }, false)
  else (m, true)

/-- `cdvdParamLength[cdvd.nCommand]`; an index past the 16 entries reads what lies
behind the table. -/
def cdvdParamLengthAt (E : Env) (n : Nat) : Nat :=
  if n < 16 then cdvdParamLength.getD n 0 else E.cdvdParamLengthBeyond n

/-- Common end of the three error exits of `cdvdCommandErrorHandler`. -/
def commandError (m : Machine) (code : Nat) : Machine :=
  let m := m.upd fun c => { c with Error := code }
  let m := m.upd fun c => { c with Ready := c.Ready ||| CDVD_DRIVE_ERROR }
  cdvdSetIrq m IRQ_COMMAND_COMPLETE

/-- `cdvdCommandErrorHandler()`. -/
def cdvdCommandErrorHandler (E : Env) (m : Machine) : Machine × Bool :=
  if m.cdvd.nCommand > N_CD_NOP ∧
      (m.cdvd.Status &&& CDVD_STATUS_TRAY_OPEN ≠ 0 ∨ m.cdvd.DiscType = CDVD_TYPE_NODISC) then
    (commandError m (if m.cdvd.DiscType = CDVD_TYPE_NODISC then 0x12 else 0x11), false)
  else if m.cdvd.NCMDParamC ≠ cdvdParamLengthAt E m.cdvd.nCommand ∧
      cdvdParamLengthAt E m.cdvd.nCommand ≠ 255 then
    (commandError m 0x22, false)
  else if m.cdvd.nCommand > N_CD_CHG_SPDL_CTRL then
    (commandError m 0x10, false)
  else (m, true)

/-- `cdvd.NCMDParamP = 0; cdvd.NCMDParamC = 0`. -/
def clearNParams (m : Machine) : Machine :=
  m.upd fun c => { c with NCMDParamP := 0, NCMDParamC := 0 }

/-- The parameter-error exit of the three read commands. -/
def readParamError (E : Env) (m : Machine) (oldSpindleCtrl : Nat) : Machine :=
  let m := m.upd fun c => { c with SpindlCtrl := oldSpindleCtrl, Error := 0x22,
                                   Action := cdvdActions.cdvdAction_Error }
  let m := cdvdUpdateStatus m CDVD_STATUS_SEEK
  let m := cdvdUpdateReady m CDVD_DRIVE_BUSY
  CDVD_INT E m (m.cdvd.BlockSize * 12)

/-- The exit of a read command whose `cdvdReadErrorHandler` failed. -/
def readRangeError (E : Env) (m : Machine) : Machine :=
  let m := m.upd fun c => { c with Action := cdvdActions.cdvdAction_Error }
  let m := cdvdUpdateStatus m CDVD_STATUS_SEEK
  let m := cdvdUpdateReady m CDVD_DRIVE_BUSY
  CDVD_INT E m (E.cdvdRotationalLatency m.cdvd (cdvdIsDVDMode m.cdvd))

/-- The start of an accepted read: block time, seek, read interrupt, read-ahead. -/
def beginRead (E : Env) (m : Machine) (mode : Nat) : Machine :=
  let m := m.upd fun c => { c with ReadTime := E.cdvdBlockReadTime c mode }
  let r := cdvdStartSeek E m m.cdvd.SeekToSector mode
  let m := CDVDREAD_INT E r.1 r.2
  let m := doReadTrack E m m.cdvd.SeekToSector m.cdvd.ReadMode
  m.upd fun c => { c with Reading := 1 }

/-- The sector, count and retry parameters shared by the read commands. -/
def loadReadParams (m : Machine) : Machine :=
  m.upd fun c => { c with
    SeekToSector := leValue (slice c.NCMDParam 0 4),
    nSectors := toS32 (leValue (slice c.NCMDParam 4 4)),
    RetryCnt := if c.NCMDParam.getD 8 0 = 0 then 0x100 else c.NCMDParam.getD 8 0 }

/-- `cdvd.Spinning = false` when the CAV bit or the speed has changed. -/
def speedChange (m : Machine) (oldSpindleCtrl oldSpeed : Nat) : Machine :=
  if m.cdvd.SpindlCtrl &&& CDVD_SPINDLE_CAV ≠ oldSpindleCtrl &&& CDVD_SPINDLE_CAV ∨
      oldSpeed ≠ m.cdvd.Speed then
    m.upd fun c => { c with Spinning := false }
  else m

/-- The parameter decoding of case `N_CD_READ`: sector, count, retries, spindle
control, speed, read mode; the flag is the local `ParamError`. -/
def decodeCdRead (m : Machine) : Machine × Bool :=
  let m := loadReadParams m
  let oldSpindleCtrl := m.cdvd.SpindlCtrl
  let p9 := m.cdvd.NCMDParam.getD 9 0
  let m := m.upd fun c => { c with SpindlCtrl :=
    if p9 &&& 0x3F ≠ 0 then p9 else (p9 &&& 0x80) ||| (if cdvdIsDVD c then 3 else 5) }
  let oldSpeed := m.cdvd.Speed
  let sp := m.cdvd.SpindlCtrl &&& CDVD_SPINDLE_SPEED
  let r : Machine × Bool :=
    if sp = 1 then (m.upd fun c => { c with Speed := 1 }, false)
    else if sp = 2 then (m.upd fun c => { c with Speed := 2 }, false)
    else if sp = 3 then (m.upd fun c => { c with Speed := 4 }, false)
    else if sp = 4 then
      (if cdvdIsDVD m.cdvd then (m, true) else (m.upd fun c => { c with Speed := 12 }, false))
    else if sp = 5 then
      (if cdvdIsDVD m.cdvd then (m, true) else (m.upd fun c => { c with Speed := 24 }, false))
    else (m, true)
  let m := speedChange r.1 oldSpindleCtrl oldSpeed
  let p10 := m.cdvd.NCMDParam.getD 10 0
  if cdvdIsDVD m.cdvd ∧ p10 ≠ 0 then (m, true)
  else if p10 = 2 then (m.upd fun c => { c with ReadMode := CDVD_MODE_2340, BlockSize := 2340 }, r.2)
  else if p10 = 1 then (m.upd fun c => { c with ReadMode := CDVD_MODE_2328, BlockSize := 2328 }, r.2)
  else if p10 = 0 then (m.upd fun c => { c with ReadMode := CDVD_MODE_2048, BlockSize := 2048 }, r.2)
  else (m, true)

/-- Case `N_CD_READ` of `cdvdWrite04`, up to the `break`. -/
def nCdRead (E : Env) (m : Machine) : Machine :=
  let d := decodeCdRead m
  if d.2 then readParamError E d.1 m.cdvd.SpindlCtrl
  else
    let h := cdvdReadErrorHandler d.1
    if h.2 = false then readRangeError E h.1
    else beginRead E h.1 (cdvdIsDVDMode h.1.cdvd)

/-- The parameter decoding of cases `N_CD_READ_CDDA` and `N_CD_READ_XCDDA`; the flag is
the local `ParamError`. -/
def decodeCdda (m : Machine) : Machine × Bool :=
  let m := loadReadParams m
  let oldSpindleCtrl := m.cdvd.SpindlCtrl
  let p9 := m.cdvd.NCMDParam.getD 9 0
  let m := m.upd fun c => { c with SpindlCtrl :=
    if p9 &&& 0x3F ≠ 0 then p9 else (p9 &&& 0x80) ||| 5 }
  let oldSpeed := m.cdvd.Speed
  let sp := m.cdvd.SpindlCtrl &&& CDVD_SPINDLE_SPEED
  let r : Machine × Bool :=
    if sp = 1 then (m.upd fun c => { c with Speed := 1 }, false)
    else if sp = 2 then (m.upd fun c => { c with Speed := 2 }, false)
    else if sp = 3 then (m.upd fun c => { c with Speed := 4 }, false)
    else if sp = 4 then (m.upd fun c => { c with Speed := 12 }, false)
    else if sp = 5 then (m.upd fun c => { c with Speed := 24 }, false)
    else (m, true)
  let m := speedChange r.1 oldSpindleCtrl oldSpeed
  let p10 := m.cdvd.NCMDParam.getD 10 0
  if p10 = 1 then (m.upd fun c => { c with ReadMode := CDVD_MODE_2368, BlockSize := 2368 }, r.2)
  else if p10 = 0 then (m.upd fun c => { c with ReadMode := CDVD_MODE_2352, BlockSize := 2352 }, r.2)
  else (m, true)

/-- Cases `N_CD_READ_CDDA` and `N_CD_READ_XCDDA` of `cdvdWrite04` behind the disc-type
check, up to the `break`. -/
def nCdReadCdda (E : Env) (m : Machine) : Machine :=
  let d := decodeCdda m
  if d.2 then readParamError E d.1 m.cdvd.SpindlCtrl
  else beginRead E d.1 MODE_CDROM

/-- The parameter decoding of case `N_DVD_READ`; the flag is the local `ParamError`. -/
def decodeDvdRead (m : Machine) : Machine × Bool :=
  let m := loadReadParams m
  let oldSpindleCtrl := m.cdvd.SpindlCtrl
  let p9 := m.cdvd.NCMDParam.getD 9 0
  let m := m.upd fun c => { c with SpindlCtrl :=
    if p9 &&& 0x3F ≠ 0 then p9 else (p9 &&& 0x80) ||| 3 }
  let oldSpeed := m.cdvd.Speed
  let sp := m.cdvd.SpindlCtrl &&& CDVD_SPINDLE_SPEED
  let r : Machine × Bool :=
    if sp = 1 then (m.upd fun c => { c with Speed := 1 }, false)
    else if sp = 2 then (m.upd fun c => { c with Speed := 2 }, false)
    else if sp = 3 then (m.upd fun c => { c with Speed := 4 }, false)
    else (m, true)
  let m := speedChange r.1 oldSpindleCtrl oldSpeed
  let paramError : Bool := r.2 || decide (m.cdvd.NCMDParam.getD 10 0 ≠ 0)
  (m.upd fun c => { c with ReadMode := CDVD_MODE_2048, BlockSize := 2064 }, paramError)

/-- Case `N_DVD_READ` of `cdvdWrite04` behind the disc-type check, up to the `break`. -/
def nDvdRead (E : Env) (m : Machine) : Machine :=
  let d := decodeDvdRead m
  if d.2 then readParamError E d.1 m.cdvd.SpindlCtrl
  else
    let h := cdvdReadErrorHandler d.1
    if h.2 = false then readRangeError E h.1
    else beginRead E h.1 MODE_DVDROM

/-- The `switch (rt)` of `cdvdWrite04`; the flag is true where the case leaves by
`return` instead of `break`. -/
def nCommandSwitch (E : Env) (m : Machine) (rt : Nat) : Machine × Bool :=
  if rt = N_CD_NOP then
    let m := cdvdUpdateReady m CDVD_DRIVE_READY
    (cdvdSetIrq m IRQ_COMMAND_COMPLETE, false)
  else if rt = N_CD_RESET then
    let m := cdvdUpdateReady m CDVD_DRIVE_READY
    let m := m.upd fun c => { c with SCMDParamP := 0, SCMDParamC := 0 }
    let m := cdvdUpdateStatus m CDVD_STATUS_STOP
    let m := m.upd fun c => { c with Spinning := false, SCMDResult := List.replicate 16 0 }
    (cdvdSetIrq m IRQ_COMMAND_COMPLETE, false)
  else if rt = N_CD_STANDBY then
    let m := cdvdUpdateReady m CDVD_DRIVE_BUSY
    let m := m.upd fun c => { c with ReadTime := E.cdvdBlockReadTime c (cdvdIsDVDMode c) }
    let r := cdvdStartSeek E m 0 MODE_DVDROM
    let m := CDVD_INT E r.1 r.2
    let m := cdvdUpdateStatus m CDVD_STATUS_SEEK
    (m.upd fun c => { c with Action := cdvdActions.cdvdAction_Standby }, false)
  else if rt = N_CD_STOP then
    let m := cdvdUpdateReady m CDVD_DRIVE_BUSY
    let m := m.upd fun c => { c with nextSectorsBuffered := 0 }
    let m := clearInterrupt m IopEvt.IopEvt_CdvdSectorReady
    let m := cdvdUpdateStatus m CDVD_STATUS_SPIN
    let m := CDVD_INT E m (PSXCLK / 6)
    (m.upd fun c => { c with Action := cdvdActions.cdvdAction_Stop }, false)
  else if rt = N_CD_PAUSE then
    let m := clearInterrupt m IopEvt.IopEvt_Cdvd
    let m := cdvdUpdateReady m CDVD_DRIVE_READY
    let m := cdvdSetIrq m IRQ_COMMAND_COMPLETE
    let m := cdvdUpdateStatus m CDVD_STATUS_PAUSE
    let m := m.upd fun c => { c with nextSectorsBuffered := 0 }
    (CDVDSECTORREADY_INT E m m.cdvd.ReadTime, false)
  else if rt = N_CD_SEEK then
    let m := cdvdUpdateReady m CDVD_DRIVE_BUSY
    let m := m.upd fun c => { c with ReadTime := E.cdvdBlockReadTime c (cdvdIsDVDMode c) }
    let r := cdvdStartSeek E m (leValue (slice m.cdvd.NCMDParam 0 4)) (cdvdIsDVDMode m.cdvd)
    let m := CDVD_INT E r.1 r.2
    let m := cdvdUpdateStatus m CDVD_STATUS_SEEK
    (m.upd fun c => { c with Action := cdvdActions.cdvdAction_Seek }, false)
  else if rt = N_CD_READ then
    (nCdRead E m, false)
  else if rt = N_CD_READ_CDDA ∨ rt = N_CD_READ_XCDDA then
    if cdvdIsDVD m.cdvd then
      let m := m.upd fun c => { c with Error := 0x14 }
      let m := cdvdUpdateReady m (CDVD_DRIVE_READY ||| CDVD_DRIVE_ERROR)
      (cdvdSetIrq m IRQ_COMMAND_COMPLETE, true)
    else (nCdReadCdda E m, false)
  else if rt = N_DVD_READ then
    if cdvdIsDVD m.cdvd = false then
      let m := m.upd fun c => { c with Error := 0x14 }
      let m := cdvdUpdateReady m (CDVD_DRIVE_READY ||| CDVD_DRIVE_ERROR)
      (cdvdSetIrq m IRQ_COMMAND_COMPLETE, true)
    else (nDvdRead E m, false)
  else if rt = N_CD_GET_TOC then
    let m := m.emit (Event.getToc m.iop.HW_DMA3_MADR)
    let m := cdvdSetIrq m IRQ_COMMAND_COMPLETE
    let m := { m with iop := { m.iop with HW_DMA3_CHCR :=
      if m.iop.HW_DMA3_CHCR &&& 0x01000000 ≠ 0 then m.iop.HW_DMA3_CHCR - 0x01000000
      else m.iop.HW_DMA3_CHCR } }
    let m := m.emit Event.psxDmaInterrupt
    let m := cdvdUpdateReady m CDVD_DRIVE_READY
    let m := cdvdUpdateStatus m CDVD_STATUS_PAUSE
    let m := m.upd fun c => { c with nextSectorsBuffered := 0 }
    (CDVDSECTORREADY_INT E m m.cdvd.ReadTime, false)
  else if rt = N_CD_READ_KEY then
    let p := m.cdvd.NCMDParam
    let arg0 := p.getD 0 0
    let arg1 := p.getD 1 0 ||| (p.getD 2 0 <<< 8)
    let arg2 := p.getD 3 0 ||| (p.getD 4 0 <<< 8) ||| (p.getD 5 0 <<< 16) ||| (p.getD 6 0 <<< 24)
    let m := m.upd fun c => { c with Key := E.cdvdReadKey m.host.DiscSerial arg0 arg1 arg2, KeyXor := 0 }
    let m := cdvdSetIrq m IRQ_COMMAND_COMPLETE
    let m := cdvdUpdateStatus m CDVD_STATUS_PAUSE
    let m := cdvdUpdateReady m CDVD_DRIVE_READY
    let m := m.upd fun c => { c with nextSectorsBuffered := 0 }
    (CDVDSECTORREADY_INT E m m.cdvd.ReadTime, false)
  else if rt = N_CD_CHG_SPDL_CTRL then
    (cdvdSetIrq m IRQ_COMMAND_COMPLETE, false)
  else
    (cdvdSetIrq m IRQ_COMMAND_COMPLETE, false)

/-- `cdvdWrite04(rt)`, the N-command trigger register. -/
def cdvdWrite04 (E : Env) (m : Machine) (rt : Nat) : Machine :=
  if m.cdvd.Ready &&& CDVD_DRIVE_READY = 0 then
    let m := m.upd fun c => { c with Error := 0x13 }
    let m := m.upd fun c => { c with Ready := c.Ready ||| CDVD_DRIVE_ERROR }
    let m := cdvdSetIrq m IRQ_COMMAND_COMPLETE
    clearNParams m
  else
    let m := m.upd fun c => { c with nCommand := rt, AbortRequested := false }
    let h := cdvdCommandErrorHandler E m
    if h.2 = false then clearNParams h.1
    else
      let r := nCommandSwitch E h.1 rt
      if r.2 then r.1 else clearNParams r.1

/-- `cdvdWrite05(rt)`, the N-command parameter register. -/
def cdvdWrite05 (m : Machine) (rt : Nat) : Machine :=
  let m :=
    if m.cdvd.NCMDParamP ≥ 16 then m.upd fun c => { c with NCMDParamP := 0, NCMDParamC := 0 }
    else m
  m.upd fun c => { c with NCMDParam := c.NCMDParam.set c.NCMDParamP rt,
                          NCMDParamP := (c.NCMDParamP + 1) % 256,
                          NCMDParamC := (c.NCMDParamC + 1) % 256 }

/-- `cdvdWrite06(rt)`. -/
def cdvdWrite06 (m : Machine) (rt : Nat) : Machine :=
  m.upd fun c => { c with HowTo := rt }

/-- `cdvdWrite07(rt)`, BREAK. -/
def cdvdWrite07 (m : Machine) (_rt : Nat) : Machine :=
  if m.cdvd.Ready &&& CDVD_DRIVE_BUSY = 0 ∨ m.cdvd.AbortRequested then m
  else m.upd fun c => { c with AbortRequested := true }

/-- `cdvdWrite08(rt)`, interrupt acknowledge: `cdvd.IntrStat &= ~rt`. -/
def cdvdWrite08 (m : Machine) (rt : Nat) : Machine :=
  m.upd fun c => { c with IntrStat := c.IntrStat &&& (255 - rt % 256) }

/-! ## Tray and clock -/

/-- `cdvdUpdateTrayState()`. -/
def cdvdUpdateTrayState (E : Env) (m : Machine) : Machine :=
  if m.cdvd.Tray.cdvdActionSeconds > 0 then
    let m := m.upd fun c => { c with Tray := { c.Tray with cdvdActionSeconds := c.Tray.cdvdActionSeconds - 1 } }
    if m.cdvd.Tray.cdvdActionSeconds = 0 then
      match m.cdvd.Tray.trayState with
      | TrayState.CDVD_DISC_EJECT => cdvdCtrlTrayClose E m
      | TrayState.CDVD_DISC_DETECTING =>
        m.upd fun c => { c with Tray := { trayState := TrayState.CDVD_DISC_SEEKING, cdvdActionSeconds := 2 },
                                Spinning := true }
      | _ =>
        let m := m.upd fun c => { c with Tray := { c.Tray with trayState := TrayState.CDVD_DISC_ENGAGED } }
        let m := cdvdUpdateReady m CDVD_DRIVE_READY
        if E.sourceType ≠ CDVD_SourceType.NoDisc then cdvdUpdateStatus m CDVD_STATUS_PAUSE
        else
          let m := m.upd fun c => { c with Spinning := false }
          cdvdUpdateStatus m CDVD_STATUS_STOP
    else m
  else m

/-- `monthmap[cdvd.RTC.month - 1]`: the index is `month - 1` as an `int`; for a month
outside 1..13 it lies outside the 13 entries of the table and the read leaves it. -/
def monthmapAt (E : Env) (month : Nat) : Nat :=
  if 1 ≤ month ∧ month ≤ 13 then monthmap.getD (month - 1) 0 else E.monthmapOutside month

/-- The clock part of `cdvdVsync`, from `cdvd.RTC.second++` on: each field is
incremented as a `u8` and the function returns at the first field that does not
roll over. -/
def rtcTick (E : Env) (r : cdvdRTC) : cdvdRTC :=
  if (r.second + 1) % 256 < 60 then
    { r with second := (r.second + 1) % 256 }
  else if (r.minute + 1) % 256 < 60 then
    { r with second := 0, minute := (r.minute + 1) % 256 }
  else if (r.hour + 1) % 256 < 24 then
    { r with second := 0, minute := 0, hour := (r.hour + 1) % 256 }
  else if (r.day + 1) % 256 ≤
      (if r.month = 2 ∧ r.year % 4 = 0 then 29 else monthmapAt E r.month) then
    { r with second := 0, minute := 0, hour := 0, day := (r.day + 1) % 256 }
  else if (r.month + 1) % 256 ≤ 12 then
    { r with second := 0, minute := 0, hour := 0, day := 1, month := (r.month + 1) % 256 }
  else if (r.year + 1) % 256 < 100 then
    { r with second := 0, minute := 0, hour := 0, day := 1, month := 1, year := (r.year + 1) % 256 }
  else
    { r with second := 0, minute := 0, hour := 0, day := 1, month := 1, year := 0 }

/-- `cdvdVsync()`. -/
def cdvdVsync (E : Env) (m : Machine) : Machine :=
  let m := m.upd fun c => { c with RTCcount := c.RTCcount + 1 }
  if m.cdvd.RTCcount < E.verticalFrequency then m
  else
    let m := m.upd fun c => { c with RTCcount := 0 }
    let m := cdvdUpdateTrayState E m
    m.upd fun c => { c with RTC := rtcTick E c.RTC }

/-! ## NVM / EEPROM accessor

The NVM image is a byte array; the host has at most one image under the name
`*.nvm` and one under `*.NVM`. -/

/-- `getNvmLayout()`. -/
def getNvmLayout (E : Env) : NVMLayout :=
  if E.nvmlayouts1.biosVer ≤ E.BiosVersion then E.nvmlayouts1 else E.nvmlayouts0

/-- `fseek(fp, pos, SEEK_SET); fwrite(data, ...)` on a file held as a byte array: a gap
behind the end of the file is filled with zeros. -/
def fileWrite (f : List Nat) (pos : Nat) (data : List Nat) : List Nat :=
  (f ++ List.replicate (pos - f.length) 0).take pos ++ data ++ f.drop (pos + data.length)

/-- `fseek(fp, pos, SEEK_SET); fread(..., n, ...)`: the bytes the file has there, at most `n`. -/
def fileRead (f : List Nat) (pos n : Nat) : List Nat :=
  slice f pos n

/-- The placeholder i.Link ID `ILinkID_Data`. -/
def ILinkID_Data : List Nat := [0x00, 0xAC, 0xFF, 0xFF, 0xFF, 0xFF, 0xB9, 0x86]

/-- The region letters `regs` of `cdvdCreateNewNVM`: J J J A E J J C. -/
def nvmRegs : List Nat := [74, 74, 74, 65, 69, 74, 74, 67]

/-- `cdvdCreateNewNVM(fp)` on a file positioned at its start. -/
def cdvdCreateNewNVM (E : Env) (f : List Nat) : List Nat :=
  let f := fileWrite f 0 (List.replicate 1024 0)
  let nvmLayout := getNvmLayout E
  let f := fileWrite f nvmLayout.ilinkId ILinkID_Data
  let biosLanguage := (E.biosLangDefaults E.BiosRegion).take 16
  let f := fileWrite f (nvmLayout.config1 + 0x10) biosLanguage
  if E.BiosVersion ≥ 0x200 then fileWrite f (nvmLayout.regparams + 6) [nvmRegs.getD E.BiosRegion 0]
  else f

/-- The test of `cdvdNVM` on an image it could open: language or region parameters
are missing. -/
def nvmParamsMissing (E : Env) (f : List Nat) : Bool :=
  let nvmLayout := getNvmLayout E
  let LanguageParams := fileRead f (nvmLayout.config1 + 0x10) 16
  let RegParams := fileRead f nvmLayout.regparams 12
  LanguageParams.length ≠ 16 || LanguageParams == List.replicate 16 0 ||
    (decide (E.BiosVersion ≥ 0x200) && (RegParams.length ≠ 12 || RegParams == List.replicate 12 0))

/-- Which of the two file names `cdvdNVM` ends up with. -/
inductive NvmName where
  | lower
  | upper
  deriving DecidableEq, Repr

/-- The image under a name. -/
def Host.nvm (h : Host) : NvmName → Option (List Nat)
  | NvmName.lower => h.nvmLower
  | NvmName.upper => h.nvmUpper

/-- Store the image under a name. -/
def Host.setNvm (h : Host) (n : NvmName) (f : List Nat) : Host :=
  match n with
  | NvmName.lower => { h with nvmLower := some f }
  | NvmName.upper => { h with nvmUpper := some f }

/-- The opening part of `cdvdNVM`: the name and content of the image in use, created or
refilled with defaults where the code does so; `none` when no image can be created. -/
def nvmOpen (E : Env) (h : Host) : Option (NvmName × List Nat) :=
  match h.nvmLower with
  | some f =>
    if f.length < 1024 then
      match h.nvmUpper with
      | some g =>
        if g.length < 1024 then
          (if h.nvmCreatable then some (NvmName.upper, cdvdCreateNewNVM E []) else none)
        else some (NvmName.upper, g)
      | none => if h.nvmCreatable then some (NvmName.upper, cdvdCreateNewNVM E []) else none
    else if nvmParamsMissing E f then some (NvmName.lower, cdvdCreateNewNVM E f)
    else some (NvmName.lower, f)
  | none =>
    match h.nvmUpper with
    | some g =>
      if g.length < 1024 then
        (if h.nvmCreatable then some (NvmName.upper, cdvdCreateNewNVM E []) else none)
      else some (NvmName.upper, g)
    | none => if h.nvmCreatable then some (NvmName.upper, cdvdCreateNewNVM E []) else none

/-- The forced i.Link ID part of `cdvdNVM`. -/
def nvmForceILink (E : Env) (h : Host) (f : List Nat) : List Nat :=
  match h.ilinkFile with
  | some d =>
    if d.length ≥ 8 then
      let id :=
        if d.length = 0x400 then fileRead d 0x1e0 8
        else if d.length = 8 then fileRead d 0 8
        else ILinkID_Data
      fileWrite f (getNvmLayout E).ilinkId id
    else f
  | none => f

/-- `cdvdNVM(buffer, offset, bytes, read)`: the new state and the content of `buffer`
afterwards. -/
def cdvdNVM (E : Env) (m : Machine) (buffer : List Nat) (offset bytes : Nat) (read : Bool) :
    Machine × List Nat :=
  match nvmOpen E m.host with
  | none => (m, if read then List.replicate bytes 0 else buffer)
  | some (name, f) =>
    let f := nvmForceILink E m.host f
    if read then
      let got := fileRead f offset bytes
      ({ m with host := m.host.setNvm name f }, got ++ (buffer.take bytes).drop got.length)
    else
      ({ m with host := m.host.setNvm name (fileWrite f offset (buffer.take bytes)) }, buffer)

/-- `cdvdReadNVM(dst, offset, bytes)`. -/
def cdvdReadNVM (E : Env) (m : Machine) (dst : List Nat) (offset bytes : Nat) : Machine × List Nat :=
  cdvdNVM E m dst offset bytes true

/-- `cdvdWriteNVM(src, offset, bytes)`. -/
def cdvdWriteNVM (E : Env) (m : Machine) (src : List Nat) (offset bytes : Nat) : Machine :=
  (cdvdNVM E m src offset bytes false).1

/-- `getNvmData(buffer, offset, size, fmtOffset)`; `field` is the layout field at `fmtOffset`. -/
def getNvmData (E : Env) (m : Machine) (buffer : List Nat) (offset size : Nat)
    (field : NVMLayout → Nat) : Machine × List Nat :=
  cdvdReadNVM E m buffer (field (getNvmLayout E) + offset) size

/-- `setNvmData(buffer, offset, size, fmtOffset)`. -/
def setNvmData (E : Env) (m : Machine) (buffer : List Nat) (offset size : Nat)
    (field : NVMLayout → Nat) : Machine :=
  cdvdWriteNVM E m buffer (field (getNvmLayout E) + offset) size

/-- `cdvdReadConsoleID(id)`. -/
def cdvdReadConsoleID (E : Env) (m : Machine) (id : List Nat) : Machine × List Nat :=
  getNvmData E m id 0 8 NVMLayout.consoleId

/-- `cdvdWriteConsoleID(id)`. -/
def cdvdWriteConsoleID (E : Env) (m : Machine) (id : List Nat) : Machine :=
  setNvmData E m id 0 8 NVMLayout.consoleId

/-- `cdvdReadILinkID(id)`. -/
def cdvdReadILinkID (E : Env) (m : Machine) (id : List Nat) : Machine × List Nat :=
  getNvmData E m id 0 8 NVMLayout.ilinkId

/-- `cdvdWriteILinkID(id)`. -/
def cdvdWriteILinkID (E : Env) (m : Machine) (id : List Nat) : Machine :=
  setNvmData E m id 0 8 NVMLayout.ilinkId

/-- `cdvdReadModelNumber(num, part)`. -/
def cdvdReadModelNumber (E : Env) (m : Machine) (num : List Nat) (part : Nat) : Machine × List Nat :=
  getNvmData E m num part 8 NVMLayout.modelNum

/-- `cdvdWriteModelNumber(num, part)`. -/
def cdvdWriteModelNumber (E : Env) (m : Machine) (num : List Nat) (part : Nat) : Machine :=
  setNvmData E m num part 8 NVMLayout.modelNum

/-- `cdvdReadRegionParams(num)`. -/
def cdvdReadRegionParams (E : Env) (m : Machine) (num : List Nat) : Machine × List Nat :=
  getNvmData E m num 0 8 NVMLayout.regparams

/-- `cdvdWriteRegionParams(num)`. -/
def cdvdWriteRegionParams (E : Env) (m : Machine) (num : List Nat) : Machine :=
  setNvmData E m num 0 8 NVMLayout.regparams

/-- `cdvdReadMAC(num)`. -/
def cdvdReadMAC (E : Env) (m : Machine) (num : List Nat) : Machine × List Nat :=
  getNvmData E m num 0 8 NVMLayout.mac

/-- `cdvdWriteMAC(num)`. -/
def cdvdWriteMAC (E : Env) (m : Machine) (num : List Nat) : Machine :=
  setNvmData E m num 0 8 NVMLayout.mac

/-- `cdvdReadLanguageParams(config)`. -/
def cdvdReadLanguageParams (E : Env) (m : Machine) (config : List Nat) : Machine × List Nat :=
  getNvmData E m config 0xF 16 NVMLayout.config1

/-- The layout field `cdvdReadConfig` / `cdvdWriteConfig` select by `cdvd.COffset`. -/
def configField (COffset : Nat) : NVMLayout → Nat :=
  if COffset = 0 then NVMLayout.config0
  else if COffset = 2 then NVMLayout.config2
  else NVMLayout.config1

/-- The block index is past the blocks of the selected config area. -/
def configBlockPastEnd (c : cdvdStruct) : Bool :=
  (c.COffset == 0 && decide (c.CBlockIndex ≥ 4)) || (c.COffset == 1 && decide (c.CBlockIndex ≥ 2)) ||
    (c.COffset == 2 && decide (c.CBlockIndex ≥ 7))

/-- `cdvdReadConfig(config)`: the new state and the content of `config`; the value
returned is not used by the caller. -/
def cdvdReadConfig (E : Env) (m : Machine) (config : List Nat) : Machine × List Nat :=
  if m.cdvd.CReadWrite ≠ 0 then (m, 0x80 :: List.replicate 15 0)
  else if m.cdvd.CBlockIndex ≥ m.cdvd.CNumBlocks then (m, config)
  else if configBlockPastEnd m.cdvd then (m, List.replicate 16 0)
  else
    let idx := m.cdvd.CBlockIndex
    let m := m.upd fun c => { c with CBlockIndex := (c.CBlockIndex + 1) % 256 }
    getNvmData E m config (idx * 16) 16 (configField m.cdvd.COffset)

/-- `cdvdWriteConfig(config)`. -/
def cdvdWriteConfig (E : Env) (m : Machine) (config : List Nat) : Machine :=
  if m.cdvd.CReadWrite ≠ 1 ∨ m.cdvd.CBlockIndex ≥ m.cdvd.CNumBlocks then m
  else if configBlockPastEnd m.cdvd then m
  else
    let idx := m.cdvd.CBlockIndex
    let m := m.upd fun c => { c with CBlockIndex := (c.CBlockIndex + 1) % 256 }
    setNvmData E m config (idx * 16) 16 (configField m.cdvd.COffset)

/-! ## MECHACON: card authentication -/

/-- Eight results of `rand()`, each stored into a `u8`, and the rest of the host's supply. -/
def takeRandom (h : Host) : List Nat × Host :=
  (((h.randQueue.take 8).map fun x => x % 256) ++ List.replicate (8 - h.randQueue.length) 0,
    { h with randQueue := h.randQueue.drop 8 })

/-- The 8-byte entry `i` of a key table (`g_keyStore.CardIV[i]`, `cdvd.CardKey[i]`, ...). -/
def keyAt (t : List (List Nat)) (i : Nat) : List Nat :=
  t.getD i (List.replicate 8 0)

/-- `generateCardChallenge()`; the value returned is `MECHA_RESULT_CARD_CHALLANGE_GENERATED`. -/
def generateCardChallenge (E : Env) (m : Machine) : Machine :=
  let c := m.cdvd
  let cardIVSeed := xor_bit c.memcard_iv c.memcard_seed 8
  let keyLo := xor_bit (keyAt m.ks.CardIV c.cardKeyIndex) cardIVSeed 8
  let keyHi := xor_bit (keyAt m.ks.CardIV2 c.cardKeyIndex) cardIVSeed 8
  let key1 := keyAt m.ks.CardKeyLow c.cardKeyIndex ++ keyAt m.ks.CardKeyHi c.cardKeyIndex
  let key2 := keyAt m.ks.CardKeyLow c.cardKeyIndex ++ keyAt m.ks.CardKeyHi c.cardKeyIndex
  let memcard_key := doubleDesEncrypt E.D key1 keyLo ++ doubleDesEncrypt E.D key2 keyHi
  let rnd := takeRandom m.host
  let memcard_random := rnd.1
  let challenge1 := doubleDesEncrypt E.D memcard_key (xor_bit m.ks.ChallengeIV memcard_random 8)
  let challenge2 := doubleDesEncrypt E.D memcard_key (xor_bit c.memcard_nonce challenge1 8)
  let challenge3 := doubleDesEncrypt E.D memcard_key (xor_bit c.memcard_iv challenge2 8)
  { m with
    host := rnd.2,
    cdvd := { c with memcard_key := memcard_key, memcard_random := memcard_random,
                     memcard_challenge1 := challenge1, memcard_challenge2 := challenge2,
                     memcard_challenge3 := challenge3 } }

/-- `verifyCardChallenge()`: the new state and the value returned. -/
def verifyCardChallenge (E : Env) (m : Machine) : Machine × MECHA_RESULT :=
  let c := m.cdvd
  let rp1 := xor_bit (doubleDesDecrypt E.D c.memcard_key c.memcard_reponse1) m.ks.ChallengeIV 8
  if c.memcard_nonce ≠ rp1 then (m, MECHA_RESULT.MECHA_RESULT_FAILED)
  else
    let rp2 := xor_bit (doubleDesDecrypt E.D c.memcard_key c.memcard_reponse2) c.memcard_reponse1 8
    if c.memcard_random ≠ rp2 then (m, MECHA_RESULT.MECHA_RESULT_FAILED)
    else
      let rp3 := doubleDesDecrypt E.D c.memcard_key c.memcard_reponse3
      (m.upd fun c => { c with CardKey := c.CardKey.set c.cardKeySlot (xor_bit c.memcard_reponse2 rp3 8) },
        MECHA_RESULT.MECHA_RESULT_CARD_VERIFIED)

/-! ## MECHACON: KELF header

`KELFHeader`, `ConsoleBan`, `BitTable` and `BitBlock` are packed structs declared
outside the sources.  `mg_BIToffset` fixes the header: flags at 0x18, ban count at
0x1A, 0x20 bytes of header, 0x10 bytes a ban.  `DecryptKelfHeader` fixes the bit
table: 8 bytes of table header, then 16 bytes a block with the signature in the
upper 8. -/

/-- Modelled from the spec: `header->HeaderSize`, a `u16` at offset 0x14. -/
def kelfHeaderSizeField (buf : List Nat) : Nat := leValue (slice buf 0x14 2)
/-- The field `header->Flags`, a `u16` at offset 0x18. -/
def kelfFlags (buf : List Nat) : Nat := leValue (slice buf 0x18 2)
/-- The field `header->BanCount`, a `u16` at offset 0x1A. -/
def kelfBanCount (buf : List Nat) : Nat := leValue (slice buf 0x1A 2)
/-- Modelled from the spec: `bitTablePtr->BlockCount`, a `u8` at offset 4 of the bit table. -/
def bitTableBlockCount (buf : List Nat) (bt : Nat) : Nat := buf.getD (bt + 4) 0
/-- Modelled from the spec: `Blocks[i].Size`, a `u32` at offset 0 of the block. -/
def bitBlockSize (buf : List Nat) (cur : Nat) : Nat := leValue (slice buf cur 4)
/-- Modelled from the spec: `Blocks[i].Flags`, a `u32` at offset 4 of the block. -/
def bitBlockFlags (buf : List Nat) (cur : Nat) : Nat := leValue (slice buf (cur + 4) 4)

/-- The local `headerSize` of `DecryptKelfHeader`. -/
def kelfHeaderSize (buf : List Nat) : Nat :=
  let headerSize := 0x20 + 16 * kelfBanCount buf
  if kelfFlags buf &&& 1 ≠ 0 then (headerSize + (buf.getD headerSize 0 + 1)) % 4294967296
  else headerSize

/-- The rolling part of the header signature: `n` blocks of 8 bytes from offset `i`. -/
def headerSignatureLoop (D : DesCipher) (key buf : List Nat) : Nat → Nat → List Nat → List Nat
  | 0, _, sig => sig
  | n + 1, i, sig =>
    headerSignatureLoop D key buf n (i + 8) (desEncrypt D key (xor_bit (slice buf i 8) sig 8))

/-- The local `HeaderSignature` of `DecryptKelfHeader`. -/
def kelfHeaderSignature (D : DesCipher) (ks : KeyStore) (buf : List Nat) : List Nat :=
  let sig := headerSignatureLoop D ks.SignatureMasterKey buf (kelfHeaderSize buf / 8) 0
    (List.replicate 8 0)
  desEncrypt D ks.SignatureMasterKey (desDecrypt D ks.SignatureHashKey sig)

/-- The ban loop: one of the first `n` bans from index `i` names this console. -/
def kelfBanned (buf iLinkID consoleID : List Nat) : Nat → Nat → Bool
  | 0, _ => false
  | n + 1, i =>
    (slice buf (0x20 + 16 * i) 8 == iLinkID && slice buf (0x20 + 16 * i + 8) 8 == consoleID) ||
      kelfBanned buf iLinkID consoleID n (i + 1)

/-- The keys `Kbit` and `cdvd.Kc` that `DecryptKelfHeader` takes from the 32 bytes at `offset`. -/
def kelfKeys (D : DesCipher) (ks : KeyStore) (c : cdvdStruct) (offset : Nat) : List Nat × List Nat :=
  let buf := c.data_buffer
  let Kbit := slice buf offset 16
  let Kc := slice buf (offset + 16) 16
  if c.mode = 1 ∨ c.mode = 3 then
    let ck := keyAt c.CardKey c.cardKeySlot
    (desDecrypt D ck (Kbit.take 8) ++ desDecrypt D ck (Kbit.drop 8),
      desDecrypt D ck (Kc.take 8) ++ desDecrypt D ck (Kc.drop 8))
  else
    let Nonce := xor_bit buf (slice buf 8 8) 8
    let KEK := doubleDesEncrypt D ks.KbitMasterKey (xor_bit ks.KbitIv Nonce 8) ++
      doubleDesEncrypt D ks.KcMasterKey (xor_bit ks.KcIv Nonce 8)
    (doubleDesDecrypt D KEK (Kbit.take 8) ++ doubleDesDecrypt D KEK (Kbit.drop 8),
      doubleDesDecrypt D KEK (Kc.take 8) ++ doubleDesDecrypt D KEK (Kc.drop 8))

/-- The state of the loop over the bit table. -/
structure BitTableLoop where
  buf : List Nat
  even : List Nat
  lastBitTable : Nat
  bitBlocks : List BitBlock
  signedBitBlocks : Nat
  failed : Bool

/-- The loop `for (int i = 0; cdvd.bitTablePtr->BlockCount > i; ++i)` of
`DecryptKelfHeader`, for `n` blocks from index `i`; it stops with `failed` at the
65th block that is signed or encrypted.  The two halves of a block are decrypted in
place by `store`: the source has no bound on `BlockCount`, and a table that reaches
behind the end of the data buffer is decrypted there all the same. -/
def bitTableLoop (D : DesCipher) (Kbit : List Nat) (bt : Nat) : Nat → Nat → BitTableLoop → BitTableLoop
  | 0, _, st => st
  | n + 1, i, st =>
    let cur := bt + 8 + 16 * i
    let odd := slice st.buf cur 8
    let buf := store st.buf cur 8 (xor_bit st.even (doubleDesDecrypt D Kbit odd) 8)
    let even := slice buf (cur + 8) 8
    let buf := store buf (cur + 8) 8 (xor_bit odd (doubleDesDecrypt D Kbit even) 8)
    let flags := bitBlockFlags buf cur
    if flags &&& BIT_BLOCK_SIGNED ≠ 0 ∨ flags &&& BIT_BLOCK_ENCRYPTED ≠ 0 then
      if st.lastBitTable ≥ 64 then
        { st with buf := buf, even := even, failed := true }
      else
        bitTableLoop D Kbit bt n (i + 1)
          { buf := buf, even := even,
            lastBitTable := st.lastBitTable + 1,
            bitBlocks := st.bitBlocks.set st.lastBitTable
              { Flags := flags, Size := bitBlockSize buf cur, Signature := slice buf (cur + 8) 8 },
            signedBitBlocks :=
              if flags &&& BIT_BLOCK_SIGNED ≠ 0 then st.signedBitBlocks + 1 else st.signedBitBlocks,
            failed := false }
    else
      bitTableLoop D Kbit bt n (i + 1) { st with buf := buf, even := even }

/-- XOR of the `n` 8-byte units of the bit table from unit `i` into `sig`. -/
def bitTableXor (buf : List Nat) (bt : Nat) : Nat → Nat → List Nat → List Nat
  | 0, _, sig => sig
  | n + 1, i, sig => bitTableXor buf bt n (i + 1) (xor_bit (slice buf (bt + i * 8) 8) sig 8)

/-- The local `BitTableSignature` of `DecryptKelfHeader`. -/
def kelfBitTableSignature (D : DesCipher) (ks : KeyStore) (buf Kbit Kc : List Nat) (bt : Nat) :
    List Nat :=
  let sig := Kbit.take 8
  let sig := if Kbit.take 8 ≠ slice Kbit 8 8 then xor_bit (slice Kbit 8 8) sig 8 else sig
  let sig := xor_bit Kc sig 8
  let sig := if Kc.take 8 ≠ slice Kc 8 8 then xor_bit (slice Kc 8 8) sig 8 else sig
  let sig := bitTableXor buf bt (bitTableBlockCount buf bt * 2 + 1) 0 sig
  doubleDesEncrypt D (ks.SignatureMasterKey.take 8 ++ ks.SignatureHashKey.take 8) sig

/-- The chain over the signed blocks of `cdvd.bitBlocks` in the root signature. -/
def rootSignatureLoop (D : DesCipher) (key : List Nat) : List BitBlock → List Nat → List Nat
  | [], sig => sig
  | b :: bs, sig =>
    rootSignatureLoop D key bs
      (if b.Flags &&& BIT_BLOCK_SIGNED ≠ 0 then desEncrypt D key (xor_bit b.Signature sig 8) else sig)

/-- The local `RootSignatureSource` of `DecryptKelfHeader`. -/
def kelfRootSignatureSource (D : DesCipher) (ks : KeyStore) (HeaderSignature BitTableSignature : List Nat)
    (blocks : List BitBlock) : List Nat :=
  let sig := desEncrypt D ks.RootSigMasterKey HeaderSignature
  let sig := desEncrypt D ks.RootSigMasterKey (xor_bit BitTableSignature sig 8)
  rootSignatureLoop D ks.RootSigMasterKey blocks sig

/-- The loop `while (!(cdvd.bitBlocks[cdvd.currentBlockIdx].Flags & BIT_BLOCK_SIGNED))
++cdvd.currentBlockIdx`: the first index from `idx` on, among the next `fuel` entries, whose
block is signed. -/
def skipUnsigned (blocks : List BitBlock) : Nat → Nat → Nat
  | 0, idx => idx
  | fuel + 1, idx =>
    if (blocks.getD idx {}).Flags &&& BIT_BLOCK_SIGNED ≠ 0 then idx
    else skipUnsigned blocks fuel (idx + 1)

/-- Record a failure of a mecha handler. -/
def mechaFail (m : Machine) (code : Nat) : Machine × MECHA_RESULT :=
  (m.upd fun c => { c with mecha_errorcode := code }, MECHA_RESULT.MECHA_RESULT_FAILED)

/-- The two halves of a 16-byte key, each encrypted under the 8-byte `key`. -/
def desEncryptHalves (D : DesCipher) (key k16 : List Nat) : List Nat :=
  desEncrypt D key (k16.take 8) ++ desEncrypt D key (slice k16 8 8)

/-- The part of `DecryptKelfHeader` behind the ban list: keys, bit table, signatures. -/
def decryptKelfBitTable (E : Env) (m : Machine) (headerSize : Nat) (HeaderSignature : List Nat) :
    Machine × MECHA_RESULT :=
  let offset := headerSize + 8
  let keys := kelfKeys E.D m.ks m.cdvd offset
  let Kbit := keys.1
  let bt := offset + 32
  let m := m.upd fun c => { c with Kc := keys.2, bitTablePtr := bt }
  let even := slice m.cdvd.data_buffer bt 8
  let buf := store m.cdvd.data_buffer bt 8 (xor_bit m.ks.ContentTableIV (doubleDesDecrypt E.D Kbit even) 8)
  let st := bitTableLoop E.D Kbit bt (bitTableBlockCount buf bt) 0
    { buf := buf, even := even, lastBitTable := 0, bitBlocks := m.cdvd.bitBlocks,
      signedBitBlocks := 0, failed := false }
  let m := m.upd fun c => { c with data_buffer := st.buf, lastBitTable := st.lastBitTable,
                                   bitBlocks := st.bitBlocks }
  if st.failed then mechaFail m 0x81
  else if st.signedBitBlocks = 0 then mechaFail m 0x81
  else
    let buf := m.cdvd.data_buffer
    let BlockCount := bitTableBlockCount buf bt
    let BitTableSignature := kelfBitTableSignature E.D m.ks buf Kbit m.cdvd.Kc bt
    if slice buf (bt + 8 + BlockCount * 16) 8 ≠ BitTableSignature then mechaFail m 0x84
    else
      let m := m.upd fun c => { c with bit_length := (16 * BlockCount + 8) % 65536 }
      let RootSignatureSource := kelfRootSignatureSource E.D m.ks HeaderSignature BitTableSignature
        (m.cdvd.bitBlocks.take m.cdvd.lastBitTable)
      let icv : Bool := (m.cdvd.mode = 1 ∨ m.cdvd.mode = 3) ∧ kelfFlags buf &&& 2 ≠ 0
      let RootSignature :=
        if icv then doubleDesDecrypt E.D m.cdvd.icvps2Key RootSignatureSource
        else doubleDesDecrypt E.D m.ks.RootSigHashKey RootSignatureSource
      if slice buf (bt + 8 + BlockCount * 16 + 8) 8 ≠ RootSignature then
        mechaFail m (if icv then 0x83 else 0x84)
      else
        let m :=
          if m.cdvd.mode = 2 ∧ kelfFlags buf &&& 2 ≠ 0 then
            m.upd fun c => { c with pub_icvps2 := doubleDesDecrypt E.D c.icvps2Key RootSignatureSource }
          else m
        let m :=
          if m.cdvd.mode = 2 then
            m.upd fun c => { c with
              pub_Kbit := desEncryptHalves E.D (keyAt c.CardKey c.cardKeySlot) Kbit,
              pub_Kc := desEncryptHalves E.D (keyAt c.CardKey c.cardKeySlot) c.Kc }
          else if m.cdvd.mode = 3 then
            m.upd fun c => { c with
              pub_Kbit := desEncryptHalves E.D (keyAt c.CardKey c.mode3KeyIndex) Kbit,
              pub_Kc := desEncryptHalves E.D (keyAt c.CardKey c.mode3KeyIndex) c.Kc }
          else m
        let m := m.upd fun c => { c with verifiedKelfHeader := slice c.data_buffer 0 0x20,
                                         DoneBlocks := 0, currentBlockIdx := 0 }
        let m :=
          if m.cdvd.mode = 2 ∨ m.cdvd.mode = 3 then
            m.upd fun c => { c with currentBlockIdx := skipUnsigned c.bitBlocks 64 0 }
          else m
        (m, MECHA_RESULT.MECHA_RESULT_KELF_HEADER_VERIFED)

/-- `DecryptKelfHeader()`: the new state and the value returned.  When the bit table
reaches behind the end of `cdvd.data_buffer`, the buffer of the new state is longer
than the one of `m`: the function has stored behind the array. -/
def DecryptKelfHeader (E : Env) (m : Machine) : Machine × MECHA_RESULT :=
  let buf := m.cdvd.data_buffer
  let headerSize := kelfHeaderSize buf
  let HeaderSignature := kelfHeaderSignature E.D m.ks buf
  if HeaderSignature ≠ slice buf headerSize 8 then mechaFail m 0x84
  else if kelfHeaderSizeField buf ≠ m.cdvd.DataSize then mechaFail m 0x81
  else if m.cdvd.mode = 3 ∧ kelfFlags buf &&& 4 = 0 ∧ kelfFlags buf &&& 8 = 0 then mechaFail m 0x82
  else
    let r1 := cdvdReadConsoleID E m (List.replicate 8 0)
    let r2 := cdvdReadILinkID E r1.1 (List.replicate 8 0)
    let m := r2.1
    if kelfBanned buf r2.2 r1.2 (kelfBanCount buf) 0 then mechaFail m 0x85
    else decryptKelfBitTable E m headerSize HeaderSignature

/-! ## MECHACON: KELF content -/

/-- The buffers the chunk loops of `DecryptKelfContent` work on. -/
structure ContentLoop where
  buf : List Nat
  ContentLastCiphertext : List Nat
  SignatureLastCiphertext : List Nat

/-- The loop `while (v0 < cdvd.DataSize)` on an encrypted block, for `n` chunks from
offset `v0`.  `none`: the loop never ends, because `v0` has reached
`data_buffer_offset` and is no longer advanced.  The flag is true where the loop
leaves by `return MECHA_RESULT_FAILED`. -/
def contentLoopEncrypted (D : DesCipher) (c : cdvdStruct) (blockFlags : Nat) :
    Nat → Nat → ContentLoop → Option (ContentLoop × Bool)
  | 0, _, st => some (st, false)
  | n + 1, v0, st =>
    if v0 < c.data_buffer_offset then
      let flags := kelfFlags c.verifiedKelfHeader
      let cryptoType := (flags >>> 8) &&& 0xF
      let keyCount := (flags >>> 4) &&& 0xF
      let chunk := slice st.buf v0 8
      let r : Option ContentLoop :=
        if cryptoType = 1 then
          some { st with buf :=
            if keyCount = 1 then blit st.buf v0 (desDecrypt D c.Kc chunk)
            else if keyCount = 2 then blit st.buf v0 (doubleDesDecrypt D c.Kc chunk)
            else st.buf }
        else if cryptoType = 2 then
          let temp :=
            if keyCount = 1 then desDecrypt D c.Kc chunk
            else if keyCount = 2 then doubleDesDecrypt D c.Kc chunk
            else List.replicate 8 0
          some { st with buf := blit st.buf v0 (xor_bit st.ContentLastCiphertext temp 8),
                         ContentLastCiphertext := chunk }
        else none
      match r with
      | none => some (st, true)
      | some st =>
        let st :=
          if blockFlags &&& BIT_BLOCK_SIGNED ≠ 0 then
            { st with SignatureLastCiphertext := xor_bit (slice st.buf v0 8) st.SignatureLastCiphertext 8 }
          else st
        contentLoopEncrypted D c blockFlags n (v0 + 8) st
    else none

/-- The loop `while (v0 < cdvd.DataSize)` on a block that is not encrypted; `none` as above. -/
def contentLoopPlain (D : DesCipher) (key : List Nat) (c : cdvdStruct) :
    Nat → Nat → ContentLoop → Option ContentLoop
  | 0, _, st => some st
  | n + 1, v0, st =>
    if v0 < c.data_buffer_offset then
      contentLoopPlain D key c n (v0 + 8)
        { st with SignatureLastCiphertext :=
            desEncrypt D key (xor_bit (slice st.buf v0 8) st.SignatureLastCiphertext 8) }
    else none

/-- The loop `do ++cdvd.currentBlockIdx; while (!(...Flags & BIT_BLOCK_SIGNED) &&
cdvd.currentBlockIdx < cdvd.lastBitTable)` behind its first increment. -/
def nextSignedBlock (blocks : List BitBlock) (last : Nat) : Nat → Nat → Nat
  | 0, idx => idx
  | fuel + 1, idx =>
    if (blocks.getD idx {}).Flags &&& BIT_BLOCK_SIGNED = 0 ∧ idx < last then
      nextSignedBlock blocks last fuel (idx + 1)
    else idx

/-- The end of `DecryptKelfContent`, behind the chunk loop that handled `v0` bytes. -/
def decryptKelfContentFinish (E : Env) (m : Machine) (block : BitBlock) (v0 : Nat) :
    Machine × MECHA_RESULT :=
  let m := m.upd fun c => { c with DoneBlocks := (c.DoneBlocks + v0) % 4294967296 }
  if block.Size ≤ m.cdvd.DoneBlocks then
    let m := m.upd fun c => { c with DoneBlocks := 0 }
    let sig :=
      if block.Flags &&& BIT_BLOCK_ENCRYPTED ≠ 0 then
        doubleDesEncrypt E.D (m.ks.SignatureMasterKey.take 8 ++ m.ks.SignatureHashKey.take 8)
          m.cdvd.SignatureLastCiphertext
      else
        desEncrypt E.D m.ks.SignatureMasterKey
          (desDecrypt E.D m.ks.SignatureHashKey m.cdvd.SignatureLastCiphertext)
    let m := m.upd fun c => { c with SignatureLastCiphertext := sig }
    if block.Flags &&& BIT_BLOCK_SIGNED ≠ 0 ∧ block.Signature ≠ m.cdvd.SignatureLastCiphertext then
      mechaFail m 0x84
    else if m.cdvd.mode = 2 ∨ m.cdvd.mode = 3 then
      let idx := nextSignedBlock m.cdvd.bitBlocks m.cdvd.lastBitTable m.cdvd.lastBitTable
        (m.cdvd.currentBlockIdx + 1)
      (m.upd fun c => { c with currentBlockIdx := idx }, MECHA_RESULT.MECHA_RESULT_KELF_CONTENT_DECRYPTED)
    else
      (m.upd fun c => { c with currentBlockIdx := c.currentBlockIdx + 1 },
        MECHA_RESULT.MECHA_RESULT_KELF_CONTENT_DECRYPTED)
  else (m, MECHA_RESULT.MECHA_RESULT_KELF_CONTENT_DECRYPTED)

/-- `DecryptKelfContent()`: the new state and the value returned, or `none` when
the chunk loop does not terminate. -/
def DecryptKelfContent (E : Env) (m : Machine) : Option (Machine × MECHA_RESULT) :=
  let m :=
    if m.cdvd.DoneBlocks = 0 then
      m.upd fun c => { c with ContentLastCiphertext := m.ks.ContentIV.take 8,
                              SignatureLastCiphertext := List.replicate 8 0 }
    else m
  let block := m.cdvd.bitBlocks.getD m.cdvd.currentBlockIdx {}
  let chunks := (m.cdvd.DataSize + 7) / 8
  let st : ContentLoop :=
    { buf := m.cdvd.data_buffer, ContentLastCiphertext := m.cdvd.ContentLastCiphertext,
      SignatureLastCiphertext := m.cdvd.SignatureLastCiphertext }
  if block.Flags &&& BIT_BLOCK_ENCRYPTED ≠ 0 then
    match contentLoopEncrypted E.D m.cdvd block.Flags chunks 0 st with
    | none => none
    | some (st, failed) =>
      let m := m.upd fun c => { c with data_buffer := st.buf,
                                       ContentLastCiphertext := st.ContentLastCiphertext,
                                       SignatureLastCiphertext := st.SignatureLastCiphertext }
      if failed then some (mechaFail m 0x81)
      else some (decryptKelfContentFinish E m block (8 * chunks))
  else
    match contentLoopPlain E.D m.ks.SignatureMasterKey m.cdvd chunks 0 st with
    | none => none
    | some st =>
      let m := m.upd fun c => { c with SignatureLastCiphertext := st.SignatureLastCiphertext }
      some (decryptKelfContentFinish E m block (8 * chunks))

/-- `executeMechaHandler()`; `none` when the handler does not return, and when
`DecryptKelfHeader` has stored behind the end of `cdvd.data_buffer`: such a store
lands in the members of `cdvd` that follow the array, whose layout is declared outside
the sources, and the behaviour of the C++ code is undefined from there on, so the
model gives no state. -/
def executeMechaHandler (E : Env) (m : Machine) : Option Machine :=
  match m.cdvd.mecha_state with
  | MECHA_STATE.MECHA_STATE_CARD_NONCE_SET =>
    some ((generateCardChallenge E m).upd fun c =>
      { c with mecha_result := MECHA_RESULT.MECHA_RESULT_CARD_CHALLANGE_GENERATED })
  | MECHA_STATE.MECHA_STATE_CARD_RESPONSE3_RECEIVED =>
    let r := verifyCardChallenge E m
    some (r.1.upd fun c => { c with mecha_result := r.2 })
  | MECHA_STATE.MECHA_STATE_KELF_HEADER_RECEIVED =>
    let r := DecryptKelfHeader E m
    if m.cdvd.data_buffer.length < r.1.cdvd.data_buffer.length then none
    else some (r.1.upd fun c => { c with mecha_result := r.2 })
  | MECHA_STATE.MECHA_STATE_DATA_IN_LENGTH_SET =>
    (DecryptKelfContent E m).map fun r => r.1.upd fun c => { c with mecha_result := r.2 }
  | MECHA_STATE.MECHA_STATE_KELF_CONTENT_RECEIVED =>
    (DecryptKelfContent E m).map fun r => r.1.upd fun c => { c with mecha_result := r.2 }
  | _ => some m

/-! ## The S-command channel -/

/-- `cdvd.SCMDResult[i] = v`. -/
def setResult (m : Machine) (i v : Nat) : Machine :=
  m.upd fun c => { c with SCMDResult := c.SCMDResult.set i (v % 256) }

/-- `memcpy(&cdvd.SCMDResult[i], bytes, bytes.length)`. -/
def copyResult (m : Machine) (i : Nat) (bytes : List Nat) : Machine :=
  m.upd fun c => { c with SCMDResult := blit c.SCMDResult i bytes }

/-- `SetSCMDResultSize(1); cdvd.SCMDResult[0] = v`. -/
def result1 (m : Machine) (v : Nat) : Machine :=
  setResult (SetSCMDResultSize m 1) 0 v

/-- `cdvd.mecha_state = st`. -/
def setMechaState (m : Machine) (st : MECHA_STATE) : Machine :=
  m.upd fun c => { c with mecha_state := st }

/-- `cdvd.SCMDParam[cdvd.SCMDParamP - k]`; below the array the read leaves it. -/
def sParamFromEnd (E : Env) (c : cdvdStruct) (k : Nat) : Nat :=
  if k ≤ c.SCMDParamP then c.SCMDParam.getD (c.SCMDParamP - k) 0 else E.sParamBelow (k - c.SCMDParamP)

/-- Case 0x03 of `cdvdWrite16`, the mechacon commands selected by `SCMDParam[0]`. -/
def sCommandMecacon (E : Env) (m : Machine) : Machine :=
  let p0 := m.cdvd.SCMDParam.getD 0 0
  let mv := m.host.temp_mechaver
  if p0 = 0x00 then
    copyResult (SetSCMDResultSize m 4) 0 (mv.take 4)
  else if p0 = 0x30 then
    let m := SetSCMDResultSize m 2
    let m := setResult m 0 m.cdvd.Status
    setResult m 1 (if m.cdvd.Status &&& 0x1 ≠ 0 then 8 else 0)
  else if p0 = 0x44 then
    let m := SetSCMDResultSize m 1
    cdvdWriteConsoleID E m (slice m.cdvd.SCMDParam 1 8)
  else if p0 = 0x45 then
    let m := SetSCMDResultSize m 9
    let r := cdvdReadConsoleID E m (slice m.cdvd.SCMDResult 1 8)
    copyResult r.1 1 r.2
  else if p0 = 0xFD then
    let v1 := mv.getD 1 0
    let v2 := mv.getD 2 0
    if v1 = 0x01 ∨ v1 = 0x02 ∨ v1 = 0x03 then result1 m 0x80
    else if v1 = 0x05 then
      if v2 < 0x10 then
        let m := copyResult (SetSCMDResultSize m 6) 0 ((E.MRenewalDate (v2 >>> 1)).take 6)
        if v2 >>> 1 = 3 ∧ mv.getD 0 0 = 0x07 then copyResult m 0 ((E.MRenewalDate 15).take 6) else m
      else result1 m 0x80
    else if v1 = 0x06 then
      if v2 < 0x0E then copyResult (SetSCMDResultSize m 6) 0 ((E.MRenewalDate ((v2 >>> 1) + 8)).take 6)
      else result1 m 0x80
    else result1 m 0x80
  else if p0 = 0xEF then
    if mv.getD 1 0 < 5 ∨ (mv.getD 1 0 = 5 ∧ mv.getD 2 0 < 4) then result1 m 0x80
    else
      let m := SetSCMDResultSize m 3
      let m := setResult m 0 0
      let m := setResult m 1 0x0F
      setResult m 2 0x05
  else result1 m 0x80

/-- The cases of `cdvdWrite16` below 0x80 and its `default`, but for case 0x0F
(`sceCdPowerOff`), which resets the virtual machine and stands in `cdvdWrite16`. -/
def sCommandAdmin (E : Env) (m : Machine) (rt : Nat) : Machine :=
  let P := m.cdvd.SCMDParam
  let mv := m.host.temp_mechaver
  if rt = 0x02 then
    let m := SetSCMDResultSize m 11
    let q := E.readSubQ m.cdvd.Sector
    let m := copyResult m 1 (q.2.take 10)
    setResult m 0 ((if q.1 = -1 then 0x80 else q.1) % 256).toNat
  else if rt = 0x03 then sCommandMecacon E m
  else if rt = 0x05 then
    let m := m.upd fun c => { c with StatusSticky := c.Status &&& CDVD_STATUS_TRAY_OPEN }
    result1 m 0
  else if rt = 0x06 then
    let m := SetSCMDResultSize m 1
    if P.getD 0 0 = 0 then setResult (cdvdCtrlTrayOpen E m) 0 0
    else setResult (cdvdCtrlTrayClose E m) 0 0
  else if rt = 0x08 then
    let m := SetSCMDResultSize m 8
    let r := m.cdvd.RTC
    copyResult m 0 [0, itob r.second, itob r.minute, itob r.hour, 0, itob r.day, itob r.month, itob r.year]
  else if rt = 0x09 then
    let m := result1 m 0
    m.upd fun c => { c with RTC :=
      { status := c.RTC.status,
        second := btoi (sParamFromEnd E c 7),
        minute := btoi (sParamFromEnd E c 6) % 60,
        hour := btoi (sParamFromEnd E c 5) % 24,
        pad := 0,
        day := btoi (sParamFromEnd E c 3),
        month := btoi (sParamFromEnd E c 2 &&& 0x7f),
        year := btoi (sParamFromEnd E c 1) } }
  else if rt = 0x0A then
    let address := (P.getD 0 0 <<< 8) ||| P.getD 1 0
    if address < 512 then
      let m := SetSCMDResultSize m 3
      let r := cdvdReadNVM E m (slice m.cdvd.SCMDResult 1 2) (address * 2) 2
      copyResult r.1 1 [r.2.getD 1 0, r.2.getD 0 0]
    else result1 m 0xff
  else if rt = 0x0B then
    let m := SetSCMDResultSize m 1
    let address := (P.getD 0 0 <<< 8) ||| P.getD 1 0
    if address < 512 then
      let m := m.upd fun c => { c with SCMDParam := blit c.SCMDParam 2 [P.getD 3 0, P.getD 2 0] }
      cdvdWriteNVM E m (slice m.cdvd.SCMDParam 2 2) (address * 2) 2
    else setResult m 0 0xff
  else if rt = 0x12 then
    let m := SetSCMDResultSize m 9
    let r := cdvdReadILinkID E m (slice m.cdvd.SCMDResult 1 8)
    let m := copyResult r.1 1 r.2
    if m.cdvd.SCMDResult.getD 3 0 = 0 ∧ m.cdvd.SCMDResult.getD 4 0 = 0 then
      copyResult m 0 [0x00, 0x00, 0xAC, 0xFF, 0xFF, 0xFF, 0xFF, 0xB9, 0x86]
    else m
  else if rt = 0x13 then
    let m := SetSCMDResultSize m 1
    cdvdWriteILinkID E m (slice P 1 8)
  else if rt = 0x14 then result1 m 0
  else if rt = 0x15 then result1 m 5
  else if rt = 0x16 then result1 m 0
  else if rt = 0x17 then
    let m := SetSCMDResultSize m 9
    let r := cdvdReadModelNumber E m (slice m.cdvd.SCMDResult 1 8) (P.getD 0 0)
    copyResult r.1 1 r.2
  else if rt = 0x18 then
    let m := SetSCMDResultSize m 1
    cdvdWriteModelNumber E m (slice P 1 8) (P.getD 0 0)
  else if rt = 0x1A then result1 m 1
  else if rt = 0x1B then result1 m 0
  else if rt = 0x1C then result1 m 0
  else if rt = 0x1E then copyResult (SetSCMDResultSize m 5) 0 [0x00, 0x14, 0x00, 0x00, 0x00]
  else if rt = 0x20 then copyResult (SetSCMDResultSize m 3) 0 [0x00, 0x01, 0x00]
  else if rt = 0x22 then copyResult (SetSCMDResultSize m 10) 0 (List.replicate 10 0)
  else if rt = 0x24 then result1 m 0
  else if rt = 0x27 then
    let S := m.host.DiscSerial
    copyResult (SetSCMDResultSize m 13) 0
      [0, S.getD 0 0, S.getD 1 0, S.getD 2 0, S.getD 3 0, S.getD 4 0, S.getD 5 0, S.getD 6 0,
        S.getD 7 0, S.getD 9 0, S.getD 10 0, S.getD 11 0, S.getD 12 0]
  else if rt = 0x29 then result1 m 0
  else if rt = 0x31 then result1 m 0
  else if rt = 0x32 then setResult (SetSCMDResultSize m 2) 0 0
  else if rt = 0x36 then
    if mv.getD 1 0 < 6 then
      if ¬ (mv.getD 0 0 = 0x07 ∧ mv.getD 1 0 = 5 ∧ mv.getD 2 0 = 6) then result1 m 0x80
      else
        let m := SetSCMDResultSize m 3
        let m := setResult m 1 (1 <<< mv.getD 0 0)
        setResult m 2 0
    else
      let m := SetSCMDResultSize m 15
      let r := cdvdReadRegionParams E m (slice m.cdvd.SCMDResult 3 8)
      let m := copyResult r.1 3 r.2
      let m := setResult m 1 (1 <<< mv.getD 0 0)
      let m := setResult m 2 0
      copyResult m 11 [0, 0, 0, 0]
  else if rt = 0x37 then
    let m := SetSCMDResultSize m 9
    let r := cdvdReadMAC E m (slice m.cdvd.SCMDResult 1 8)
    copyResult r.1 1 r.2
  else if rt = 0x38 then
    let m := SetSCMDResultSize m 1
    cdvdWriteMAC E m (slice P 0 8)
  else if rt = 0x3E then
    let m := SetSCMDResultSize m 1
    if mv.getD 1 0 < 6 ∨ (mv.getD 1 0 = 6 ∧ mv.getD 2 0 < 6) then setResult m 0 0x80
    else cdvdWriteRegionParams E m (slice P 2 8)
  else if rt = 0x40 then
    let m := SetSCMDResultSize m 1
    let m := m.upd fun c =>
      { c with CReadWrite := P.getD 0 0, COffset := P.getD 1 0, CNumBlocks := P.getD 2 0, CBlockIndex := 0 }
    setResult m 0 0
  else if rt = 0x41 then
    let m := SetSCMDResultSize m 16
    let r := cdvdReadConfig E m m.cdvd.SCMDResult
    copyResult r.1 0 r.2
  else if rt = 0x42 then
    let m := SetSCMDResultSize m 1
    cdvdWriteConfig E m P
  else if rt = 0x43 then
    let m := SetSCMDResultSize m 1
    let m := m.upd fun c => { c with CReadWrite := 0, COffset := 0, CNumBlocks := 0, CBlockIndex := 0 }
    setResult m 0 0
  else result1 m 0

/-- The cases 0x80 to 0x98 of `cdvdWrite16`; `none` when `executeMechaHandler` gives
no state. -/
def sCommandMecha (E : Env) (m : Machine) (rt : Nat) : Option Machine :=
  let P := m.cdvd.SCMDParam
  let st := m.cdvd.mecha_state
  let ParamC := m.cdvd.SCMDParamC
  if rt = 0x80 then
    let m := result1 m 0x80
    if st ≠ MECHA_STATE.MECHA_STATE_0 ∧ ParamC = 1 then
      let m := setMechaState m MECHA_STATE.MECHA_STATE_READY
      some (if P.getD 0 0 < 0x10 then setResult m 0 0 else m)
    else some m
  else if rt = 0x81 then
    let m := result1 m 0x80
    if st ≠ MECHA_STATE.MECHA_STATE_0 ∧ ParamC = 1 then
      let m := setMechaState m MECHA_STATE.MECHA_STATE_READY
      let cardKeySlot := P.getD 0 0 &&& 0x3F
      let cardKeyIndex := (P.getD 0 0 >>> 6) &&& 3
      if cardKeySlot < 0x10 ∧ cardKeyIndex ≠ 3 then
        let m := m.upd fun c => { c with cardKeySlot := cardKeySlot, cardKeyIndex := cardKeyIndex }
        some (setResult (setMechaState m MECHA_STATE.MECHA_STATE_KEY_INDEXES_SET) 0 0)
      else some m
    else some m
  else if rt = 0x82 then
    let m := SetSCMDResultSize m 1
    if st = MECHA_STATE.MECHA_STATE_KEY_INDEXES_SET ∧ ParamC = 16 then
      let m := m.upd fun c => { c with memcard_iv := slice P 0 8, memcard_seed := slice P 8 8 }
      some (setResult (setMechaState m MECHA_STATE.MECHA_STATE_CARD_IV_SEED_SET) 0 0)
    else some (setResult (setMechaState m MECHA_STATE.MECHA_STATE_READY) 0 0x80)
  else if rt = 0x83 then
    let m := SetSCMDResultSize m 1
    if st = MECHA_STATE.MECHA_STATE_CARD_IV_SEED_SET ∧ ParamC = 8 then
      let m := m.upd fun c => { c with memcard_nonce := slice P 0 8 }
      let m := setMechaState m MECHA_STATE.MECHA_STATE_CARD_NONCE_SET
      (executeMechaHandler E m).map fun m => setResult m 0 0
    else some (setResult (setMechaState m MECHA_STATE.MECHA_STATE_READY) 0 0x80)
  else if rt = 0x84 then
    if st = MECHA_STATE.MECHA_STATE_CARD_CHALLANGE_GENERATED ∧ ParamC = 0 then
      let m := SetSCMDResultSize m (1 + 8 + 4)
      let m := setResult m 0 0
      let m := copyResult m 1 (slice m.cdvd.memcard_challenge1 0 8)
      let m := copyResult m 9 (slice m.cdvd.memcard_challenge2 0 4)
      some (setMechaState m MECHA_STATE.MECHA_STATE_CARD_CHALLENGE12_SENT)
    else some (setMechaState (result1 m 0x80) MECHA_STATE.MECHA_STATE_READY)
  else if rt = 0x85 then
    if st = MECHA_STATE.MECHA_STATE_CARD_CHALLENGE12_SENT ∧ ParamC = 0 then
      let m := SetSCMDResultSize m (1 + 4 + 8)
      let m := setResult m 0 0
      let m := copyResult m 1 (slice m.cdvd.memcard_challenge2 4 4)
      let m := copyResult m 5 (slice m.cdvd.memcard_challenge3 0 8)
      some (setMechaState m MECHA_STATE.MECHA_STATE_CARD_CHALLENGE23_SENT)
    else some (result1 m 0x80)
  else if rt = 0x86 then
    let m := SetSCMDResultSize m 1
    if st = MECHA_STATE.MECHA_STATE_CARD_CHALLENGE23_SENT ∧ ParamC = 16 then
      let m := m.upd fun c => { c with memcard_reponse1 := slice P 0 8, memcard_reponse2 := slice P 8 8 }
      some (setResult (setMechaState m MECHA_STATE.MECHA_STATE_CARD_RESPONSE12_RECEIVED) 0 0)
    else some (setMechaState (setResult m 0 0x80) MECHA_STATE.MECHA_STATE_READY)
  else if rt = 0x87 then
    let m := SetSCMDResultSize m 1
    if st = MECHA_STATE.MECHA_STATE_CARD_RESPONSE12_RECEIVED ∧ ParamC = 8 then
      let m := m.upd fun c => { c with memcard_reponse3 := slice P 0 8 }
      let m := setMechaState m MECHA_STATE.MECHA_STATE_CARD_RESPONSE3_RECEIVED
      (executeMechaHandler E m).map fun m => setResult m 0 0
    else some (setResult (setMechaState m MECHA_STATE.MECHA_STATE_READY) 0 0x80)
  else if rt = 0x88 then
    let m := SetSCMDResultSize m 1
    if st = MECHA_STATE.MECHA_STATE_CARD_VERIFIED ∧ ParamC = 0 then some (setResult m 0 0)
    else some (setResult m 0 0x80)
  else if rt = 0x8C then
    let m := SetSCMDResultSize m 1
    (executeMechaHandler E m).map fun m =>
      let m := m.upd fun c => { c with mecha_result := MECHA_RESULT.MECHA_RESULT_0 }
      setResult (setMechaState m MECHA_STATE.MECHA_STATE_READY) 0 0
  else if rt = 0x8D then
    let m := result1 m 0x80
    if ParamC ≠ 0 ∧
        (st = MECHA_STATE.MECHA_STATE_KELF_HEADER_PARAMS_SET ∨
          st = MECHA_STATE.MECHA_STATE_DATA_IN_LENGTH_SET ∨
          st = MECHA_STATE.MECHA_STATE_CRYPTO_DATA_IN_SIZE_SET) ∧
        m.cdvd.data_buffer_offset + ParamC ≤ 0x800 then
      let m := m.upd fun c => { c with data_buffer := blit c.data_buffer c.data_buffer_offset (P.take ParamC) }
      let m := m.upd fun c => { c with data_buffer_offset := c.data_buffer_offset + ParamC }
      let r : Option Machine :=
        if m.cdvd.DataSize ≤ m.cdvd.data_buffer_offset then
          match st with
          | MECHA_STATE.MECHA_STATE_KELF_HEADER_PARAMS_SET =>
            executeMechaHandler E (setMechaState m MECHA_STATE.MECHA_STATE_KELF_HEADER_RECEIVED)
          | MECHA_STATE.MECHA_STATE_DATA_IN_LENGTH_SET =>
            executeMechaHandler E (setMechaState m MECHA_STATE.MECHA_STATE_KELF_CONTENT_RECEIVED)
          | _ =>
            executeMechaHandler E (setMechaState m MECHA_STATE.MECHA_STATE_CRYPTO_DATA_RECVED)
        else some m
      r.map fun m => setResult m 0 0
    else some m
  else if rt = 0x8E then
    let m := SetSCMDResultSize m 1
    if ParamC = 0 ∧
        (st = MECHA_STATE.MECHA_STATE_BIT_LENGTH_SENT ∨
          st = MECHA_STATE.MECHA_STATE_DATA_OUT_LENGTH_SET ∨
          st = MECHA_STATE.MECHA_STATE_CRYPTO_DATA_OUT_SIZE_SET) then
      let len0 := (m.cdvd.DataSize + 65536 - m.cdvd.data_out_offset % 65536) % 65536
      let len := if len0 > 0x10 then 0x10 else len0
      let m := SetSCMDResultSize m len
      let m := copyResult m 0 (slice m.cdvd.data_buffer m.cdvd.data_out_ptr len)
      let m := m.upd fun c => { c with data_out_ptr := c.data_out_ptr + len,
                                       data_out_offset := (c.data_out_offset + len) % 65536 }
      if m.cdvd.DataSize ≤ m.cdvd.data_out_offset then
        match st with
        | MECHA_STATE.MECHA_STATE_BIT_LENGTH_SENT =>
          some (setMechaState m MECHA_STATE.MECHA_STATE_KELF_CONTENT_DECRYPT_IN_PROGRESS)
        | MECHA_STATE.MECHA_STATE_DATA_OUT_LENGTH_SET =>
          if m.cdvd.currentBlockIdx ≥ m.cdvd.lastBitTable then
            some (setMechaState m MECHA_STATE.MECHA_STATE_READY)
          else some (setMechaState m MECHA_STATE.MECHA_STATE_KELF_CONTENT_DECRYPT_IN_PROGRESS)
        | _ => some (setMechaState m MECHA_STATE.MECHA_STATE_CRYPTO_KEYGEN_DONE)
      else some m
    else some (setMechaState (SetSCMDResultSize m 0) MECHA_STATE.MECHA_STATE_READY)
  else if rt = 0x8F then
    let m := result1 m 0x80
    if ParamC ≠ 0 then some m
    else
      let res := m.cdvd.mecha_result
      match st with
      | MECHA_STATE.MECHA_STATE_CARD_NONCE_SET | MECHA_STATE.MECHA_STATE_CARD_CHALLANGE_GENERATED =>
        if res = MECHA_RESULT.MECHA_RESULT_CARD_CHALLANGE_GENERATED then
          some (setResult (setMechaState m MECHA_STATE.MECHA_STATE_CARD_CHALLANGE_GENERATED) 0 0)
        else some m
      | MECHA_STATE.MECHA_STATE_CARD_RESPONSE3_RECEIVED | MECHA_STATE.MECHA_STATE_CARD_VERIFIED =>
        if res = MECHA_RESULT.MECHA_RESULT_CARD_VERIFIED then
          some (setResult (setMechaState m MECHA_STATE.MECHA_STATE_CARD_VERIFIED) 0 0)
        else some m
      | MECHA_STATE.MECHA_STATE_KELF_HEADER_RECEIVED | MECHA_STATE.MECHA_STATE_KELF_HEADER_VERIFED =>
        if res = MECHA_RESULT.MECHA_RESULT_KELF_HEADER_VERIFED then
          some (setResult (setMechaState m MECHA_STATE.MECHA_STATE_KELF_HEADER_VERIFED) 0 0)
        else if res = MECHA_RESULT.MECHA_RESULT_FAILED then
          some (setResult (setMechaState m MECHA_STATE.MECHA_STATE_READY) 0 m.cdvd.mecha_errorcode)
        else some m
      | MECHA_STATE.MECHA_STATE_DATA_IN_LENGTH_SET | MECHA_STATE.MECHA_STATE_UNK17
      | MECHA_STATE.MECHA_STATE_KELF_CONTENT_RECEIVED =>
        if res = MECHA_RESULT.MECHA_RESULT_KELF_CONTENT_DECRYPTED then
          let m :=
            if m.cdvd.mode = 2 ∨ m.cdvd.mode = 3 then
              if m.cdvd.currentBlockIdx ≥ m.cdvd.lastBitTable then
                setMechaState m MECHA_STATE.MECHA_STATE_KELF_CONTENT_DECRYPT_DONE
              else setMechaState m MECHA_STATE.MECHA_STATE_KELF_CONTENT_DECRYPT_IN_PROGRESS
            else setMechaState m MECHA_STATE.MECHA_STATE_UNK17
          some (setResult m 0 0)
        else if res = MECHA_RESULT.MECHA_RESULT_FAILED then
          some (setResult (setMechaState m MECHA_STATE.MECHA_STATE_READY) 0 m.cdvd.mecha_errorcode)
        else some m
      | _ => some m
  else if rt = 0x90 then
    let m := result1 m 0x80
    if st ≠ MECHA_STATE.MECHA_STATE_0 ∧ ParamC = 5 then
      let m := m.upd fun c =>
        { c with mode := P.getD 0 0, DataSize := leValue (slice P 1 2), cardKeySlot := P.getD 3 0,
                 mode3KeyIndex := P.getD 4 0, data_buffer_offset := 0 }
      let m := setMechaState m MECHA_STATE.MECHA_STATE_READY
      if m.cdvd.mode ≤ 3 ∧ m.cdvd.DataSize ≤ 0x800 ∧
          (m.cdvd.mode = 0 ∨ (m.cdvd.cardKeySlot ≤ 0x10 ∧
            ((m.cdvd.mode = 1 ∨ m.cdvd.mode = 2) ∨ m.cdvd.mode3KeyIndex < 0x10))) then
        some (setResult (setMechaState m MECHA_STATE.MECHA_STATE_KELF_HEADER_PARAMS_SET) 0 0)
      else some m
    else some (setMechaState m MECHA_STATE.MECHA_STATE_READY)
  else if rt = 0x91 then
    if st = MECHA_STATE.MECHA_STATE_KELF_HEADER_VERIFED ∧ ParamC = 0 then
      let m := SetSCMDResultSize m 3
      let m := setResult m 0 0
      let m := copyResult m 1 (leBytes 2 m.cdvd.bit_length)
      let m := m.upd fun c => { c with DataSize := c.bit_length, data_out_offset := 0, data_out_ptr := c.bitTablePtr }
      some (setMechaState m MECHA_STATE.MECHA_STATE_BIT_LENGTH_SENT)
    else some (setMechaState (result1 m 0x80) MECHA_STATE.MECHA_STATE_READY)
  else if rt = 0x92 then
    let m := result1 m 0x80
    if st = MECHA_STATE.MECHA_STATE_KELF_CONTENT_DECRYPT_IN_PROGRESS ∧ ParamC = 2 then
      let m := m.upd fun c => { c with DataSize := leValue (slice P 0 2) }
      let size := (m.cdvd.bitBlocks.getD m.cdvd.currentBlockIdx {}).Size
      let len0 := ((size + 4294967296 - m.cdvd.DoneBlocks % 4294967296) % 4294967296) % 65536
      let len := if len0 > 0x800 then 0x800 else len0
      if m.cdvd.DataSize = len then
        let m := m.upd fun c => { c with data_buffer_offset := 0 }
        some (setResult (setMechaState m MECHA_STATE.MECHA_STATE_DATA_IN_LENGTH_SET) 0 0)
      else some m
    else some (setMechaState m MECHA_STATE.MECHA_STATE_READY)
  else if rt = 0x93 then
    let m := result1 m 0x80
    if st = MECHA_STATE.MECHA_STATE_UNK17 ∧ ParamC = 2 then
      if leValue (slice P 0 2) = m.cdvd.DataSize then
        let m := m.upd fun c => { c with data_out_offset := 0, data_out_ptr := 0 }
        some (setResult (setMechaState m MECHA_STATE.MECHA_STATE_DATA_OUT_LENGTH_SET) 0 0)
      else some m
    else some m
  else if rt = 0x94 then
    if st = MECHA_STATE.MECHA_STATE_KELF_CONTENT_DECRYPT_DONE ∧ ParamC = 0 then
      let m := copyResult (SetSCMDResultSize m (1 + 8)) 1 (slice m.cdvd.pub_Kbit 0 8)
      some (setMechaState m MECHA_STATE.MECHA_STATE_KBIT1_SENT)
    else some (setMechaState (result1 m 0x80) MECHA_STATE.MECHA_STATE_READY)
  else if rt = 0x95 then
    if st = MECHA_STATE.MECHA_STATE_KBIT1_SENT ∧ ParamC = 0 then
      let m := copyResult (SetSCMDResultSize m (1 + 8)) 1 (slice m.cdvd.pub_Kbit 8 8)
      some (setMechaState m MECHA_STATE.MECHA_STATE_KBIT2_SENT)
    else some (setMechaState (result1 m 0x80) MECHA_STATE.MECHA_STATE_READY)
  else if rt = 0x96 then
    if st = MECHA_STATE.MECHA_STATE_KBIT2_SENT ∧ ParamC = 0 then
      let m := copyResult (SetSCMDResultSize m (1 + 8)) 1 (slice m.cdvd.pub_Kc 0 8)
      some (setMechaState m MECHA_STATE.MECHA_STATE_KC1_SENT)
    else some (setMechaState (result1 m 0x80) MECHA_STATE.MECHA_STATE_READY)
  else if rt = 0x97 then
    if st = MECHA_STATE.MECHA_STATE_KC1_SENT ∧ ParamC = 0 then
      let m := copyResult (SetSCMDResultSize m (1 + 8)) 1 (slice m.cdvd.pub_Kc 8 8)
      if m.cdvd.mode = 2 ∧ kelfFlags m.cdvd.verifiedKelfHeader &&& 2 ≠ 0 then
        some (setMechaState m MECHA_STATE.MECHA_STATE_KC2_SENT)
      else some (setMechaState m MECHA_STATE.MECHA_STATE_READY)
    else some (setMechaState (result1 m 0x80) MECHA_STATE.MECHA_STATE_READY)
  else if rt = 0x98 then
    if st = MECHA_STATE.MECHA_STATE_KC2_SENT ∧ ParamC = 0 then
      let m := copyResult (SetSCMDResultSize m (1 + 8)) 1 (slice m.cdvd.pub_icvps2 0 8)
      some (setMechaState m MECHA_STATE.MECHA_STATE_READY)
    else some (setMechaState (result1 m 0x80) MECHA_STATE.MECHA_STATE_READY)
  else some (result1 m 0)

/-- The command codes `cdvdWrite16` routes into the MECHACON machine. -/
def isMechaCommand (rt : Nat) : Bool :=
  (decide (0x80 ≤ rt) && decide (rt ≤ 0x88)) || (decide (0x8C ≤ rt) && decide (rt ≤ 0x98))

/-- `cdvdWrite16(rt)`, the S-command trigger register; `none` when the command does
not hand the drive back to the program that wrote the register: `executeMechaHandler`
gives no state, or the command is 0x0F (`sceCdPowerOff`), whose case calls
`VMManager::Reset()`: the virtual machine is reset by code outside the sources, and
the run of the program that wrote the register ends there. -/
def cdvdWrite16 (E : Env) (m : Machine) (rt : Nat) : Option Machine :=
  let m := m.upd fun c => { c with sCommand := rt, SCMDResult := List.replicate 16 0 }
  let r :=
    if isMechaCommand rt then sCommandMecha E m rt
    else if rt = 0x0F then none
    else some (sCommandAdmin E m rt)
  r.map fun m => m.upd fun c => { c with SCMDParamP := 0, SCMDParamC := 0 }

/-- `cdvdWrite17(rt)`, the S-command parameter register. -/
def cdvdWrite17 (m : Machine) (rt : Nat) : Machine :=
  let m :=
    if m.cdvd.SCMDParamP ≥ 16 then m.upd fun c => { c with SCMDParamP := 0, SCMDParamC := 0 }
    else m
  m.upd fun c => { c with SCMDParam := c.SCMDParam.set c.SCMDParamP rt,
                          SCMDParamP := (c.SCMDParamP + 1) % 256,
                          SCMDParamC := (c.SCMDParamC + 1) % 256 }

/-- `cdvdRead18()`, the S-command result register: the new state and the byte read. -/
def cdvdRead18 (m : Machine) : Machine × Nat :=
  if m.cdvd.sDataIn &&& 0x40 = 0 ∧ m.cdvd.SCMDResultP < m.cdvd.SCMDResultC then
    let m := m.upd fun c => { c with SCMDResultP := (c.SCMDResultP + 1) % 256 }
    let m :=
      if m.cdvd.SCMDResultP ≥ m.cdvd.SCMDResultC then m.upd fun c => { c with sDataIn := c.sDataIn ||| 0x40 }
      else m
    (m, m.cdvd.SCMDResult.getD (m.cdvd.SCMDResultP - 1) 0)
  else (m, 0)

/-- `cdvdTrayStateDetecting()`. -/
def cdvdTrayStateDetecting (E : Env) (c : cdvdStruct) : Nat :=
  if c.Tray.trayState = TrayState.CDVD_DISC_DETECTING then CDVD_TYPE_DETCT
  else if cdvdIsDVD c then (if E.dualType > 0 then CDVD_TYPE_DETCTDVDD else CDVD_TYPE_DETCTDVDS)
  else if c.DiscType ≠ CDVD_TYPE_NODISC then CDVD_TYPE_DETCTCD
  else CDVD_TYPE_DETCT

/-- `cdvdRead(key)`, a read of the register at offset `key`: the new state and the byte read. -/
def cdvdRead (E : Env) (m : Machine) (key : Nat) : Machine × Nat :=
  let c := m.cdvd
  if key = 0x04 then (m, c.nCommand)
  else if key = 0x05 then (m, c.Ready)
  else if key = 0x06 then (m.upd fun c => { c with Error := 0 }, c.Error)
  else if key = 0x07 then (m, 0)
  else if key = 0x08 then (m, c.IntrStat)
  else if key = 0x0A then (m, c.Status)
  else if key = 0x0B then (m, c.StatusSticky)
  else if key = 0x0C then (m, itob ((c.Sector / (60 * 75)) % 256))
  else if key = 0x0D then (m, itob (((c.Sector / 75) % 60) % 256 + 2))
  else if key = 0x0E then (m, itob ((c.Sector % 75) % 256))
  else if key = 0x0F then
    if c.Tray.trayState = TrayState.CDVD_DISC_ENGAGED then (m, c.DiscType)
    else if c.Tray.trayState = TrayState.CDVD_DISC_EJECT then (m, 0)
    else (m, cdvdTrayStateDetecting E c)
  else if key = 0x13 then
    let speedCtrl := c.SpindlCtrl &&& 0x3F
    let speedCtrl := if speedCtrl = 0 then (if cdvdIsDVD c then 3 else 5) else speedCtrl
    let speedCtrl := if cdvdIsDVD c then (speedCtrl + 0xF) % 256 else (speedCtrl + 255) % 256
    (m, if c.Tray.trayState ≠ TrayState.CDVD_DISC_ENGAGED ∨ c.Spinning = false then 0 else speedCtrl)
  else if key = 0x15 then (m, 0)
  else if key = 0x16 then (m, c.sCommand)
  else if key = 0x17 then (m, c.sDataIn)
  else if key = 0x18 then cdvdRead18 m
  else if 0x20 ≤ key ∧ key ≤ 0x24 then (m, c.Key.getD (key - 0x20) 0)
  else if 0x28 ≤ key ∧ key ≤ 0x2C then (m, c.Key.getD (key - 0x23) 0)
  else if 0x30 ≤ key ∧ key ≤ 0x34 then (m, c.Key.getD (key - 0x26) 0)
  else if key = 0x38 then (m, c.Key.getD 15 0)
  else if key = 0x39 then (m, c.KeyXor)
  else if key = 0x3A then (m, c.decSet)
  else (m, 0xFF)

/-- `cdvdWrite(key, rt)`, a write of `rt` to the register at offset `key`; `none` when
the write does not return. -/
def cdvdWrite (E : Env) (m : Machine) (key rt : Nat) : Option Machine :=
  if key = 0x04 then some (cdvdWrite04 E m rt)
  else if key = 0x05 then some (cdvdWrite05 m rt)
  else if key = 0x06 then some (cdvdWrite06 m rt)
  else if key = 0x07 then some (cdvdWrite07 m rt)
  else if key = 0x08 then some (cdvdWrite08 m rt)
  else if key = 0x16 then cdvdWrite16 E m rt
  else if key = 0x17 then some (cdvdWrite17 m rt)
  else if key = 0x3A then some (m.upd fun c => { c with decSet := rt })
  else some m

/-- Write the bytes of `params` to the S-command parameter register, one after the other. -/
def sendSParams (m : Machine) (params : List Nat) : Machine :=
  params.foldl cdvdWrite17 m

/-- An S-command with its parameters: the parameter bytes through `cdvdWrite17`, then
the command byte through `cdvdWrite16`. -/
def sCommand (E : Env) (m : Machine) (rt : Nat) (params : List Nat) : Option Machine :=
  cdvdWrite16 E (sendSParams m params) rt

/-- Write the bytes of `params` to the N-command parameter register, one after the other. -/
def sendNParams (m : Machine) (params : List Nat) : Machine :=
  params.foldl cdvdWrite05 m

/-! ## Reset and key store -/

/-- The table `g_MemoryCardKeyIndexes`. -/
def g_MemoryCardKeyIndexes : List Nat :=
  [0x0018, 0xFFFF, 0xFFFF, 0x001C, 0xFFFF, 0xFFFF, 0x0020, 0xFFFF, 0xFFFF, 0x0024, 0xFFFF, 0xFFFF,
   0x0028, 0xFFFF, 0xFFFF, 0x002C, 0xFFFF, 0xFFFF,
   0x0030, 0x0048, 0x0060, 0x0034, 0x004C, 0x0064, 0x0038, 0x0050, 0x0068, 0x003C, 0x0054, 0x006C,
   0x0040, 0x0058, 0x0070, 0x0044, 0x005C, 0x0074,
   0x0000, 0x1000, 0x1001, 0x0004, 0x1002, 0x1003, 0x0008, 0x1004, 0x1005, 0x000C, 0x1006, 0x1007,
   0x0010, 0x1008, 0x1009, 0x0014, 0x100A, 0x100B,
   0x0090, 0x00A8, 0x00A8, 0x0094, 0x00AC, 0x00AC, 0x0098, 0x00B0, 0x00B0, 0x009C, 0x00B4, 0x00B4,
   0x00A0, 0x00B8, 0x00B8, 0x00A4, 0x00BC, 0x00BC]

/-- The table `g_KelfKeysIndex`. -/
def g_KelfKeysIndex : List Nat := [0x110, 0x110, 0xC4, 0x15C]

/-- What `cdvdReset` takes from outside the core: the recording flag, the broken-down
GMT+9 time, the boot option, the key files of the BIOS folder, the key tables as they
are before the reset (16-bit words, and the bytes of the key), and the `.mec` files
next to the BIOS. -/
structure Boot where
  inputRecording : Bool := false
  tm_sec : Nat := 0
  tm_min : Nat := 0
  tm_hour : Nat := 0
  tm_mday : Nat := 1
  tm_mon : Nat := 0
  tm_year : Nat := 100
  UseBOOT2Injection : Bool := false
  eksFile : Option (List Nat) := none
  cksFile : Option (List Nat) := none
  kekFile : Option (List Nat) := none
  g_EncryptedKeyStore : List Nat := List.replicate 0x200 0
  g_cardKeyStore : List Nat := List.replicate 48 0
  g_KeyStoreKey : List Nat := List.replicate 16 0
  mecLower : Option (List Nat) := none
  mecUpper : Option (List Nat) := none
  mecCreatable : Bool := true

/-- The words of a table of 16-bit words after `fread(table, 1, sizeof(table), f)` on a
file that could be opened: the bytes the file has, at most the size of the table,
replace the start of the table. -/
def freadWords (table : List Nat) (file : Option (List Nat)) : List Nat :=
  match file with
  | none => table
  | some d =>
    let bytes := blit (table.flatMap (leBytes 2)) 0 d
    (List.range table.length).map fun i => leValue (slice bytes (2 * i) 2)

/-- The bytes of a table of bytes after `fread` on a file that could be opened. -/
def freadBytes (table : List Nat) (file : Option (List Nat)) : List Nat :=
  match file with
  | none => table
  | some d => blit table 0 d

/-- Four reads of `ks_data` with `ks_index` at `idx`. -/
def ksData4 (eks : List Nat) (idx : Nat) : List Nat :=
  [eks.getD idx 0, eks.getD (idx + 1) 0, eks.getD (idx + 2) 0, eks.getD (idx + 3) 0]

/-- The four words `readKeyStore` stores for the entry `keyIdx` of `g_MemoryCardKeyIndexes`. -/
def cardKeyWords (eks cks : List Nat) (keyIdx : Nat) : List Nat :=
  if keyIdx ≥ 0x200 then
    if keyIdx = 0xFFFF then [0, 0, 0, 0]
    else
      [cks.getD (4 * (keyIdx % 256)) 0, cks.getD (4 * (keyIdx % 256) + 1) 0,
        cks.getD (4 * (keyIdx % 256) + 2) 0, cks.getD (4 * (keyIdx % 256) + 3) 0]
  else ksData4 eks keyIdx

/-- `readKeyStore(idx_set)`: the 16-bit words written over `g_keyStore`, in order. -/
def readKeyStore (eks cks : List Nat) (idx_set : Nat) : List Nat :=
  ((List.range 18).flatMap fun i => cardKeyWords eks cks (g_MemoryCardKeyIndexes.getD (18 * idx_set + i) 0)) ++
    ((List.range 19).flatMap fun j => ksData4 eks (g_KelfKeysIndex.getD idx_set 0 + 4 * j)) ++
    ksData4 eks 192

/-- The struct `KeyStore` laid over its 304 bytes. -/
def keyStoreOfBytes (b : List Nat) : KeyStore :=
  { CardKeyLow := [slice b 0 8, slice b 8 8, slice b 16 8],
    CardKeyHi := [slice b 24 8, slice b 32 8, slice b 40 8],
    CardKey2Low := [slice b 48 8, slice b 56 8, slice b 64 8],
    CardKey2Hi := [slice b 72 8, slice b 80 8, slice b 88 8],
    CardIV := [slice b 96 8, slice b 104 8, slice b 112 8],
    CardIV2 := [slice b 120 8, slice b 128 8, slice b 136 8],
    KbitMasterKey := slice b 144 16,
    KcMasterKey := slice b 160 16,
    KbitIv := slice b 176 8,
    KcIv := slice b 184 8,
    icvps2LowKey := slice b 192 16,
    icvps2HiKey := slice b 208 16,
    icvps2LowIV := slice b 224 8,
    icvps2HiIV := slice b 232 8,
    SignatureMasterKey := slice b 240 8,
    SignatureHashKey := slice b 248 8,
    RootSigHashKey := slice b 256 16,
    RootSigMasterKey := slice b 272 8,
    ContentIV := slice b 280 8,
    ContentTableIV := slice b 288 8,
    ChallengeIV := slice b 296 8 }

/-- `readAndDecryptKeyStore(idx_set)` on the key tables `eks`, `cks` and the key `kek`. -/
def readAndDecryptKeyStore (E : Env) (m : Machine) (eks cks kek : List Nat) (idx_set : Nat) : Machine :=
  let raw := (readKeyStore eks cks idx_set).flatMap (leBytes 2)
  let bytes := (List.range 38).flatMap fun i => doubleDesDecrypt E.D kek (slice raw (i * 8) 8)
  let m := { m with ks := keyStoreOfBytes bytes }
  let r1 := cdvdReadConsoleID E m (List.replicate 8 0)
  let r2 := cdvdReadILinkID E r1.1 (List.replicate 8 0)
  let m := r2.1
  let icvps2Seed := xor_bit r2.2 r1.2 8
  let icvps2LowSeed := doubleDesEncrypt E.D m.ks.icvps2LowKey (xor_bit icvps2Seed m.ks.icvps2LowIV 8)
  let icvps2HiSeed := doubleDesEncrypt E.D m.ks.icvps2HiKey (xor_bit icvps2Seed m.ks.icvps2HiIV 8)
  m.upd fun c => { c with icvps2Key := icvps2LowSeed ++ icvps2HiSeed }

/-- `cdvdGetMechaVer(ver)`: the four bytes of the `.mec` file, of the `.MEC` file, or of
the substitute 3, 6, 2, 0 that is created; `ver` as it was when no file can be created. -/
def cdvdGetMechaVer (B : Boot) (ver : List Nat) : List Nat :=
  let substitute := if B.mecCreatable then [3, 6, 2, 0] else ver
  let upper :=
    match B.mecUpper with
    | some u => if u.length < 4 then substitute else u.take 4
    | none => substitute
  match B.mecLower with
  | some d => if d.length < 4 then upper else d.take 4
  | none => upper

/-- `cdvdReset()`. -/
def cdvdReset (E : Env) (B : Boot) (m : Machine) : Machine :=
  let m := { m with cdvd := {} }
  let m := m.upd fun c => { c with DiscType := CDVD_TYPE_NODISC, Spinning := false, sDataIn := 0x40 }
  let m := cdvdUpdateReady m CDVD_DRIVE_READY
  let m := cdvdUpdateStatus m CDVD_STATUS_PAUSE
  let m := m.upd fun c => { c with Speed := 4, BlockSize := 2064, Action := cdvdActions.cdvdAction_None }
  let m := m.upd fun c => { c with ReadTime := E.cdvdBlockReadTime c MODE_DVDROM }
  let m := m.upd fun c => { c with RTC :=
    if B.inputRecording then
      { c.RTC with second := 0, minute := 0, hour := 0, day := 4, month := 3, year := 20 }
    else
      { c.RTC with second := B.tm_sec % 256, minute := B.tm_min % 256, hour := B.tm_hour % 256,
                   day := B.tm_mday % 256, month := (B.tm_mon % 256 + 1) % 256,
                   year := (B.tm_year + 156) % 256 } }
  let m := { m with host := { m.host with g_GameStarted := false,
                                          g_SkipBiosHack := B.UseBOOT2Injection } }
  let m := cdvdCtrlTrayClose E m
  let eks := freadWords B.g_EncryptedKeyStore B.eksFile
  let cks := freadWords B.g_cardKeyStore B.cksFile
  let kek := freadBytes B.g_KeyStoreKey B.kekFile
  let m := readAndDecryptKeyStore E m eks cks kek 1
  let m := setMechaState m MECHA_STATE.MECHA_STATE_READY
  { m with host := { m.host with temp_mechaver := cdvdGetMechaVer B m.host.temp_mechaver } }

/-! ## Sequences of register accesses -/

/-- One access of the IOP to a register of the drive. -/
inductive RegOp where
  | read (key : Nat)
  | write (key rt : Nat)
  deriving DecidableEq, Repr

/-- The state after one register access; `none` when the access does not return. -/
def regStep (E : Env) (m : Machine) : RegOp → Option Machine
  | RegOp.read key => some (cdvdRead E m key).1
  | RegOp.write key rt => cdvdWrite E m key rt

/-- The state after a sequence of register accesses. -/
def regRun (E : Env) : Machine → List RegOp → Option Machine
  | m, [] => some m
  | m, op :: ops => (regStep E m op).bind fun m2 => regRun E m2 ops

/-! ## Serial of the boot executable -/

/-- The bytes of a string literal. -/
def bytesOf (s : String) : List Nat :=
  s.toList.map Char.toNat

/-- `s.rfind(ch)` of `std::string`: the last position of `ch`, `none` for `npos`. -/
def rfind (s : List Nat) (ch : Nat) : Option Nat :=
  (List.range s.length).reverse.find? fun i => decide (s.getD i 0 = ch)

/-- `s.c_str()` as the callee sees it: the bytes before the first NUL. -/
def c_str (s : List Nat) : List Nat :=
  s.takeWhile fun c => decide (c ≠ 0)

/-- `std::toupper` in the C locale. -/
def toupper (c : Nat) : Nat :=
  if 0x61 ≤ c ∧ c ≤ 0x7A then c - 0x20 else c

/-- The last loop of `ExecutablePathToSerial`: a '.' is erased, a '_' becomes '-',
every other character is upper-cased. -/
def serialChars : List Nat → List Nat
  | [] => []
  | c :: cs =>
    if c = 0x2E then serialChars cs
    else (if c = 0x5F then 0x2D else toupper c) :: serialChars cs

/-- `ExecutablePathToSerial(path)`.  `StringUtil::WildcardMatch` is declared outside
the sources and is a parameter. -/
def ExecutablePathToSerial (WildcardMatch : List Nat → List Nat → Bool) (path : List Nat) : List Nat :=
  let serial : List Nat := []
  let serial :=
    match rfind path 0x5C with
    | some pos => path.drop (pos + 1)
    | none =>
      match rfind serial 0x3A with
      | some pos => path.drop (pos + 1)
      | none => path
  let serial :=
    match rfind serial 0x3B with
    | some pos => serial.take pos
    | none => serial
  let serial := if !WildcardMatch (c_str serial) (bytesOf "????_???.??*") then [] else serial
  serialChars serial

/-! ## The ATA identify block

`ATA::CreateHDDinfo` of `DEV9/ATA/ATA_Info.cpp`.  The members of `class ATA` are
declared outside the sources. -/

/-- Modelled from the spec: the members of `class ATA` that `CreateHDDinfo` reads and
writes: the 512-byte identify block, the 48-bit LBA switch, the DMA modes (negative:
none active) and the feature flags. -/
structure ATA where
  identifyData : List Nat
  lba48Supported : Bool
  mdmaMode : Int
  udmaMode : Int
  fetSmartEnabled : Bool
  fetSecurityEnabled : Bool
  fetWriteCacheEnabled : Bool
  fetLookAheadEnabled : Bool
  fetHostProtectedAreaEnabled : Bool

/-- The arguments `u8* data, int* index` of the write helpers: the buffer and the write
position in it. -/
structure ATA.Cursor where
  data : List Nat
  index : Nat

/-- `ATA::WriteUInt16(data, index, value)`. -/
def ATA.WriteUInt16 (w : ATA.Cursor) (value : Nat) : ATA.Cursor :=
  { data := blit w.data w.index (leBytes 2 (value % 65536)), index := w.index + 2 }

/-- `ATA::WriteUInt32(data, index, value)`. -/
def ATA.WriteUInt32 (w : ATA.Cursor) (value : Nat) : ATA.Cursor :=
  { data := blit w.data w.index (leBytes 4 (value % 4294967296)), index := w.index + 4 }

/-- `ATA::WriteUInt64(data, index, value)`. -/
def ATA.WriteUInt64 (w : ATA.Cursor) (value : Nat) : ATA.Cursor :=
  { data := blit w.data w.index (leBytes 8 (value % 18446744073709551616)), index := w.index + 8 }

/-- `ATA::WritePaddedString(data, index, value, len)`: `len` blanks, then the first
`len` characters of `value` over them. -/
def ATA.WritePaddedString (w : ATA.Cursor) (value : List Nat) (len : Nat) : ATA.Cursor :=
  let data := blit w.data w.index (List.replicate len 0x20)
  { data := blit data w.index (value.take (if value.length < len then value.length else len)),
    index := w.index + len }

/-- The statement `index += n`. -/
def ATA.Cursor.skip (w : ATA.Cursor) (n : Nat) : ATA.Cursor :=
  { w with index := w.index + n }

/-- The statement `index = n`. -/
def ATA.Cursor.seek (w : ATA.Cursor) (n : Nat) : ATA.Cursor :=
  { w with index := n }

/-- The word `static_cast<u16>(base | (1 << (mode + 8)))` of an active DMA mode, `base`
when no mode is active (`mode < 0`).  A shift by 32 or more, undefined in C++, shifts
the bit out. -/
def ATA.dmaWord (base : Nat) (mode : Int) : Nat :=
  if mode ≥ 0 then (base ||| (1 <<< (mode.toNat + 8))) % 65536 else base

/-- `ATA::CreateHDDinfoCsum()` on the identify block: `counter` is a `u8`; the last
loop only logs the sum. -/
def ATA.CreateHDDinfoCsum (identifyData : List Nat) : List Nat :=
  let counter := (identifyData.take (512 - 1)).foldl (fun c b => (c + b) % 256) 0
  let counter := (counter + 0xA5) % 256
  let identifyData := identifyData.set 510 0xA5
  identifyData.set 511 ((255 - counter + 1) % 256)

/-- The size that `CreateHDDinfo` works with: `std::min<u32>` converts both arguments
to `u32` before it compares. -/
def ATA.limitSectors (lba48Supported : Bool) (sizeSectors : Nat) : Nat :=
  if !lba48Supported then min (sizeSectors % 4294967296) ((1 <<< 28) - 1)
  else min sizeSectors ((1 <<< 48) - 1)

/-- The identify block of `ATA::CreateHDDinfo(sizeSectors)` in front of the call of
`CreateHDDinfoCsum`. -/
def ATA.identifyWords (a : ATA) (sizeSectors : Nat) : ATA.Cursor :=
  let nbSectors := ATA.limitSectors a.lba48Supported sizeSectors
  let w : ATA.Cursor := { data := List.replicate 512 0, index := 0 }
  let w := ATA.WriteUInt16 w 0x0040
  let w := ATA.WriteUInt16 w 0x3fff
  let w := ATA.WriteUInt16 w 0xc837
  let w := ATA.WriteUInt16 w 0x0010
  let w := w.skip (2 * 2)
  let w := ATA.WriteUInt16 w 0x003f
  let w := w.skip (2 * 2)
  let w := w.skip (1 * 2)
  let w := ATA.WritePaddedString w (bytesOf "CPXS-2ED9VA-ATH-DD") 20
  let w := ATA.WriteUInt32 w 0x10000300
  let w := ATA.WriteUInt16 w 0x0039
  let w := ATA.WritePaddedString w (bytesOf "IFMR01 0") 8
  let w := ATA.WritePaddedString w (bytesOf "CPXS-2ED9VA-ATH-DD") 40
  let w := ATA.WriteUInt16 w (16 &&& (0x80 <<< 8))
  let w := ATA.WriteUInt16 w 0
  let w := ATA.WriteUInt16 w ((1 <<< 13) ||| (1 <<< 11) ||| (1 <<< 10) ||| (1 <<< 9) ||| (1 <<< 8))
  let w := ATA.WriteUInt16 w (1 <<< 14)
  let w := ATA.WriteUInt16 w 0x0200
  let w := w.skip (1 * 2)
  let w := ATA.WriteUInt16 w (1 ||| (1 <<< 1) ||| (1 <<< 2))
  let w := ATA.WriteUInt32 w 0x00103fff
  let w := ATA.WriteUInt32 w 0xfc10003f
  let w := ATA.WriteUInt16 w 0x00fb
  let w := ATA.WriteUInt16 w (16 ||| (1 <<< 8))
  let w := ATA.WriteUInt32 w (nbSectors % 4294967296)
  let w := w.skip (1 * 2)
  let w := ATA.WriteUInt16 w (ATA.dmaWord 0x07 a.mdmaMode)
  let w := ATA.WriteUInt16 w 0x03
  let w := ATA.WriteUInt16 w 0x78
  let w := ATA.WriteUInt16 w 0x78
  let w := ATA.WriteUInt16 w 0x78
  let w := ATA.WriteUInt16 w 0x78
  let w := w.seek (75 * 2)
  let w := ATA.WriteUInt16 w 0
  let w := w.seek (80 * 2)
  let w := ATA.WriteUInt16 w ((1 <<< 6) ||| (1 <<< 5) ||| (1 <<< 4) ||| 0xe)
  let w := ATA.WriteUInt16 w 0x18
  let w := ATA.WriteUInt16 w ((1 <<< 14) ||| (1 <<< 13) ||| (1 <<< 12) ||| (1 <<< 11) ||| (1 <<< 10) |||
    (1 <<< 6) ||| (1 <<< 5) ||| (1 <<< 3) ||| (1 <<< 1) ||| (a.fetSmartEnabled.toNat <<< 0))
  let w := ATA.WriteUInt16 w ((1 <<< 14) ||| (1 <<< 11) ||| (a.lba48Supported.toNat <<< 10) |||
    (1 <<< 9) ||| (1 <<< 8) ||| (1 <<< 3) ||| 1)
  let w := ATA.WriteUInt16 w ((1 <<< 14) ||| (1 <<< 1) ||| 1)
  let w := ATA.WriteUInt16 w ((1 <<< 14) ||| (1 <<< 13) ||| (1 <<< 12) ||| (1 <<< 11) |||
    (a.fetHostProtectedAreaEnabled.toNat <<< 10) ||| (a.fetLookAheadEnabled.toNat <<< 6) |||
    (a.fetWriteCacheEnabled.toNat <<< 5) ||| (1 <<< 3) ||| (a.fetSecurityEnabled.toNat <<< 1) |||
    (a.fetSmartEnabled.toNat <<< 0))
  let w := ATA.WriteUInt16 w ((1 <<< 11) ||| (a.lba48Supported.toNat <<< 10) ||| (1 <<< 9) ||| (1 <<< 0))
  let w := ATA.WriteUInt16 w ((1 <<< 14) ||| (1 <<< 1) ||| 1)
  let w := ATA.WriteUInt16 w (ATA.dmaWord 0x3f a.udmaMode)
  let w := w.seek (92 * 2)
  let w := ATA.WriteUInt16 w 0xfffe
  let w := ATA.WriteUInt16 w 0x600b
  let w := ATA.WriteUInt16 w 0xc0fe
  if a.lba48Supported then
    let w := w.seek (100 * 2)
    let w := ATA.WriteUInt64 w nbSectors
    let w := w.seek (100 * 2)
    ATA.WriteUInt16 w 0
  else w

/-- `ATA::CreateHDDinfo(sizeSectors)`. -/
def ATA.CreateHDDinfo (a : ATA) (sizeSectors : Nat) : ATA :=
  { a with identifyData := ATA.CreateHDDinfoCsum (ATA.identifyWords a sizeSectors).data }

/-! ## A concrete console

The environment and the drive state used where a statement is evaluated at a
concrete input. -/

/-- A retail console: DES as the cipher, the seek tables and seek times of a CD and a
single-layer DVD, fixed sample values for the floating-point timing functions, the
two NVM layouts, a disc image with a single-layer PS2 DVD of 2000000 sectors. -/
def demoEnv : Env :=
  { D := des,
    tbl_ContigiousSeekDelta := fun mode => [8, 16, 16].getD mode 0,
    tbl_FastSeekDelta := fun mode => [4371, 14764, 13360].getD mode 0,
    Cdvd_FullSeek_Cycles := 3686400,
    Cdvd_FastSeek_Cycles := 1105920,
    cdvdRotationalLatency := fun _ _ => 388042,
    cdvdBlockReadTime := fun _ _ => 6826,
    verticalFrequency := 60,
    fastCDVD := false,
    nvmlayouts0 :=
      { biosVer := 0x000, config0 := 0x280, config1 := 0x300, config2 := 0x200, consoleId := 0x1C8,
        ilinkId := 0x1C0, modelNum := 0x1A0, regparams := 0x180, mac := 0x198 },
    nvmlayouts1 :=
      { biosVer := 0x146, config0 := 0x270, config1 := 0x2B0, config2 := 0x200, consoleId := 0x1C8,
        ilinkId := 0x1E0, modelNum := 0x1B0, regparams := 0x180, mac := 0x198 },
    BiosVersion := 0x200,
    BiosRegion := 4,
    biosLangDefaults := fun _ => [0x30, 0x21, 0x80, 0, 0, 0, 0, 0, 0, 0x41, 0, 0, 0, 0, 0, 0],
    MRenewalDate := fun _ => [0, 0, 0, 0, 0, 0],
    sourceType := CDVD_SourceType.Iso,
    detectDiskType := CDVD_TYPE_PS2DVD,
    trackLsn := 2000000,
    dualType := 0,
    layer1Start := 0,
    readTrackResult := fun _ _ => 0,
    readSubQ := fun _ => (0, List.replicate 10 0),
    cdvdParamLengthBeyond := fun _ => 0,
    sParamBelow := fun _ => 0,
    monthmapOutside := fun _ => 0,
    cdvdReadKey := fun _ _ _ _ => List.replicate 16 0,
    cdvdOffset := 0 }

/-- The drive of `demoEnv` at rest: ready, tray closed, the DVD spinning at its default
speed and positioned at sector 0, 16 sectors buffered, DMA channel 3 armed for one
block of 2048 bytes, the MECHACON session in `MECHA_STATE_READY`. -/
def demoDrive : Machine :=
  { cdvd :=
      { Ready := 0xC8, Status := CDVD_STATUS_PAUSE, StatusSticky := CDVD_STATUS_PAUSE,
        DiscType := CDVD_TYPE_PS2DVD, sDataIn := 0x40, Speed := 4, SpindlCtrl := 3, BlockSize := 2064,
        ReadTime := 6826, MaxSector := 2000000, Spinning := true, nextSectorsBuffered := 16,
        mecha_state := MECHA_STATE.MECHA_STATE_READY },
    iop := { cycle := 1000000, HW_DMA3_MADR := 0x100000, HW_DMA3_BCR_H16 := 1, HW_DMA3_BCR_L16 := 512,
             HW_DMA3_CHCR := 0x01000000 },
    host := { randQueue := [0x67, 0xC6, 0x69, 0x73, 0x51, 0xFF, 0x4A, 0xEC] } }

/-! ## Notions used by the statements -/

/-- Days of a month of the years 2000 to 2099, as the calendar has them. -/
def daysInMonth (month year : Nat) : Nat :=
  if month = 2 then (if year % 4 = 0 then 29 else 28)
  else if month = 4 ∨ month = 6 ∨ month = 9 ∨ month = 11 then 30
  else 31

/-- A clock value that names a second of the calendar. -/
def ValidClock (r : cdvdRTC) : Prop :=
  r.second < 60 ∧ r.minute < 60 ∧ r.hour < 24 ∧ 1 ≤ r.month ∧ r.month ≤ 12 ∧
    1 ≤ r.day ∧ r.day ≤ daysInMonth r.month r.year ∧ r.year < 100

instance instDecidableValidClock (r : cdvdRTC) : Decidable (ValidClock r) := by
  unfold ValidClock
  infer_instance

/-- The next second of the calendar, written from the spec: seconds roll into minutes,
minutes into hours, hours into days, days into months by the length of the month,
months into years, years modulo 100. -/
def nextCalendarSecond (r : cdvdRTC) : cdvdRTC :=
  if r.second < 59 then { r with second := r.second + 1 }
  else if r.minute < 59 then { r with second := 0, minute := r.minute + 1 }
  else if r.hour < 23 then { r with second := 0, minute := 0, hour := r.hour + 1 }
  else if r.day < daysInMonth r.month r.year then
    { r with second := 0, minute := 0, hour := 0, day := r.day + 1 }
  else if r.month < 12 then
    { r with second := 0, minute := 0, hour := 0, day := 1, month := r.month + 1 }
  else
    { r with second := 0, minute := 0, hour := 0, day := 1, month := 1, year := (r.year + 1) % 100 }

/-- The drive of `demoDrive` one vertical blank before the end of 28 February of year 24. -/
def leapEveDrive : Machine :=
  demoDrive.upd fun c =>
    { c with
      RTCcount := 59,
      RTC := { status := 0, second := 59, minute := 59, hour := 23, pad := 0, day := 28, month := 2, year := 24 } }

/-- The drive of `demoDrive` with the tray closed on no disc. -/
def noDiscDrive : Machine :=
  demoDrive.upd fun c => { c with DiscType := CDVD_TYPE_NODISC }

/-- The effective speed code of a read command: parameter 9, or the maximum of the medium
when its low six bits are zero. -/
def effectiveSpeedCode (p9 dflt : Nat) : Nat :=
  (if p9 &&& 0x3F ≠ 0 then p9 else (p9 &&& 0x80) ||| dflt) &&& CDVD_SPINDLE_SPEED

def ReadParamsValid (c : cdvdStruct) (rt : Nat) : Prop :=
  if rt = N_DVD_READ then
    cdvdIsDVD c = true ∧
      (effectiveSpeedCode (c.NCMDParam.getD 9 0) 3 = 1 ∨ effectiveSpeedCode (c.NCMDParam.getD 9 0) 3 = 2 ∨
        effectiveSpeedCode (c.NCMDParam.getD 9 0) 3 = 3) ∧
      c.NCMDParam.getD 10 0 = 0
  else if cdvdIsDVD c = true then
    (effectiveSpeedCode (c.NCMDParam.getD 9 0) 3 = 1 ∨ effectiveSpeedCode (c.NCMDParam.getD 9 0) 3 = 2 ∨
        effectiveSpeedCode (c.NCMDParam.getD 9 0) 3 = 3) ∧
      c.NCMDParam.getD 10 0 = 0
  else
    (effectiveSpeedCode (c.NCMDParam.getD 9 0) 5 = 1 ∨ effectiveSpeedCode (c.NCMDParam.getD 9 0) 5 = 2 ∨
        effectiveSpeedCode (c.NCMDParam.getD 9 0) 5 = 3 ∨ effectiveSpeedCode (c.NCMDParam.getD 9 0) 5 = 4 ∨
        effectiveSpeedCode (c.NCMDParam.getD 9 0) 5 = 5) ∧
      c.NCMDParam.getD 10 0 ≤ 2

instance instDecidableReadParamsValid (c : cdvdStruct) (rt : Nat) : Decidable (ReadParamsValid c rt) := by
  unfold ReadParamsValid
  infer_instance

/-- The second machine differs from the first in neither the trace, the IOP, the error
code, the disc, the command parameters, nor the sector, count and size of the read. -/
def SameRead (a b : Machine) : Prop :=
  b.trace = a.trace ∧ b.iop = a.iop ∧ b.cdvd.Error = a.cdvd.Error ∧
  b.cdvd.MaxSector = a.cdvd.MaxSector ∧ b.cdvd.SeekToSector = a.cdvd.SeekToSector ∧
  b.cdvd.nSectors = a.cdvd.nSectors ∧ b.cdvd.DiscType = a.cdvd.DiscType ∧
  b.cdvd.NCMDParam = a.cdvd.NCMDParam

/-- The drive of `demoDrive` with the eleven parameter bytes of a read of one sector at
sector 2000000, the first sector past the end of the disc. -/
def readPastEndDrive : Machine :=
  sendNParams demoDrive [0x80, 0x84, 0x1E, 0x00, 1, 0, 0, 0, 0, 0, 0]

/-- The events of the list are all schedulings of the sector-ready event. -/
def OnlySectorReady (l : List Event) : Prop :=
  ∀ e ∈ l, ∃ t, e = Event.psxInt IopEvt.IopEvt_CdvdSectorReady t

/-- The drive spins at the speed a read with default spindle parameters selects: 4x
for a DVD, 24x for a CD, constant linear velocity. -/
def AtDefaultSpeed (c : cdvdStruct) : Prop :=
  c.Spinning = true ∧ c.SpindlCtrl &&& CDVD_SPINDLE_CAV = 0 ∧ c.Speed = (if cdvdIsDVD c then 4 else 24)

instance instDecidableAtDefaultSpeed (c : cdvdStruct) : Decidable (AtDefaultSpeed c) := by
  unfold AtDefaultSpeed
  infer_instance

/-- The events that belong to the transfer of a sector: the scheduling of a read
interrupt, a track read, a DMA write. -/
def Event.isReadWork : Event → Bool
  | Event.psxInt IopEvt.IopEvt_CdvdRead _ => true
  | Event.readTrack _ _ => true
  | Event.dmaWrite _ _ => true
  | _ => false

/-- None of the events of the list belongs to the transfer of a sector. -/
def NoReadWork (l : List Event) : Prop :=
  ∀ e ∈ l, e.isReadWork = false

/-- The state in which `cdvdStartSeek` leaves the drive on its zero-distance path with
sectors buffered. -/
def zeroDeltaState (m : Machine) (newsector : Nat) : Machine :=
  (cdvdUpdateStatus
    ((cdvdUpdateStatus
      ((cdvdUpdateReady (m.upd fun c => { c with SeekToSector := newsector }) CDVD_DRIVE_BUSY).upd
        fun c => { c with Reading := 1, Readed := 0 })
      CDVD_STATUS_SEEK).emit (Event.seekLog SeekLog.contiguous))
    CDVD_STATUS_READ).upd fun c => { c with Readed := 1, Reading := 1, RetryCntP := 0 }

/-- The i.Link ID, bytes 0xF to 0x1F of config block 1 and byte 6 of the region
parameters lie within the first 1024 bytes of the image and do not overlap. -/
def NVMLayout.Separate (L : NVMLayout) : Prop :=
  L.ilinkId + 8 ≤ 1024 ∧ L.config1 + 0x20 ≤ 1024 ∧ L.regparams + 7 ≤ 1024 ∧
  (L.ilinkId + 8 ≤ L.config1 + 0xF ∨ L.config1 + 0x20 ≤ L.ilinkId) ∧
  (L.regparams + 7 ≤ L.ilinkId ∨ L.ilinkId + 8 ≤ L.regparams + 6) ∧
  (L.regparams + 7 ≤ L.config1 + 0xF ∨ L.config1 + 0x20 ≤ L.regparams + 6)

instance instDecidableSeparate (L : NVMLayout) : Decidable L.Separate := by
  unfold NVMLayout.Separate
  infer_instance

/-- The session states that the case of S-command `rt` in `cdvdWrite16` tests for before
it goes ahead: the expected predecessor states of the command. -/
def expectedPredecessors (rt : Nat) : List MECHA_STATE :=
  if rt = 0x82 then [MECHA_STATE.MECHA_STATE_KEY_INDEXES_SET]
  else if rt = 0x83 then [MECHA_STATE.MECHA_STATE_CARD_IV_SEED_SET]
  else if rt = 0x84 then [MECHA_STATE.MECHA_STATE_CARD_CHALLANGE_GENERATED]
  else if rt = 0x85 then [MECHA_STATE.MECHA_STATE_CARD_CHALLENGE12_SENT]
  else if rt = 0x86 then [MECHA_STATE.MECHA_STATE_CARD_CHALLENGE23_SENT]
  else if rt = 0x87 then [MECHA_STATE.MECHA_STATE_CARD_RESPONSE12_RECEIVED]
  else if rt = 0x88 then [MECHA_STATE.MECHA_STATE_CARD_VERIFIED]
  else if rt = 0x8D then
    [MECHA_STATE.MECHA_STATE_KELF_HEADER_PARAMS_SET, MECHA_STATE.MECHA_STATE_DATA_IN_LENGTH_SET,
      MECHA_STATE.MECHA_STATE_CRYPTO_DATA_IN_SIZE_SET]
  else if rt = 0x8E then
    [MECHA_STATE.MECHA_STATE_BIT_LENGTH_SENT, MECHA_STATE.MECHA_STATE_DATA_OUT_LENGTH_SET,
      MECHA_STATE.MECHA_STATE_CRYPTO_DATA_OUT_SIZE_SET]
  else if rt = 0x8F then
    [MECHA_STATE.MECHA_STATE_CARD_NONCE_SET, MECHA_STATE.MECHA_STATE_CARD_CHALLANGE_GENERATED,
      MECHA_STATE.MECHA_STATE_CARD_RESPONSE3_RECEIVED, MECHA_STATE.MECHA_STATE_CARD_VERIFIED,
      MECHA_STATE.MECHA_STATE_KELF_HEADER_RECEIVED, MECHA_STATE.MECHA_STATE_KELF_HEADER_VERIFED,
      MECHA_STATE.MECHA_STATE_DATA_IN_LENGTH_SET, MECHA_STATE.MECHA_STATE_UNK17,
      MECHA_STATE.MECHA_STATE_KELF_CONTENT_RECEIVED]
  else if rt = 0x91 then [MECHA_STATE.MECHA_STATE_KELF_HEADER_VERIFED]
  else if rt = 0x92 then [MECHA_STATE.MECHA_STATE_KELF_CONTENT_DECRYPT_IN_PROGRESS]
  else if rt = 0x93 then [MECHA_STATE.MECHA_STATE_UNK17]
  else if rt = 0x94 then [MECHA_STATE.MECHA_STATE_KELF_CONTENT_DECRYPT_DONE]
  else if rt = 0x95 then [MECHA_STATE.MECHA_STATE_KBIT1_SENT]
  else if rt = 0x96 then [MECHA_STATE.MECHA_STATE_KBIT2_SENT]
  else if rt = 0x97 then [MECHA_STATE.MECHA_STATE_KC1_SENT]
  else if rt = 0x98 then [MECHA_STATE.MECHA_STATE_KC2_SENT]
  else []

/-- The command was refused: it returned, with one result byte, 0x80. -/
def Refused (r : Option Machine) : Prop :=
  ∃ m, r = some m ∧ m.cdvd.SCMDResultC = 1 ∧ m.cdvd.SCMDResult.getD 0 0 = 0x80

/-- The command was refused and the session is back in `MECHA_STATE_READY`. -/
def RefusedAndReset (r : Option Machine) : Prop :=
  ∃ m, r = some m ∧ m.cdvd.mecha_state = MECHA_STATE.MECHA_STATE_READY ∧ m.cdvd.SCMDResultC = 1 ∧
    m.cdvd.SCMDResult.getD 0 0 = 0x80

/-- The drive of `demoDrive` with the MECHACON session in `MECHA_STATE_KEY_INDEXES_SET`,
the state behind an accepted 0x81. -/
def keyIndexDrive : Machine :=
  demoDrive.upd fun c => { c with mecha_state := MECHA_STATE.MECHA_STATE_KEY_INDEXES_SET }

/-- The S-command parameter buffer holds `k` bytes, as the counters say. -/
def SParamsAt (m : Machine) (k : Nat) : Prop :=
  m.cdvd.SCMDParamP = k ∧ m.cdvd.SCMDParamC = k ∧ m.cdvd.SCMDParam.length = 16

/-- The state with the bytes `ps` in the S-command parameter buffer from offset `k`. -/
def withSParams (m : Machine) (k : Nat) (ps : List Nat) : Machine :=
  m.upd fun c => { c with
    SCMDParam := c.SCMDParam.take k ++ ps ++ c.SCMDParam.drop (k + ps.length),
    SCMDParamP := k + ps.length,
    SCMDParamC := k + ps.length }

/-- The part of the session state that the card authentication reads and writes. -/
structure CardSession where
  state : MECHA_STATE
  result : MECHA_RESULT
  keyIndex : Nat
  iv : List Nat
  seed : List Nat
  nonce : List Nat
  key : List Nat
  random : List Nat
  rsp1 : List Nat
  rsp2 : List Nat
  rsp3 : List Nat

/-- The card session of a machine state. -/
def cardSession (m : Machine) : CardSession :=
  { state := m.cdvd.mecha_state, result := m.cdvd.mecha_result, keyIndex := m.cdvd.cardKeyIndex,
    iv := m.cdvd.memcard_iv, seed := m.cdvd.memcard_seed, nonce := m.cdvd.memcard_nonce,
    key := m.cdvd.memcard_key, random := m.cdvd.memcard_random, rsp1 := m.cdvd.memcard_reponse1,
    rsp2 := m.cdvd.memcard_reponse2, rsp3 := m.cdvd.memcard_reponse3 }

/-- The command returned with state `m2`, the parameter buffer empty again and the key
store untouched. -/
def Returned (r : Option Machine) (m m2 : Machine) : Prop :=
  r = some m2 ∧ SParamsAt m2 0 ∧ m2.ks = m.ks

/-- The entries of the card key tables, and the challenge IV, are 8-byte blocks. -/
def KeyStore.CardKeysTyped (ks : KeyStore) : Prop :=
  (∀ k ∈ ks.CardIV, IsBytes 8 k) ∧ (∀ k ∈ ks.CardIV2, IsBytes 8 k) ∧
  (∀ k ∈ ks.CardKeyLow, IsBytes 8 k) ∧ (∀ k ∈ ks.CardKeyHi, IsBytes 8 k) ∧ IsBytes 8 ks.ChallengeIV

instance instDecidableCardKeysTyped (ks : KeyStore) : Decidable ks.CardKeysTyped := by
  unfold KeyStore.CardKeysTyped
  infer_instance

/-- The two tests of `verifyCardChallenge`: the first two response blocks decrypt to
the nonce and to the random of the session. -/
def ResponsesPass (E : Env) (ks : KeyStore) (s : CardSession) : Prop :=
  s.nonce = xor_bit (doubleDesDecrypt E.D s.key s.rsp1) ks.ChallengeIV 8 ∧
  s.random = xor_bit (doubleDesDecrypt E.D s.key s.rsp2) s.rsp1 8

/-- The result byte of an S-command that returned. -/
def resultByte (m : Machine) : Nat :=
  m.cdvd.SCMDResult.getD 0 0

/-- The first six commands of the card authentication: key selection 0x81, IV and seed
0x82, nonce 0x83, the poll 0x8F, and the two reads of the challenge 0x84 and 0x85. -/
def cardChallenge (E : Env) (m : Machine) (sel : Nat) (iv seed nonce : List Nat) : Option Machine :=
  (sCommand E m 0x81 [sel]).bind fun m =>
  (sCommand E m 0x82 (iv ++ seed)).bind fun m =>
  (sCommand E m 0x83 nonce).bind fun m =>
  (sCommand E m 0x8F []).bind fun m =>
  (sCommand E m 0x84 []).bind fun m =>
  sCommand E m 0x85 []

/-- The last four commands of the card authentication: the responses 0x86 and 0x87, the
poll 0x8F and the query 0x88; the states behind the poll and behind 0x88. -/
def cardResponse (E : Env) (m : Machine) (rsp1 rsp2 rsp3 : List Nat) : Option (Machine × Machine) :=
  (sCommand E m 0x86 (rsp1 ++ rsp2)).bind fun m =>
  (sCommand E m 0x87 rsp3).bind fun m =>
  (sCommand E m 0x8F []).bind fun mp =>
  (sCommand E mp 0x88 []).map fun mf => (mp, mf)

/-- The response block 1 that the session in state `mc` accepts: the nonce, XORed with
the challenge IV, encrypted under the session key. -/
def matchingResponse1 (E : Env) (mc : Machine) : List Nat :=
  doubleDesEncrypt E.D mc.cdvd.memcard_key (xor_bit mc.cdvd.memcard_nonce mc.ks.ChallengeIV 8)

/-- The response block 2 that the session in state `mc` accepts behind block 1: the
random of the session, XORed with block 1, encrypted under the session key. -/
def matchingResponse2 (E : Env) (mc : Machine) (rsp1 : List Nat) : List Nat :=
  doubleDesEncrypt E.D mc.cdvd.memcard_key (xor_bit mc.cdvd.memcard_random rsp1 8)

/-- The block with bit 0 of byte `i` flipped. -/
def flipByte (l : List Nat) (i : Nat) : List Nat :=
  l.set i (l.getD i 0 ^^^ 1)

/-- The session state and the result byte after the ten commands of the card
authentication on `demoDrive`, for the responses chosen by `rsp` from the state behind
the challenge. -/
def demoCardAuth (rsp : Machine → List Nat × List Nat × List Nat) : Option (MECHA_STATE × Nat) :=
  (cardChallenge demoEnv demoDrive 0 [1, 2, 3, 4, 5, 6, 7, 8] [8, 7, 6, 5, 4, 3, 2, 1]
      [0x10, 0x20, 0x30, 0x40, 0x50, 0x60, 0x70, 0x80]).bind fun mc =>
    (cardResponse demoEnv mc (rsp mc).1 (rsp mc).2.1 (rsp mc).2.2).map fun p =>
      (p.2.cdvd.mecha_state, resultByte p.2)

/-- The number of blocks flagged `BIT_BLOCK_SIGNED` among the `n` blocks from index `i` of
the bit table at offset `bt` of `buf`. -/
def signedBlocksFrom (buf : List Nat) (bt : Nat) : Nat → Nat → Nat
  | 0, _ => 0
  | n + 1, i =>
    (if bitBlockFlags buf (bt + 8 + 16 * i) &&& BIT_BLOCK_SIGNED ≠ 0 then 1 else 0) +
      signedBlocksFrom buf bt n (i + 1)

/-- The number of blocks flagged `BIT_BLOCK_SIGNED` in the bit table at offset `bt` of
`buf`, over the `BlockCount` blocks the table declares. -/
def signedBlockCount (buf : List Nat) (bt : Nat) : Nat :=
  signedBlocksFrom buf bt (bitTableBlockCount buf bt) 0

/-- The checks of `DecryptKelfHeader` in front of the bit table pass: header signature,
header size, the flags asked for in mode 3, and the ban list. -/
def KelfHeaderChecksPass (E : Env) (m : Machine) : Prop :=
  kelfHeaderSignature E.D m.ks m.cdvd.data_buffer =
      slice m.cdvd.data_buffer (kelfHeaderSize m.cdvd.data_buffer) 8 ∧
    kelfHeaderSizeField m.cdvd.data_buffer = m.cdvd.DataSize ∧
    ¬ (m.cdvd.mode = 3 ∧ kelfFlags m.cdvd.data_buffer &&& 4 = 0 ∧
      kelfFlags m.cdvd.data_buffer &&& 8 = 0) ∧
    kelfBanned m.cdvd.data_buffer
      (cdvdReadILinkID E (cdvdReadConsoleID E m (List.replicate 8 0)).1 (List.replicate 8 0)).2
      (cdvdReadConsoleID E m (List.replicate 8 0)).2 (kelfBanCount m.cdvd.data_buffer) 0 = false

instance instDecidableKelfHeaderChecksPass (E : Env) (m : Machine) :
    Decidable (KelfHeaderChecksPass E m) := by
  unfold KelfHeaderChecksPass
  infer_instance

/-- A key store with distinct keys for the KELF checks. -/
def kelfKeyStore : KeyStore :=
  { KbitMasterKey := [0x01, 0x23, 0x45, 0x67, 0x89, 0xAB, 0xCD, 0xEF, 0xFE, 0xDC, 0xBA, 0x98, 0x76, 0x54, 0x32, 0x10],
    KcMasterKey := [0x11, 0x22, 0x33, 0x44, 0x55, 0x66, 0x77, 0x88, 0x99, 0xAA, 0xBB, 0xCC, 0xDD, 0xEE, 0xFF, 0x00],
    KbitIv := [1, 2, 3, 4, 5, 6, 7, 8],
    KcIv := [8, 7, 6, 5, 4, 3, 2, 1],
    SignatureMasterKey := [0x13, 0x34, 0x57, 0x79, 0x9B, 0xBC, 0xDF, 0xF1],
    SignatureHashKey := [0x0E, 0x32, 0x92, 0x32, 0xEA, 0x6D, 0x0D, 0x73],
    RootSigHashKey := [0x10, 0x31, 0x6E, 0x02, 0x8C, 0x8F, 0x3B, 0x4A, 0x51, 0x07, 0xB0, 0x15, 0x19, 0x58, 0x01, 0x01],
    RootSigMasterKey := [0x7C, 0xA1, 0x10, 0x45, 0x4A, 0x1A, 0x6E, 0x57],
    ContentTableIV := [0xA5, 0x5A, 0xA5, 0x5A, 0x0F, 0xF0, 0x0F, 0xF0] }

/-- The drive `demoDrive` with the key store `kelfKeyStore`, in mode 0, holding the header
`kelf` at the start of the data buffer. -/
def kelfDrive (kelf : List Nat) : Machine :=
  { demoDrive with
    ks := kelfKeyStore,
    cdvd := { demoDrive.cdvd with
      data_buffer := blit demoDrive.cdvd.data_buffer 0 kelf,
      DataSize := kelf.length,
      mode := 0 } }

/-- A KELF header of 128 bytes for `kelfKeyStore` under DES: no ban, a bit table of two
blocks that decrypt to the flags 2 and 3 (both signed), with the header, bit-table and
root signatures that belong to it. -/
def twoSignedKelf : List Nat :=
  [1, 0, 0, 1, 77, 71, 16, 32, 48, 64, 80, 96, 112, 128, 144, 160,
   0, 16, 0, 0, 128, 0, 2, 0, 0, 0, 0, 0, 0, 0, 0, 0,
   148, 166, 228, 231, 150, 99, 183, 143,
   193, 194, 195, 196, 197, 198, 199, 200, 209, 210, 211, 212, 213, 214, 215, 216,
   225, 226, 227, 228, 229, 230, 231, 232, 241, 242, 243, 244, 245, 246, 247, 248,
   137, 116, 130, 24, 129, 84, 153, 23,
   252, 17, 127, 159, 138, 195, 221, 54, 189, 45, 158, 135, 141, 46, 51, 212,
   48, 28, 190, 60, 156, 178, 112, 212, 230, 76, 126, 88, 42, 187, 216, 131,
   38, 186, 197, 232, 96, 231, 241, 125,
   196, 123, 49, 218, 29, 240, 229, 209]

/-- A KELF header of 112 bytes for `kelfKeyStore` under DES: no ban, a bit table of one
block that decrypts to the flags 1 (encrypted, not signed). -/
def unsignedKelf : List Nat :=
  [1, 0, 0, 1, 77, 71, 16, 32, 48, 64, 80, 96, 112, 128, 144, 160,
   0, 16, 0, 0, 112, 0, 2, 0, 0, 0, 0, 0, 0, 0, 0, 0,
   5, 231, 190, 122, 126, 29, 60, 137,
   193, 194, 195, 196, 197, 198, 199, 200, 209, 210, 211, 212, 213, 214, 215, 216,
   225, 226, 227, 228, 229, 230, 231, 232, 241, 242, 243, 244, 245, 246, 247, 248,
   146, 177, 230, 195, 89, 24, 33, 253,
   34, 181, 98, 4, 131, 183, 174, 96, 107, 240, 181, 123, 143, 64, 87, 111,
   147, 20, 237, 110, 100, 188, 175, 31,
   153, 128, 96, 188, 255, 183, 106, 142]

/-- A read in progress on `demoDrive` whose retry budget is used up: the track is being
read at sector 100, one retry was allowed and has been made, and the disc backend
answers the buffer poll with -1 (read error). -/
def retryExhaustedDrive : Machine :=
  { demoDrive with
    cdvd := { demoDrive.cdvd with
      Ready := 0x8A,
      Status := CDVD_STATUS_READ,
      Sector := 100,
      SeekToSector := 100,
      nSectors := 1,
      Readed := 1,
      Reading := 1,
      RetryCnt := 1,
      RetryCntP := 1 },
    host := { demoDrive.host with getBufferResult := -1 } }

/-- The drive `demoDrive`, which holds a DVD, with the 11 parameter bytes of a CD-DA read
of one sector from sector 16 written to the N-command parameter register. -/
def cddaOnDvdDrive : Machine :=
  sendNParams demoDrive [16, 0, 0, 0, 1, 0, 0, 0, 0, 0, 0]

/-- The drive `demoDrive`, ready with the tray closed on a disc, with one parameter byte
written to the N-command parameter register. -/
def oneParamDrive : Machine :=
  sendNParams demoDrive [7]

/-- The drive `demoDrive` busy with a read of 4 sectors from sector 100. -/
def busyDrive : Machine :=
  { demoDrive with
    cdvd := { demoDrive.cdvd with
      nCommand := N_DVD_READ,
      Ready := 0x8A,
      Status := CDVD_STATUS_READ,
      Sector := 100,
      SeekToSector := 100,
      nSectors := 4,
      Readed := 1,
      Reading := 1 } }

/-- The busy drive after BREAK has been written to register 0x07. -/
def breakPendingDrive : Machine :=
  cdvdWrite07 busyDrive 0

/-- The drive `demoDrive` with a DVD read as the command being dispatched. -/
def dvdReadDrive : Machine :=
  demoDrive.upd fun c => { c with nCommand := N_DVD_READ }

/-- The `cdvd` state `c` with `Action` set to `a`. -/
def withAction (c : cdvdStruct) (a : cdvdActions) : cdvdStruct :=
  { c with Action := a }

/-- The `cdvd` state in which `cdvdStartSeek` evaluates the rotational latency of a
contiguous read: the state it returns, with `Action` as it was before the call. -/
def seekLatencyState (E : Env) (m : Machine) (newsector mode : Nat) : cdvdStruct :=
  withAction (cdvdStartSeek E m newsector mode).1.cdvd m.cdvd.Action

/-- The N-command parameter registers and the size of the S-command parameter buffer. -/
def paramView (c : cdvdStruct) : List Nat × Nat × Nat × Nat :=
  (c.NCMDParam, c.NCMDParamP, c.NCMDParamC, c.SCMDParam.length)

/-- The S-command parameter counters. -/
def sParamView (c : cdvdStruct) : Nat × Nat :=
  (c.SCMDParamP, c.SCMDParamC)

/-- The S-command result counters and the S-command status register. -/
def resultView (c : cdvdStruct) : Nat × Nat × Nat :=
  (c.SCMDResultP, c.SCMDResultC, c.sDataIn)

/-- The registers of the two command channels. -/
def regView (c : cdvdStruct) : (List Nat × Nat × Nat × Nat) × (Nat × Nat) × (Nat × Nat × Nat) :=
  (paramView c, sParamView c, resultView c)

/-- The registers of the two command channels and the abort flag. -/
def fullView (c : cdvdStruct) :
    ((List Nat × Nat × Nat × Nat) × (Nat × Nat) × (Nat × Nat × Nat)) × Bool :=
  (regView c, c.AbortRequested)

/-- What a command body does to the command channels between `m` and `m2`: the
N-command parameters and the size of the S-command parameter buffer stay, the
S-command parameter counters stay or are both reset, the result registers stay or are
set up for a result of at most 16 bytes (they are set up when `armed` is true), and the
abort flag stays unless the body may raise an IRQ (`irq`). -/
structure Chan (irq armed : Bool) (m m2 : Machine) : Prop where
  params : paramView m2.cdvd = paramView m.cdvd
  sparams : sParamView m2.cdvd = sParamView m.cdvd ∨ sParamView m2.cdvd = (0, 0)
  result : resultView m2.cdvd = resultView m.cdvd ∨
    ∃ n, n ≤ 16 ∧ resultView m2.cdvd = (0, n, m.cdvd.sDataIn &&& 0xBF)
  armedResult : armed = true → ∃ n, n ≤ 16 ∧ resultView m2.cdvd = (0, n, m.cdvd.sDataIn &&& 0xBF)
  abort : irq = false → m2.cdvd.AbortRequested = m.cdvd.AbortRequested

/-- The relation `Chan` for a function that returns the new state in a pair. -/
def ChanP {α : Type} (irq ar : Bool) (m : Machine) (r : Machine × α) : Prop :=
  Chan irq ar m r.1

/-- The relation `Chan` for a function that may not return. -/
def ChanO (irq ar : Bool) (m : Machine) (r : Option Machine) : Prop :=
  ∀ m2, r = some m2 → Chan irq ar m m2

/-- The bounds of the two command channels and the meaning of bit 0x40 of `sDataIn`: the
bit is clear while result bytes are unread or the result has size 0, and set only when
every result byte has been read. -/
structure ChannelInv (c : cdvdStruct) : Prop where
  resP : c.SCMDResultP ≤ c.SCMDResultC
  resC : c.SCMDResultC ≤ 16
  nparam : c.NCMDParamC = c.NCMDParamP
  nparamLe : c.NCMDParamP ≤ 16
  sparam : c.SCMDParamC = c.SCMDParamP
  sparamLe : c.SCMDParamP ≤ 16
  nlen : c.NCMDParam.length = 16
  slen : c.SCMDParam.length = 16
  flag : (c.sDataIn &&& 0x40 = 0 ∧ (c.SCMDResultP < c.SCMDResultC ∨ c.SCMDResultC = 0)) ∨
    (c.sDataIn &&& 0x40 = 0x40 ∧ c.SCMDResultP = c.SCMDResultC)

/-- The index at which `cdvdWrite05` stores the byte written. -/
def nParamIndex (c : cdvdStruct) : Nat :=
  if c.NCMDParamP ≥ 16 then 0 else c.NCMDParamP

/-- The index at which `cdvdWrite17` stores the byte written. -/
def sParamIndex (c : cdvdStruct) : Nat :=
  if c.SCMDParamP ≥ 16 then 0 else c.SCMDParamP

/-- The registers a read can change: a read of 0x06 clears `cdvd.Error`, a read of 0x18
is `cdvdRead18`, and every other read changes nothing. -/
def ReadEffect (m : Machine) (r : Machine × Nat) : Prop :=
  r.1 = m ∨ r.1 = (m.upd fun c => { c with Error := 0 }) ∨ r.1 = (cdvdRead18 m).1

/-- A register access that raises no IRQ, starts no N-command and does not reset the
machine: any read, and any write other than a write to the N-command register 0x04, the
tray S-command (0x06 written to register 0x16) and the power-off S-command (0x0F
written to register 0x16). -/
def keepsBreak : RegOp → Prop
  | RegOp.read _ => True
  | RegOp.write key rt => key ≠ 0x04 ∧ ¬ (key = 0x16 ∧ (rt = 0x06 ∨ rt = 0x0F))

instance instDecidableKeepsBreak (op : RegOp) : Decidable (keepsBreak op) := by
  cases op <;> unfold keepsBreak <;> infer_instance

/-- The state after `k` successive reads of register 0x18, and the bytes read, first
read first. -/
def readResults (E : Env) : Machine → Nat → Machine × List Nat
  | m, 0 => (m, [])
  | m, k + 1 =>
    ((readResults E (cdvdRead E m 0x18).1 k).1,
      (cdvdRead E m 0x18).2 :: (readResults E (cdvdRead E m 0x18).1 k).2)

/-- The drive `demoDrive` after S-command 0x08 (read the clock) on a clock that shows
12:34:56 on 24 December 2025. -/
def clockReadDrive : Machine :=
  ((cdvdWrite16 demoEnv (demoDrive.upd fun c => { c with RTC :=
    { c.RTC with second := 56, minute := 34, hour := 12, day := 24, month := 12, year := 25 } })
    0x08).getD demoDrive)

/-- The S-command result registers and the state of the MECHACON session. -/
def statusView (c : cdvdStruct) : List Nat × Nat × Nat × Nat × MECHA_STATE :=
  (c.SCMDResult, c.SCMDResultP, c.SCMDResultC, c.sDataIn, c.mecha_state)

/-- The state `m2` has the S-command result registers and the session state of `m`. -/
def Kept (m m2 : Machine) : Prop :=
  statusView m2.cdvd = statusView m.cdvd

/-- The relation `Kept` for a function that returns the new state in a pair. -/
def KeptP {α : Type} (m : Machine) (r : Machine × α) : Prop :=
  Kept m r.1

/-- A verdict `MECHA_RESULT_FAILED` comes with an error code that fits the byte
`cdvd.mecha_errorcode`. -/
def FailCode (r : Machine × MECHA_RESULT) : Prop :=
  r.2 = MECHA_RESULT.MECHA_RESULT_FAILED → r.1.cdvd.mecha_errorcode < 256

/-- The state of case 0x8D of `cdvdWrite16` behind the `memcpy` into `data_buffer`. -/
def mgWriteData (m : Machine) : Machine :=
  ((result1 m 0x80).upd fun c =>
    { c with data_buffer := blit c.data_buffer c.data_buffer_offset (m.cdvd.SCMDParam.take m.cdvd.SCMDParamC) }).upd
    fun c => { c with data_buffer_offset := c.data_buffer_offset + m.cdvd.SCMDParamC }

/-- The state in which S-command 0x8D calls `executeMechaHandler` when it has delivered
the last byte of a KELF header (session state `MECHA_STATE_KELF_HEADER_PARAMS_SET`) or
of a KELF content block (`MECHA_STATE_DATA_IN_LENGTH_SET`). -/
def kelfReceived (m : Machine) : Machine :=
  setMechaState
    (mgWriteData (m.upd fun c => { c with sCommand := 0x8D, SCMDResult := List.replicate 16 0 }))
    (if m.cdvd.mecha_state = MECHA_STATE.MECHA_STATE_KELF_HEADER_PARAMS_SET then
      MECHA_STATE.MECHA_STATE_KELF_HEADER_RECEIVED
    else MECHA_STATE.MECHA_STATE_KELF_CONTENT_RECEIVED)

/-- The verdict of the verification S-command 0x8D runs on the data delivered: the
`mecha_result` that `executeMechaHandler` records in the state behind the `memcpy`,
which is the value `DecryptKelfHeader` returns for a header and the value
`DecryptKelfContent` returns for a content block.  There is no verdict where the
handler gives no state: the chunk loop of the content does not end, or the bit table
of the header reaches behind the end of the data buffer. -/
def kelfVerdict (E : Env) (m : Machine) : Option MECHA_RESULT :=
  (executeMechaHandler E (kelfReceived m)).map fun x => x.cdvd.mecha_result

/-- Register accesses that begin the delivery of a KELF header of 8 bytes: S-command
0x90 with mode 0 and `DataSize` 8, then the 8 bytes as S-command parameters. -/
def kelfDeliveryOps : List RegOp :=
  [RegOp.write 0x17 0, RegOp.write 0x17 8, RegOp.write 0x17 0, RegOp.write 0x17 0, RegOp.write 0x17 0,
    RegOp.write 0x16 0x90,
    RegOp.write 0x17 1, RegOp.write 0x17 2, RegOp.write 0x17 3, RegOp.write 0x17 4,
    RegOp.write 0x17 5, RegOp.write 0x17 6, RegOp.write 0x17 7, RegOp.write 0x17 8]

/-- The drive `demoDrive` after the accesses `kelfDeliveryOps`: S-command 0x8D will
deliver the whole header, which is not a signed KELF header. -/
def headerDeliveryDrive : Machine :=
  (regRun demoEnv demoDrive kelfDeliveryOps).getD demoDrive

/-- The drive after `n` one-second ticks of the tray timer, each a call of
`cdvdUpdateTrayState`. -/
def trayTicks (E : Env) (m : Machine) : Nat → Machine
  | 0 => m
  | n + 1 => cdvdUpdateTrayState E (trayTicks E m n)

/-- A console that is not in fast boot, with the disc of `demoEnv` in the tray. -/
def trayClosedDrive : Machine :=
  cdvdCtrlTrayClose demoEnv demoDrive

/-- The disc of `demoEnv` as a dual-layer disc of the given type whose second
layer starts at sector 1000000. -/
def dualLayerEnv (dualType : Nat) : Env :=
  { demoEnv with detectDiskType := CDVD_TYPE_PS2DVD, dualType := dualType, layer1Start := 1000000 }

/-- The drive of `demoEnv` in raw DVD sector mode, positioned at `sector`, with DMA
channel 3 armed for one block of 2064 bytes. -/
def rawDvdDrive (sector : Nat) : Machine :=
  { demoDrive with
    cdvd := { demoDrive.cdvd with BlockSize := 2064, Sector := sector },
    iop := { demoDrive.iop with HW_DMA3_BCR_H16 := 1, HW_DMA3_BCR_L16 := 516 } }

/-- The first four bytes of the block that `cdvdReadSector` hands to DMA channel 3:
the layer byte and the three bytes of the header LSN. -/
def sectorHeader (E : Env) (m : Machine) : List Nat :=
  ((cdvdReadSector E m).1.trace.findSome? fun e =>
    match e with
    | Event.dmaWrite _ block => some (block.take 4)
    | _ => none).getD []

/-- The drive of `demoEnv` behind a card challenge: session key, nonce and random
set, card key slot 2 selected, and the three response blocks of a card that
answers the challenge. -/
def cardAnsweredDrive : Machine :=
  let m := demoDrive.upd fun c =>
    { c with memcard_key := [1, 2, 3, 4, 5, 6, 7, 8, 9, 10, 11, 12, 13, 14, 15, 16],
             memcard_nonce := [0x10, 0x20, 0x30, 0x40, 0x50, 0x60, 0x70, 0x80],
             memcard_random := [0x67, 0xC6, 0x69, 0x73, 0x51, 0xFF, 0x4A, 0xEC],
             memcard_reponse3 := [9, 9, 9, 9, 9, 9, 9, 9],
             cardKeySlot := 2 }
  m.upd fun c =>
    { c with memcard_reponse1 := matchingResponse1 demoEnv m,
             memcard_reponse2 := matchingResponse2 demoEnv m (matchingResponse1 demoEnv m) }

/-- The block sizes the drive is set to: 2064 by `cdvdReset` and `N_DVD_READ`, 2048,
2328 or 2340 by `N_CD_READ`, 2352 or 2368 by the CDDA reads. -/
def blockSizes : List Nat :=
  [2048, 2064, 2328, 2340, 2352, 2368]

/-- The bounds of the sector buffer and of the scratch data buffer: at most 16 sectors
are buffered, the write offset into `data_buffer` is at most 0x800, and the block
size is one of `blockSizes`. -/
structure BufInv (c : cdvdStruct) : Prop where
  nsb : c.nextSectorsBuffered ≤ 16
  dbo : c.data_buffer_offset ≤ 0x800
  size : c.BlockSize ∈ blockSizes

/-- The fields `BufInv` speaks of. -/
def bufView (c : cdvdStruct) : Nat × Nat × Nat :=
  (c.nextSectorsBuffered, c.data_buffer_offset, c.BlockSize)

/-- The step from `m` to `m2` keeps each of the three bounds of `BufInv`. -/
structure Buf (m m2 : Machine) : Prop where
  nsb : m.cdvd.nextSectorsBuffered ≤ 16 → m2.cdvd.nextSectorsBuffered ≤ 16
  dbo : m.cdvd.data_buffer_offset ≤ 0x800 → m2.cdvd.data_buffer_offset ≤ 0x800
  size : m.cdvd.BlockSize ∈ blockSizes → m2.cdvd.BlockSize ∈ blockSizes

/-- The relation `Buf` for a function that returns the new state in a pair. -/
def BufP {α : Type} (m : Machine) (r : Machine × α) : Prop :=
  Buf m r.1

/-- The relation `Buf` for a function that may not return. -/
def BufO (m : Machine) (r : Option Machine) : Prop :=
  ∀ m2, r = some m2 → Buf m m2

/-- One operation on the drive: a register access of the IOP, one of the three
scheduled events of the drive, the vertical-sync tick, a disc change or a tray
control by the host, or a reset. -/
inductive DriveOp where
  | reg (op : RegOp)
  | sectorReady
  | readInterrupt
  | actionInterrupt
  | vsync
  | newDisk
  | trayOpen
  | trayClose
  | reset (B : Boot)

/-- The state after one operation; `none` when the operation does not return. -/
def driveStep (E : Env) (m : Machine) : DriveOp → Option Machine
  | DriveOp.reg op => regStep E m op
  | DriveOp.sectorReady => some (cdvdSectorReady E m)
  | DriveOp.readInterrupt => some (cdvdReadInterrupt E m)
  | DriveOp.actionInterrupt => some (cdvdActionInterrupt E m)
  | DriveOp.vsync => some (cdvdVsync E m)
  | DriveOp.newDisk => some (cdvdNewDiskCB E m)
  | DriveOp.trayOpen => some (cdvdCtrlTrayOpen E m)
  | DriveOp.trayClose => some (cdvdCtrlTrayClose E m)
  | DriveOp.reset B => some (cdvdReset E B m)

/-- The state after a sequence of operations. -/
def driveRun (E : Env) : Machine → List DriveOp → Option Machine
  | m, [] => some m
  | m, op :: ops => (driveStep E m op).bind fun m2 => driveRun E m2 ops

/-- The test of case 0x8D of `cdvdWrite16`. -/
def mgWriteAccepted (c : cdvdStruct) : Prop :=
  c.SCMDParamC ≠ 0 ∧
    (c.mecha_state = MECHA_STATE.MECHA_STATE_KELF_HEADER_PARAMS_SET ∨
      c.mecha_state = MECHA_STATE.MECHA_STATE_DATA_IN_LENGTH_SET ∨
      c.mecha_state = MECHA_STATE.MECHA_STATE_CRYPTO_DATA_IN_SIZE_SET) ∧
    c.data_buffer_offset + c.SCMDParamC ≤ 0x800

instance instDecidableMgWriteAccepted (c : cdvdStruct) : Decidable (mgWriteAccepted c) := by
  unfold mgWriteAccepted
  infer_instance

/-- The state S-command 0x8D passes on behind the `memcpy`: to `executeMechaHandler`,
with the state of the session advanced, when the announced `DataSize` bytes are
there, and as it is otherwise. -/
def mgWriteHandled (E : Env) (m : Machine) : Option Machine :=
  if (mgWriteData m).cdvd.DataSize ≤ (mgWriteData m).cdvd.data_buffer_offset then
    match m.cdvd.mecha_state with
    | MECHA_STATE.MECHA_STATE_KELF_HEADER_PARAMS_SET =>
      executeMechaHandler E (setMechaState (mgWriteData m) MECHA_STATE.MECHA_STATE_KELF_HEADER_RECEIVED)
    | MECHA_STATE.MECHA_STATE_DATA_IN_LENGTH_SET =>
      executeMechaHandler E (setMechaState (mgWriteData m) MECHA_STATE.MECHA_STATE_KELF_CONTENT_RECEIVED)
    | _ =>
      executeMechaHandler E (setMechaState (mgWriteData m) MECHA_STATE.MECHA_STATE_CRYPTO_DATA_RECVED)
  else some (mgWriteData m)

/-- The state in which `cdvdWrite16` enters the case of the command `rt`. -/
def sCommandEntry (m : Machine) (rt : Nat) : Machine :=
  m.upd fun c => { c with sCommand := rt, SCMDResult := List.replicate 16 0 }

/-- The end of `cdvdWrite16` behind the `switch`. -/
def sCommandExit (m : Machine) : Machine :=
  m.upd fun c => { c with SCMDParamP := 0, SCMDParamC := 0 }

/-- The `BlockCount` that `DecryptKelfHeader` finds in the bit table of a header of size
`headerSize`, behind the decryption of the first 8 bytes of the table. -/
def decryptedBlockCount (D : DesCipher) (ks : KeyStore) (c : cdvdStruct) (headerSize : Nat) : Nat :=
  bitTableBlockCount
    (store c.data_buffer (headerSize + 8 + 32) 8
      (xor_bit ks.ContentTableIV
        (doubleDesDecrypt D (kelfKeys D ks c (headerSize + 8)).1 (slice c.data_buffer (headerSize + 8 + 32) 8))
        8))
    (headerSize + 8 + 32)

/-- Where a word that `readKeyStore` writes comes from: the constant 0, the entry `i`
of `g_cardKeyStore`, or the entry `i` of `g_EncryptedKeyStore`. -/
inductive KsSource where
  | zero
  | card (i : Nat)
  | encrypted (i : Nat)
  deriving DecidableEq, Repr

/-- The source lies inside its table: `g_cardKeyStore` has 48 entries, `g_EncryptedKeyStore`
has 0x200. -/
def KsSource.InTable : KsSource → Prop
  | KsSource.zero => True
  | KsSource.card i => i < 48
  | KsSource.encrypted i => i < 0x200

instance instDecidableKsSourceInTable (s : KsSource) : Decidable s.InTable := by
  cases s <;> unfold KsSource.InTable <;> infer_instance

/-- The speed, the block size and the error code of the drive. -/
def spdView (c : cdvdStruct) : Nat × Nat × Nat :=
  (c.Speed, c.BlockSize, c.Error)

/-- The step from `m` to `m2` keeps the speed, the block size and the error code. -/
def Spd (m m2 : Machine) : Prop :=
  spdView m2.cdvd = spdView m.cdvd

/-- The relation `Spd` for a function that returns the new state in a pair. -/
def SpdP {α : Type} (m : Machine) (r : Machine × α) : Prop :=
  Spd m r.1

/-- The effective speed code of an `N_CD_READ`: the low three bits of parameter 9, or of
the maximum of the medium (3 on a DVD, 5 on a CD) when its low six bits are zero. -/
def cdReadSpeedCode (c : cdvdStruct) : Nat :=
  effectiveSpeedCode (c.NCMDParam.getD 9 0) (if cdvdIsDVD c then 3 else 5)

/-- The invalid parameters of an `N_CD_READ` as the specification lists them: a speed
code outside 1..5, a code 4 or 5 on a DVD, a nonzero sub-mode on a DVD, a sub-mode
greater than 2 on a CD. -/
def CdReadParamsBad (c : cdvdStruct) : Prop :=
  ¬ (1 ≤ cdReadSpeedCode c ∧ cdReadSpeedCode c ≤ 5) ∨
  (cdvdIsDVD c = true ∧ (cdReadSpeedCode c = 4 ∨ cdReadSpeedCode c = 5)) ∨
  (cdvdIsDVD c = true ∧ c.NCMDParam.getD 10 0 ≠ 0) ∨
  (cdvdIsDVD c = false ∧ 2 < c.NCMDParam.getD 10 0)

instance instDecidableCdReadParamsBad (c : cdvdStruct) : Decidable (CdReadParamsBad c) := by
  unfold CdReadParamsBad
  infer_instance

/-- The parameter-error exit of a read command seen from outside: error code 0x22, the
error action pending, the drive busy, and the only event behind the trace of `m` is the
action interrupt scheduled a block time later (no read was started). -/
def ParamErrorExit (m r : Machine) : Prop :=
  r.cdvd.Error = 0x22 ∧
  r.cdvd.Action = cdvdActions.cdvdAction_Error ∧
  r.cdvd.Ready = CDVD_DRIVE_BUSY ||| (CDVD_DRIVE_MECHA_INIT ||| CDVD_DRIVE_DEV9CON) ∧
  r.cdvd.Reading = m.cdvd.Reading ∧
  r.trace = m.trace ++ [Event.psxInt IopEvt.IopEvt_Cdvd (r.cdvd.BlockSize * 12)]

/-- A drive that holds a PlayStation 2 CD (disc type 0x12), is ready, and has received
the eleven parameters of an `N_CD_READ` with the given speed byte and sub-mode byte. -/
def cdReadDrive (p9 p10 : Nat) : Machine :=
  demoDrive.upd fun c => { c with
    DiscType := 0x12,
    NCMDParam := [16, 0, 0, 0, 1, 0, 0, 0, 0, p9, p10, 0, 0, 0, 0, 0],
    NCMDParamC := 11, NCMDParamP := 11 }

/-- The S-command returned with state `m2`, its status byte is 0 and the session is in
state `st`. -/
def AcceptedInto (r : Option Machine) (m2 : Machine) (st : MECHA_STATE) : Prop :=
  r = some m2 ∧ resultByte m2 = 0 ∧ m2.cdvd.mecha_state = st

/-- The ten commands of the card authentication on `demoDrive`, the card answering with
the matching response blocks 1 and 2: the state and the status byte behind each
command. -/
def demoCardChain : Option (List (MECHA_STATE × Nat)) :=
  (sCommand demoEnv demoDrive 0x81 [0]).bind fun m1 =>
  (sCommand demoEnv m1 0x82 ([1, 2, 3, 4, 5, 6, 7, 8] ++ [8, 7, 6, 5, 4, 3, 2, 1])).bind fun m2 =>
  (sCommand demoEnv m2 0x83 [0x10, 0x20, 0x30, 0x40, 0x50, 0x60, 0x70, 0x80]).bind fun m3 =>
  (sCommand demoEnv m3 0x8F []).bind fun m4 =>
  (sCommand demoEnv m4 0x84 []).bind fun m5 =>
  (sCommand demoEnv m5 0x85 []).bind fun m6 =>
  (sCommand demoEnv m6 0x86 (matchingResponse1 demoEnv m6 ++
      matchingResponse2 demoEnv m6 (matchingResponse1 demoEnv m6))).bind fun m7 =>
  (sCommand demoEnv m7 0x87 [9, 9, 9, 9, 9, 9, 9, 9]).bind fun m8 =>
  (sCommand demoEnv m8 0x8F []).bind fun m9 =>
  (sCommand demoEnv m9 0x88 []).map fun m10 =>
    [m1, m2, m3, m4, m5, m6, m7, m8, m9, m10].map fun x => (x.cdvd.mecha_state, resultByte x)

/-- The identify block holds 512 bytes and is zero from offset 208 on. -/
def ATA.Cursor.Low (w : ATA.Cursor) : Prop :=
  w.data.length = 512 ∧ (∀ b ∈ w.data, b < 256) ∧ ∀ p, 208 ≤ p → w.data.getD p 0 = 0

/-- A drive without 48-bit LBA, multiword DMA mode 2 active, no ultra DMA mode active,
SMART, write cache and look-ahead enabled. -/
def demoHdd : ATA :=
  { identifyData := List.replicate 512 0, lba48Supported := false, mdmaMode := 2, udmaMode := -1,
    fetSmartEnabled := true, fetSecurityEnabled := false, fetWriteCacheEnabled := true,
    fetLookAheadEnabled := true, fetHostProtectedAreaEnabled := false }

/-- The drive `demoHdd` with 48-bit LBA supported. -/
def demoHdd48 : ATA :=
  { demoHdd with lba48Supported := true }

/-- The drive `demoDrive` with the key store `kelfKeyStore` in a KELF content session
of mode 2: the bit table holds two signed, unencrypted blocks of 8 bytes, the first
with the signature of the bytes 1 to 8 under DES; S-command 0x92 has announced the 8
bytes of block 0 (`MECHA_STATE_DATA_IN_LENGTH_SET`) and none has been delivered; the
last result is that of the header, `MECHA_RESULT_KELF_HEADER_VERIFED`. -/
def firstChunkDrive : Machine :=
  { demoDrive with
    ks := kelfKeyStore,
    cdvd := { demoDrive.cdvd with
      mecha_state := MECHA_STATE.MECHA_STATE_DATA_IN_LENGTH_SET,
      mecha_result := MECHA_RESULT.MECHA_RESULT_KELF_HEADER_VERIFED,
      mode := 2, lastBitTable := 2, currentBlockIdx := 0, DoneBlocks := 0, DataSize := 8,
      data_buffer_offset := 0,
      bitBlocks := (demoDrive.cdvd.bitBlocks.set 0
        { Flags := BIT_BLOCK_SIGNED, Size := 8,
          Signature := [219, 195, 134, 122, 70, 124, 115, 223] }).set 1
        { Flags := BIT_BLOCK_SIGNED, Size := 8 } } }

/-- The result byte, the session state and the last handler result. -/
def chunkView (m : Machine) : Nat × MECHA_STATE × MECHA_RESULT :=
  (resultByte m, m.cdvd.mecha_state, m.cdvd.mecha_result)

/-- The bytes received and the bytes announced of the current chunk. -/
def chunkBytes (m : Machine) : Nat × Nat :=
  (m.cdvd.data_buffer_offset, m.cdvd.DataSize)

/-- The S-commands on `firstChunkDrive` that deliver block 0 (0x8D with the bytes 1 to
8), poll (0x8F) and announce the 8 bytes of block 1 (0x92). -/
def secondChunkAnnounced : Option Machine :=
  ((sCommand demoEnv firstChunkDrive 0x8D [1, 2, 3, 4, 5, 6, 7, 8]).bind fun m =>
    sCommand demoEnv m 0x8F []).bind fun m => sCommand demoEnv m 0x92 [8, 0]

/-- The offsets `i` of the 8-byte reads `&cdvd.data_buffer[i]` in the header-signature
loop `for (i = 0; i < (headerSize & 0xFFFFFFF8); i += 8)` of `DecryptKelfHeader`. -/
def headerSignatureReads (buf : List Nat) : List Nat :=
  (List.range (kelfHeaderSize buf / 8)).map fun k => 8 * k

/-- A KELF header of 32 bytes that declares `HeaderSize` 0x20, `Flags` 0 and `BanCount`
0x80. -/
def bigBanHeader : List Nat :=
  List.replicate 20 0 ++ [0x20, 0x00] ++ [0, 0] ++ [0, 0] ++ [0x80, 0x00] ++ List.replicate 4 0

/-- The drive `demoDrive` behind S-command 0x90 (mode 0, `DataSize` 0x20), an S-command
0x8D with the first 16 bytes of `bigBanHeader`, and the last 16 bytes written to the
parameter register: the next 0x8D delivers the end of the header. -/
def bigBanDrive : Machine :=
  (((sCommand demoEnv demoDrive 0x90 [0, 0x20, 0x00, 0, 0]).bind fun m =>
      sCommand demoEnv m 0x8D (bigBanHeader.take 16)).map fun m =>
    sendSParams m (bigBanHeader.drop 16)).getD demoDrive

/-- The drive `demoDrive` in a KELF content session: the header is verified, the bit
table has been read out, block 0 is a signed block of 8 bytes of which nothing has
been received (`MECHA_STATE_KELF_CONTENT_DECRYPT_IN_PROGRESS`). -/
def contentDrive : Machine :=
  demoDrive.upd fun c => { c with
    mecha_state := MECHA_STATE.MECHA_STATE_KELF_CONTENT_DECRYPT_IN_PROGRESS,
    mecha_result := MECHA_RESULT.MECHA_RESULT_KELF_HEADER_VERIFED,
    mode := 2, lastBitTable := 1, currentBlockIdx := 0, DoneBlocks := 0,
    bitBlocks := c.bitBlocks.set 0 { Flags := BIT_BLOCK_SIGNED, Size := 8 } }

/-- The answer of S-command 0x90 on `demoDrive` for a mode and a card key slot, with
`DataSize` 0x20 and mode-3 key index 0: the result byte, the session state and the
slot stored. -/
def headerStartAnswer (mode slot : Nat) : Option (Nat × MECHA_STATE × Nat) :=
  (sCommand demoEnv demoDrive 0x90 [mode, 0x20, 0x00, slot, 0]).map fun m =>
    (resultByte m, m.cdvd.mecha_state, m.cdvd.cardKeySlot)

/-- The drive `demoDrive`, which holds a DVD, with the eleven parameters of an
`N_DVD_READ` with the given speed byte and sub-mode byte. -/
def dvdParamDrive (p9 p10 : Nat) : Machine :=
  demoDrive.upd fun c => { c with
    NCMDParam := [16, 0, 0, 0, 1, 0, 0, 0, 0, p9, p10, 0, 0, 0, 0, 0],
    NCMDParamC := 11, NCMDParamP := 11 }

/-- The error code and the spindle configuration: `Error`, `SpindlCtrl`, `Speed`,
`Spinning`. -/
def spindleView (c : cdvdStruct) : Nat × Nat × Nat × Bool :=
  (c.Error, c.SpindlCtrl, c.Speed, c.Spinning)

/-- The drive `demoDrive` one vertical blank before the end of a second. -/
def rtcEveDrive : Machine :=
  demoDrive.upd fun c => { c with RTCcount := 59 }

/-- The seven parameter bytes of an S-command 0x09 that writes 23:59:59 on day 31 of
month 00 of year 05. -/
def monthZeroClock : List Nat := [0x59, 0x59, 0x23, 0x00, 0x31, 0x00, 0x05]

/-- The drive `rtcEveDrive` behind S-command 0x09 with the bytes `monthZeroClock`. -/
def rtcWrittenDrive : Machine :=
  (sCommand demoEnv rtcEveDrive 0x09 monthZeroClock).getD rtcEveDrive

/-- The console `demoEnv` where a read outside `monthmap` yields `v`. -/
def monthmapEnv (v : Nat) : Env :=
  { demoEnv with monthmapOutside := fun _ => v }

/-! ## Theorems -/

namespace Des

theorem beValue_foldl (l : List Nat) (acc : Nat) :
    l.foldl (fun acc b => 256 * acc + b) acc = acc * 256 ^ l.length + beValue l := by
  induction l generalizing acc with
  | nil => simp [beValue]
  | cons x xs ih =>
    simp only [List.foldl_cons, List.length_cons, beValue]
    rw [ih, ih (256 * 0 + x)]
    ring

theorem beValue_cons (x : Nat) (l : List Nat) :
    beValue (x :: l) = x * 256 ^ l.length + beValue l := by
  simp only [beValue, List.foldl_cons]
  rw [beValue_foldl]
  simp [beValue]

theorem beValue_lt (n : Nat) (l : List Nat) (h : IsBytes n l) : beValue l < 256 ^ n := by
  induction l generalizing n with
  | nil => simp [beValue]
  | cons x xs ih =>
    obtain ⟨hlen, hlt⟩ := h
    have hx : x < 256 := hlt x (by simp)
    have hxs : IsBytes xs.length xs := ⟨rfl, fun y hy => hlt y (by simp [hy])⟩
    have := ih xs.length hxs
    rw [beValue_cons, ← hlen, List.length_cons, pow_succ]
    nlinarith

theorem beBytes_length (n v : Nat) : (beBytes n v).length = n := by
  induction n with
  | zero => rfl
  | succ n ih => simp [beBytes, ih]

theorem beBytes_isBytes (n v : Nat) : IsBytes n (beBytes n v) := by
  refine ⟨beBytes_length n v, ?_⟩
  induction n with
  | zero => simp [beBytes]
  | succ n ih =>
    intro x hx
    simp only [beBytes, List.mem_cons] at hx
    rcases hx with rfl | hx
    · exact Nat.mod_lt _ (by norm_num)
    · exact ih x hx

theorem beBytes_add_mul (n a r : Nat) : beBytes n (a * 256 ^ n + r) = beBytes n r := by
  induction n generalizing a with
  | zero => rfl
  | succ n ih =>
    simp only [beBytes]
    congr 1
    · rw [Nat.shiftRight_eq_div_pow, Nat.shiftRight_eq_div_pow]
      have h8 : (2:Nat) ^ (8 * n) = 256 ^ n := by
        rw [pow_mul]; norm_num
      rw [h8, pow_succ]
      have : a * (256 ^ n * 256) + r = r + (a * 256) * 256 ^ n := by ring
      rw [this, Nat.add_mul_div_right _ _ (by positivity), Nat.add_mul_mod_self_right]
    · have : a * 256 ^ (n + 1) + r = (a * 256) * 256 ^ n + r := by ring
      rw [this, ih]

theorem beBytes_beValue (n : Nat) (l : List Nat) (h : IsBytes n l) : beBytes n (beValue l) = l := by
  induction l generalizing n with
  | nil =>
    obtain ⟨hlen, _⟩ := h
    simp at hlen
    subst hlen
    rfl
  | cons x xs ih =>
    obtain ⟨hlen, hlt⟩ := h
    have hx : x < 256 := hlt x (by simp)
    have hxs : IsBytes xs.length xs := ⟨rfl, fun y hy => hlt y (by simp [hy])⟩
    have hlt2 := beValue_lt xs.length xs hxs
    simp only [List.length_cons] at hlen
    subst hlen
    rw [beValue_cons]
    simp only [beBytes]
    congr 1
    · rw [Nat.shiftRight_eq_div_pow]
      have h8 : (2:Nat) ^ (8 * xs.length) = 256 ^ xs.length := by
        rw [pow_mul]; norm_num
      rw [h8]
      have : x * 256 ^ xs.length + beValue xs = beValue xs + x * 256 ^ xs.length := by ring
      rw [this, Nat.add_mul_div_right _ _ (by positivity), Nat.div_eq_of_lt hlt2]
      simp [Nat.mod_eq_of_lt hx]
    · rw [beBytes_add_mul, ih xs.length hxs]

theorem beValue_beBytes (n v : Nat) : beValue (beBytes n v) = v % 256 ^ n := by
  induction n with
  | zero => simp [beBytes, beValue, Nat.mod_one]
  | succ n ih =>
    simp only [beBytes]
    rw [beValue_cons, ih, beBytes_length, Nat.shiftRight_eq_div_pow]
    have h8 : (2:Nat) ^ (8 * n) = 256 ^ n := by
      rw [pow_mul]; norm_num
    rw [h8, pow_succ, Nat.mod_mul, Nat.add_comm, Nat.mul_comm]

theorem permute_foldl_lt (tbl : List Nat) (w x acc : Nat) :
    tbl.foldl (fun acc p => 2 * acc + (x >>> (w - p)) % 2) acc < (acc + 1) * 2 ^ tbl.length := by
  induction tbl generalizing acc with
  | nil => simp
  | cons p ps ih =>
    simp only [List.foldl_cons, List.length_cons]
    have h := ih (2 * acc + (x >>> (w - p)) % 2)
    have h2 : (x >>> (w - p)) % 2 < 2 := Nat.mod_lt _ (by norm_num)
    calc _ < (2 * acc + (x >>> (w - p)) % 2 + 1) * 2 ^ ps.length := h
      _ ≤ (2 * acc + 2) * 2 ^ ps.length := by
          apply Nat.mul_le_mul_right; omega
      _ = (acc + 1) * 2 ^ (ps.length + 1) := by ring

theorem permute_lt (tbl : List Nat) (w x : Nat) : permute tbl w x < 2 ^ tbl.length := by
  have := permute_foldl_lt tbl w x 0
  simpa [permute] using this

theorem permute_foldl_testBit (tbl : List Nat) (w x acc j : Nat) :
    (tbl.foldl (fun acc p => 2 * acc + (x >>> (w - p)) % 2) acc).testBit j =
      if j < tbl.length then x.testBit (w - tbl.getD (tbl.length - 1 - j) 0)
      else acc.testBit (j - tbl.length) := by
  induction tbl generalizing acc with
  | nil => simp
  | cons p ps ih =>
    simp only [List.foldl_cons, List.length_cons]
    rw [ih]
    by_cases h1 : j < ps.length
    · have h2 : j < ps.length + 1 := by omega
      simp only [h1, h2, if_true]
      have : ps.length + 1 - 1 - j = (ps.length - 1 - j) + 1 := by omega
      rw [this, List.getD_cons_succ]
    · simp only [h1, if_false]
      by_cases h3 : j = ps.length
      · subst h3
        simp only [Nat.sub_self, Nat.lt_succ_self, if_true, Nat.add_sub_cancel]
        simp only [List.getD_cons_zero]
        rw [Nat.testBit_zero, Nat.testBit, Nat.shiftRight_eq_div_pow]
        have hh : (2 * acc + x / 2 ^ (w - p) % 2) % 2 = x / 2 ^ (w - p) % 2 := by omega
        rw [hh]
        rcases Nat.mod_two_eq_zero_or_one (x / 2 ^ (w - p)) with h | h <;> simp [h, Nat.shiftRight_eq_div_pow]
      · have h4 : ¬ j < ps.length + 1 := by omega
        simp only [h4, if_false]
        have : j - ps.length = (j - (ps.length + 1)) + 1 := by omega
        rw [this, Nat.testBit_succ]
        congr 1
        have h2 : (x >>> (w - p)) % 2 < 2 := Nat.mod_lt _ (by norm_num)
        omega

theorem permute_testBit (tbl : List Nat) (w x j : Nat) :
    (permute tbl w x).testBit j =
      (decide (j < tbl.length) && x.testBit (w - tbl.getD (tbl.length - 1 - j) 0)) := by
  unfold permute
  rw [permute_foldl_testBit]
  by_cases h : j < tbl.length <;> simp [h]

/-- Two tables of 64 positions that undo each other. -/
theorem permute_inverse (t1 t2 : List Nat) (h1 : t1.length = 64) (h2 : t2.length = 64)
    (h : ∀ j, j < 64 → 64 - t1.getD (63 - j) 0 < 64 ∧
      64 - t2.getD (63 - (64 - t1.getD (63 - j) 0)) 0 = j)
    (y : Nat) (hy : y < 2 ^ 64) : permute t1 64 (permute t2 64 y) = y := by
  apply Nat.eq_of_testBit_eq
  intro j
  rw [permute_testBit, permute_testBit, h1, h2]
  by_cases hj : j < 64
  · obtain ⟨ha, hb⟩ := h j hj
    simp only [hj, decide_True, Bool.true_and]
    have e1 : 64 - 1 - j = 63 - j := by omega
    rw [e1]
    simp only [ha, decide_True, Bool.true_and]
    have e2 : 64 - 1 - (64 - t1.getD (63 - j) 0) = 63 - (64 - t1.getD (63 - j) 0) := by omega
    rw [e2, hb]
  · simp only [hj, decide_False, Bool.false_and]
    symm
    apply Nat.testBit_eq_false_of_lt
    calc y < 2 ^ 64 := hy
      _ ≤ 2 ^ j := Nat.pow_le_pow_right (by norm_num) (by omega)

theorem tblIP_tblFP (j : Nat) (hj : j < 64) : 64 - tblIP.getD (63 - j) 0 < 64 ∧
    64 - tblFP.getD (63 - (64 - tblIP.getD (63 - j) 0)) 0 = j := by
  revert j
  decide

theorem tblFP_tblIP (j : Nat) (hj : j < 64) : 64 - tblFP.getD (63 - j) 0 < 64 ∧
    64 - tblIP.getD (63 - (64 - tblFP.getD (63 - j) 0)) 0 = j := by
  revert j
  decide

theorem permute_IP_FP (y : Nat) (hy : y < 2 ^ 64) : permute tblIP 64 (permute tblFP 64 y) = y :=
  permute_inverse tblIP tblFP rfl rfl tblIP_tblFP y hy

theorem permute_FP_IP (y : Nat) (hy : y < 2 ^ 64) : permute tblFP 64 (permute tblIP 64 y) = y :=
  permute_inverse tblFP tblIP rfl rfl tblFP_tblIP y hy

theorem rounds_append (ks1 ks2 : List Nat) (s : Nat × Nat) :
    rounds (ks1 ++ ks2) s = rounds ks2 (rounds ks1 s) := by
  induction ks1 generalizing s with
  | nil => rfl
  | cons k ks ih =>
    obtain ⟨l, r⟩ := s
    exact ih (r, l ^^^ feistel r k)

theorem rounds_reverse (ks : List Nat) (l r : Nat) :
    rounds ks.reverse ((rounds ks (l, r)).2, (rounds ks (l, r)).1) = (r, l) := by
  induction ks generalizing l r with
  | nil => rfl
  | cons k ks ih =>
    simp only [List.reverse_cons, rounds_append, rounds]
    rw [ih]
    simp only [rounds]
    rw [Nat.xor_assoc, Nat.xor_self, Nat.xor_zero]

theorem feistel_lt (r k : Nat) : feistel r k < 2 ^ 32 := by
  have := permute_lt tblP 32 (sboxes (permute tblE 32 r ^^^ k))
  simpa [feistel] using this

theorem rounds_lt (ks : List Nat) (l r : Nat) (hl : l < 2 ^ 32) (hr : r < 2 ^ 32) :
    (rounds ks (l, r)).1 < 2 ^ 32 ∧ (rounds ks (l, r)).2 < 2 ^ 32 := by
  induction ks generalizing l r with
  | nil => exact ⟨hl, hr⟩
  | cons k ks ih =>
    simp only [rounds]
    exact ih r (l ^^^ feistel r k) hr (Nat.xor_lt_two_pow hl (feistel_lt r k))

theorem crypt_reverse (keys : List Nat) (block : List Nat) (hb : IsBytes 8 block) :
    crypt keys.reverse (crypt keys block) = block := by
  have hv : beValue block < 2 ^ 64 := by
    have := beValue_lt 8 block hb
    norm_num at this ⊢
    exact this
  have hip : permute tblIP 64 (beValue block) < 2 ^ 64 := by
    have := permute_lt tblIP 64 (beValue block)
    simpa [tblIP] using this
  set b := permute tblIP 64 (beValue block) with hbdef
  have hL : b >>> 32 < 2 ^ 32 := by
    rw [Nat.shiftRight_eq_div_pow]
    apply Nat.div_lt_of_lt_mul
    calc b < 2 ^ 64 := hip
      _ = 2 ^ 32 * 2 ^ 32 := by norm_num
  have hR : b % 4294967296 < 2 ^ 32 := Nat.mod_lt _ (by norm_num)
  obtain ⟨hs1, hs2⟩ := rounds_lt keys (b >>> 32) (b % 4294967296) hL hR
  set s := rounds keys (b >>> 32, b % 4294967296) with hsdef
  have hY : s.2 * 4294967296 + s.1 < 2 ^ 64 := by
    have : s.2 ≤ 2 ^ 32 - 1 := by omega
    norm_num at hs1 hs2 this ⊢
    omega
  have e1 : crypt keys block = beBytes 8 (permute tblFP 64 (s.2 * 4294967296 + s.1)) := by
    simp only [crypt, ← hbdef, ← hsdef]
  rw [e1]
  have hfp : permute tblFP 64 (s.2 * 4294967296 + s.1) < 2 ^ 64 := by
    have := permute_lt tblFP 64 (s.2 * 4294967296 + s.1)
    simpa [tblFP] using this
  simp only [crypt]
  rw [beValue_beBytes, Nat.mod_eq_of_lt (by norm_num at hfp ⊢; exact hfp), permute_IP_FP _ hY]
  have e2 : (s.2 * 4294967296 + s.1) >>> 32 = s.2 := by
    rw [Nat.shiftRight_eq_div_pow]
    norm_num at hs1 ⊢
    omega
  have e3 : (s.2 * 4294967296 + s.1) % 4294967296 = s.1 := by
    norm_num at hs1
    omega
  rw [e2, e3, hsdef, rounds_reverse]
  simp only
  have e4 : b >>> 32 * 4294967296 + b % 4294967296 = b := by
    rw [Nat.shiftRight_eq_div_pow]
    norm_num
    omega
  rw [e4, hbdef, permute_FP_IP _ hv, beBytes_beValue 8 block hb]

end Des

theorem des_wellTyped : des.WellTyped := by
  intro k b _ _
  exact ⟨Des.beBytes_isBytes 8 _, Des.beBytes_isBytes 8 _⟩

theorem des_inverts : des.Inverts := by
  intro k b _ hb
  exact Des.crypt_reverse (Des.roundKeys k) b hb

theorem isBytes_finite (n : Nat) : {l : List Nat | IsBytes n l}.Finite := by
  apply Set.Finite.subset ((List.finite_length_eq (Fin 256) n).image (List.map Fin.val))
  intro l hl
  obtain ⟨hlen, hlt⟩ := hl
  refine ⟨l.pmap (fun x hx => (⟨x, hx⟩ : Fin 256)) hlt, ?_, ?_⟩
  · simp [hlen]
  · rw [List.map_pmap]
    simp

theorem DesCipher.encrypt_decrypt (D : DesCipher) (hT : D.WellTyped) (hI : D.Inverts)
    (k b : List Nat) (hk : IsBytes 8 k) (hb : IsBytes 8 b) :
    D.encryptBlock k (D.decryptBlock k b) = b := by
  have hmaps : Set.MapsTo (D.encryptBlock k) {l | IsBytes 8 l} {l | IsBytes 8 l} :=
    fun x hx => (hT k x hk hx).1
  have hinj : Set.InjOn (D.encryptBlock k) {l | IsBytes 8 l} := by
    intro x hx y hy hxy
    have h1 := hI k x hk hx
    have h2 := hI k y hk hy
    rw [← h1, ← h2, hxy]
  have hbij := ((isBytes_finite 8).injOn_iff_bijOn_of_mapsTo hmaps).mp hinj
  obtain ⟨x, hx, hxb⟩ := hbij.surjOn hb
  rw [← hxb, hI k x hk hx]

theorem isBytes_take (n k : Nat) (l : List Nat) (h : IsBytes n l) (hk : k ≤ n) :
    IsBytes k (l.take k) := by
  obtain ⟨hlen, hlt⟩ := h
  refine ⟨by simp [hlen, hk], fun x hx => hlt x (List.mem_of_mem_take hx)⟩

theorem isBytes_drop (n k : Nat) (l : List Nat) (h : IsBytes n l) :
    IsBytes (n - k) (l.drop k) := by
  obtain ⟨hlen, hlt⟩ := h
  refine ⟨by simp [hlen], fun x hx => hlt x (List.mem_of_mem_drop hx)⟩

/-- C4. For every 16-byte key and every 8-byte block, `doubleDesDecrypt` undoes
`doubleDesEncrypt` under the same key, for any single-key cipher that maps 8-byte keys
and blocks to 8-byte blocks and whose decryption inverts its encryption. -/
theorem C4_doubleDes_roundtrip (D : DesCipher) (hT : D.WellTyped) (hI : D.Inverts)
    (key block : List Nat) (hk : IsBytes 16 key) (hb : IsBytes 8 block) :
    doubleDesDecrypt D key (doubleDesEncrypt D key block) = block := by
  have hk1 : IsBytes 8 (key.take 8) := isBytes_take 16 8 key hk (by omega)
  have hk2 : IsBytes 8 ((key.drop 8).take 8) :=
    isBytes_take 8 8 _ (isBytes_drop 16 8 key hk) (by omega)
  have e1 : IsBytes 8 (D.encryptBlock (key.take 8) block) := (hT _ _ hk1 hb).1
  have e2 : IsBytes 8 (D.decryptBlock ((key.drop 8).take 8) (D.encryptBlock (key.take 8) block)) :=
    (hT _ _ hk2 e1).2
  simp only [doubleDesDecrypt, doubleDesEncrypt, desEncrypt, desDecrypt]
  rw [hI _ _ hk1 e2, D.encrypt_decrypt hT hI _ _ hk2 e1, hI _ _ hk1 hb]

theorem monthmap_daysInMonth (E : Env) (month year : Nat) (h1 : 1 ≤ month) (h2 : month ≤ 12) :
    (if month = 2 ∧ year % 4 = 0 then 29 else monthmapAt E month) = daysInMonth month year := by
  have h : monthmapAt E month = monthmap.getD (month - 1) 0 := by
    unfold monthmapAt
    rw [if_pos ⟨h1, by omega⟩]
  rw [h]
  interval_cases month <;> simp [monthmap, daysInMonth]

theorem rtcTick_eq_nextCalendarSecond (E : Env) (r : cdvdRTC) (h : ValidClock r) :
    rtcTick E r = nextCalendarSecond r := by
  obtain ⟨hs, hm, hh, hmo1, hmo2, hd1, hd2, hy⟩ := h
  have hdim : daysInMonth r.month r.year ≤ 31 := by
    unfold daysInMonth; split_ifs <;> omega
  unfold rtcTick nextCalendarSecond
  rw [monthmap_daysInMonth E r.month r.year hmo1 hmo2]
  have e1 : (r.second + 1) % 256 = r.second + 1 := Nat.mod_eq_of_lt (by omega)
  have e2 : (r.minute + 1) % 256 = r.minute + 1 := Nat.mod_eq_of_lt (by omega)
  have e3 : (r.hour + 1) % 256 = r.hour + 1 := Nat.mod_eq_of_lt (by omega)
  have e4 : (r.day + 1) % 256 = r.day + 1 := Nat.mod_eq_of_lt (by omega)
  have e5 : (r.month + 1) % 256 = r.month + 1 := Nat.mod_eq_of_lt (by omega)
  have e6 : (r.year + 1) % 256 = r.year + 1 := Nat.mod_eq_of_lt (by omega)
  rw [e1, e2, e3, e4, e5, e6]
  by_cases c1 : r.second < 59
  · have : r.second + 1 < 60 := by omega
    simp [c1, this]
  · have n1 : ¬ r.second + 1 < 60 := by omega
    simp only [c1, n1, if_false]
    by_cases c2 : r.minute < 59
    · have : r.minute + 1 < 60 := by omega
      simp [c2, this]
    · have n2 : ¬ r.minute + 1 < 60 := by omega
      simp only [c2, n2, if_false]
      by_cases c3 : r.hour < 23
      · have : r.hour + 1 < 24 := by omega
        simp [c3, this]
      · have n3 : ¬ r.hour + 1 < 24 := by omega
        simp only [c3, n3, if_false]
        by_cases c4 : r.day < daysInMonth r.month r.year
        · have : r.day + 1 ≤ daysInMonth r.month r.year := by omega
          simp [c4, this]
        · have n4 : ¬ r.day + 1 ≤ daysInMonth r.month r.year := by omega
          simp only [c4, n4, if_false]
          by_cases c5 : r.month < 12
          · have : r.month + 1 ≤ 12 := by omega
            simp [c5, this]
          · have n5 : ¬ r.month + 1 ≤ 12 := by omega
            simp only [c5, n5, if_false]
            by_cases c6 : r.year + 1 < 100
            · simp [c6, Nat.mod_eq_of_lt c6]
            · have : r.year + 1 = 100 := by omega
              simp [this]

theorem cdvdDetectDisk_RTC (E : Env) (m : Machine) :
    (cdvdDetectDisk E m).cdvd.RTC = m.cdvd.RTC := by
  unfold cdvdDetectDisk
  simp only [Machine.upd]
  split_ifs <;> rfl

theorem cdvdCtrlTrayClose_RTC (E : Env) (m : Machine) :
    (cdvdCtrlTrayClose E m).cdvd.RTC = m.cdvd.RTC := by
  unfold cdvdCtrlTrayClose
  rw [cdvdDetectDisk_RTC]
  split_ifs <;> rfl

theorem cdvdUpdateReady_RTC (m : Machine) (v : Nat) :
    (cdvdUpdateReady m v).cdvd.RTC = m.cdvd.RTC := rfl

theorem cdvdUpdateStatus_RTC (m : Machine) (v : Nat) :
    (cdvdUpdateStatus m v).cdvd.RTC = m.cdvd.RTC := rfl

theorem cdvdUpdateTrayState_RTC (E : Env) (m : Machine) :
    (cdvdUpdateTrayState E m).cdvd.RTC = m.cdvd.RTC := by
  unfold cdvdUpdateTrayState
  by_cases h1 : m.cdvd.Tray.cdvdActionSeconds > 0
  · by_cases h2 : m.cdvd.Tray.cdvdActionSeconds - 1 = 0
    · by_cases h3 : E.sourceType = CDVD_SourceType.NoDisc <;>
        cases hts : m.cdvd.Tray.trayState <;>
        simp [Machine.upd, h1, h2, h3, hts, cdvdCtrlTrayClose_RTC, cdvdUpdateStatus, cdvdUpdateReady]
    · simp [Machine.upd, h1, h2]
  · simp [h1]

/-- C8. When `cdvdVsync` performs the one-second tick on a valid clock value, the clock
becomes the next second of the calendar: second 59 rolls to 0 and carries into the
minute, minute 59 into the hour, hour 23 into the day; after 28 February comes 29
February exactly in the years divisible by 4; after 31 December 23:59:59 comes
1 January 00:00:00 of year `(year + 1) mod 100`. -/
theorem C8_rtc_tick_next_calendar_second (E : Env) (m : Machine)
    (hv : ValidClock m.cdvd.RTC) (ht : E.verticalFrequency ≤ m.cdvd.RTCcount + 1) :
    (cdvdVsync E m).cdvd.RTC = nextCalendarSecond m.cdvd.RTC ∧
    (m.cdvd.RTC.second = 59 →
      (cdvdVsync E m).cdvd.RTC.second = 0 ∧
      (m.cdvd.RTC.minute < 59 → (cdvdVsync E m).cdvd.RTC.minute = m.cdvd.RTC.minute + 1) ∧
      (m.cdvd.RTC.minute = 59 →
        (cdvdVsync E m).cdvd.RTC.minute = 0 ∧
        (m.cdvd.RTC.hour < 23 → (cdvdVsync E m).cdvd.RTC.hour = m.cdvd.RTC.hour + 1) ∧
        (m.cdvd.RTC.hour = 23 → (cdvdVsync E m).cdvd.RTC.hour = 0))) ∧
    (m.cdvd.RTC.month = 2 → m.cdvd.RTC.day = 28 → m.cdvd.RTC.hour = 23 →
      m.cdvd.RTC.minute = 59 → m.cdvd.RTC.second = 59 →
      (((cdvdVsync E m).cdvd.RTC.month = 2 ∧ (cdvdVsync E m).cdvd.RTC.day = 29) ↔
        m.cdvd.RTC.year % 4 = 0)) ∧
    (m.cdvd.RTC.month = 12 → m.cdvd.RTC.day = 31 → m.cdvd.RTC.hour = 23 →
      m.cdvd.RTC.minute = 59 → m.cdvd.RTC.second = 59 →
      (cdvdVsync E m).cdvd.RTC.second = 0 ∧ (cdvdVsync E m).cdvd.RTC.minute = 0 ∧
      (cdvdVsync E m).cdvd.RTC.hour = 0 ∧ (cdvdVsync E m).cdvd.RTC.day = 1 ∧
      (cdvdVsync E m).cdvd.RTC.month = 1 ∧
      (cdvdVsync E m).cdvd.RTC.year = (m.cdvd.RTC.year + 1) % 100) := by
  have hmain : (cdvdVsync E m).cdvd.RTC = nextCalendarSecond m.cdvd.RTC := by
    unfold cdvdVsync
    have hn : ¬ (m.cdvd.RTCcount + 1 < E.verticalFrequency) := by omega
    simp only [Machine.upd, hn, if_false]
    rw [cdvdUpdateTrayState_RTC]
    exact rtcTick_eq_nextCalendarSecond E _ hv
  refine ⟨hmain, ?_, ?_, ?_⟩
  · intro h59
    rw [hmain]
    unfold nextCalendarSecond
    simp only [h59, lt_irrefl, if_false]
    refine ⟨?_, ?_, ?_⟩
    · split_ifs <;> rfl
    · intro h; simp [h]
    · intro h
      simp only [h, lt_irrefl, if_false]
      refine ⟨?_, ?_, ?_⟩
      · split_ifs <;> rfl
      · intro h2; simp [h2]
      · intro h2
        simp only [h2, lt_irrefl, if_false]
        split_ifs <;> rfl
  · intro h1 h2 h3 h4 h5
    rw [hmain]
    unfold nextCalendarSecond
    simp only [h1, h2, h3, h4, h5, lt_irrefl, if_false, daysInMonth, if_true]
    by_cases hy : m.cdvd.RTC.year % 4 = 0
    · simp [hy, h1]
    · simp [hy, h1]
  · intro h1 h2 h3 h4 h5
    rw [hmain]
    unfold nextCalendarSecond
    simp [h1, h2, h3, h4, h5, daysInMonth]

/-- The round trip under DES itself, with a key of two different halves. -/
theorem C4_doubleDes_roundtrip_witness :
    doubleDesDecrypt des [0x01, 0x23, 0x45, 0x67, 0x89, 0xAB, 0xCD, 0xEF, 0xFE, 0xDC, 0xBA, 0x98, 0x76, 0x54, 0x32, 0x10]
      (doubleDesEncrypt des
        [0x01, 0x23, 0x45, 0x67, 0x89, 0xAB, 0xCD, 0xEF, 0xFE, 0xDC, 0xBA, 0x98, 0x76, 0x54, 0x32, 0x10]
        [0x4E, 0x6F, 0x77, 0x20, 0x69, 0x73, 0x20, 0x74]) =
      [0x4E, 0x6F, 0x77, 0x20, 0x69, 0x73, 0x20, 0x74] :=
  C4_doubleDes_roundtrip des des_wellTyped des_inverts _ _ (by decide) (by decide)

/-- The tick at 23:59:59 on 28 February of year 24 gives 00:00:00 on 29 February. -/
theorem C8_rtc_tick_next_calendar_second_witness :
    (cdvdVsync demoEnv leapEveDrive).cdvd.RTC =
      { status := 0, second := 0, minute := 0, hour := 0, pad := 0, day := 29, month := 2, year := 24 } :=
  (C8_rtc_tick_next_calendar_second demoEnv leapEveDrive (by decide) (by decide)).1.trans (by decide)

/-- C3, as stated, fails: on a ready drive without a disc, `N_CD_READ` written with no
parameters (the table asks for 11) ends with error 0x12, not 0x22. -/
theorem C3_param_mismatch_counterexample :
    ¬ (∀ (E : Env) (m : Machine) (c : Nat), c ≤ 0x0F → cdvdParamLength.getD c 0 ≠ 255 →
        m.cdvd.NCMDParamC ≠ cdvdParamLength.getD c 0 → (cdvdWrite04 E m c).cdvd.Error = 0x22) := by
  intro h
  have h1 := h demoEnv noDiscDrive N_CD_READ (by decide) (by decide) (by decide)
  have h2 : (cdvdWrite04 demoEnv noDiscDrive N_CD_READ).cdvd.Error = 0x12 := by decide!
  rw [h2] at h1
  exact absurd h1 (by decide)

/-- C3, amended. For every N-command code `c ≤ 0x0F` whose entry in `cdvdParamLength` is
not 255, written while `NCMDParamC` differs from that entry: no read begins (the only
event is the interrupt request of `cdvdSetIrq`, and the IOP event table is untouched);
and when the drive is ready and, for `c > 0`, the tray is closed on a disc, `cdvd.Error`
becomes 0x22. -/
theorem C3_param_mismatch_error_0x22 (E : Env) (m : Machine) (c : Nat) (hc : c ≤ 0x0F)
    (hfix : cdvdParamLength.getD c 0 ≠ 255) (hne : m.cdvd.NCMDParamC ≠ cdvdParamLength.getD c 0) :
    ((cdvdWrite04 E m c).trace = m.trace ++ [Event.iopIntcIrq] ∧ (cdvdWrite04 E m c).iop = m.iop) ∧
    (m.cdvd.Ready &&& CDVD_DRIVE_READY ≠ 0 →
      (c = 0 ∨ (m.cdvd.Status &&& CDVD_STATUS_TRAY_OPEN = 0 ∧ m.cdvd.DiscType ≠ CDVD_TYPE_NODISC)) →
      (cdvdWrite04 E m c).cdvd.Error = 0x22) := by
  have hlt : c < 16 := by omega
  unfold cdvdWrite04
  by_cases hr : m.cdvd.Ready &&& CDVD_DRIVE_READY = 0
  · simp [hr, cdvdSetIrq, clearNParams, Machine.upd, Machine.emit]
  · simp only [hr, if_false]
    unfold cdvdCommandErrorHandler
    by_cases ht : c > N_CD_NOP ∧
        (m.cdvd.Status &&& CDVD_STATUS_TRAY_OPEN ≠ 0 ∨ m.cdvd.DiscType = CDVD_TYPE_NODISC)
    · simp only [Machine.upd, ht, and_self, if_true]
      refine ⟨by simp [commandError, cdvdSetIrq, clearNParams, Machine.upd, Machine.emit], ?_⟩
      intro _ h
      exfalso
      rcases h with h | ⟨h1, h2⟩
      · simp [h, N_CD_NOP] at ht
      · rcases ht.2 with h3 | h3
        · exact h3 h1
        · exact h2 h3
    · have h22 : m.cdvd.NCMDParamC ≠ cdvdParamLengthAt E c ∧ cdvdParamLengthAt E c ≠ 255 := by
        unfold cdvdParamLengthAt
        rw [if_pos hlt]
        exact ⟨hne, hfix⟩
      simp [Machine.upd, ht, h22, commandError, cdvdSetIrq, clearNParams, Machine.emit]

/-- `N_CD_READ` written to the ready `demoDrive` with no parameters. -/
theorem C3_param_mismatch_error_0x22_witness :
    ((cdvdWrite04 demoEnv demoDrive N_CD_READ).trace = demoDrive.trace ++ [Event.iopIntcIrq] ∧
      (cdvdWrite04 demoEnv demoDrive N_CD_READ).iop = demoDrive.iop) ∧
    (cdvdWrite04 demoEnv demoDrive N_CD_READ).cdvd.Error = 0x22 :=
  ⟨(C3_param_mismatch_error_0x22 demoEnv demoDrive N_CD_READ (by decide) (by decide) (by decide)).1,
   (C3_param_mismatch_error_0x22 demoEnv demoDrive N_CD_READ (by decide) (by decide) (by decide)).2
     (by decide) (Or.inr ⟨by decide, by decide⟩)⟩

theorem readRangeError_spec (E : Env) (m : Machine)
    (hlat : 0 < E.cdvdRotationalLatency
      ((cdvdUpdateReady (cdvdUpdateStatus (m.upd fun c => { c with Action := cdvdActions.cdvdAction_Error })
        CDVD_STATUS_SEEK) CDVD_DRIVE_BUSY).cdvd)
      (cdvdIsDVDMode m.cdvd)) :
    (readRangeError E m).cdvd.Error = m.cdvd.Error ∧
    (readRangeError E m).cdvd.Ready = CDVD_DRIVE_BUSY ||| (CDVD_DRIVE_MECHA_INIT ||| CDVD_DRIVE_DEV9CON) ∧
    (readRangeError E m).cdvd.Action = cdvdActions.cdvdAction_Error ∧
    (∃ lat, 0 < lat ∧ (readRangeError E m).trace = m.trace ++ [Event.psxInt IopEvt.IopEvt_Cdvd lat]) ∧
    (readRangeError E m).iop.evCdvdRead = m.iop.evCdvdRead ∧
    (readRangeError E m).iop.evCdvdSectorReady = m.iop.evCdvdSectorReady := by
  unfold readRangeError CDVD_INT
  have hmode : cdvdIsDVDMode (cdvdUpdateReady (cdvdUpdateStatus
      (m.upd fun c => { c with Action := cdvdActions.cdvdAction_Error }) CDVD_STATUS_SEEK)
      CDVD_DRIVE_BUSY).cdvd = cdvdIsDVDMode m.cdvd := rfl
  simp only [hmode]
  have hne : E.cdvdRotationalLatency
      ((cdvdUpdateReady (cdvdUpdateStatus (m.upd fun c => { c with Action := cdvdActions.cdvdAction_Error })
        CDVD_STATUS_SEEK) CDVD_DRIVE_BUSY).cdvd) (cdvdIsDVDMode m.cdvd) ≠ 0 := by omega
  rw [if_neg hne]
  refine ⟨rfl, rfl, rfl, ⟨_, hlat, rfl⟩, rfl, rfl⟩

theorem SameRead.refl (a : Machine) : SameRead a a := ⟨rfl, rfl, rfl, rfl, rfl, rfl, rfl, rfl⟩

theorem SameRead.trans {a b c : Machine} (h1 : SameRead a b) (h2 : SameRead b c) : SameRead a c := by
  obtain ⟨a1, a2, a3, a4, a5, a6, a7, a8⟩ := h1
  obtain ⟨b1, b2, b3, b4, b5, b6, b7, b8⟩ := h2
  exact ⟨b1.trans a1, b2.trans a2, b3.trans a3, b4.trans a4, b5.trans a5, b6.trans a6, b7.trans a7,
    b8.trans a8⟩

theorem speedChange_same (m : Machine) (a b : Nat) : SameRead m (speedChange m a b) := by
  unfold speedChange
  split
  · exact ⟨rfl, rfl, rfl, rfl, rfl, rfl, rfl, rfl⟩
  · exact SameRead.refl m

theorem cdvdIsDVD_congr (a b : cdvdStruct) (h : b.DiscType = a.DiscType) : cdvdIsDVD b = cdvdIsDVD a := by
  unfold cdvdIsDVD
  rw [h]

theorem decodeDvdRead_same (m : Machine) : SameRead (loadReadParams m) (decodeDvdRead m).1 := by
  unfold decodeDvdRead
  lift_lets
  extract_lets m0 old p9 m1 oldSpeed sp r m2 perr
  have h1 : SameRead m0 m1 := ⟨rfl, rfl, rfl, rfl, rfl, rfl, rfl, rfl⟩
  have hr : SameRead m1 r.1 := by
    simp only [r]
    split_ifs <;> exact ⟨rfl, rfl, rfl, rfl, rfl, rfl, rfl, rfl⟩
  have h2 : SameRead r.1 m2 := speedChange_same _ _ _
  have h3 : SameRead m2 (m2.upd fun c => { c with ReadMode := CDVD_MODE_2048, BlockSize := 2064 }) :=
    ⟨rfl, rfl, rfl, rfl, rfl, rfl, rfl, rfl⟩
  exact ((h1.trans hr).trans h2).trans h3

theorem decodeCdRead_same (m : Machine) : SameRead (loadReadParams m) (decodeCdRead m).1 := by
  unfold decodeCdRead
  lift_lets
  extract_lets m0 old p9 m1 oldSpeed sp r m2 p10
  have h1 : SameRead m0 m1 := ⟨rfl, rfl, rfl, rfl, rfl, rfl, rfl, rfl⟩
  have hr : SameRead m1 r.1 := by
    simp only [r]
    split_ifs <;> exact ⟨rfl, rfl, rfl, rfl, rfl, rfl, rfl, rfl⟩
  have h2 : SameRead r.1 m2 := speedChange_same _ _ _
  have h12 := (h1.trans hr).trans h2
  split_ifs
  · exact h12
  · exact h12.trans ⟨rfl, rfl, rfl, rfl, rfl, rfl, rfl, rfl⟩
  · exact h12.trans ⟨rfl, rfl, rfl, rfl, rfl, rfl, rfl, rfl⟩
  · exact h12.trans ⟨rfl, rfl, rfl, rfl, rfl, rfl, rfl, rfl⟩
  · exact h12

theorem decodeDvdRead_valid (m : Machine) (h : ReadParamsValid m.cdvd N_DVD_READ) :
    (decodeDvdRead m).2 = false := by
  have hs := decodeDvdRead_same m
  unfold ReadParamsValid at h
  rw [if_pos rfl] at h
  obtain ⟨_, hsp, hp10⟩ := h
  unfold decodeDvdRead at hs ⊢
  lift_lets at hs ⊢
  extract_lets m0 old p9 m1 oldSpeed sp r m2 perr at hs ⊢
  have hsp2 : sp = effectiveSpeedCode (m.cdvd.NCMDParam.getD 9 0) 3 := rfl
  have hr : r.2 = false := by
    simp only [r]
    rcases hsp with h1 | h1 | h1 <;> rw [hsp2, h1] <;> rfl
  have hr1 : SameRead m1 r.1 := by
    simp only [r]
    split_ifs <;> exact ⟨rfl, rfl, rfl, rfl, rfl, rfl, rfl, rfl⟩
  have hp : m2.cdvd.NCMDParam = m.cdvd.NCMDParam := (hr1.trans (speedChange_same _ _ _)).2.2.2.2.2.2.2
  show perr = false
  simp only [perr, hr, hp, hp10]
  rfl

theorem decodeCdRead_valid (m : Machine) (h : ReadParamsValid m.cdvd N_CD_READ) :
    (decodeCdRead m).2 = false := by
  unfold ReadParamsValid at h
  rw [if_neg (by decide)] at h
  unfold decodeCdRead
  lift_lets
  extract_lets m0 old p9 m1 oldSpeed sp r m2 p10
  have hr1 : SameRead m1 r.1 := by
    simp only [r]
    split_ifs <;> exact ⟨rfl, rfl, rfl, rfl, rfl, rfl, rfl, rfl⟩
  have h12 : SameRead m1 m2 := hr1.trans (speedChange_same _ _ _)
  have hp : p10 = m.cdvd.NCMDParam.getD 10 0 := by
    show m2.cdvd.NCMDParam.getD 10 0 = _
    rw [h12.2.2.2.2.2.2.2]
    rfl
  have hd1 : cdvdIsDVD m1.cdvd = cdvdIsDVD m.cdvd := rfl
  have hd2 : cdvdIsDVD m2.cdvd = cdvdIsDVD m.cdvd := by
    rw [cdvdIsDVD_congr m1.cdvd m2.cdvd h12.2.2.2.2.2.2.1]
    rfl
  by_cases hdvd : cdvdIsDVD m.cdvd = true
  · rw [if_pos hdvd] at h
    obtain ⟨hsp, hp10⟩ := h
    have hsp2 : sp = effectiveSpeedCode (m.cdvd.NCMDParam.getD 9 0) 3 := by
      show (if p9 &&& 0x3F ≠ 0 then p9 else (p9 &&& 0x80) ||| (if cdvdIsDVD m.cdvd then 3 else 5))
        &&& CDVD_SPINDLE_SPEED = _
      rw [if_pos hdvd]
      rfl
    have hr : r.2 = false := by
      simp only [r]
      rcases hsp with h1 | h1 | h1 <;> rw [hsp2, h1] <;> rfl
    rw [hp, hp10, hd2, hr]
    simp
  · rw [if_neg hdvd] at h
    obtain ⟨hsp, hp10⟩ := h
    have hsp2 : sp = effectiveSpeedCode (m.cdvd.NCMDParam.getD 9 0) 5 := by
      show (if p9 &&& 0x3F ≠ 0 then p9 else (p9 &&& 0x80) ||| (if cdvdIsDVD m.cdvd then 3 else 5))
        &&& CDVD_SPINDLE_SPEED = _
      rw [if_neg hdvd]
      rfl
    have hr : r.2 = false := by
      simp only [r]
      rcases hsp with h1 | h1 | h1 | h1 | h1 <;> rw [hsp2, h1, hd1] <;> simp [hdvd]
    rw [hd2, hr, hp]
    have : m.cdvd.NCMDParam.getD 10 0 = 0 ∨ m.cdvd.NCMDParam.getD 10 0 = 1 ∨
        m.cdvd.NCMDParam.getD 10 0 = 2 := by omega
    rcases this with h1 | h1 | h1 <;> rw [h1] <;> simp [hdvd]

theorem cdvdWrite04_read_reaches (E : Env) (m : Machine) (rt : Nat)
    (hrt : rt = N_CD_READ ∨ rt = N_DVD_READ)
    (hready : m.cdvd.Ready &&& CDVD_DRIVE_READY ≠ 0)
    (htray : m.cdvd.Status &&& CDVD_STATUS_TRAY_OPEN = 0)
    (hdisc : m.cdvd.DiscType ≠ CDVD_TYPE_NODISC)
    (hparamc : m.cdvd.NCMDParamC = 11)
    (hvalid : ReadParamsValid m.cdvd rt) :
    ∃ d : Machine, SameRead (loadReadParams m) d ∧
      cdvdWrite04 E m rt = clearNParams
        (if (cdvdReadErrorHandler d).2 = false then readRangeError E (cdvdReadErrorHandler d).1
         else beginRead E (cdvdReadErrorHandler d).1 (if rt = N_CD_READ then cdvdIsDVDMode (cdvdReadErrorHandler d).1.cdvd else MODE_DVDROM)) := by
  have hlen : cdvdParamLengthAt E rt = 11 := by
    rcases hrt with h | h <;> subst h <;> rfl
  have hh : cdvdCommandErrorHandler E (m.upd fun c => { c with nCommand := rt, AbortRequested := false })
      = (m.upd fun c => { c with nCommand := rt, AbortRequested := false }, true) := by
    unfold cdvdCommandErrorHandler
    have h1 : ¬ ((m.upd fun c => { c with nCommand := rt, AbortRequested := false }).cdvd.nCommand > N_CD_NOP ∧
      ((m.upd fun c => { c with nCommand := rt, AbortRequested := false }).cdvd.Status &&& CDVD_STATUS_TRAY_OPEN ≠ 0 ∨
        (m.upd fun c => { c with nCommand := rt, AbortRequested := false }).cdvd.DiscType = CDVD_TYPE_NODISC)) := by
      rintro ⟨_, h | h⟩
      · exact h htray
      · exact hdisc h
    rw [if_neg h1]
    have h2 : ¬ ((m.upd fun c => { c with nCommand := rt, AbortRequested := false }).cdvd.NCMDParamC ≠
        cdvdParamLengthAt E (m.upd fun c => { c with nCommand := rt, AbortRequested := false }).cdvd.nCommand ∧
        cdvdParamLengthAt E (m.upd fun c => { c with nCommand := rt, AbortRequested := false }).cdvd.nCommand ≠ 255) := by
      rintro ⟨h, _⟩
      apply h
      show m.cdvd.NCMDParamC = cdvdParamLengthAt E rt
      rw [hlen, hparamc]
    rw [if_neg h2]
    have h3 : ¬ ((m.upd fun c => { c with nCommand := rt, AbortRequested := false }).cdvd.nCommand > N_CD_CHG_SPDL_CTRL) := by
      show ¬ (rt > N_CD_CHG_SPDL_CTRL)
      rcases hrt with h | h <;> subst h <;> decide
    rw [if_neg h3]
  unfold cdvdWrite04
  rw [if_neg hready]
  simp only [hh]
  rcases hrt with h | h
  · subst h
    refine ⟨(decodeCdRead (m.upd fun c => { c with nCommand := N_CD_READ, AbortRequested := false })).1,
      decodeCdRead_same _, ?_⟩
    have hv := decodeCdRead_valid (m.upd fun c => { c with nCommand := N_CD_READ, AbortRequested := false }) hvalid
    have hsw : nCommandSwitch E (m.upd fun c => { c with nCommand := N_CD_READ, AbortRequested := false })
        N_CD_READ = (nCdRead E (m.upd fun c => { c with nCommand := N_CD_READ, AbortRequested := false }),
          false) := rfl
    rw [hsw]
    unfold nCdRead
    simp only [hv]
    rfl
  · subst h
    have hvalid2 := hvalid
    unfold ReadParamsValid at hvalid2
    rw [if_pos rfl] at hvalid2
    refine ⟨(decodeDvdRead (m.upd fun c => { c with nCommand := N_DVD_READ, AbortRequested := false })).1,
      decodeDvdRead_same _, ?_⟩
    have hv := decodeDvdRead_valid (m.upd fun c => { c with nCommand := N_DVD_READ, AbortRequested := false }) hvalid
    have hdvd : cdvdIsDVD (m.upd fun c => { c with nCommand := N_DVD_READ, AbortRequested := false }).cdvd
      = true := hvalid2.1
    have hsw : nCommandSwitch E (m.upd fun c => { c with nCommand := N_DVD_READ, AbortRequested := false })
        N_DVD_READ = (nDvdRead E (m.upd fun c => { c with nCommand := N_DVD_READ, AbortRequested := false }),
          false) := by
      unfold nCommandSwitch
      simp [N_DVD_READ, N_CD_READ, N_CD_NOP, N_CD_RESET, N_CD_STANDBY, N_CD_STOP, N_CD_PAUSE, N_CD_SEEK,
        N_CD_READ_CDDA, N_CD_READ_XCDDA]
      exact hvalid2.1
    rw [hsw]
    unfold nDvdRead
    simp only [hv]
    rfl

theorem cdvdActionInterrupt_error (E : Env) (m : Machine)
    (h : m.cdvd.Action = cdvdActions.cdvdAction_Error) :
    (cdvdActionInterrupt E m).cdvd.Ready =
      (CDVD_DRIVE_READY ||| CDVD_DRIVE_ERROR) ||| (CDVD_DRIVE_MECHA_INIT ||| CDVD_DRIVE_DEV9CON) ∧
    (cdvdActionInterrupt E m).cdvd.Error = m.cdvd.Error := by
  unfold cdvdActionInterrupt
  simp only [h]
  constructor <;> (split_ifs <;> rfl)

/-- C5. `N_CD_READ` or `N_DVD_READ` written to a ready drive with a disc, eleven
parameters that raise no parameter error, a positive sector count and a target sector at
or beyond `cdvd.MaxSector`: `cdvd.Error` becomes 0x30 at once, the drive is busy with
`Action = cdvdAction_Error`, the only event is the scheduling of the action interrupt
(no seek, no read interrupt, no track read), and that interrupt sets `Ready` to
READY|ERROR. The rotational latency, a floating-point computation of the source, is
taken as positive. -/
theorem C5_read_past_MaxSector (E : Env) (m : Machine) (rt : Nat)
    (hrt : rt = N_CD_READ ∨ rt = N_DVD_READ)
    (hready : m.cdvd.Ready &&& CDVD_DRIVE_READY ≠ 0)
    (htray : m.cdvd.Status &&& CDVD_STATUS_TRAY_OPEN = 0)
    (hdisc : m.cdvd.DiscType ≠ CDVD_TYPE_NODISC)
    (hparamc : m.cdvd.NCMDParamC = 11)
    (hvalid : ReadParamsValid m.cdvd rt)
    (hcount : 0 < toS32 (leValue (slice m.cdvd.NCMDParam 4 4)))
    (hpast : m.cdvd.MaxSector ≤ leValue (slice m.cdvd.NCMDParam 0 4))
    (hlat : ∀ c mode, 0 < E.cdvdRotationalLatency c mode) :
    (cdvdWrite04 E m rt).cdvd.Error = 0x30 ∧
    (cdvdWrite04 E m rt).cdvd.Ready = CDVD_DRIVE_BUSY ||| (CDVD_DRIVE_MECHA_INIT ||| CDVD_DRIVE_DEV9CON) ∧
    (cdvdWrite04 E m rt).cdvd.Action = cdvdActions.cdvdAction_Error ∧
    (∃ lat, 0 < lat ∧ (cdvdWrite04 E m rt).trace = m.trace ++ [Event.psxInt IopEvt.IopEvt_Cdvd lat]) ∧
    (cdvdWrite04 E m rt).iop.evCdvdRead = m.iop.evCdvdRead ∧
    (cdvdActionInterrupt E (cdvdWrite04 E m rt)).cdvd.Ready =
      (CDVD_DRIVE_READY ||| CDVD_DRIVE_ERROR) ||| (CDVD_DRIVE_MECHA_INIT ||| CDVD_DRIVE_DEV9CON) ∧
    (cdvdActionInterrupt E (cdvdWrite04 E m rt)).cdvd.Error = 0x30 := by
  obtain ⟨d, hd, heq⟩ := cdvdWrite04_read_reaches E m rt hrt hready htray hdisc hparamc hvalid
  obtain ⟨htr, hiop, -, hmax, hseek, hcnt, -, -⟩ := hd
  have hh : cdvdReadErrorHandler d = (d.upd fun c => { c with Error := 0x30 }, false) := by
    unfold cdvdReadErrorHandler
    have h1 : ¬ d.cdvd.nSectors ≤ 0 := by
      rw [hcnt]
      exact not_le.mpr hcount
    have h2 : d.cdvd.SeekToSector ≥ d.cdvd.MaxSector := by
      rw [hseek, hmax]
      exact hpast
    rw [if_neg h1, if_pos h2]
  rw [hh] at heq
  simp only [if_true] at heq
  obtain ⟨e1, e2, e3, ⟨lat, hl, e4⟩, e5, -⟩ :=
    readRangeError_spec E (d.upd fun c => { c with Error := 0x30 }) (hlat _ _)
  have hA : (cdvdWrite04 E m rt).cdvd.Action = cdvdActions.cdvdAction_Error := by
    rw [heq]
    exact e3
  have hE : (cdvdWrite04 E m rt).cdvd.Error = 0x30 := by
    rw [heq]
    exact e1
  have hI := cdvdActionInterrupt_error E (cdvdWrite04 E m rt) hA
  refine ⟨hE, ?_, hA, ⟨lat, hl, ?_⟩, ?_, hI.1, hI.2.trans hE⟩
  · rw [heq]
    exact e2
  · rw [heq]
    have htr2 : d.trace = m.trace := htr
    exact e4.trans (by rw [← htr2]; rfl)
  · rw [heq]
    have hiop2 : d.iop = m.iop := hiop
    exact e5.trans (by rw [← hiop2]; rfl)

set_option maxRecDepth 100000 in
theorem C5_read_past_MaxSector_witness :
    (cdvdWrite04 demoEnv readPastEndDrive N_DVD_READ).cdvd.Error = 0x30 ∧
    (cdvdWrite04 demoEnv readPastEndDrive N_DVD_READ).cdvd.Ready = 0x8A ∧
    (cdvdWrite04 demoEnv readPastEndDrive N_DVD_READ).trace =
      [Event.psxInt IopEvt.IopEvt_Cdvd 388042] ∧
    (cdvdActionInterrupt demoEnv (cdvdWrite04 demoEnv readPastEndDrive N_DVD_READ)).cdvd.Ready = 0xC9 := by
  have h := C5_read_past_MaxSector demoEnv readPastEndDrive N_DVD_READ (Or.inr rfl)
    (by decide!) (by decide!) (by decide!) (by decide!) (by decide!) (by decide!) (by decide!)
    (fun _ _ => by show 0 < 388042; decide)
  exact ⟨h.1, h.2.1.trans (by decide), by decide!, h.2.2.2.2.2.1.trans (by decide)⟩

theorem CDVDSECTORREADY_INT_trace (E : Env) (m : Machine) (t : Nat) :
    ∃ l, (CDVDSECTORREADY_INT E m t).trace = m.trace ++ l ∧ OnlySectorReady l := by
  unfold CDVDSECTORREADY_INT
  split
  · exact ⟨[], by simp, by intro e he; cases he⟩
  · refine ⟨[Event.psxInt IopEvt.IopEvt_CdvdSectorReady (speedHack E t)], rfl, ?_⟩
    intro e he
    exact ⟨_, List.mem_singleton.mp he⟩

theorem cdvdStartSeekFinish_trace (E : Env) (m : Machine) (s d : Nat) (b : Bool) :
    ∃ l, (cdvdStartSeekFinish E m s d b).1.trace = m.trace ++ l ∧ OnlySectorReady l := by
  unfold cdvdStartSeekFinish
  lift_lets
  extract_lets rot st mi r m1 m2
  have hr : ∃ l, r.1.trace = m.trace ++ l ∧ OnlySectorReady l := by
    simp only [r]
    split
    · exact CDVDSECTORREADY_INT_trace E m _
    · exact CDVDSECTORREADY_INT_trace E m _
  have h2 : m2.trace = r.1.trace := by
    simp only [m2, m1]
    split <;> rfl
  obtain ⟨l, hl, ho⟩ := hr
  exact ⟨l, h2.trans hl, ho⟩

theorem cdvdStartSeek_below (E : Env) (m : Machine) (newsector mode : Nat)
    (hd : seekDelta { m.cdvd with SeekToSector := newsector } < E.tbl_ContigiousSeekDelta mode) :
    ∃ l, (cdvdStartSeek E m newsector mode).1.trace =
        m.trace ++ Event.seekLog (if m.cdvd.Spinning then SeekLog.contiguous else SeekLog.spinUp) :: l ∧
      OnlySectorReady l := by
  unfold cdvdStartSeek
  lift_lets
  extract_lets m1 delta isSeeking m2 m3 m4 mSpin seektime mSpin2 mSpin3 mClr mClr2 mFull mFast mCont
    mRead mRead2 mC1 mC2
  have hdelta : delta = seekDelta { m.cdvd with SeekToSector := newsector } := rfl
  have hsp : m4.cdvd.Spinning = m.cdvd.Spinning := rfl
  rw [hsp]
  by_cases hs : m.cdvd.Spinning = true
  · have h1 : ¬ (m.cdvd.Spinning = false) := by simp [hs]
    have h2 : ¬ (E.tbl_ContigiousSeekDelta mode = 0 ∨ delta ≥ E.tbl_ContigiousSeekDelta mode) := by
      rw [hdelta]
      omega
    rw [if_neg h1, if_neg h2, if_pos hs]
    have hC : mCont.trace = m.trace ++ [Event.seekLog SeekLog.contiguous] := rfl
    have hR : mRead2.trace = mCont.trace := rfl
    have hC2 : mC2.trace = mCont.trace := rfl
    have key : ∀ (x : Machine × Nat), (∃ l, x.1.trace = mCont.trace ++ l ∧ OnlySectorReady l) →
        ∃ l, x.1.trace = m.trace ++ Event.seekLog SeekLog.contiguous :: l ∧ OnlySectorReady l := by
      rintro x ⟨l, hl, ho⟩
      refine ⟨l, ?_, ho⟩
      rw [hl, hC]
      simp
    apply key
    split_ifs
    · rw [← hR]
      exact cdvdStartSeekFinish_trace E mRead2 _ _ _
    · rw [← hR]
      exact cdvdStartSeekFinish_trace E mRead2 _ _ _
    · exact ⟨[], by simp [hR], by intro e he; cases he⟩
    · rw [← hC2]
      exact cdvdStartSeekFinish_trace E mC2 _ _ _
  · have h1 : m.cdvd.Spinning = false := by simpa using hs
    rw [if_pos h1, if_neg hs]
    have hS : mSpin2.trace = m.trace ++ [Event.seekLog SeekLog.spinUp] := rfl
    obtain ⟨l1, hl1, ho1⟩ := CDVDSECTORREADY_INT_trace E mSpin2 ((seektime + mSpin2.cdvd.ReadTime) % 4294967296)
    obtain ⟨l2, hl2, ho2⟩ := cdvdStartSeekFinish_trace E mSpin3 seektime delta isSeeking
    refine ⟨l1 ++ l2, ?_, ?_⟩
    · rw [hl2]
      show (CDVDSECTORREADY_INT E mSpin2 ((seektime + mSpin2.cdvd.ReadTime) % 4294967296)).trace ++ l2 = _
      rw [hl1, hS]
      simp
    · intro e he
      rcases List.mem_append.mp he with h | h
      · exact ho1 e h
      · exact ho2 e h

theorem cdvdStartSeek_zero_delta (E : Env) (m : Machine) (newsector mode : Nat)
    (hd : seekDelta { m.cdvd with SeekToSector := newsector } < E.tbl_ContigiousSeekDelta mode)
    (hs : m.cdvd.Spinning = true)
    (h0 : seekDelta { m.cdvd with SeekToSector := newsector } = 0)
    (hb : 0 < m.cdvd.nextSectorsBuffered) :
    (cdvdStartSeek E m newsector mode).1.cdvd.nextSectorsBuffered = m.cdvd.nextSectorsBuffered ∧
    (cdvdStartSeek E m newsector mode).1.iop = m.iop ∧
    (cdvdStartSeek E m newsector mode).1.trace = m.trace ++ [Event.seekLog SeekLog.contiguous] ∧
    (cdvdStartSeek E m newsector mode).2 = (m.cdvd.BlockSize / 4) * 12 := by
  unfold cdvdStartSeek
  lift_lets
  extract_lets m1 delta isSeeking m2 m3 m4 mSpin seektime mSpin2 mSpin3 mClr mClr2 mFull mFast mCont
    mRead mRead2 mC1 mC2
  have hdelta : delta = seekDelta { m.cdvd with SeekToSector := newsector } := rfl
  have hsp : m4.cdvd.Spinning = m.cdvd.Spinning := rfl
  have hnb : mRead2.cdvd.nextSectorsBuffered = m.cdvd.nextSectorsBuffered := rfl
  have h1 : ¬ (m4.cdvd.Spinning = false) := by rw [hsp]; simp [hs]
  have h2 : ¬ (E.tbl_ContigiousSeekDelta mode = 0 ∨ delta ≥ E.tbl_ContigiousSeekDelta mode) := by
    rw [hdelta]
    omega
  have h3 : delta = 0 := hdelta.trans h0
  have h4 : ¬ (mRead2.cdvd.nextSectorsBuffered = 0) := by rw [hnb]; omega
  rw [if_neg h1, if_neg h2, if_pos h3, if_neg h4]
  exact ⟨rfl, rfl, rfl, rfl⟩

/-- C6, as stated, fails: the spinning `demoDrive` at sector 0 with 16 sectors buffered,
asked for sector 4 of a DVD (distance 4, threshold 16), takes the contiguous branch
with a distance that is not zero, which resets the buffered-sector count to 0 and
arms the sector-ready event anew. -/
theorem C6_contiguous_seek_counterexample :
    seekDelta { demoDrive.cdvd with SeekToSector := 4 } < demoEnv.tbl_ContigiousSeekDelta MODE_DVDROM ∧
    0 < demoDrive.cdvd.nextSectorsBuffered ∧
    (cdvdStartSeek demoEnv demoDrive 4 MODE_DVDROM).1.cdvd.nextSectorsBuffered = 0 ∧
    (cdvdStartSeek demoEnv demoDrive 4 MODE_DVDROM).1.trace =
      [Event.seekLog SeekLog.contiguous, Event.psxInt IopEvt.IopEvt_CdvdSectorReady 394868] := by
  decide!

/-- C6, amended. For every drive state and every target sector whose distance from
`cdvd.Sector` is below `tbl_ContigiousSeekDelta[mode]`, `cdvdStartSeek` classifies the
operation as contiguous (as a spin-up when the drive does not spin), never as a fast
or full seek, and records nothing but schedulings of the sector-ready event; when the
drive spins, the distance is 0 and `nextSectorsBuffered > 0`, it leaves the
buffered-sector count and the IOP events untouched and returns `(BlockSize / 4) * 12`. -/
theorem C6_contiguous_seek (E : Env) (m : Machine) (newsector mode : Nat)
    (hd : seekDelta { m.cdvd with SeekToSector := newsector } < E.tbl_ContigiousSeekDelta mode) :
    (∃ l, (cdvdStartSeek E m newsector mode).1.trace =
        m.trace ++ Event.seekLog (if m.cdvd.Spinning then SeekLog.contiguous else SeekLog.spinUp) :: l ∧
      OnlySectorReady l) ∧
    (m.cdvd.Spinning = true → seekDelta { m.cdvd with SeekToSector := newsector } = 0 →
      0 < m.cdvd.nextSectorsBuffered →
      (cdvdStartSeek E m newsector mode).1.cdvd.nextSectorsBuffered = m.cdvd.nextSectorsBuffered ∧
      (cdvdStartSeek E m newsector mode).1.iop = m.iop ∧
      (cdvdStartSeek E m newsector mode).1.trace = m.trace ++ [Event.seekLog SeekLog.contiguous] ∧
      (cdvdStartSeek E m newsector mode).2 = (m.cdvd.BlockSize / 4) * 12) :=
  ⟨cdvdStartSeek_below E m newsector mode hd,
   fun hs h0 hb => cdvdStartSeek_zero_delta E m newsector mode hd hs h0 hb⟩

/-- The spinning `demoDrive` asked for the sector it is at. -/
theorem C6_contiguous_seek_witness :
    (cdvdStartSeek demoEnv demoDrive 0 MODE_DVDROM).1.cdvd.nextSectorsBuffered = 16 ∧
    (cdvdStartSeek demoEnv demoDrive 0 MODE_DVDROM).1.iop = demoDrive.iop ∧
    (cdvdStartSeek demoEnv demoDrive 0 MODE_DVDROM).1.trace = [Event.seekLog SeekLog.contiguous] ∧
    (cdvdStartSeek demoEnv demoDrive 0 MODE_DVDROM).2 = 6192 :=
  (C6_contiguous_seek demoEnv demoDrive 0 MODE_DVDROM (by decide)).2 (by decide) (by decide) (by decide)

theorem Machine.upd_trace (m : Machine) (f : cdvdStruct → cdvdStruct) : (m.upd f).trace = m.trace := rfl

theorem Machine.upd_iop (m : Machine) (f : cdvdStruct → cdvdStruct) : (m.upd f).iop = m.iop := rfl

theorem Machine.upd_ks (m : Machine) (f : cdvdStruct → cdvdStruct) : (m.upd f).ks = m.ks := rfl

theorem Machine.upd_cdvd (m : Machine) (f : cdvdStruct → cdvdStruct) : (m.upd f).cdvd = f m.cdvd := rfl

theorem cdvdWrite04_cdRead (E : Env) (m : Machine)
    (hready : m.cdvd.Ready &&& CDVD_DRIVE_READY ≠ 0)
    (htray : m.cdvd.Status &&& CDVD_STATUS_TRAY_OPEN = 0)
    (hdisc : m.cdvd.DiscType ≠ CDVD_TYPE_NODISC)
    (hparamc : m.cdvd.NCMDParamC = 11) :
    cdvdWrite04 E m N_CD_READ = clearNParams
      (nCdRead E (m.upd fun c => { c with nCommand := N_CD_READ, AbortRequested := false })) := by
  unfold cdvdWrite04
  rw [if_neg hready]
  lift_lets
  extract_lets m1 h r
  have hh : h = (m1, true) := by
    show cdvdCommandErrorHandler E m1 = _
    unfold cdvdCommandErrorHandler
    have h1 : ¬ (m1.cdvd.nCommand > N_CD_NOP ∧
        (m1.cdvd.Status &&& CDVD_STATUS_TRAY_OPEN ≠ 0 ∨ m1.cdvd.DiscType = CDVD_TYPE_NODISC)) := by
      rintro ⟨_, h | h⟩
      · exact h htray
      · exact hdisc h
    have h2 : ¬ (m1.cdvd.NCMDParamC ≠ cdvdParamLengthAt E m1.cdvd.nCommand ∧
        cdvdParamLengthAt E m1.cdvd.nCommand ≠ 255) := by
      rintro ⟨h, _⟩
      exact h hparamc
    have h3 : ¬ (m1.cdvd.nCommand > N_CD_CHG_SPDL_CTRL) := by
      show ¬ (N_CD_READ > N_CD_CHG_SPDL_CTRL)
      decide
    rw [if_neg h1, if_neg h2, if_neg h3]
  have hr : r = (nCdRead E m1, false) := by
    show nCommandSwitch E h.1 N_CD_READ = _
    rw [hh]
    rfl
  have e1 : ¬ (h.2 = false) := by rw [hh]; simp
  rw [if_neg e1]
  have e2 : ¬ (r.2 = true) := by rw [hr]; simp
  rw [if_neg e2, hr]

theorem NoReadWork.nil : NoReadWork [] := by
  intro e he
  cases he

theorem Machine.emit_trace (m : Machine) (e : Event) : (m.emit e).trace = m.trace ++ [e] := rfl

theorem Machine.emit_cdvd (m : Machine) (e : Event) : (m.emit e).cdvd = m.cdvd := rfl

theorem Machine.emit_iop (m : Machine) (e : Event) : (m.emit e).iop = m.iop := rfl

theorem dma3Finish_cdvd (m : Machine) : (dma3Finish m).cdvd = m.cdvd := by
  unfold dma3Finish
  split
  · rw [Machine.emit_cdvd]
  · rfl

theorem cdvdStartSeek_zero_delta_state (E : Env) (m : Machine) (newsector mode : Nat)
    (hd : seekDelta { m.cdvd with SeekToSector := newsector } < E.tbl_ContigiousSeekDelta mode)
    (hs : m.cdvd.Spinning = true)
    (h0 : seekDelta { m.cdvd with SeekToSector := newsector } = 0)
    (hb : 0 < m.cdvd.nextSectorsBuffered) :
    cdvdStartSeek E m newsector mode = (zeroDeltaState m newsector, (m.cdvd.BlockSize / 4) * 12) := by
  unfold cdvdStartSeek
  lift_lets
  extract_lets m1 delta isSeeking m2 m3 m4 mSpin seektime mSpin2 mSpin3 mClr mClr2 mFull mFast mCont
    mRead mRead2 mC1 mC2
  have hdelta : delta = seekDelta { m.cdvd with SeekToSector := newsector } := rfl
  have hsp : m4.cdvd.Spinning = m.cdvd.Spinning := rfl
  have hnb : mRead2.cdvd.nextSectorsBuffered = m.cdvd.nextSectorsBuffered := rfl
  have h1 : ¬ (m4.cdvd.Spinning = false) := by rw [hsp]; simp [hs]
  have h2 : ¬ (E.tbl_ContigiousSeekDelta mode = 0 ∨ delta ≥ E.tbl_ContigiousSeekDelta mode) := by
    rw [hdelta]
    omega
  have h3 : delta = 0 := hdelta.trans h0
  have h4 : ¬ (mRead2.cdvd.nextSectorsBuffered = 0) := by rw [hnb]; omega
  rw [if_neg h1, if_neg h2, if_pos h3, if_neg h4]
  have hbs : mRead2.cdvd.BlockSize = m.cdvd.BlockSize := rfl
  rw [hbs]
  rfl

theorem slice_append_left (X R : List Nat) (p n : Nat) (h : p + n ≤ X.length) :
    slice (X ++ R) p n = slice X p n := by
  unfold slice
  rw [List.drop_append_of_le_length (by omega), List.take_append_of_le_length]
  rw [List.length_drop]
  omega

theorem slice_take (X : List Nat) (p n k : Nat) (h : p + n ≤ k) :
    slice (X.take k) p n = slice X p n := by
  unfold slice
  rw [List.drop_take, List.take_take]
  congr 1
  omega

theorem fileWrite_head_length (f : List Nat) (pos : Nat) :
    ((f ++ List.replicate (pos - f.length) 0).take pos).length = pos := by
  rw [List.length_take, List.length_append, List.length_replicate]
  omega

theorem fileWrite_length (f : List Nat) (pos : Nat) (data : List Nat) :
    (fileWrite f pos data).length = max f.length (pos + data.length) := by
  unfold fileWrite
  rw [List.length_append, List.length_append, fileWrite_head_length, List.length_drop]
  omega

theorem slice_fileWrite_prefix (f : List Nat) (pos : Nat) (data : List Nat) (k : Nat)
    (hk : k ≤ data.length) : slice (fileWrite f pos data) pos k = data.take k := by
  unfold slice fileWrite
  rw [List.append_assoc, List.drop_left' (fileWrite_head_length f pos),
    List.take_append_of_le_length hk]

theorem slice_fileWrite_before (f : List Nat) (pos : Nat) (data : List Nat) (p n : Nat)
    (h : p + n ≤ pos) (hf : p + n ≤ f.length) :
    slice (fileWrite f pos data) p n = slice f p n := by
  unfold fileWrite
  rw [List.append_assoc, slice_append_left _ _ _ _ (by rw [fileWrite_head_length]; exact h),
    slice_take _ _ _ _ h, slice_append_left _ _ _ _ hf]

theorem slice_fileWrite_after (f : List Nat) (pos : Nat) (data : List Nat) (p n : Nat)
    (h : pos + data.length ≤ p) :
    slice (fileWrite f pos data) p n = slice f p n := by
  unfold slice fileWrite
  congr 1
  have hl : ((f ++ List.replicate (pos - f.length) 0).take pos ++ data).length = pos + data.length := by
    rw [List.length_append, fileWrite_head_length]
  rw [List.drop_append_eq_append_drop, hl, List.drop_drop]
  have : List.drop p ((f ++ List.replicate (pos - f.length) 0).take pos ++ data) = [] := by
    apply List.drop_eq_nil_of_le
    rw [hl]
    exact h
  rw [this, List.nil_append]
  congr 1
  omega

theorem slice_split (f : List Nat) (p a b : Nat) :
    slice f p (a + b) = slice f p a ++ slice f (p + a) b := by
  unfold slice
  rw [List.take_add, List.drop_drop]

theorem slice_fileWrite_apart (f : List Nat) (pos : Nat) (data : List Nat) (p n : Nat)
    (h : p + n ≤ pos ∨ pos + data.length ≤ p) (hf : p + n ≤ f.length) :
    slice (fileWrite f pos data) p n = slice f p n := by
  rcases h with h | h
  · exact slice_fileWrite_before f pos data p n h hf
  · exact slice_fileWrite_after f pos data p n h

theorem slice_replicate_zero (k p n : Nat) (h : p + n ≤ k) :
    slice (List.replicate k 0) p n = List.replicate n 0 := by
  unfold slice
  rw [List.drop_replicate, List.take_replicate]
  congr 1
  omega

theorem cdvdCreateNewNVM_length (E : Env) (hL : (getNvmLayout E).Separate) (hlang : (E.biosLangDefaults E.BiosRegion).length = 16) :
    (cdvdCreateNewNVM E []).length = 1024 := by
  obtain ⟨h1, h2, h3, -, -, -⟩ := hL
  unfold cdvdCreateNewNVM
  lift_lets
  extract_lets f0 L f1 lang f2
  have hLL : L = getNvmLayout E := rfl
  rw [← hLL] at h1 h2 h3
  have l0 : f0.length = 1024 := by
    simp only [f0, fileWrite_length, List.length_replicate, List.length_nil]
    omega
  have l1 : f1.length = 1024 := by
    simp only [f1, fileWrite_length, l0, ILinkID_Data, List.length_cons, List.length_nil]
    omega
  have hlen : lang.length = 16 := by
    simp only [lang, List.length_take, hlang]
    omega
  have l2 : f2.length = 1024 := by
    simp only [f2, fileWrite_length, l1, hlen]
    omega
  split
  · simp only [fileWrite_length, l2, List.length_cons, List.length_nil]
    omega
  · exact l2

theorem cdvdCreateNewNVM_ilink (E : Env) (hL : (getNvmLayout E).Separate)
    (hlang : (E.biosLangDefaults E.BiosRegion).length = 16) :
    slice (cdvdCreateNewNVM E []) (getNvmLayout E).ilinkId 8 = ILinkID_Data := by
  obtain ⟨h1, h2, h3, h4, h5, h6⟩ := hL
  unfold cdvdCreateNewNVM
  lift_lets
  extract_lets f0 L f1 lang f2
  have hLL : L = getNvmLayout E := rfl
  rw [← hLL] at h1 h2 h3 h4 h5 h6 ⊢
  have l0 : f0.length = 1024 := by
    simp only [f0, fileWrite_length, List.length_replicate, List.length_nil]
    omega
  have l1 : f1.length = 1024 := by
    simp only [f1, fileWrite_length, l0, ILinkID_Data, List.length_cons, List.length_nil]
    omega
  have hlen : lang.length = 16 := by
    simp only [lang, List.length_take, hlang]
    omega
  have l2 : f2.length = 1024 := by
    simp only [f2, fileWrite_length, l1, hlen]
    omega
  have e1 : slice f1 L.ilinkId 8 = ILinkID_Data :=
    slice_fileWrite_prefix f0 L.ilinkId ILinkID_Data 8 (by decide)
  have e2 : slice f2 L.ilinkId 8 = ILinkID_Data := by
    rw [← e1]
    apply slice_fileWrite_apart
    · rw [hlen]
      omega
    · omega
  split
  · rw [← e2]
    apply slice_fileWrite_apart
    · simp only [List.length_cons, List.length_nil]
      omega
    · omega
  · exact e2

theorem cdvdCreateNewNVM_language (E : Env) (hL : (getNvmLayout E).Separate)
    (hlang : (E.biosLangDefaults E.BiosRegion).length = 16) :
    slice (cdvdCreateNewNVM E []) ((getNvmLayout E).config1 + 0xF) 16 =
      0 :: (E.biosLangDefaults E.BiosRegion).take 15 := by
  obtain ⟨h1, h2, h3, h4, h5, h6⟩ := hL
  unfold cdvdCreateNewNVM
  lift_lets
  extract_lets f0 L f1 lang f2
  have hLL : L = getNvmLayout E := rfl
  rw [← hLL] at h1 h2 h3 h4 h5 h6 ⊢
  have l0 : f0.length = 1024 := by
    simp only [f0, fileWrite_length, List.length_replicate, List.length_nil]
    omega
  have l1 : f1.length = 1024 := by
    simp only [f1, fileWrite_length, l0, ILinkID_Data, List.length_cons, List.length_nil]
    omega
  have hlen : lang.length = 16 := by
    simp only [lang, List.length_take, hlang]
    omega
  have l2 : f2.length = 1024 := by
    simp only [f2, fileWrite_length, l1, hlen]
    omega
  have hf0 : f0 = List.replicate 1024 0 := by
    simp only [f0, fileWrite, List.take_zero, List.nil_append, List.drop_nil, List.append_nil]
  have a0 : slice f0 (L.config1 + 0xF) 1 = [0] := by
    rw [hf0, slice_replicate_zero _ _ _ (by omega)]
    rfl
  have a1 : slice f1 (L.config1 + 0xF) 1 = [0] := by
    rw [← a0]
    apply slice_fileWrite_apart
    · simp only [ILinkID_Data, List.length_cons, List.length_nil]
      omega
    · omega
  have a2 : slice f2 (L.config1 + 0xF) 1 = [0] := by
    rw [← a1]
    apply slice_fileWrite_apart
    · omega
    · omega
  have b2 : slice f2 (L.config1 + 0xF + 1) 15 = (E.biosLangDefaults E.BiosRegion).take 15 := by
    have := slice_fileWrite_prefix f1 (L.config1 + 0x10) lang 15 (by omega)
    rw [show L.config1 + 0xF + 1 = L.config1 + 0x10 from rfl]
    rw [show slice f2 (L.config1 + 0x10) 15 = List.take 15 lang from this]
    simp only [lang, List.take_take]
    rfl
  have c2 : slice f2 (L.config1 + 0xF) 16 = 0 :: (E.biosLangDefaults E.BiosRegion).take 15 := by
    rw [show (16 : Nat) = 1 + 15 from rfl, slice_split, a2, b2]
    rfl
  split
  · rw [← c2]
    apply slice_fileWrite_apart
    · simp only [List.length_cons, List.length_nil]
      omega
    · omega
  · exact c2

theorem slice_length (f : List Nat) (p n : Nat) (h : p + n ≤ f.length) : (slice f p n).length = n := by
  unfold slice
  rw [List.length_take, List.length_drop]
  omega

theorem nvmOpen_fresh (E : Env) (h : Host) (hl : h.nvmLower = none) (hu : h.nvmUpper = none)
    (hcr : h.nvmCreatable = true) :
    nvmOpen E h = some (NvmName.upper, cdvdCreateNewNVM E []) := by
  unfold nvmOpen
  rw [hl, hu]
  simp only [hcr, if_true]

theorem nvmOpen_upper (E : Env) (h : Host) (g : List Nat) (hl : h.nvmLower = none)
    (hu : h.nvmUpper = some g) (hg : 1024 ≤ g.length) :
    nvmOpen E h = some (NvmName.upper, g) := by
  unfold nvmOpen
  rw [hl, hu]
  have : ¬ g.length < 1024 := by omega
  simp only [this, if_false]

theorem cdvdNVM_read (E : Env) (m : Machine) (buffer : List Nat) (offset bytes : Nat)
    (name : NvmName) (f : List Nat) (ho : nvmOpen E m.host = some (name, f))
    (hil : m.host.ilinkFile = none) (hlen : offset + bytes ≤ f.length) :
    cdvdNVM E m buffer offset bytes true =
      ({ m with host := m.host.setNvm name f }, slice f offset bytes) := by
  unfold cdvdNVM
  rw [ho]
  have hf : nvmForceILink E m.host f = f := by
    unfold nvmForceILink
    rw [hil]
  simp only [hf, if_true, fileRead]
  congr 1
  rw [slice_length f offset bytes hlen]
  have : (buffer.take bytes).length ≤ bytes := by
    rw [List.length_take]
    omega
  rw [List.drop_eq_nil_of_le this, List.append_nil]

/-- C9, as stated, fails: on the console of `demoEnv` without an NVM image,
`cdvdReadLanguageParams` after the first access returns a zero byte followed by the
first 15 bytes of the default language block, which is not that block. -/
theorem C9_fresh_nvm_counterexample :
    demoDrive.host.nvmLower = none ∧ demoDrive.host.nvmUpper = none ∧
    (cdvdReadLanguageParams demoEnv (cdvdReadILinkID demoEnv demoDrive (List.replicate 8 0)).1
        (List.replicate 16 0)).2 =
      [0, 0x30, 0x21, 0x80, 0, 0, 0, 0, 0, 0, 0x41, 0, 0, 0, 0, 0] ∧
    (cdvdReadLanguageParams demoEnv (cdvdReadILinkID demoEnv demoDrive (List.replicate 8 0)).1
        (List.replicate 16 0)).2 ≠ (demoEnv.biosLangDefaults demoEnv.BiosRegion).take 16 := by
  decide!

/-- C9, amended. When no NVM image exists, the image can be created, no forced i.Link
ID file is present and the layout keeps the i.Link ID, the language bytes and the
region byte apart within 1024 bytes: the first access through `cdvdNVM` creates the
image, `cdvdReadILinkID` returns 00 AC FF FF FF FF B9 86, and `cdvdReadLanguageParams`,
which reads 16 bytes from offset 0xF of config block 1, returns a zero byte followed
by the first 15 bytes of `biosLangDefaults[BiosRegion]`. -/
theorem C9_fresh_nvm_defaults (E : Env) (m : Machine) (id config : List Nat)
    (hl : m.host.nvmLower = none) (hu : m.host.nvmUpper = none)
    (hcr : m.host.nvmCreatable = true) (hil : m.host.ilinkFile = none)
    (hL : (getNvmLayout E).Separate) (hlang : (E.biosLangDefaults E.BiosRegion).length = 16) :
    (cdvdReadILinkID E m id).1.host.nvmUpper = some (cdvdCreateNewNVM E []) ∧
    (cdvdReadILinkID E m id).2 = ILinkID_Data ∧
    (cdvdReadLanguageParams E (cdvdReadILinkID E m id).1 config).2 =
      0 :: (E.biosLangDefaults E.BiosRegion).take 15 ∧
    (cdvdReadLanguageParams E m config).2 = 0 :: (E.biosLangDefaults E.BiosRegion).take 15 := by
  have hlen := cdvdCreateNewNVM_length E hL hlang
  have hL2 := hL
  obtain ⟨h1, h2, h3, -, -, -⟩ := hL2
  have hfresh := nvmOpen_fresh E m.host hl hu hcr
  have r1 : cdvdReadILinkID E m id = ({ m with host := m.host.setNvm NvmName.upper (cdvdCreateNewNVM E []) },
      slice (cdvdCreateNewNVM E []) ((getNvmLayout E).ilinkId + 0) 8) :=
    cdvdNVM_read E m id _ 8 _ _ hfresh hil (by rw [hlen]; omega)
  have r2 : cdvdReadLanguageParams E m config =
      ({ m with host := m.host.setNvm NvmName.upper (cdvdCreateNewNVM E []) },
        slice (cdvdCreateNewNVM E []) ((getNvmLayout E).config1 + 0xF) 16) :=
    cdvdNVM_read E m config _ 16 _ _ hfresh hil (by rw [hlen]; omega)
  have hopen2 : nvmOpen E ({ m with host := m.host.setNvm NvmName.upper (cdvdCreateNewNVM E []) }).host =
      some (NvmName.upper, cdvdCreateNewNVM E []) :=
    nvmOpen_upper E _ _ hl rfl (by rw [hlen])
  have r3 : cdvdReadLanguageParams E
      ({ m with host := m.host.setNvm NvmName.upper (cdvdCreateNewNVM E []) }) config =
      (_, slice (cdvdCreateNewNVM E []) ((getNvmLayout E).config1 + 0xF) 16) :=
    cdvdNVM_read E _ config _ 16 _ _ hopen2 hil (by rw [hlen]; omega)
  rw [r1, r2]
  refine ⟨rfl, cdvdCreateNewNVM_ilink E hL hlang, ?_, cdvdCreateNewNVM_language E hL hlang⟩
  show (cdvdReadLanguageParams E
      ({ m with host := m.host.setNvm NvmName.upper (cdvdCreateNewNVM E []) }) config).2 = _
  rw [r3]
  exact cdvdCreateNewNVM_language E hL hlang

/-- The console of `demoEnv` without an NVM image. -/
theorem C9_fresh_nvm_defaults_witness :
    (cdvdReadILinkID demoEnv demoDrive (List.replicate 8 0)).2 =
      [0x00, 0xAC, 0xFF, 0xFF, 0xFF, 0xFF, 0xB9, 0x86] ∧
    (cdvdReadLanguageParams demoEnv (cdvdReadILinkID demoEnv demoDrive (List.replicate 8 0)).1
        (List.replicate 16 0)).2 =
      0 :: (demoEnv.biosLangDefaults demoEnv.BiosRegion).take 15 :=
  (fun h => ⟨h.2.1, h.2.2.1⟩)
    (C9_fresh_nvm_defaults demoEnv demoDrive (List.replicate 8 0) (List.replicate 16 0) rfl rfl rfl rfl
      (by decide) (by decide))

set_option maxHeartbeats 1600000 in
theorem cdvdWrite16_refusedAndReset (E : Env) (m : Machine) (rt : Nat)
    (hrt : rt ∈ [0x82, 0x83, 0x84, 0x86, 0x87, 0x91, 0x92, 0x94, 0x95, 0x96, 0x97, 0x98])
    (hst : m.cdvd.mecha_state ∉ expectedPredecessors rt) :
    RefusedAndReset (cdvdWrite16 E m rt) := by
  simp only [List.mem_cons, List.mem_singleton, List.not_mem_nil, or_false] at hrt
  rcases hrt with h | h | h | h | h | h | h | h | h | h | h | h <;> subst h <;>
    simp only [expectedPredecessors, Nat.reduceEqDiff, ↓reduceIte, List.mem_singleton] at hst <;>
    unfold RefusedAndReset cdvdWrite16 sCommandMecha <;>
    simp only [Machine.upd_cdvd, hst, false_and, ↓reduceIte, Nat.reduceEqDiff, isMechaCommand,
      Nat.reduceLeDiff, decide_True, decide_False, Bool.and_self, Bool.and_false, Bool.false_and,
      Bool.or_false, Bool.false_or, Bool.or_true, Bool.true_or, Option.map_some'] <;>
    refine ⟨_, rfl, ?_, ?_, ?_⟩ <;>
    simp only [result1, setResult, setMechaState, SetSCMDResultSize, Machine.upd_cdvd] <;>
    rfl

set_option maxHeartbeats 1600000 in
theorem cdvdWrite16_refused (E : Env) (m : Machine) (rt : Nat)
    (hrt : rt ∈ [0x85, 0x88, 0x8D, 0x93])
    (hst : m.cdvd.mecha_state ∉ expectedPredecessors rt) :
    Refused (cdvdWrite16 E m rt) := by
  simp only [List.mem_cons, List.mem_singleton, List.not_mem_nil, or_false] at hrt
  rcases hrt with h | h | h | h <;> subst h <;>
    simp only [expectedPredecessors, Nat.reduceEqDiff, ↓reduceIte, List.mem_singleton, List.mem_cons,
      List.not_mem_nil, or_false, not_or] at hst <;>
    unfold Refused cdvdWrite16 sCommandMecha <;>
    simp only [Machine.upd_cdvd, hst, false_and, and_false, or_self, ↓reduceIte, Nat.reduceEqDiff,
      isMechaCommand,
      Nat.reduceLeDiff, decide_True, decide_False, Bool.and_self, Bool.and_false, Bool.false_and,
      Bool.or_false, Bool.false_or, Bool.or_true, Bool.true_or, Option.map_some'] <;>
    refine ⟨_, rfl, ?_, ?_⟩ <;>
    simp only [result1, setResult, setMechaState, SetSCMDResultSize, Machine.upd_cdvd] <;>
    rfl

set_option maxHeartbeats 1600000 in
theorem cdvdWrite16_poll_refused (E : Env) (m : Machine)
    (hst : m.cdvd.mecha_state ∉ expectedPredecessors 0x8F) :
    Refused (cdvdWrite16 E m 0x8F) := by
  simp only [expectedPredecessors, Nat.reduceEqDiff, ↓reduceIte, List.mem_singleton, List.mem_cons,
      List.not_mem_nil, or_false, not_or] at hst
  unfold Refused cdvdWrite16 sCommandMecha
  simp only [Machine.upd_cdvd, ↓reduceIte, Nat.reduceEqDiff, isMechaCommand,
      Nat.reduceLeDiff, decide_True, decide_False, Bool.and_self, Bool.and_false, Bool.false_and,
      Bool.or_false, Bool.false_or, Bool.or_true, Bool.true_or]
  by_cases hp : m.cdvd.SCMDParamC = 0
  · cases hs : m.cdvd.mecha_state <;> simp only [hs, reduceCtorEq, not_true_eq_false, and_false, false_and,
      and_self] at hst <;>
      simp only [hp, hs, ne_eq, not_true_eq_false, ↓reduceIte, Option.map_some'] <;>
      refine ⟨_, rfl, ?_, ?_⟩ <;>
      simp only [result1, setResult, setMechaState, SetSCMDResultSize, Machine.upd_cdvd] <;>
      rfl
  · simp only [hp, ne_eq, not_false_eq_true, ↓reduceIte, Option.map_some']
    refine ⟨_, rfl, ?_, ?_⟩
    · simp only [result1, setResult, setMechaState, SetSCMDResultSize, Machine.upd_cdvd]
    · simp only [result1, setResult, setMechaState, SetSCMDResultSize, Machine.upd_cdvd]
      rfl

theorem cdvdWrite16_0x8E_reset (E : Env) (m : Machine)
    (hst : m.cdvd.mecha_state ∉ expectedPredecessors 0x8E) :
    ∃ m', cdvdWrite16 E m 0x8E = some m' ∧ m'.cdvd.mecha_state = MECHA_STATE.MECHA_STATE_READY ∧
      m'.cdvd.SCMDResultC = 0 := by
  simp only [expectedPredecessors, Nat.reduceEqDiff, ↓reduceIte, List.mem_singleton, List.mem_cons,
      List.not_mem_nil, or_false, not_or] at hst
  unfold cdvdWrite16 sCommandMecha
  simp only [Machine.upd_cdvd, hst, false_and, and_false, or_self, ↓reduceIte, Nat.reduceEqDiff,
      isMechaCommand,
      Nat.reduceLeDiff, decide_True, decide_False, Bool.and_self, Bool.and_false, Bool.false_and,
      Bool.or_false, Bool.false_or, Bool.or_true, Bool.true_or, Option.map_some']
  refine ⟨_, rfl, ?_, ?_⟩ <;>
    simp only [result1, setResult, setMechaState, SetSCMDResultSize, Machine.upd_cdvd]

/-- C2, as stated, fails: in `MECHA_STATE_KEY_INDEXES_SET`, which neither 0x8F nor 0x8E
expects, the poll 0x8F answers 0x80 and leaves the session in that state, and 0x8E
resets the session and returns an empty result whose first byte is 0. -/
theorem C2_out_of_state_counterexample :
    MECHA_STATE.MECHA_STATE_KEY_INDEXES_SET ∉ expectedPredecessors 0x8F ∧
    MECHA_STATE.MECHA_STATE_KEY_INDEXES_SET ∉ expectedPredecessors 0x8E ∧
    (cdvdWrite16 demoEnv keyIndexDrive 0x8F).map (fun m => (m.cdvd.mecha_state, m.cdvd.SCMDResult.getD 0 0)) =
      some (MECHA_STATE.MECHA_STATE_KEY_INDEXES_SET, 0x80) ∧
    (cdvdWrite16 demoEnv keyIndexDrive 0x8E).map
        (fun m => (m.cdvd.mecha_state, m.cdvd.SCMDResultC, m.cdvd.SCMDResult.getD 0 0)) =
      some (MECHA_STATE.MECHA_STATE_READY, 0, 0) := by
  decide!

/-- C2, amended. In every session state that is not an expected predecessor of the
command: the S-commands 0x82, 0x83, 0x84, 0x86, 0x87, 0x91, 0x92 and 0x94 to 0x98 set
`mecha_state` to `MECHA_STATE_READY` and return 0x80 as the one result byte; 0x85, 0x88,
0x8D, 0x8F and 0x93 return 0x80 as the one result byte; 0x8E sets `mecha_state` to
`MECHA_STATE_READY` and returns an empty result. -/
theorem C2_out_of_state_commands (E : Env) (m : Machine) (rt : Nat)
    (hst : m.cdvd.mecha_state ∉ expectedPredecessors rt) :
    (rt ∈ [0x82, 0x83, 0x84, 0x86, 0x87, 0x91, 0x92, 0x94, 0x95, 0x96, 0x97, 0x98] →
      RefusedAndReset (cdvdWrite16 E m rt)) ∧
    (rt ∈ [0x85, 0x88, 0x8D, 0x8F, 0x93] → Refused (cdvdWrite16 E m rt)) ∧
    (rt = 0x8E → ∃ m', cdvdWrite16 E m rt = some m' ∧
      m'.cdvd.mecha_state = MECHA_STATE.MECHA_STATE_READY ∧ m'.cdvd.SCMDResultC = 0) := by
  refine ⟨fun h => cdvdWrite16_refusedAndReset E m rt h hst, fun h => ?_, fun h => ?_⟩
  · by_cases h8f : rt = 0x8F
    · subst h8f
      exact cdvdWrite16_poll_refused E m hst
    · apply cdvdWrite16_refused E m rt _ hst
      simp only [List.mem_cons, List.mem_singleton, List.not_mem_nil, or_false] at h ⊢
      tauto
  · subst h
    exact cdvdWrite16_0x8E_reset E m hst

/-- 0x84 written to `demoDrive`, whose session is in `MECHA_STATE_READY`. -/
theorem C2_out_of_state_commands_witness : RefusedAndReset (cdvdWrite16 demoEnv demoDrive 0x84) :=
  (C2_out_of_state_commands demoEnv demoDrive 0x84 (by decide)).1 (by decide)

theorem zipWith_xor_lt (l1 l2 : List Nat) (h1 : ∀ x ∈ l1, x < 256) (h2 : ∀ y ∈ l2, y < 256) :
    ∀ z ∈ List.zipWith (fun x y => x ^^^ y) l1 l2, z < 256 := by
  induction l1 generalizing l2 with
  | nil => intro z hz; simp at hz
  | cons a t ih =>
    cases l2 with
    | nil => intro z hz; simp at hz
    | cons b u =>
      intro z hz
      rw [List.zipWith_cons_cons, List.mem_cons] at hz
      rcases hz with hz | hz
      · rw [hz]
        have ha : a < 2 ^ 8 := h1 a (List.mem_cons_self _ _)
        have hb : b < 2 ^ 8 := h2 b (List.mem_cons_self _ _)
        exact Nat.xor_lt_two_pow ha hb
      · exact ih u (fun x hx => h1 x (List.mem_cons_of_mem _ hx))
          (fun y hy => h2 y (List.mem_cons_of_mem _ hy)) z hz

theorem xor_bit_isBytes (a b : List Nat) (ha : IsBytes 8 a) (hb : IsBytes 8 b) :
    IsBytes 8 (xor_bit a b 8) := by
  obtain ⟨la, ba⟩ := ha
  obtain ⟨lb, bb⟩ := hb
  have e1 : a.take 8 = a := List.take_of_length_le (by omega)
  have e2 : b.take 8 = b := List.take_of_length_le (by omega)
  unfold xor_bit
  rw [e1, e2]
  exact ⟨by simp [la, lb], zipWith_xor_lt a b ba bb⟩

theorem xor_bit_cancel (a b : List Nat) (ha : a.length = 8) (hb : b.length = 8) :
    xor_bit (xor_bit a b 8) b 8 = a := by
  have e1 : a.take 8 = a := List.take_of_length_le (by omega)
  have e2 : b.take 8 = b := List.take_of_length_le (by omega)
  have e3 : (List.zipWith (fun x y => x ^^^ y) a b).take 8 = List.zipWith (fun x y => x ^^^ y) a b :=
    List.take_of_length_le (by simp [ha, hb])
  unfold xor_bit
  rw [e1, e2, e3]
  apply List.ext_getElem
  · simp [ha, hb]
  · intro i h1 h2
    simp only [List.getElem_zipWith]
    rw [Nat.xor_assoc, Nat.xor_self, Nat.xor_zero]

theorem doubleDesEncrypt_isBytes (D : DesCipher) (hT : D.WellTyped)
    (key block : List Nat) (hk : IsBytes 16 key) (hb : IsBytes 8 block) :
    IsBytes 8 (doubleDesEncrypt D key block) := by
  have hk1 : IsBytes 8 (key.take 8) := isBytes_take 16 8 key hk (by omega)
  have hk2 : IsBytes 8 ((key.drop 8).take 8) :=
    isBytes_take 8 8 _ (isBytes_drop 16 8 key hk) (by omega)
  unfold doubleDesEncrypt desEncrypt desDecrypt
  exact (hT _ _ hk1 (hT _ _ hk2 (hT _ _ hk1 hb).1).2).1

theorem doubleDesDecrypt_isBytes (D : DesCipher) (hT : D.WellTyped)
    (key block : List Nat) (hk : IsBytes 16 key) (hb : IsBytes 8 block) :
    IsBytes 8 (doubleDesDecrypt D key block) := by
  have hk1 : IsBytes 8 (key.take 8) := isBytes_take 16 8 key hk (by omega)
  have hk2 : IsBytes 8 ((key.drop 8).take 8) :=
    isBytes_take 8 8 _ (isBytes_drop 16 8 key hk) (by omega)
  unfold doubleDesDecrypt desEncrypt desDecrypt
  exact (hT _ _ hk1 (hT _ _ hk2 (hT _ _ hk1 hb).2).1).2

theorem doubleDes_encrypt_decrypt (D : DesCipher) (hT : D.WellTyped) (hI : D.Inverts)
    (key block : List Nat) (hk : IsBytes 16 key) (hb : IsBytes 8 block) :
    doubleDesEncrypt D key (doubleDesDecrypt D key block) = block := by
  have hk1 : IsBytes 8 (key.take 8) := isBytes_take 16 8 key hk (by omega)
  have hk2 : IsBytes 8 ((key.drop 8).take 8) :=
    isBytes_take 8 8 _ (isBytes_drop 16 8 key hk) (by omega)
  unfold doubleDesEncrypt doubleDesDecrypt desEncrypt desDecrypt
  have h1 := (hT _ _ hk1 hb).2
  have h2 := (hT _ _ hk2 h1).1
  rw [DesCipher.encrypt_decrypt D hT hI _ _ hk1 h2, hI _ _ hk2 h1,
    DesCipher.encrypt_decrypt D hT hI _ _ hk1 hb]

theorem doubleDes_decrypt_encrypt (D : DesCipher) (hT : D.WellTyped) (hI : D.Inverts)
    (key block : List Nat) (hk : IsBytes 16 key) (hb : IsBytes 8 block) :
    doubleDesDecrypt D key (doubleDesEncrypt D key block) = block := by
  have hk1 : IsBytes 8 (key.take 8) := isBytes_take 16 8 key hk (by omega)
  have hk2 : IsBytes 8 ((key.drop 8).take 8) :=
    isBytes_take 8 8 _ (isBytes_drop 16 8 key hk) (by omega)
  unfold doubleDesEncrypt doubleDesDecrypt desEncrypt desDecrypt
  have h1 := (hT _ _ hk1 hb).1
  have h2 := (hT _ _ hk2 h1).2
  rw [hI _ _ hk1 h2, DesCipher.encrypt_decrypt D hT hI _ _ hk2 h1, hI _ _ hk1 hb]

/-- The response is accepted by the decryption test exactly when it is the encryption
of the expected plain block. -/
theorem doubleDesDecrypt_xor_eq_iff (D : DesCipher) (hT : D.WellTyped) (hI : D.Inverts)
    (key rsp iv want : List Nat) (hk : IsBytes 16 key) (hr : IsBytes 8 rsp) (hiv : IsBytes 8 iv)
    (hw : IsBytes 8 want) :
    want = xor_bit (doubleDesDecrypt D key rsp) iv 8 ↔ rsp = doubleDesEncrypt D key (xor_bit want iv 8) := by
  have hd := doubleDesDecrypt_isBytes D hT key rsp hk hr
  constructor
  · intro h
    rw [h, xor_bit_cancel _ _ hd.1 hiv.1, doubleDes_encrypt_decrypt D hT hI key rsp hk hr]
  · intro h
    rw [h, doubleDes_decrypt_encrypt D hT hI key _ hk (xor_bit_isBytes _ _ hw hiv),
      xor_bit_cancel _ _ hw.1 hiv.1]

theorem sparams_congr (c : cdvdStruct) (a a2 : List Nat) (p p2 q q2 : Nat)
    (h1 : a = a2) (h2 : p = p2) (h3 : q = q2) :
    { c with SCMDParam := a, SCMDParamP := p, SCMDParamC := q } =
      { c with SCMDParam := a2, SCMDParamP := p2, SCMDParamC := q2 } := by
  rw [h1, h2, h3]

theorem Machine.upd_congr (m : Machine) (f g : cdvdStruct → cdvdStruct) (h : f m.cdvd = g m.cdvd) :
    m.upd f = m.upd g := by
  unfold Machine.upd
  rw [h]

theorem withSParams_nil (m : Machine) (k : Nat) (h : SParamsAt m k) : withSParams m k [] = m := by
  obtain ⟨hP, hC, hL⟩ := h
  have e : m = m.upd fun c =>
      { c with
        SCMDParam := m.cdvd.SCMDParam,
        SCMDParamP := m.cdvd.SCMDParamP,
        SCMDParamC := m.cdvd.SCMDParamC } := rfl
  conv_rhs => rw [e]
  unfold withSParams
  apply Machine.upd_congr
  apply sparams_congr
  · simp
  · simp [hP]
  · simp [hC]

theorem list_set_eq_take_drop (l : List Nat) (k x : Nat) (h : k < l.length) :
    l.set k x = l.take k ++ [x] ++ l.drop (k + 1) := by
  induction l generalizing k with
  | nil => simp at h
  | cons a t ih =>
    cases k with
    | zero => simp
    | succ n =>
      simp only [List.set_cons_succ, List.take_succ_cons, List.drop_succ_cons, List.cons_append]
      rw [ih n (by simpa using h)]

theorem cdvdWrite17_at (m : Machine) (k x : Nat) (h : SParamsAt m k) (hk : k < 16) :
    cdvdWrite17 m x = withSParams m k [x] ∧ SParamsAt (cdvdWrite17 m x) (k + 1) := by
  obtain ⟨hP, hC, hL⟩ := h
  have e : cdvdWrite17 m x = m.upd fun c =>
      { c with
        SCMDParam := c.SCMDParam.set c.SCMDParamP x,
        SCMDParamP := (c.SCMDParamP + 1) % 256,
        SCMDParamC := (c.SCMDParamC + 1) % 256 } := by
    unfold cdvdWrite17
    have : ¬ (m.cdvd.SCMDParamP ≥ 16) := by omega
    simp only [this, if_false]
  have e2 : cdvdWrite17 m x = withSParams m k [x] := by
    rw [e]
    unfold withSParams
    apply Machine.upd_congr
    apply sparams_congr
    · rw [hP, list_set_eq_take_drop _ _ _ (by omega)]
      rfl
    · rw [hP]
      simp only [List.length_singleton]
      omega
    · rw [hC]
      simp only [List.length_singleton]
      omega
  refine ⟨e2, ?_⟩
  rw [e2]
  unfold withSParams SParamsAt
  simp only [Machine.upd_cdvd, List.length_singleton, List.length_append, List.length_take,
    List.length_drop, hL]
  refine ⟨trivial, trivial, ?_⟩
  omega

theorem Machine.upd_upd (m : Machine) (f g : cdvdStruct → cdvdStruct) :
    (m.upd f).upd g = m.upd fun c => g (f c) := rfl

theorem withSParams_cons (m : Machine) (k x : Nat) (ps : List Nat) (hL : m.cdvd.SCMDParam.length = 16)
    (hk : k < 16) :
    withSParams (withSParams m k [x]) (k + 1) ps = withSParams m k (x :: ps) := by
  unfold withSParams
  rw [Machine.upd_upd]
  apply Machine.upd_congr
  apply sparams_congr
  · simp only [List.length_singleton, List.length_cons, List.length_nil, Nat.zero_add]
    have h1 : List.take (k + 1) (List.take k m.cdvd.SCMDParam ++ [x] ++ List.drop (k + 1) m.cdvd.SCMDParam)
        = List.take k m.cdvd.SCMDParam ++ [x] := by
      rw [List.take_append_of_le_length (by simp [hL]; omega)]
      apply List.take_of_length_le
      simp [hL]
    have h2 : List.drop (k + 1 + ps.length)
        (List.take k m.cdvd.SCMDParam ++ [x] ++ List.drop (k + 1) m.cdvd.SCMDParam)
        = List.drop (k + (ps.length + 1)) m.cdvd.SCMDParam := by
      have hl : (List.take k m.cdvd.SCMDParam ++ [x]).length = k + 1 := by
        simp [hL]
        omega
      rw [List.drop_append_eq_append_drop, hl, List.drop_drop,
        List.drop_eq_nil_of_le (by rw [hl]; omega), List.nil_append]
      congr 1
      omega
    rw [h1, h2]
    simp
  · simp only [List.length_singleton, List.length_cons]
    omega
  · simp only [List.length_singleton, List.length_cons]
    omega

theorem sendSParams_at (ps : List Nat) : ∀ (m : Machine) (k : Nat), SParamsAt m k → k + ps.length ≤ 16 →
    sendSParams m ps = withSParams m k ps := by
  induction ps with
  | nil =>
    intro m k h _
    rw [withSParams_nil m k h]
    rfl
  | cons x t ih =>
    intro m k h hk
    simp only [List.length_cons] at hk
    obtain ⟨e, h2⟩ := cdvdWrite17_at m k x h (by omega)
    show sendSParams (cdvdWrite17 m x) t = _
    rw [ih _ (k + 1) h2 (by omega), e, withSParams_cons m k x t h.2.2 (by omega)]

theorem sCommand_eq (E : Env) (m : Machine) (rt : Nat) (ps : List Nat) (h : SParamsAt m 0)
    (hl : ps.length ≤ 16) : sCommand E m rt ps = cdvdWrite16 E (withSParams m 0 ps) rt := by
  unfold sCommand
  rw [sendSParams_at ps m 0 h (by omega)]

theorem sCommand_0x81 (E : Env) (m : Machine) (sel : Nat) (h : SParamsAt m 0)
    (hst : m.cdvd.mecha_state ≠ MECHA_STATE.MECHA_STATE_0)
    (hsel : sel &&& 0x3F < 0x10 ∧ (sel >>> 6) &&& 3 ≠ 3) :
    ∃ m2, Returned (sCommand E m 0x81 [sel]) m m2 ∧
      cardSession m2 = { cardSession m with
        state := MECHA_STATE.MECHA_STATE_KEY_INDEXES_SET, keyIndex := (sel >>> 6) &&& 3 } := by
  rw [sCommand_eq E m _ _ h (by simp)]
  unfold Returned cdvdWrite16 sCommandMecha
  simp only [withSParams, Machine.upd_cdvd, ↓reduceIte, Nat.reduceEqDiff, isMechaCommand,
    Nat.reduceLeDiff, decide_True, decide_False, Bool.and_self, Bool.and_false, Bool.false_and,
    Bool.or_false, Bool.false_or, Bool.or_true, Bool.true_or, Option.map_some',
    List.length_singleton, Nat.zero_add, ne_eq, hst, not_false_eq_true, and_self, List.take_zero,
    List.nil_append, List.singleton_append, List.getD_cons_zero, hsel]
  refine ⟨_, ⟨rfl, ?_, ?_⟩, ?_⟩
  · unfold SParamsAt
    simp only [result1, setResult, setMechaState, SetSCMDResultSize, Machine.upd_cdvd, List.length_cons,
      List.length_drop, h.2.2, true_and]
  · simp only [result1, setResult, setMechaState, SetSCMDResultSize, Machine.upd_ks]
  · simp only [cardSession, result1, setResult, setMechaState, SetSCMDResultSize, Machine.upd_cdvd]

theorem slice_append_first (a b : List Nat) (n : Nat) (h : a.length = n) : slice (a ++ b) 0 n = a := by
  unfold slice
  rw [List.drop_zero, List.take_append_of_le_length (by omega), List.take_of_length_le (by omega)]

theorem slice_append3_first (a b c : List Nat) (n : Nat) (h : a.length = n) :
    slice (a ++ b ++ c) 0 n = a := by
  rw [List.append_assoc]
  exact slice_append_first a (b ++ c) n h

theorem slice_append_second (a b c : List Nat) (n k : Nat) (ha : a.length = n) (hb : b.length = k) :
    slice (a ++ b ++ c) n k = b := by
  unfold slice
  rw [List.append_assoc, List.drop_left' ha, List.take_append_of_le_length (by omega),
    List.take_of_length_le (by omega)]

theorem sCommand_0x82 (E : Env) (m : Machine) (iv seed : List Nat) (h : SParamsAt m 0)
    (hst : m.cdvd.mecha_state = MECHA_STATE.MECHA_STATE_KEY_INDEXES_SET)
    (hiv : iv.length = 8) (hseed : seed.length = 8) :
    ∃ m2, Returned (sCommand E m 0x82 (iv ++ seed)) m m2 ∧
      cardSession m2 = { cardSession m with
        state := MECHA_STATE.MECHA_STATE_CARD_IV_SEED_SET, iv := iv, seed := seed } := by
  rw [sCommand_eq E m _ _ h (by simp [hiv, hseed])]
  unfold Returned cdvdWrite16 sCommandMecha
  simp only [withSParams, Machine.upd_cdvd, ↓reduceIte, Nat.reduceEqDiff, isMechaCommand,
    Nat.reduceLeDiff, decide_True, decide_False, Bool.and_self, Bool.and_false, Bool.false_and,
    Bool.or_false, Bool.false_or, Bool.or_true, Bool.true_or, Option.map_some',
    List.length_append, hiv, hseed, Nat.zero_add, hst, and_self, List.take_zero,
    List.nil_append, Nat.reduceAdd]
  refine ⟨_, ⟨rfl, ?_, ?_⟩, ?_⟩
  · unfold SParamsAt
    simp only [result1, setResult, setMechaState, SetSCMDResultSize, Machine.upd_cdvd, List.length_append,
      List.length_drop, h.2.2, hiv, hseed, true_and]
  · simp only [result1, setResult, setMechaState, SetSCMDResultSize, Machine.upd_ks]
  · simp only [cardSession, result1, setResult, setMechaState, SetSCMDResultSize, Machine.upd_cdvd]
    rw [slice_append3_first _ _ _ 8 hiv, slice_append_second _ _ _ 8 8 hiv hseed]

theorem keyAt_isBytes (t : List (List Nat)) (i : Nat) (h : ∀ k ∈ t, IsBytes 8 k) :
    IsBytes 8 (keyAt t i) := by
  unfold keyAt
  by_cases hi : i < t.length
  · rw [List.getD_eq_getElem _ _ hi]
    exact h _ (List.getElem_mem _)
  · rw [List.getD_eq_default _ _ (by omega)]
    decide

theorem isBytes_append (a b : List Nat) (n k : Nat) (ha : IsBytes n a) (hb : IsBytes k b) :
    IsBytes (n + k) (a ++ b) := by
  refine ⟨by rw [List.length_append, ha.1, hb.1], ?_⟩
  intro x hx
  rcases List.mem_append.mp hx with h | h
  · exact ha.2 x h
  · exact hb.2 x h

theorem takeRandom_isBytes (h : Host) : IsBytes 8 (takeRandom h).1 := by
  unfold takeRandom
  refine ⟨?_, ?_⟩
  · simp only [List.length_append, List.length_map, List.length_take, List.length_replicate]
    omega
  · intro x hx
    rcases List.mem_append.mp hx with h1 | h1
    · obtain ⟨y, _, rfl⟩ := List.mem_map.mp h1
      exact Nat.mod_lt _ (by decide)
    · rw [(List.mem_replicate.mp h1).2]
      decide

theorem generateCardChallenge_cdvd (E : Env) (m : Machine) (hT : E.D.WellTyped)
    (hks : m.ks.CardKeysTyped) (hiv : IsBytes 8 m.cdvd.memcard_iv) (hseed : IsBytes 8 m.cdvd.memcard_seed) :
    ∃ K R c1 c2 c3, IsBytes 16 K ∧ IsBytes 8 R ∧
      (generateCardChallenge E m).cdvd = { m.cdvd with
        memcard_key := K, memcard_random := R, memcard_challenge1 := c1, memcard_challenge2 := c2,
        memcard_challenge3 := c3 } ∧
      (generateCardChallenge E m).ks = m.ks := by
  obtain ⟨h1, h2, h3, h4, h5⟩ := hks
  unfold generateCardChallenge
  lift_lets
  extract_lets c ivSeed keyLo keyHi key1 mkey rnd mrandom ch1 ch2 ch3
  have hivs : IsBytes 8 ivSeed := xor_bit_isBytes _ _ hiv hseed
  have hlo : IsBytes 8 keyLo := xor_bit_isBytes _ _ (keyAt_isBytes _ _ h1) hivs
  have hhi : IsBytes 8 keyHi := xor_bit_isBytes _ _ (keyAt_isBytes _ _ h2) hivs
  have hk1 : IsBytes 16 key1 := isBytes_append _ _ 8 8 (keyAt_isBytes _ _ h3) (keyAt_isBytes _ _ h4)
  have hmk : IsBytes 16 mkey :=
    isBytes_append _ _ 8 8 (doubleDesEncrypt_isBytes E.D hT _ _ hk1 hlo)
      (doubleDesEncrypt_isBytes E.D hT _ _ hk1 hhi)
  exact ⟨mkey, mrandom, ch1, ch2, ch3, hmk, takeRandom_isBytes m.host, rfl, rfl⟩

theorem executeMechaHandler_nonceSet (E : Env) (m : Machine)
    (h : m.cdvd.mecha_state = MECHA_STATE.MECHA_STATE_CARD_NONCE_SET) :
    executeMechaHandler E m = some ((generateCardChallenge E m).upd fun c =>
      { c with mecha_result := MECHA_RESULT.MECHA_RESULT_CARD_CHALLANGE_GENERATED }) := by
  unfold executeMechaHandler
  rw [h]

theorem executeMechaHandler_response3 (E : Env) (m : Machine)
    (h : m.cdvd.mecha_state = MECHA_STATE.MECHA_STATE_CARD_RESPONSE3_RECEIVED) :
    executeMechaHandler E m = some ((verifyCardChallenge E m).1.upd fun c =>
      { c with mecha_result := (verifyCardChallenge E m).2 }) := by
  unfold executeMechaHandler
  rw [h]

theorem sCommand_0x83 (E : Env) (m : Machine) (nonce : List Nat) (hT : E.D.WellTyped)
    (h : SParamsAt m 0)
    (hst : m.cdvd.mecha_state = MECHA_STATE.MECHA_STATE_CARD_IV_SEED_SET)
    (hks : m.ks.CardKeysTyped) (hiv : IsBytes 8 m.cdvd.memcard_iv) (hseed : IsBytes 8 m.cdvd.memcard_seed)
    (hn : nonce.length = 8) :
    ∃ m2 K R, Returned (sCommand E m 0x83 nonce) m m2 ∧ IsBytes 16 K ∧ IsBytes 8 R ∧
      cardSession m2 = { cardSession m with
        state := MECHA_STATE.MECHA_STATE_CARD_NONCE_SET, nonce := nonce, key := K, random := R,
        result := MECHA_RESULT.MECHA_RESULT_CARD_CHALLANGE_GENERATED } := by
  rw [sCommand_eq E m _ _ h (by omega)]
  unfold Returned cdvdWrite16 sCommandMecha
  simp only [withSParams, Machine.upd_cdvd, ↓reduceIte, Nat.reduceEqDiff, isMechaCommand,
    Nat.reduceLeDiff, decide_True, decide_False, Bool.and_self, Bool.and_false, Bool.false_and,
    Bool.or_false, Bool.false_or, Bool.or_true, Bool.true_or,
    hn, Nat.zero_add, hst, and_self, List.take_zero, List.nil_append]
  obtain ⟨X, hX⟩ : ∃ X, X = setMechaState
      ((SetSCMDResultSize ((m.upd fun c => { c with
          SCMDParam := nonce ++ List.drop 8 c.SCMDParam, SCMDParamP := 8, SCMDParamC := 8 }).upd fun c =>
          { c with sCommand := 0x83, SCMDResult := List.replicate 16 0 }) 1).upd fun c =>
        { c with memcard_nonce := slice (nonce ++ List.drop 8 m.cdvd.SCMDParam) 0 8 })
      MECHA_STATE.MECHA_STATE_CARD_NONCE_SET := ⟨_, rfl⟩
  have hXs : X.cdvd.mecha_state = MECHA_STATE.MECHA_STATE_CARD_NONCE_SET := by
    rw [hX]
    simp only [setMechaState, Machine.upd_cdvd]
  have hXk : X.ks = m.ks := by
    rw [hX]
    simp only [setMechaState, SetSCMDResultSize, Machine.upd_ks]
  have hXiv : X.cdvd.memcard_iv = m.cdvd.memcard_iv := by
    rw [hX]
    simp only [setMechaState, SetSCMDResultSize, Machine.upd_cdvd]
  have hXseed : X.cdvd.memcard_seed = m.cdvd.memcard_seed := by
    rw [hX]
    simp only [setMechaState, SetSCMDResultSize, Machine.upd_cdvd]
  obtain ⟨K, R, c1, c2, c3, hK, hR, hG, hGk⟩ := generateCardChallenge_cdvd E X hT (by rw [hXk]; exact hks)
    (by rw [hXiv]; exact hiv) (by rw [hXseed]; exact hseed)
  show ∃ m2 K R, (Option.map _ (Option.map _ (executeMechaHandler E
      (setMechaState
      ((SetSCMDResultSize ((m.upd fun c => { c with
          SCMDParam := nonce ++ List.drop 8 c.SCMDParam, SCMDParamP := 8, SCMDParamC := 8 }).upd fun c =>
          { c with sCommand := 0x83, SCMDResult := List.replicate 16 0 }) 1).upd fun c =>
        { c with memcard_nonce := slice (nonce ++ List.drop 8 m.cdvd.SCMDParam) 0 8 })
      MECHA_STATE.MECHA_STATE_CARD_NONCE_SET))) = some m2 ∧ _) ∧ _
  rw [← hX, executeMechaHandler_nonceSet E X hXs]
  simp only [Option.map_some']
  refine ⟨_, K, R, ⟨rfl, ?_, ?_⟩, hK, hR, ?_⟩
  · unfold SParamsAt
    simp only [setResult, Machine.upd_cdvd, hG, true_and]
    rw [hX]
    simp only [setMechaState, SetSCMDResultSize, Machine.upd_cdvd, List.length_append, List.length_drop,
      hn, h.2.2]
  · simp only [setResult, Machine.upd_ks, hGk, hXk]
  · simp only [cardSession, setResult, Machine.upd_cdvd, hG]
    rw [hX]
    simp only [setMechaState, SetSCMDResultSize, Machine.upd_cdvd]
    rw [slice_append_first _ _ 8 hn]

theorem sCommand_nil (E : Env) (m : Machine) (rt : Nat) : sCommand E m rt [] = cdvdWrite16 E m rt := rfl

theorem sCommand_poll_challenge (E : Env) (m : Machine) (h : SParamsAt m 0)
    (hst : m.cdvd.mecha_state = MECHA_STATE.MECHA_STATE_CARD_NONCE_SET)
    (hres : m.cdvd.mecha_result = MECHA_RESULT.MECHA_RESULT_CARD_CHALLANGE_GENERATED) :
    ∃ m2, Returned (sCommand E m 0x8F []) m m2 ∧
      cardSession m2 = { cardSession m with state := MECHA_STATE.MECHA_STATE_CARD_CHALLANGE_GENERATED } := by
  rw [sCommand_nil]
  unfold Returned cdvdWrite16 sCommandMecha
  simp only [withSParams, Machine.upd_cdvd, ↓reduceIte, Nat.reduceEqDiff, isMechaCommand,
    Nat.reduceLeDiff, decide_True, decide_False, Bool.and_self, Bool.and_false, Bool.false_and,
    Bool.or_false, Bool.false_or, Bool.or_true, Bool.true_or, Option.map_some', h.2.1, hst, ne_eq, not_true_eq_false]
  simp only [result1, setResult, setMechaState, SetSCMDResultSize, Machine.upd_cdvd, hres, ↓reduceIte,
    Option.map_some']
  refine ⟨_, ⟨rfl, ?_, ?_⟩, ?_⟩
  · unfold SParamsAt
    simp only [Machine.upd_cdvd, h.2.2, true_and]
  · simp only [Machine.upd_ks]
  · simp only [cardSession, Machine.upd_cdvd]

theorem sCommand_0x84 (E : Env) (m : Machine) (h : SParamsAt m 0)
    (hst : m.cdvd.mecha_state = MECHA_STATE.MECHA_STATE_CARD_CHALLANGE_GENERATED) :
    ∃ m2, Returned (sCommand E m 0x84 []) m m2 ∧
      cardSession m2 = { cardSession m with state := MECHA_STATE.MECHA_STATE_CARD_CHALLENGE12_SENT } := by
  rw [sCommand_nil]
  unfold Returned cdvdWrite16 sCommandMecha
  simp only [withSParams, Machine.upd_cdvd, ↓reduceIte, Nat.reduceEqDiff, isMechaCommand,
    Nat.reduceLeDiff, decide_True, decide_False, Bool.and_self, Bool.and_false, Bool.false_and,
    Bool.or_false, Bool.false_or, Bool.or_true, Bool.true_or, Option.map_some', h.2.1, hst, and_self]
  refine ⟨_, ⟨rfl, ?_, ?_⟩, ?_⟩
  · unfold SParamsAt
    simp only [result1, copyResult, setResult, setMechaState, SetSCMDResultSize, Machine.upd_cdvd, h.2.2,
      true_and]
  · simp only [result1, copyResult, setResult, setMechaState, SetSCMDResultSize, Machine.upd_ks]
  · simp only [cardSession, result1, copyResult, setResult, setMechaState, SetSCMDResultSize,
      Machine.upd_cdvd]

theorem sCommand_0x85 (E : Env) (m : Machine) (h : SParamsAt m 0)
    (hst : m.cdvd.mecha_state = MECHA_STATE.MECHA_STATE_CARD_CHALLENGE12_SENT) :
    ∃ m2, Returned (sCommand E m 0x85 []) m m2 ∧
      cardSession m2 = { cardSession m with state := MECHA_STATE.MECHA_STATE_CARD_CHALLENGE23_SENT } := by
  rw [sCommand_nil]
  unfold Returned cdvdWrite16 sCommandMecha
  simp only [withSParams, Machine.upd_cdvd, ↓reduceIte, Nat.reduceEqDiff, isMechaCommand,
    Nat.reduceLeDiff, decide_True, decide_False, Bool.and_self, Bool.and_false, Bool.false_and,
    Bool.or_false, Bool.false_or, Bool.or_true, Bool.true_or, Option.map_some', h.2.1, hst, and_self]
  refine ⟨_, ⟨rfl, ?_, ?_⟩, ?_⟩
  · unfold SParamsAt
    simp only [result1, copyResult, setResult, setMechaState, SetSCMDResultSize, Machine.upd_cdvd, h.2.2,
      true_and]
  · simp only [result1, copyResult, setResult, setMechaState, SetSCMDResultSize, Machine.upd_ks]
  · simp only [cardSession, result1, copyResult, setResult, setMechaState, SetSCMDResultSize,
      Machine.upd_cdvd]

theorem sCommand_0x86 (E : Env) (m : Machine) (rsp1 rsp2 : List Nat) (h : SParamsAt m 0)
    (hst : m.cdvd.mecha_state = MECHA_STATE.MECHA_STATE_CARD_CHALLENGE23_SENT)
    (h1 : rsp1.length = 8) (h2 : rsp2.length = 8) :
    ∃ m2, Returned (sCommand E m 0x86 (rsp1 ++ rsp2)) m m2 ∧
      cardSession m2 = { cardSession m with
        state := MECHA_STATE.MECHA_STATE_CARD_RESPONSE12_RECEIVED, rsp1 := rsp1, rsp2 := rsp2 } := by
  rw [sCommand_eq E m _ _ h (by simp [h1, h2])]
  unfold Returned cdvdWrite16 sCommandMecha
  simp only [withSParams, Machine.upd_cdvd, ↓reduceIte, Nat.reduceEqDiff, isMechaCommand,
    Nat.reduceLeDiff, decide_True, decide_False, Bool.and_self, Bool.and_false, Bool.false_and,
    Bool.or_false, Bool.false_or, Bool.or_true, Bool.true_or, Option.map_some', List.length_append, h1, h2, Nat.zero_add, hst, and_self, List.take_zero,
    List.nil_append, Nat.reduceAdd]
  refine ⟨_, ⟨rfl, ?_, ?_⟩, ?_⟩
  · unfold SParamsAt
    simp only [result1, setResult, setMechaState, SetSCMDResultSize, Machine.upd_cdvd, List.length_append,
      List.length_drop, h.2.2, h1, h2, true_and]
  · simp only [result1, setResult, setMechaState, SetSCMDResultSize, Machine.upd_ks]
  · simp only [cardSession, result1, setResult, setMechaState, SetSCMDResultSize, Machine.upd_cdvd]
    rw [slice_append3_first _ _ _ 8 h1, slice_append_second _ _ _ 8 8 h1 h2]

theorem verifyCardChallenge_spec (E : Env) (m : Machine) :
    ((verifyCardChallenge E m).2 = MECHA_RESULT.MECHA_RESULT_CARD_VERIFIED ∨
      (verifyCardChallenge E m).2 = MECHA_RESULT.MECHA_RESULT_FAILED) ∧
    ((verifyCardChallenge E m).2 = MECHA_RESULT.MECHA_RESULT_CARD_VERIFIED ↔
      ResponsesPass E m.ks (cardSession m)) ∧
    (verifyCardChallenge E m).1.ks = m.ks ∧
    (∃ ck, (verifyCardChallenge E m).1.cdvd = { m.cdvd with CardKey := ck }) := by
  unfold verifyCardChallenge ResponsesPass
  lift_lets
  extract_lets c rp1 rp2 rp3
  have e1 : (cardSession m).nonce = c.memcard_nonce := rfl
  have e2 : (cardSession m).random = c.memcard_random := rfl
  have e3 : xor_bit (doubleDesDecrypt E.D (cardSession m).key (cardSession m).rsp1) m.ks.ChallengeIV 8 = rp1 :=
    rfl
  have e4 : xor_bit (doubleDesDecrypt E.D (cardSession m).key (cardSession m).rsp2) (cardSession m).rsp1 8
      = rp2 := rfl
  rw [e1, e2, e3, e4]
  by_cases h1 : c.memcard_nonce = rp1
  · by_cases h2 : c.memcard_random = rp2
    · rw [if_neg (not_not.mpr h1), if_neg (not_not.mpr h2)]
      exact ⟨Or.inl rfl, ⟨fun _ => ⟨h1, h2⟩, fun _ => rfl⟩, rfl, _, rfl⟩
    · rw [if_neg (not_not.mpr h1), if_pos h2]
      refine ⟨Or.inr rfl, ⟨fun h => ?_, fun h => absurd h.2 h2⟩, rfl, m.cdvd.CardKey, rfl⟩
      exact MECHA_RESULT.noConfusion h
  · rw [if_pos h1]
    refine ⟨Or.inr rfl, ⟨fun h => ?_, fun h => absurd h.1 h1⟩, rfl, m.cdvd.CardKey, rfl⟩
    exact MECHA_RESULT.noConfusion h

theorem sCommand_0x87 (E : Env) (m : Machine) (rsp3 : List Nat) (h : SParamsAt m 0)
    (hst : m.cdvd.mecha_state = MECHA_STATE.MECHA_STATE_CARD_RESPONSE12_RECEIVED)
    (h3 : rsp3.length = 8) :
    ∃ m2 r, Returned (sCommand E m 0x87 rsp3) m m2 ∧
      (r = MECHA_RESULT.MECHA_RESULT_CARD_VERIFIED ∨ r = MECHA_RESULT.MECHA_RESULT_FAILED) ∧
      (r = MECHA_RESULT.MECHA_RESULT_CARD_VERIFIED ↔ ResponsesPass E m.ks (cardSession m)) ∧
      cardSession m2 = { cardSession m with
        state := MECHA_STATE.MECHA_STATE_CARD_RESPONSE3_RECEIVED, rsp3 := rsp3, result := r } := by
  rw [sCommand_eq E m _ _ h (by omega)]
  unfold Returned cdvdWrite16 sCommandMecha
  simp only [withSParams, Machine.upd_cdvd, ↓reduceIte, Nat.reduceEqDiff, isMechaCommand,
    Nat.reduceLeDiff, decide_True, decide_False, Bool.and_self, Bool.and_false, Bool.false_and,
    Bool.or_false, Bool.false_or, Bool.or_true, Bool.true_or,
    h3, Nat.zero_add, hst, and_self, List.take_zero, List.nil_append]
  obtain ⟨X, hX⟩ : ∃ X, X = setMechaState
      ((SetSCMDResultSize ((m.upd fun c => { c with
          SCMDParam := rsp3 ++ List.drop 8 c.SCMDParam, SCMDParamP := 8, SCMDParamC := 8 }).upd fun c =>
          { c with sCommand := 0x87, SCMDResult := List.replicate 16 0 }) 1).upd fun c =>
        { c with memcard_reponse3 := slice (rsp3 ++ List.drop 8 m.cdvd.SCMDParam) 0 8 })
      MECHA_STATE.MECHA_STATE_CARD_RESPONSE3_RECEIVED := ⟨_, rfl⟩
  have hXs : X.cdvd.mecha_state = MECHA_STATE.MECHA_STATE_CARD_RESPONSE3_RECEIVED := by
    rw [hX]
    simp only [setMechaState, Machine.upd_cdvd]
  have hXk : X.ks = m.ks := by
    rw [hX]
    simp only [setMechaState, SetSCMDResultSize, Machine.upd_ks]
  have hXp : ResponsesPass E X.ks (cardSession X) ↔ ResponsesPass E m.ks (cardSession m) := by
    rw [hXk, hX]
    unfold ResponsesPass
    simp only [cardSession, setMechaState, SetSCMDResultSize, Machine.upd_cdvd]
  obtain ⟨v1, v2, v3, ck, v4⟩ := verifyCardChallenge_spec E X
  show ∃ m2 r, (Option.map _ (Option.map _ (executeMechaHandler E
      (setMechaState
      ((SetSCMDResultSize ((m.upd fun c => { c with
          SCMDParam := rsp3 ++ List.drop 8 c.SCMDParam, SCMDParamP := 8, SCMDParamC := 8 }).upd fun c =>
          { c with sCommand := 0x87, SCMDResult := List.replicate 16 0 }) 1).upd fun c =>
        { c with memcard_reponse3 := slice (rsp3 ++ List.drop 8 m.cdvd.SCMDParam) 0 8 })
      MECHA_STATE.MECHA_STATE_CARD_RESPONSE3_RECEIVED))) = some m2 ∧ _) ∧ _
  rw [← hX, executeMechaHandler_response3 E X hXs]
  simp only [Option.map_some']
  refine ⟨_, (verifyCardChallenge E X).2, ⟨rfl, ?_, ?_⟩, v1, v2.trans hXp, ?_⟩
  · unfold SParamsAt
    simp only [setResult, Machine.upd_cdvd, v4, true_and]
    rw [hX]
    simp only [setMechaState, SetSCMDResultSize, Machine.upd_cdvd, List.length_append, List.length_drop,
      h3, h.2.2]
  · simp only [setResult, Machine.upd_ks, v3, hXk]
  · simp only [cardSession, setResult, Machine.upd_cdvd, v4]
    rw [hX]
    simp only [setMechaState, SetSCMDResultSize, Machine.upd_cdvd]
    rw [slice_append_first _ _ 8 h3]

theorem sCommand_poll_verify (E : Env) (m : Machine) (h : SParamsAt m 0)
    (hst : m.cdvd.mecha_state = MECHA_STATE.MECHA_STATE_CARD_RESPONSE3_RECEIVED)
    (hres : m.cdvd.mecha_result = MECHA_RESULT.MECHA_RESULT_CARD_VERIFIED ∨
      m.cdvd.mecha_result = MECHA_RESULT.MECHA_RESULT_FAILED) :
    ∃ m2, Returned (sCommand E m 0x8F []) m m2 ∧
      (m.cdvd.mecha_result = MECHA_RESULT.MECHA_RESULT_CARD_VERIFIED →
        cardSession m2 = { cardSession m with state := MECHA_STATE.MECHA_STATE_CARD_VERIFIED } ∧
        resultByte m2 = 0) ∧
      (m.cdvd.mecha_result = MECHA_RESULT.MECHA_RESULT_FAILED →
        cardSession m2 = cardSession m ∧ resultByte m2 = 0x80) := by
  rw [sCommand_nil]
  unfold Returned cdvdWrite16 sCommandMecha
  simp only [withSParams, Machine.upd_cdvd, ↓reduceIte, Nat.reduceEqDiff, isMechaCommand,
    Nat.reduceLeDiff, decide_True, decide_False, Bool.and_self, Bool.and_false, Bool.false_and,
    Bool.or_false, Bool.false_or, Bool.or_true, Bool.true_or, Option.map_some', h.2.1, hst, ne_eq, not_true_eq_false]
  simp only [result1, setResult, setMechaState, SetSCMDResultSize, Machine.upd_cdvd]
  rcases hres with hr | hr
  · simp only [hr, ↓reduceIte, Option.map_some']
    refine ⟨_, ⟨rfl, ?_, ?_⟩, fun _ => ⟨?_, ?_⟩, fun hh => MECHA_RESULT.noConfusion hh⟩
    · unfold SParamsAt
      simp only [Machine.upd_cdvd, h.2.2, true_and]
    · simp only [Machine.upd_ks]
    · simp only [cardSession, Machine.upd_cdvd, hr]
    · simp only [resultByte, Machine.upd_cdvd]
      rfl
  · simp only [hr, reduceCtorEq, ↓reduceIte, Option.map_some']
    refine ⟨_, ⟨rfl, ?_, ?_⟩, fun hh => hh.elim, fun _ => ⟨?_, ?_⟩⟩
    · unfold SParamsAt
      simp only [Machine.upd_cdvd, h.2.2, true_and]
    · simp only [Machine.upd_ks]
    · simp only [cardSession, Machine.upd_cdvd, hst, hr]
    · simp only [resultByte, Machine.upd_cdvd]
      rfl

theorem sCommand_0x88 (E : Env) (m : Machine) (h : SParamsAt m 0) :
    ∃ m2, Returned (sCommand E m 0x88 []) m m2 ∧ cardSession m2 = cardSession m ∧
      (m.cdvd.mecha_state = MECHA_STATE.MECHA_STATE_CARD_VERIFIED → resultByte m2 = 0) ∧
      (m.cdvd.mecha_state ≠ MECHA_STATE.MECHA_STATE_CARD_VERIFIED → resultByte m2 = 0x80) := by
  rw [sCommand_nil]
  unfold Returned cdvdWrite16 sCommandMecha
  simp only [withSParams, Machine.upd_cdvd, ↓reduceIte, Nat.reduceEqDiff, isMechaCommand,
    Nat.reduceLeDiff, decide_True, decide_False, Bool.and_self, Bool.and_false, Bool.false_and,
    Bool.or_false, Bool.false_or, Bool.or_true, Bool.true_or, Option.map_some', h.2.1, and_true]
  by_cases hs : m.cdvd.mecha_state = MECHA_STATE.MECHA_STATE_CARD_VERIFIED
  · simp only [hs, ↓reduceIte, Option.map_some']
    refine ⟨_, ⟨rfl, ?_, ?_⟩, ?_, fun _ => ?_, fun hh => absurd rfl hh⟩
    · unfold SParamsAt
      simp only [setResult, SetSCMDResultSize, Machine.upd_cdvd, h.2.2, true_and]
    · simp only [setResult, SetSCMDResultSize, Machine.upd_ks]
    · simp only [cardSession, setResult, SetSCMDResultSize, Machine.upd_cdvd, hs]
    · simp only [resultByte, setResult, SetSCMDResultSize, Machine.upd_cdvd]
      rfl
  · simp only [hs, ↓reduceIte, Option.map_some']
    refine ⟨_, ⟨rfl, ?_, ?_⟩, ?_, fun hh => hh.elim, fun _ => ?_⟩
    · unfold SParamsAt
      simp only [setResult, SetSCMDResultSize, Machine.upd_cdvd, h.2.2, true_and]
    · simp only [setResult, SetSCMDResultSize, Machine.upd_ks]
    · simp only [cardSession, setResult, SetSCMDResultSize, Machine.upd_cdvd]
    · simp only [resultByte, setResult, SetSCMDResultSize, Machine.upd_cdvd]
      rfl

theorem cardChallenge_spec (E : Env) (hT : E.D.WellTyped) (m : Machine) (h : SParamsAt m 0)
    (hst : m.cdvd.mecha_state ≠ MECHA_STATE.MECHA_STATE_0) (hks : m.ks.CardKeysTyped)
    (sel : Nat) (hsel : sel &&& 0x3F < 0x10 ∧ (sel >>> 6) &&& 3 ≠ 3)
    (iv seed nonce : List Nat) (hiv : IsBytes 8 iv) (hseed : IsBytes 8 seed) (hn : IsBytes 8 nonce) :
    ∃ mc, cardChallenge E m sel iv seed nonce = some mc ∧ SParamsAt mc 0 ∧ mc.ks = m.ks ∧
      mc.cdvd.mecha_state = MECHA_STATE.MECHA_STATE_CARD_CHALLENGE23_SENT ∧
      mc.cdvd.memcard_nonce = nonce ∧ IsBytes 16 mc.cdvd.memcard_key ∧
      IsBytes 8 mc.cdvd.memcard_random := by
  obtain ⟨m1, ⟨e1, p1, k1⟩, s1⟩ := sCommand_0x81 E m sel h hst hsel
  have st1 : m1.cdvd.mecha_state = MECHA_STATE.MECHA_STATE_KEY_INDEXES_SET := congrArg CardSession.state s1
  obtain ⟨m2, ⟨e2, p2, k2⟩, s2⟩ := sCommand_0x82 E m1 iv seed p1 st1 hiv.1 hseed.1
  have st2 : m2.cdvd.mecha_state = MECHA_STATE.MECHA_STATE_CARD_IV_SEED_SET := congrArg CardSession.state s2
  have iv2 : m2.cdvd.memcard_iv = iv := congrArg CardSession.iv s2
  have seed2 : m2.cdvd.memcard_seed = seed := congrArg CardSession.seed s2
  obtain ⟨m3, K, R, ⟨e3, p3, k3⟩, hK, hR, s3⟩ := sCommand_0x83 E m2 nonce hT p2 st2
    (by rw [k2, k1]; exact hks) (by rw [iv2]; exact hiv) (by rw [seed2]; exact hseed) hn.1
  have st3 : m3.cdvd.mecha_state = MECHA_STATE.MECHA_STATE_CARD_NONCE_SET := congrArg CardSession.state s3
  have res3 : m3.cdvd.mecha_result = MECHA_RESULT.MECHA_RESULT_CARD_CHALLANGE_GENERATED :=
    congrArg CardSession.result s3
  obtain ⟨m4, ⟨e4, p4, k4⟩, s4⟩ := sCommand_poll_challenge E m3 p3 st3 res3
  have st4 : m4.cdvd.mecha_state = MECHA_STATE.MECHA_STATE_CARD_CHALLANGE_GENERATED :=
    congrArg CardSession.state s4
  obtain ⟨m5, ⟨e5, p5, k5⟩, s5⟩ := sCommand_0x84 E m4 p4 st4
  have st5 : m5.cdvd.mecha_state = MECHA_STATE.MECHA_STATE_CARD_CHALLENGE12_SENT :=
    congrArg CardSession.state s5
  obtain ⟨m6, ⟨e6, p6, k6⟩, s6⟩ := sCommand_0x85 E m5 p5 st5
  refine ⟨m6, ?_, p6, ?_, congrArg CardSession.state s6, ?_, ?_, ?_⟩
  · unfold cardChallenge
    rw [e1, Option.some_bind, e2, Option.some_bind, e3, Option.some_bind, e4, Option.some_bind, e5,
      Option.some_bind, e6]
  · rw [k6, k5, k4, k3, k2, k1]
  · have a6 : m6.cdvd.memcard_nonce = m5.cdvd.memcard_nonce := congrArg CardSession.nonce s6
    have a5 : m5.cdvd.memcard_nonce = m4.cdvd.memcard_nonce := congrArg CardSession.nonce s5
    have a4 : m4.cdvd.memcard_nonce = m3.cdvd.memcard_nonce := congrArg CardSession.nonce s4
    have a3 : m3.cdvd.memcard_nonce = nonce := congrArg CardSession.nonce s3
    rw [a6, a5, a4, a3]
  · have a6 : m6.cdvd.memcard_key = m5.cdvd.memcard_key := congrArg CardSession.key s6
    have a5 : m5.cdvd.memcard_key = m4.cdvd.memcard_key := congrArg CardSession.key s5
    have a4 : m4.cdvd.memcard_key = m3.cdvd.memcard_key := congrArg CardSession.key s4
    have a3 : m3.cdvd.memcard_key = K := congrArg CardSession.key s3
    rw [a6, a5, a4, a3]
    exact hK
  · have a6 : m6.cdvd.memcard_random = m5.cdvd.memcard_random := congrArg CardSession.random s6
    have a5 : m5.cdvd.memcard_random = m4.cdvd.memcard_random := congrArg CardSession.random s5
    have a4 : m4.cdvd.memcard_random = m3.cdvd.memcard_random := congrArg CardSession.random s4
    have a3 : m3.cdvd.memcard_random = R := congrArg CardSession.random s3
    rw [a6, a5, a4, a3]
    exact hR

theorem cardResponse_spec (E : Env) (hT : E.D.WellTyped) (hI : E.D.Inverts) (mc : Machine)
    (h : SParamsAt mc 0)
    (hst : mc.cdvd.mecha_state = MECHA_STATE.MECHA_STATE_CARD_CHALLENGE23_SENT)
    (hk : IsBytes 16 mc.cdvd.memcard_key) (hr : IsBytes 8 mc.cdvd.memcard_random)
    (hn : IsBytes 8 mc.cdvd.memcard_nonce) (hiv : IsBytes 8 mc.ks.ChallengeIV)
    (rsp1 rsp2 rsp3 : List Nat) (h1 : IsBytes 8 rsp1) (h2 : IsBytes 8 rsp2) (h3 : IsBytes 8 rsp3) :
    ∃ mp mf, cardResponse E mc rsp1 rsp2 rsp3 = some (mp, mf) ∧
      (mf.cdvd.mecha_state = MECHA_STATE.MECHA_STATE_CARD_VERIFIED ↔
        rsp1 = doubleDesEncrypt E.D mc.cdvd.memcard_key (xor_bit mc.cdvd.memcard_nonce mc.ks.ChallengeIV 8) ∧
        rsp2 = doubleDesEncrypt E.D mc.cdvd.memcard_key (xor_bit mc.cdvd.memcard_random rsp1 8)) ∧
      (mf.cdvd.mecha_state = MECHA_STATE.MECHA_STATE_CARD_VERIFIED → resultByte mp = 0 ∧ resultByte mf = 0) ∧
      (mf.cdvd.mecha_state ≠ MECHA_STATE.MECHA_STATE_CARD_VERIFIED →
        resultByte mp = 0x80 ∧ resultByte mf = 0x80) := by
  obtain ⟨m1, ⟨e1, p1, k1⟩, s1⟩ := sCommand_0x86 E mc rsp1 rsp2 h hst h1.1 h2.1
  have st1 : m1.cdvd.mecha_state = MECHA_STATE.MECHA_STATE_CARD_RESPONSE12_RECEIVED :=
    congrArg CardSession.state s1
  obtain ⟨m2, r, ⟨e2, p2, k2⟩, hr2, hpass, s2⟩ := sCommand_0x87 E m1 rsp3 p1 st1 h3.1
  have st2 : m2.cdvd.mecha_state = MECHA_STATE.MECHA_STATE_CARD_RESPONSE3_RECEIVED :=
    congrArg CardSession.state s2
  have res2 : m2.cdvd.mecha_result = r := congrArg CardSession.result s2
  have hmatch : ResponsesPass E m1.ks (cardSession m1) ↔
      (rsp1 = doubleDesEncrypt E.D mc.cdvd.memcard_key (xor_bit mc.cdvd.memcard_nonce mc.ks.ChallengeIV 8) ∧
        rsp2 = doubleDesEncrypt E.D mc.cdvd.memcard_key (xor_bit mc.cdvd.memcard_random rsp1 8)) := by
    rw [k1, s1]
    unfold ResponsesPass
    simp only [cardSession]
    rw [doubleDesDecrypt_xor_eq_iff E.D hT hI _ rsp1 _ _ hk h1 hiv hn,
      doubleDesDecrypt_xor_eq_iff E.D hT hI _ rsp2 _ _ hk h2 h1 hr]
  obtain ⟨m3, ⟨e3, p3, k3⟩, hv, hf⟩ := sCommand_poll_verify E m2 p2 st2 (by rw [res2]; exact hr2)
  obtain ⟨m4, ⟨e4, p4, k4⟩, s4, b0, b80⟩ := sCommand_0x88 E m3 p3
  have st4 : m4.cdvd.mecha_state = m3.cdvd.mecha_state := congrArg CardSession.state s4
  have hflow : cardResponse E mc rsp1 rsp2 rsp3 = some (m3, m4) := by
    unfold cardResponse
    rw [e1, Option.some_bind, e2, Option.some_bind, e3, Option.some_bind, e4, Option.map_some']
  refine ⟨m3, m4, hflow, ?_⟩
  rcases hr2 with hr2 | hr2
  · obtain ⟨s3, byte3⟩ := hv (res2.trans hr2)
    have st3 : m3.cdvd.mecha_state = MECHA_STATE.MECHA_STATE_CARD_VERIFIED := congrArg CardSession.state s3
    have hpass2 := (hpass.mp hr2)
    refine ⟨⟨fun _ => hmatch.mp hpass2, fun _ => st4.trans st3⟩, fun _ => ⟨byte3, b0 st3⟩, fun hne => ?_⟩
    exact absurd (st4.trans st3) hne
  · obtain ⟨s3, byte3⟩ := hf (res2.trans hr2)
    have st3 : m3.cdvd.mecha_state = MECHA_STATE.MECHA_STATE_CARD_RESPONSE3_RECEIVED :=
      (congrArg CardSession.state s3).trans st2
    have hne3 : m3.cdvd.mecha_state ≠ MECHA_STATE.MECHA_STATE_CARD_VERIFIED := by
      rw [st3]
      decide
    have hne4 : m4.cdvd.mecha_state ≠ MECHA_STATE.MECHA_STATE_CARD_VERIFIED := by
      rw [st4]
      exact hne3
    have hnp : ¬ ResponsesPass E m1.ks (cardSession m1) := by
      intro hp
      have := hpass.mpr hp
      rw [hr2] at this
      exact MECHA_RESULT.noConfusion this
    refine ⟨⟨fun hh => absurd hh hne4, fun hh => absurd (hmatch.mpr hh) hnp⟩, fun hh => absurd hh hne4,
      fun _ => ⟨byte3, b80 hne3⟩⟩

/-- C1, as stated, fails: on `demoDrive` under DES, the matching responses reach
`MECHA_STATE_CARD_VERIFIED`; with one byte of response block 3 changed the session
still reaches it, because block 3 is not compared; and with one byte of response
block 1 changed the session ends in `MECHA_STATE_CARD_RESPONSE3_RECEIVED`, not in
`MECHA_STATE_READY`. -/
theorem C1_card_auth_counterexample :
    demoCardAuth (fun mc => (matchingResponse1 demoEnv mc,
      matchingResponse2 demoEnv mc (matchingResponse1 demoEnv mc), [9, 9, 9, 9, 9, 9, 9, 9])) =
      some (MECHA_STATE.MECHA_STATE_CARD_VERIFIED, 0) ∧
    demoCardAuth (fun mc => (matchingResponse1 demoEnv mc,
      matchingResponse2 demoEnv mc (matchingResponse1 demoEnv mc),
      flipByte [9, 9, 9, 9, 9, 9, 9, 9] 0)) =
      some (MECHA_STATE.MECHA_STATE_CARD_VERIFIED, 0) ∧
    demoCardAuth (fun mc => (flipByte (matchingResponse1 demoEnv mc) 0,
      matchingResponse2 demoEnv mc (matchingResponse1 demoEnv mc), [9, 9, 9, 9, 9, 9, 9, 9])) =
      some (MECHA_STATE.MECHA_STATE_CARD_RESPONSE3_RECEIVED, 0x80) := by
  decide!

/-- C1, amended. For the S-command sequence 0x81, 0x82, 0x83, poll 0x8F, 0x84, 0x85,
0x86, 0x87, poll 0x8F, 0x88 on a session that is set up, under a cipher whose
decryption inverts its encryption: all ten commands return, and the session reaches
`MECHA_STATE_CARD_VERIFIED` exactly when response blocks 1 and 2 are the matching ones
of the generated challenge (block 1 the encrypted nonce, block 2 the encrypted random
chained on block 1); response block 3 is not compared. When it is reached the poll
and 0x88 return 0; for every other response, so for every response that differs from
a matching one in a byte of block 1 or 2, it is not reached and the poll and 0x88
return the error byte 0x80. -/
theorem C1_card_auth (E : Env) (hT : E.D.WellTyped) (hI : E.D.Inverts) (m : Machine)
    (h : SParamsAt m 0) (hst : m.cdvd.mecha_state ≠ MECHA_STATE.MECHA_STATE_0)
    (hks : m.ks.CardKeysTyped) (sel : Nat) (hsel : sel &&& 0x3F < 0x10 ∧ (sel >>> 6) &&& 3 ≠ 3)
    (iv seed nonce : List Nat) (hiv : IsBytes 8 iv) (hseed : IsBytes 8 seed) (hn : IsBytes 8 nonce)
    (rsp1 rsp2 rsp3 : List Nat) (h1 : IsBytes 8 rsp1) (h2 : IsBytes 8 rsp2) (h3 : IsBytes 8 rsp3) :
    ∃ mc mp mf, cardChallenge E m sel iv seed nonce = some mc ∧
      mc.cdvd.memcard_nonce = nonce ∧
      cardResponse E mc rsp1 rsp2 rsp3 = some (mp, mf) ∧
      (mf.cdvd.mecha_state = MECHA_STATE.MECHA_STATE_CARD_VERIFIED ↔
        rsp1 = matchingResponse1 E mc ∧ rsp2 = matchingResponse2 E mc rsp1) ∧
      (mf.cdvd.mecha_state = MECHA_STATE.MECHA_STATE_CARD_VERIFIED → resultByte mp = 0 ∧ resultByte mf = 0) ∧
      (mf.cdvd.mecha_state ≠ MECHA_STATE.MECHA_STATE_CARD_VERIFIED →
        resultByte mp = 0x80 ∧ resultByte mf = 0x80) := by
  obtain ⟨mc, e, p, k, st, hnonce, hkey, hrand⟩ :=
    cardChallenge_spec E hT m h hst hks sel hsel iv seed nonce hiv hseed hn
  obtain ⟨mp, mf, e2, r1, r2, r3⟩ := cardResponse_spec E hT hI mc p st hkey hrand
    (by rw [hnonce]; exact hn) (by rw [k]; exact hks.2.2.2.2) rsp1 rsp2 rsp3 h1 h2 h3
  exact ⟨mc, mp, mf, e, hnonce, e2, r1, r2, r3⟩

/-- The card authentication on `demoDrive` under DES with all-zero responses. -/
theorem C1_card_auth_witness :
    ∃ mc mp mf, cardChallenge demoEnv demoDrive 0 [1, 2, 3, 4, 5, 6, 7, 8] [8, 7, 6, 5, 4, 3, 2, 1]
        [0x10, 0x20, 0x30, 0x40, 0x50, 0x60, 0x70, 0x80] = some mc ∧
      mc.cdvd.memcard_nonce = [0x10, 0x20, 0x30, 0x40, 0x50, 0x60, 0x70, 0x80] ∧
      cardResponse demoEnv mc (List.replicate 8 0) (List.replicate 8 0) (List.replicate 8 0) =
        some (mp, mf) ∧
      (mf.cdvd.mecha_state = MECHA_STATE.MECHA_STATE_CARD_VERIFIED ↔
        List.replicate 8 0 = matchingResponse1 demoEnv mc ∧
        List.replicate 8 0 = matchingResponse2 demoEnv mc (List.replicate 8 0)) ∧
      (mf.cdvd.mecha_state = MECHA_STATE.MECHA_STATE_CARD_VERIFIED → resultByte mp = 0 ∧ resultByte mf = 0) ∧
      (mf.cdvd.mecha_state ≠ MECHA_STATE.MECHA_STATE_CARD_VERIFIED →
        resultByte mp = 0x80 ∧ resultByte mf = 0x80) :=
  C1_card_auth demoEnv des_wellTyped des_inverts demoDrive ⟨rfl, rfl, rfl⟩ (by decide) (by decide) 0
    (by decide) _ _ _ (by decide) (by decide) (by decide) _ _ _ (by decide) (by decide) (by decide)

theorem blit_getElem?_before (buf : List Nat) (off : Nat) (data : List Nat) (p : Nat) (h : p < off) :
    (blit buf off data)[p]? = buf[p]? := by
  unfold blit
  by_cases hp : p < buf.length
  · rw [List.append_assoc, List.getElem?_append_left (by rw [List.length_take]; omega),
      List.getElem?_take_of_lt h]
  · have hl : (buf.take off ++ data.take (buf.length - off) ++ buf.drop (off + data.length)).length
        ≤ p := by
      simp only [List.length_append, List.length_take, List.length_drop]
      omega
    rw [List.getElem?_eq_none hl, List.getElem?_eq_none (by omega)]

theorem slice_getElem? (buf : List Nat) (p n k : Nat) :
    (slice buf p n)[k]? = if k < n then buf[p + k]? else none := by
  unfold slice
  rw [List.getElem?_take]
  split
  · rw [List.getElem?_drop]
  · rfl

theorem slice_congr_below (a b : List Nat) (bound p n : Nat) (h : ∀ q, q < bound → a[q]? = b[q]?)
    (hb : p + n ≤ bound) : slice a p n = slice b p n := by
  apply List.ext_getElem?
  intro k
  rw [slice_getElem?, slice_getElem?]
  split
  · exact h _ (by omega)
  · rfl

theorem getD_congr_below (a b : List Nat) (bound p : Nat) (h : ∀ q, q < bound → a[q]? = b[q]?)
    (hb : p < bound) : a.getD p 0 = b.getD p 0 := by
  rw [List.getD_eq_getElem?_getD, List.getD_eq_getElem?_getD, h p hb]

theorem bitBlockFlags_congr_below (a b : List Nat) (bound cur : Nat)
    (h : ∀ q, q < bound → a[q]? = b[q]?) (hb : cur + 8 ≤ bound) :
    bitBlockFlags a cur = bitBlockFlags b cur := by
  unfold bitBlockFlags
  rw [slice_congr_below a b bound (cur + 4) 4 h (by omega)]

theorem store_length (buf : List Nat) (off n : Nat) (data : List Nat) :
    (store buf off n data).length = max buf.length (off + n) := by
  unfold store
  simp only [List.length_append, List.length_take, List.length_replicate, List.length_drop]
  omega

theorem store_getElem?_before (buf : List Nat) (off n : Nat) (data : List Nat) (p : Nat)
    (h : p < off) (hl : off ≤ buf.length) : (store buf off n data)[p]? = buf[p]? := by
  unfold store
  rw [List.append_assoc, List.getElem?_append_left
      (by simp only [List.length_take, List.length_append, List.length_replicate]; omega),
    List.getElem?_take_of_lt h, List.getElem?_append_left (by omega)]

/-- A store that ends inside the buffer is the bounded copy. -/
theorem store_eq_blit (buf : List Nat) (off : Nat) (data : List Nat)
    (h : off + data.length ≤ buf.length) : store buf off data.length data = blit buf off data := by
  unfold store blit
  rw [show off - buf.length = 0 by omega, List.replicate_zero, List.append_nil,
    List.take_append_of_le_length (Nat.le_refl _), List.take_length,
    List.take_of_length_le (show data.length ≤ buf.length - off by omega)]

/-- The loop over the bit table leaves the memory below the block it starts at as it is. -/
theorem bitTableLoop_below (D : DesCipher) (Kbit : List Nat) (bt : Nat) :
    ∀ (n i : Nat) (st : BitTableLoop), bt + 8 + 16 * i ≤ st.buf.length →
      ∀ q, q < bt + 8 + 16 * i → (bitTableLoop D Kbit bt n i st).buf[q]? = st.buf[q]? := by
  intro n
  induction n with
  | zero => intro i st _ q _; rfl
  | succ n ih =>
    intro i st hl q hq
    unfold bitTableLoop
    lift_lets
    extract_lets cur odd buf1 even buf2 flags
    have hcur : cur = bt + 8 + 16 * i := rfl
    have hl1 : buf1.length = max st.buf.length (cur + 8) := store_length _ _ _ _
    have hl2 : buf2.length = max buf1.length (cur + 8 + 8) := store_length _ _ _ _
    have hb : buf2[q]? = st.buf[q]? := by
      simp only [buf2]
      rw [store_getElem?_before _ _ _ _ _ (by omega) (by omega)]
      simp only [buf1]
      rw [store_getElem?_before _ _ _ _ _ (by omega) (by omega)]
    split
    · split
      · exact hb
      · rw [ih _ _ (by show bt + 8 + 16 * (i + 1) ≤ buf2.length; omega) q (by omega)]
        exact hb
    · rw [ih _ _ (by show bt + 8 + 16 * (i + 1) ≤ buf2.length; omega) q (by omega)]
      exact hb

/-- The loop over the bit table never makes the memory it works on shorter. -/
theorem bitTableLoop_length (D : DesCipher) (Kbit : List Nat) (bt : Nat) :
    ∀ (n i : Nat) (st : BitTableLoop) (L : Nat), L ≤ st.buf.length →
      L ≤ (bitTableLoop D Kbit bt n i st).buf.length := by
  intro n
  induction n with
  | zero => intro i st L h; exact h
  | succ n ih =>
    intro i st L h
    unfold bitTableLoop
    lift_lets
    extract_lets cur odd buf1 even buf2 flags
    have hl1 : buf1.length = max st.buf.length (cur + 8) := store_length _ _ _ _
    have hl2 : buf2.length = max buf1.length (cur + 8 + 8) := store_length _ _ _ _
    have hb : L ≤ buf2.length := by omega
    split
    · split
      · exact hb
      · exact ih _ _ L hb
    · exact ih _ _ L hb

/-- A block that the loop over the bit table decrypts behind the end of the memory it
works on makes that memory longer. -/
theorem bitTableLoop_grows (D : DesCipher) (Kbit : List Nat) (bt n i : Nat) (st : BitTableLoop) :
    bt + 8 + 16 * i + 16 ≤ (bitTableLoop D Kbit bt (n + 1) i st).buf.length := by
  unfold bitTableLoop
  lift_lets
  extract_lets cur odd buf1 even buf2 flags
  have hl1 : buf1.length = max st.buf.length (cur + 8) := store_length _ _ _ _
  have hl2 : buf2.length = max buf1.length (cur + 8 + 8) := store_length _ _ _ _
  have hcur : cur = bt + 8 + 16 * i := rfl
  have hb : bt + 8 + 16 * i + 16 ≤ buf2.length := by omega
  split
  · split
    · exact hb
    · exact bitTableLoop_length D Kbit bt n _ _ _ hb
  · exact bitTableLoop_length D Kbit bt n _ _ _ hb

theorem signedBlocksFrom_congr_below (a b : List Nat) (bt : Nat) :
    ∀ (n i : Nat), (∀ q, q < bt + 8 + 16 * (i + n) → a[q]? = b[q]?) →
      signedBlocksFrom a bt n i = signedBlocksFrom b bt n i := by
  intro n
  induction n with
  | zero => intro i _; rfl
  | succ n ih =>
    intro i h
    unfold signedBlocksFrom
    rw [ih (i + 1) (fun q hq => h q (by omega)),
      bitBlockFlags_congr_below a b _ (bt + 8 + 16 * i) h (by omega)]

theorem signedBlocksFrom_succ (buf : List Nat) (bt n i : Nat) :
    signedBlocksFrom buf bt (n + 1) i =
      (if bitBlockFlags buf (bt + 8 + 16 * i) &&& BIT_BLOCK_SIGNED ≠ 0 then 1 else 0) +
        signedBlocksFrom buf bt n (i + 1) := rfl

/-- When the loop over the bit table ends without failing, its counter has grown by the
number of signed blocks of the decrypted table it leaves. -/
theorem bitTableLoop_signed (D : DesCipher) (Kbit : List Nat) (bt : Nat) :
    ∀ (n i : Nat) (st r : BitTableLoop), r = bitTableLoop D Kbit bt n i st → r.failed = false →
      r.signedBitBlocks = st.signedBitBlocks + signedBlocksFrom r.buf bt n i := by
  intro n
  induction n with
  | zero =>
    intro i st r hr _
    rw [hr]
    rfl
  | succ n ih =>
    intro i st r hr hf
    have hbelow0 := bitTableLoop_below D Kbit bt n (i + 1)
    unfold bitTableLoop at hr
    lift_lets at hr
    extract_lets cur odd buf1 even buf2 flags at hr
    have hl1 : buf1.length = max st.buf.length (cur + 8) := store_length _ _ _ _
    have hl2 : buf2.length = max buf1.length (cur + 8 + 8) := store_length _ _ _ _
    have hcur : cur = bt + 8 + 16 * i := rfl
    have hbelow : ∀ st2 : BitTableLoop, st2.buf = buf2 →
        ∀ q, q < bt + 8 + 16 * (i + 1) → (bitTableLoop D Kbit bt n (i + 1) st2).buf[q]? = st2.buf[q]? :=
      fun st2 h2 => hbelow0 st2 (by rw [h2]; omega)
    rw [signedBlocksFrom_succ]
    split at hr
    · rename_i hfl
      split at hr
      · rw [hr] at hf
        exact absurd hf (by simp)
      · rw [ih _ _ r hr hf]
        have hb : bitBlockFlags r.buf (bt + 8 + 16 * i) = flags := by
          rw [hr]
          exact bitBlockFlags_congr_below _ buf2 (bt + 8 + 16 * (i + 1)) cur (hbelow _ rfl) (by omega)
        rw [hb]
        show (if flags &&& BIT_BLOCK_SIGNED ≠ 0 then st.signedBitBlocks + 1 else st.signedBitBlocks) + _ =
          st.signedBitBlocks + ((if flags &&& BIT_BLOCK_SIGNED ≠ 0 then 1 else 0) + _)
        split <;> omega
    · rename_i hfl
      rw [ih _ _ r hr hf]
      have hb : bitBlockFlags r.buf (bt + 8 + 16 * i) = flags := by
        rw [hr]
        exact bitBlockFlags_congr_below _ buf2 (bt + 8 + 16 * (i + 1)) cur (hbelow _ rfl) (by omega)
      rw [hb]
      have hz : flags &&& BIT_BLOCK_SIGNED = 0 := by
        by_contra hne
        exact hfl (Or.inl hne)
      rw [if_neg (by rw [hz]; simp)]
      show st.signedBitBlocks + _ = st.signedBitBlocks + (0 + _)
      omega

/-- The outcome of the bit-table part of `DecryptKelfHeader` against the number of signed
blocks of the table it leaves decrypted in the data buffer. -/
theorem decryptKelfBitTable_signed (E : Env) (m : Machine) (headerSize : Nat) (HeaderSignature : List Nat)
    (r : Machine × MECHA_RESULT) (hr : r = decryptKelfBitTable E m headerSize HeaderSignature) :
    (r.2 = MECHA_RESULT.MECHA_RESULT_KELF_HEADER_VERIFED →
      1 ≤ signedBlockCount r.1.cdvd.data_buffer r.1.cdvd.bitTablePtr) ∧
    (signedBlockCount r.1.cdvd.data_buffer r.1.cdvd.bitTablePtr = 0 →
      r.2 = MECHA_RESULT.MECHA_RESULT_FAILED ∧ r.1.cdvd.mecha_errorcode = 0x81) := by
  unfold decryptKelfBitTable at hr
  lift_lets at hr
  extract_lets offset keys Kbit bt m1 even buf0 st m2 buf BlockCount BitTableSignature m3
    RootSignatureSource icv RootSignature m4 m5 m6 m7 at hr
  have h2 : m2.cdvd.data_buffer = st.buf ∧ m2.cdvd.bitTablePtr = bt := by
    simp only [m2, m1, Machine.upd_cdvd, and_self]
  have h3 : m3.cdvd.data_buffer = st.buf ∧ m3.cdvd.bitTablePtr = bt := by
    simp only [m3, Machine.upd_cdvd]
    exact h2
  have h4 : m4.cdvd.data_buffer = st.buf ∧ m4.cdvd.bitTablePtr = bt := by
    simp only [m4]
    split
    · simp only [Machine.upd_cdvd]
      exact h3
    · exact h3
  have h5 : m5.cdvd.data_buffer = st.buf ∧ m5.cdvd.bitTablePtr = bt := by
    simp only [m5]
    split
    · simp only [Machine.upd_cdvd]
      exact h4
    · split
      · simp only [Machine.upd_cdvd]
        exact h4
      · exact h4
  have h6 : m6.cdvd.data_buffer = st.buf ∧ m6.cdvd.bitTablePtr = bt := by
    simp only [m6, Machine.upd_cdvd]
    exact h5
  have h7 : m7.cdvd.data_buffer = st.buf ∧ m7.cdvd.bitTablePtr = bt := by
    simp only [m7]
    split
    · simp only [Machine.upd_cdvd]
      exact h6
    · exact h6
  have hcount : bitTableBlockCount st.buf bt = bitTableBlockCount buf0 bt := by
    unfold bitTableBlockCount
    refine getD_congr_below _ _ (bt + 8 + 16 * 0) (bt + 4)
      (bitTableLoop_below E.D Kbit bt _ 0 _ ?_) (by omega)
    show bt + 8 + 16 * 0 ≤ buf0.length
    have hl0 : buf0.length = max m1.cdvd.data_buffer.length (bt + 8) := store_length _ _ _ _
    omega
  have hsigned : st.failed = false → st.signedBitBlocks = signedBlockCount st.buf bt := by
    intro hf
    unfold signedBlockCount
    rw [hcount, bitTableLoop_signed E.D Kbit bt _ 0 _ st rfl hf, Nat.zero_add]
  have hfail : ∀ x : Machine, x.cdvd.data_buffer = st.buf ∧ x.cdvd.bitTablePtr = bt →
      ∀ code, ((mechaFail x code).1.cdvd.data_buffer = st.buf ∧
        (mechaFail x code).1.cdvd.bitTablePtr = bt) ∧
        (mechaFail x code).2 = MECHA_RESULT.MECHA_RESULT_FAILED ∧
        (mechaFail x code).1.cdvd.mecha_errorcode = code := by
    intro x hx code
    simp only [mechaFail, Machine.upd_cdvd, and_self, and_true]
    exact hx
  by_cases hf : st.failed = true
  · rw [if_pos hf] at hr
    obtain ⟨_, e2, e3⟩ := hfail m2 h2 0x81
    rw [hr]
    exact ⟨fun hv => by rw [e2] at hv; exact MECHA_RESULT.noConfusion hv, fun _ => ⟨e2, e3⟩⟩
  · rw [if_neg hf] at hr
    have hs := hsigned (by simpa using hf)
    by_cases hz : st.signedBitBlocks = 0
    · rw [if_pos hz] at hr
      obtain ⟨_, e2, e3⟩ := hfail m2 h2 0x81
      rw [hr]
      exact ⟨fun hv => by rw [e2] at hv; exact MECHA_RESULT.noConfusion hv, fun _ => ⟨e2, e3⟩⟩
    · rw [if_neg hz] at hr
      have hpos : ∀ x : Machine, x.cdvd.data_buffer = st.buf ∧ x.cdvd.bitTablePtr = bt →
          1 ≤ signedBlockCount x.cdvd.data_buffer x.cdvd.bitTablePtr := by
        intro x hx
        rw [hx.1, hx.2, ← hs]
        omega
      have hall : r.1.cdvd.data_buffer = st.buf ∧ r.1.cdvd.bitTablePtr = bt := by
        rw [hr]
        split
        · exact (hfail m2 h2 _).1
        · split
          · exact (hfail m3 h3 _).1
          · exact h7
      have hp := hpos r.1 hall
      exact ⟨fun _ => hp, fun h0 => by omega⟩

/-- C10, as stated, fails: on `kelfDrive twoSignedKelf` under DES the bit table holds two
blocks flagged `BIT_BLOCK_SIGNED`, and `DecryptKelfHeader` accepts the header. -/
theorem C10_two_signed_blocks_counterexample :
    signedBlockCount (DecryptKelfHeader demoEnv (kelfDrive twoSignedKelf)).1.cdvd.data_buffer
      (DecryptKelfHeader demoEnv (kelfDrive twoSignedKelf)).1.cdvd.bitTablePtr = 2 ∧
    (DecryptKelfHeader demoEnv (kelfDrive twoSignedKelf)).2 =
      MECHA_RESULT.MECHA_RESULT_KELF_HEADER_VERIFED := by
  decide!

/-- C10, amended. `DecryptKelfHeader` accepts a header only if the bit table it decrypts
contains at least one block flagged `BIT_BLOCK_SIGNED`; a header that passes the checks
in front of the bit table (header signature, header size, mode-3 flags, ban list) and
whose bit table has no signed block is rejected with `mecha_errorcode` 0x81. -/
theorem C10_kelf_header_signed_block (E : Env) (m : Machine) :
    ((DecryptKelfHeader E m).2 = MECHA_RESULT.MECHA_RESULT_KELF_HEADER_VERIFED →
      1 ≤ signedBlockCount (DecryptKelfHeader E m).1.cdvd.data_buffer
        (DecryptKelfHeader E m).1.cdvd.bitTablePtr) ∧
    (KelfHeaderChecksPass E m →
      signedBlockCount (DecryptKelfHeader E m).1.cdvd.data_buffer
        (DecryptKelfHeader E m).1.cdvd.bitTablePtr = 0 →
      (DecryptKelfHeader E m).2 = MECHA_RESULT.MECHA_RESULT_FAILED ∧
        (DecryptKelfHeader E m).1.cdvd.mecha_errorcode = 0x81) := by
  obtain ⟨r, hr⟩ : ∃ r, r = DecryptKelfHeader E m := ⟨_, rfl⟩
  rw [← hr]
  unfold DecryptKelfHeader at hr
  lift_lets at hr
  extract_lets buf headerSize HeaderSignature r1 r2 m2 at hr
  have hfail : ∀ (x : Machine) (code : Nat), r = mechaFail x code →
      ¬ r.2 = MECHA_RESULT.MECHA_RESULT_KELF_HEADER_VERIFED := by
    intro x code e hv
    rw [e] at hv
    exact MECHA_RESULT.noConfusion hv
  split at hr
  · rename_i hc
    exact ⟨fun hv => absurd hv (hfail _ _ hr), fun hp => absurd hp.1 hc⟩
  · split at hr
    · rename_i hc
      exact ⟨fun hv => absurd hv (hfail _ _ hr), fun hp => absurd hp.2.1 hc⟩
    · split at hr
      · rename_i hc
        exact ⟨fun hv => absurd hv (hfail _ _ hr), fun hp => absurd hc hp.2.2.1⟩
      · split at hr
        · rename_i hc
          refine ⟨fun hv => absurd hv (hfail _ _ hr), fun hp => ?_⟩
          have hb := hp.2.2.2
          rw [hc] at hb
          exact Bool.noConfusion hb
        · obtain ⟨a, b⟩ := decryptKelfBitTable_signed E m2 headerSize HeaderSignature r hr
          exact ⟨a, fun _ => b⟩

/-- The header `unsignedKelf` passes the checks in front of the bit table, its bit table
has no signed block, and `DecryptKelfHeader` rejects it with `mecha_errorcode` 0x81. -/
theorem C10_kelf_header_signed_block_witness :
    KelfHeaderChecksPass demoEnv (kelfDrive unsignedKelf) ∧
    signedBlockCount (DecryptKelfHeader demoEnv (kelfDrive unsignedKelf)).1.cdvd.data_buffer
      (DecryptKelfHeader demoEnv (kelfDrive unsignedKelf)).1.cdvd.bitTablePtr = 0 ∧
    (DecryptKelfHeader demoEnv (kelfDrive unsignedKelf)).2 = MECHA_RESULT.MECHA_RESULT_FAILED ∧
    (DecryptKelfHeader demoEnv (kelfDrive unsignedKelf)).1.cdvd.mecha_errorcode = 0x81 :=
  have hp : KelfHeaderChecksPass demoEnv (kelfDrive unsignedKelf) := by decide!
  have hz : signedBlockCount (DecryptKelfHeader demoEnv (kelfDrive unsignedKelf)).1.cdvd.data_buffer
      (DecryptKelfHeader demoEnv (kelfDrive unsignedKelf)).1.cdvd.bitTablePtr = 0 := by decide!
  ⟨hp, hz, (C10_kelf_header_signed_block demoEnv (kelfDrive unsignedKelf)).2 hp hz⟩

/-- C12, the code at the failing input: when the retry budget is exhausted
`cdvdReadInterrupt` returns without reporting: `cdvd.Error` stays 0, the error bit of
`cdvd.Ready` stays clear (the drive stays busy), `IntrStat` is unchanged, and neither
the command-complete IRQ nor a further read interrupt is raised. -/
theorem C12_retry_exhausted_not_reported :
    (cdvdReadInterrupt demoEnv retryExhaustedDrive).cdvd.Error = 0 ∧
    (cdvdReadInterrupt demoEnv retryExhaustedDrive).cdvd.Ready = 0x8A ∧
    (cdvdReadInterrupt demoEnv retryExhaustedDrive).cdvd.Ready &&& CDVD_DRIVE_ERROR = 0 ∧
    (cdvdReadInterrupt demoEnv retryExhaustedDrive).cdvd.IntrStat = retryExhaustedDrive.cdvd.IntrStat ∧
    (cdvdReadInterrupt demoEnv retryExhaustedDrive).cdvd.RetryCntP = 2 ∧
    (cdvdReadInterrupt demoEnv retryExhaustedDrive).trace = [Event.getBuffer] := by
  decide

/-- C13, the code at the failing input: `N_CD_READ_CDDA` written while the drive holds a
DVD is rejected with `cdvd.Error = 0x14`, the error bit and the IRQ, and the case leaves
`cdvdWrite04` by `return`: `NCMDParamP` and `NCMDParamC` stay at 11. -/
theorem C13_disc_type_error_keeps_params :
    cddaOnDvdDrive.cdvd.NCMDParamP = 11 ∧ cddaOnDvdDrive.cdvd.NCMDParamC = 11 ∧
    (cdvdWrite04 demoEnv cddaOnDvdDrive N_CD_READ_CDDA).cdvd.Error = 0x14 ∧
    (cdvdWrite04 demoEnv cddaOnDvdDrive N_CD_READ_CDDA).cdvd.Ready &&& CDVD_DRIVE_ERROR = 1 ∧
    (cdvdWrite04 demoEnv cddaOnDvdDrive N_CD_READ_CDDA).trace = [Event.iopIntcIrq] ∧
    (cdvdWrite04 demoEnv cddaOnDvdDrive N_CD_READ_CDDA).cdvd.NCMDParamP = 11 ∧
    (cdvdWrite04 demoEnv cddaOnDvdDrive N_CD_READ_CDDA).cdvd.NCMDParamC = 11 := by
  decide

/-- C14, the code at the failing input: for the command byte 0x10 the parameter-length
check runs before the range check and reads `cdvdParamLength[0x10]`, behind the 16
entries of the table; with one parameter written and 0 behind the table, `cdvdWrite04`
rejects the command with `cdvd.Error = 0x22`, not 0x10. -/
theorem C14_length_lookup_behind_table :
    oneParamDrive.cdvd.Ready &&& CDVD_DRIVE_READY ≠ 0 ∧
    oneParamDrive.cdvd.Status &&& CDVD_STATUS_TRAY_OPEN = 0 ∧
    oneParamDrive.cdvd.DiscType ≠ CDVD_TYPE_NODISC ∧
    cdvdParamLength.length = 16 ∧
    cdvdParamLengthAt demoEnv 0x10 = demoEnv.cdvdParamLengthBeyond 0x10 ∧
    (cdvdWrite04 demoEnv oneParamDrive 0x10).cdvd.Error = 0x22 := by
  decide

/-- C15, as stated, fails: on the busy drive with a BREAK pending, a byte written to the
N-command register is rejected with error 0x13, and `cdvd.AbortRequested` does not stay
as it was: `cdvdSetIrq` clears it. -/
theorem C15_not_ready_counterexample :
    breakPendingDrive.cdvd.Ready &&& CDVD_DRIVE_READY = 0 ∧
    breakPendingDrive.cdvd.AbortRequested = true ∧
    (cdvdWrite04 demoEnv breakPendingDrive N_CD_NOP).cdvd.Error = 0x13 ∧
    (cdvdWrite04 demoEnv breakPendingDrive N_CD_NOP).cdvd.AbortRequested = false := by
  decide

/-- C15, amended. If `cdvd.Ready` does not contain `CDVD_DRIVE_READY` when a byte is
written to the N-command register, `cdvdWrite04` sets `cdvd.Error = 0x13`, sets the error
bit in `Ready`, raises the command-complete IRQ, clears the N parameter counters and
dispatches nothing: `cdvd.nCommand`, `Action`, `Reading`, `Readed`, `nSectors` and
`SeekToSector` are unchanged and no IOP event is scheduled; `AbortRequested` is cleared,
as by every `cdvdSetIrq`. -/
theorem C15_not_ready (E : Env) (m : Machine) (rt : Nat)
    (h : m.cdvd.Ready &&& CDVD_DRIVE_READY = 0) :
    (cdvdWrite04 E m rt).cdvd.Error = 0x13 ∧
    (cdvdWrite04 E m rt).cdvd.Ready = m.cdvd.Ready ||| CDVD_DRIVE_ERROR ∧
    (cdvdWrite04 E m rt).cdvd.IntrStat = m.cdvd.IntrStat ||| IRQ_COMMAND_COMPLETE ∧
    (cdvdWrite04 E m rt).trace = m.trace ++ [Event.iopIntcIrq] ∧
    (cdvdWrite04 E m rt).cdvd.NCMDParamP = 0 ∧
    (cdvdWrite04 E m rt).cdvd.NCMDParamC = 0 ∧
    (cdvdWrite04 E m rt).cdvd.nCommand = m.cdvd.nCommand ∧
    (cdvdWrite04 E m rt).cdvd.Action = m.cdvd.Action ∧
    (cdvdWrite04 E m rt).cdvd.Reading = m.cdvd.Reading ∧
    (cdvdWrite04 E m rt).cdvd.Readed = m.cdvd.Readed ∧
    (cdvdWrite04 E m rt).cdvd.nSectors = m.cdvd.nSectors ∧
    (cdvdWrite04 E m rt).cdvd.SeekToSector = m.cdvd.SeekToSector ∧
    (cdvdWrite04 E m rt).iop = m.iop ∧
    (cdvdWrite04 E m rt).cdvd.AbortRequested = false := by
  unfold cdvdWrite04
  rw [if_pos h]
  simp only [clearNParams, cdvdSetIrq, Machine.upd_cdvd, Machine.upd_trace, Machine.upd_iop,
    Machine.emit_cdvd, Machine.emit_trace, Machine.emit_iop, and_self]

/-- A byte written to the N-command register of the busy drive. -/
theorem C15_not_ready_witness :
    (cdvdWrite04 demoEnv busyDrive N_CD_PAUSE).cdvd.Error = 0x13 ∧
    (cdvdWrite04 demoEnv busyDrive N_CD_PAUSE).cdvd.Ready = 0x8B ∧
    (cdvdWrite04 demoEnv busyDrive N_CD_PAUSE).cdvd.nCommand = N_DVD_READ ∧
    (cdvdWrite04 demoEnv busyDrive N_CD_PAUSE).cdvd.nSectors = 4 :=
  have h := C15_not_ready demoEnv busyDrive N_CD_PAUSE (by decide)
  ⟨h.1, h.2.1, h.2.2.2.2.2.2.1, h.2.2.2.2.2.2.2.2.2.2.1⟩

/-- The value returned by the tail of `cdvdStartSeek` on a path that has set `isSeeking`. -/
theorem cdvdStartSeekFinish_seeking (E : Env) (m : Machine) (seektime delta : Nat) :
    (cdvdStartSeekFinish E m seektime delta true).2 = seektime := by
  unfold cdvdStartSeekFinish
  simp only [Bool.true_eq_false, and_false, ↓reduceIte]

theorem CDVDSECTORREADY_INT_cdvd_eq (E : Env) (m : Machine) (t : Nat) :
    (CDVDSECTORREADY_INT E m t).cdvd = m.cdvd := by
  unfold CDVDSECTORREADY_INT
  split
  · rfl
  · rfl

/-- The value returned by the tail of `cdvdStartSeek` on a read that moves the head by
a nonzero distance without a seek. -/
theorem cdvdStartSeekFinish_reading (E : Env) (m : Machine) (seektime delta : Nat) (hd : delta ≠ 0) :
    (cdvdStartSeekFinish E m seektime delta false).2 =
      ((seektime + (E.cdvdRotationalLatency m.cdvd (cdvdIsDVDMode m.cdvd) + m.cdvd.ReadTime)) % 4294967296 +
        (m.cdvd.BlockSize / 4) * 12) % 4294967296 := by
  unfold cdvdStartSeekFinish
  simp only [ne_eq, hd, not_false_eq_true, true_or, and_self, ↓reduceIte, CDVDSECTORREADY_INT_cdvd_eq]

/-- C16, as stated, fails: the spinning `demoDrive`, dispatching a DVD read to sector
100000 from sector 0, takes the full-seek path, and `cdvdStartSeek` returns the seek
delay `Cdvd_FullSeek_Cycles` alone, without the rotational latency (388042) and the
block read time (6826). -/
theorem C16_seek_cycles_counterexample :
    dvdReadDrive.cdvd.Spinning = true ∧ dvdReadDrive.cdvd.nCommand ≠ N_CD_SEEK ∧
    seekDelta { dvdReadDrive.cdvd with SeekToSector := 100000 } = 100000 ∧
    (cdvdStartSeek demoEnv dvdReadDrive 100000 MODE_DVDROM).1.trace =
      [Event.seekLog SeekLog.fullSeek, Event.psxInt IopEvt.IopEvt_CdvdSectorReady 3686400] ∧
    (cdvdStartSeek demoEnv dvdReadDrive 100000 MODE_DVDROM).2 = demoEnv.Cdvd_FullSeek_Cycles ∧
    (cdvdStartSeek demoEnv dvdReadDrive 100000 MODE_DVDROM).2 <
      demoEnv.Cdvd_FullSeek_Cycles + 388042 + dvdReadDrive.cdvd.ReadTime := by
  decide

theorem withAction_restore (c : cdvdStruct) (a : cdvdActions) :
    withAction (withAction c a) c.Action = c := rfl

theorem cdvdStartSeekFinish_cdvd (E : Env) (m : Machine) (seektime delta : Nat) (b : Bool)
    (hn : m.cdvd.nCommand ≠ N_CD_SEEK) :
    (cdvdStartSeekFinish E m seektime delta b).1.cdvd =
      withAction m.cdvd cdvdActions.cdvdAction_None := by
  unfold cdvdStartSeekFinish
  lift_lets
  extract_lets rot st mi r m1 m2
  have h1 : m1.cdvd = m.cdvd := by
    simp only [m1, r]
    split
    · exact CDVDSECTORREADY_INT_cdvd_eq E m _
    · exact CDVDSECTORREADY_INT_cdvd_eq E m _
  have hn1 : m1.cdvd.nCommand ≠ N_CD_SEEK := by rw [h1]; exact hn
  simp only [m2]
  rw [if_pos hn1, Machine.upd_cdvd, h1]
  rfl

/-- The contiguous path of `cdvdStartSeek` for a read with a nonzero distance: the state
`c` in which the rotational latency is evaluated, and the cycles returned. -/
theorem cdvdStartSeek_contiguous_read (E : Env) (m : Machine) (newsector mode d : Nat)
    (hdd : d = seekDelta { m.cdvd with SeekToSector := newsector })
    (hs : m.cdvd.Spinning = true) (hn : m.cdvd.nCommand ≠ N_CD_SEEK) (hd : d ≠ 0)
    (ht : E.tbl_ContigiousSeekDelta mode ≠ 0) (hlt : d < E.tbl_ContigiousSeekDelta mode) :
    ∃ c : cdvdStruct, (cdvdStartSeek E m newsector mode).1.cdvd = withAction c cdvdActions.cdvdAction_None ∧
      c.Action = m.cdvd.Action ∧
      (cdvdStartSeek E m newsector mode).2 =
        ((E.cdvdRotationalLatency c (cdvdIsDVDMode m.cdvd) + m.cdvd.ReadTime) % 4294967296 +
          (m.cdvd.BlockSize / 4) * 12) % 4294967296 := by
  unfold cdvdStartSeek
  lift_lets
  extract_lets m1 delta isSeeking m2 m3 m4 mSpin seektime mSpin2 mSpin3 mClr mClr2 mFull mFast mCont
    mRead mRead2 mC1 mC2
  have hdelta : delta = d := hdd.symm
  have hsp : m4.cdvd.Spinning = m.cdvd.Spinning := rfl
  have h1 : ¬ (m4.cdvd.Spinning = false) := by rw [hsp]; simp [hs]
  have h2 : ¬ (E.tbl_ContigiousSeekDelta mode = 0 ∨ delta ≥ E.tbl_ContigiousSeekDelta mode) := by
    omega
  have h3 : ¬ (delta = 0) := by omega
  rw [if_neg h1, if_neg h2, if_neg h3]
  have hnC : mC2.cdvd.nCommand ≠ N_CD_SEEK := hn
  refine ⟨mC2.cdvd, cdvdStartSeekFinish_cdvd E mC2 0 delta false hnC, rfl, ?_⟩
  rw [cdvdStartSeekFinish_reading E mC2 0 delta h3, Nat.zero_add]
  rfl

/-- The seek paths of `cdvdStartSeek`: the cycles returned are the seek delay. -/
theorem cdvdStartSeek_seek_paths (E : Env) (m : Machine) (newsector mode d : Nat)
    (hdd : d = seekDelta { m.cdvd with SeekToSector := newsector })
    (hs : m.cdvd.Spinning = true)
    (hge : E.tbl_ContigiousSeekDelta mode = 0 ∨ E.tbl_ContigiousSeekDelta mode ≤ d) :
    (cdvdStartSeek E m newsector mode).2 =
      if E.tbl_FastSeekDelta mode ≤ d then E.Cdvd_FullSeek_Cycles else E.Cdvd_FastSeek_Cycles := by
  unfold cdvdStartSeek
  lift_lets
  extract_lets m1 delta isSeeking m2 m3 m4 mSpin seektime mSpin2 mSpin3 mClr mClr2 mFull mFast mCont
    mRead mRead2 mC1 mC2
  have hdelta : delta = d := hdd.symm
  have hsp : m4.cdvd.Spinning = m.cdvd.Spinning := rfl
  have h1 : ¬ (m4.cdvd.Spinning = false) := by rw [hsp]; simp [hs]
  have h2 : E.tbl_ContigiousSeekDelta mode = 0 ∨ delta ≥ E.tbl_ContigiousSeekDelta mode := by
    rw [hdelta]
    exact hge
  rw [if_neg h1, if_pos h2, hdelta]
  split
  · exact cdvdStartSeekFinish_seeking E mFull _ _
  · exact cdvdStartSeekFinish_seeking E mFast _ _

/-- C16, amended. For every READ command (`nCommand` is not `N_CD_SEEK`) issued while
the drive is spinning with a nonzero sector delta: on the contiguous path the cycle
count returned by `cdvdStartSeek` is the rotational latency plus one block read time
(`cdvd.ReadTime`) plus `(BlockSize / 4) * 12`; on the fast-seek and full-seek paths it
is the seek delay alone, `Cdvd_FastSeek_Cycles` or `Cdvd_FullSeek_Cycles`. -/
theorem C16_read_seek_cycles (E : Env) (m : Machine) (newsector mode : Nat)
    (hs : m.cdvd.Spinning = true) (hn : m.cdvd.nCommand ≠ N_CD_SEEK)
    (hd : seekDelta { m.cdvd with SeekToSector := newsector } ≠ 0) :
    (E.tbl_ContigiousSeekDelta mode ≠ 0 →
      seekDelta { m.cdvd with SeekToSector := newsector } < E.tbl_ContigiousSeekDelta mode →
      (cdvdStartSeek E m newsector mode).2 =
        ((E.cdvdRotationalLatency (seekLatencyState E m newsector mode) (cdvdIsDVDMode m.cdvd) +
          m.cdvd.ReadTime) % 4294967296 + (m.cdvd.BlockSize / 4) * 12) % 4294967296) ∧
    (E.tbl_ContigiousSeekDelta mode = 0 ∨
        E.tbl_ContigiousSeekDelta mode ≤ seekDelta { m.cdvd with SeekToSector := newsector } →
      seekDelta { m.cdvd with SeekToSector := newsector } < E.tbl_FastSeekDelta mode →
      (cdvdStartSeek E m newsector mode).2 = E.Cdvd_FastSeek_Cycles) ∧
    (E.tbl_ContigiousSeekDelta mode = 0 ∨
        E.tbl_ContigiousSeekDelta mode ≤ seekDelta { m.cdvd with SeekToSector := newsector } →
      E.tbl_FastSeekDelta mode ≤ seekDelta { m.cdvd with SeekToSector := newsector } →
      (cdvdStartSeek E m newsector mode).2 = E.Cdvd_FullSeek_Cycles) := by
  refine ⟨fun ht hlt => ?_, fun hge hlt => ?_, fun hge hfull => ?_⟩
  · obtain ⟨c, hc, ha, hv⟩ := cdvdStartSeek_contiguous_read E m newsector mode _ rfl hs hn hd ht hlt
    unfold seekLatencyState
    rw [hc, ← ha, withAction_restore]
    exact hv
  · rw [cdvdStartSeek_seek_paths E m newsector mode _ rfl hs hge, if_neg (by omega)]
  · rw [cdvdStartSeek_seek_paths E m newsector mode _ rfl hs hge, if_pos hfull]

/-- The spinning `demoDrive`, dispatching a DVD read, asked for sector 4 (contiguous),
sector 1000 (fast seek) and sector 100000 (full seek). -/
theorem C16_read_seek_cycles_witness :
    (cdvdStartSeek demoEnv dvdReadDrive 4 MODE_DVDROM).2 = 388042 + 6826 + 6192 ∧
    (cdvdStartSeek demoEnv dvdReadDrive 1000 MODE_DVDROM).2 = 1105920 ∧
    (cdvdStartSeek demoEnv dvdReadDrive 100000 MODE_DVDROM).2 = 3686400 :=
  ⟨(C16_read_seek_cycles demoEnv dvdReadDrive 4 MODE_DVDROM (by decide) (by decide) (by decide)).1
      (by decide) (by decide),
    (C16_read_seek_cycles demoEnv dvdReadDrive 1000 MODE_DVDROM (by decide) (by decide) (by decide)).2.1
      (by decide) (by decide),
    (C16_read_seek_cycles demoEnv dvdReadDrive 100000 MODE_DVDROM (by decide) (by decide) (by decide)).2.2
      (by decide) (by decide)⟩

theorem Chan.start (irq : Bool) (m : Machine) : Chan irq false m m :=
  ⟨rfl, Or.inl rfl, Or.inl rfl, fun h => Bool.noConfusion h, fun _ => rfl⟩

theorem Chan.keep {irq ar : Bool} {m : Machine} (m2 m3 : Machine)
    (h : fullView m3.cdvd = fullView m2.cdvd) (c : Chan irq ar m m2) : Chan irq ar m m3 := by
  have hr : regView m3.cdvd = regView m2.cdvd := congrArg Prod.fst h
  have ha : m3.cdvd.AbortRequested = m2.cdvd.AbortRequested := congrArg Prod.snd h
  have h1 : paramView m3.cdvd = paramView m2.cdvd := congrArg Prod.fst hr
  have h2 : sParamView m3.cdvd = sParamView m2.cdvd := congrArg (fun x => x.2.1) hr
  have h3 : resultView m3.cdvd = resultView m2.cdvd := congrArg (fun x => x.2.2) hr
  refine ⟨h1.trans c.params, ?_, ?_, ?_, fun hi => ha.trans (c.abort hi)⟩
  · rw [h2]
    exact c.sparams
  · rw [h3]
    exact c.result
  · rw [h3]
    exact c.armedResult

theorem Chan.keepIrq {ar : Bool} {m : Machine} (m2 m3 : Machine)
    (hr : regView m3.cdvd = regView m2.cdvd) (c : Chan true ar m m2) : Chan true ar m m3 := by
  have h1 : paramView m3.cdvd = paramView m2.cdvd := congrArg Prod.fst hr
  have h2 : sParamView m3.cdvd = sParamView m2.cdvd := congrArg (fun x => x.2.1) hr
  have h3 : resultView m3.cdvd = resultView m2.cdvd := congrArg (fun x => x.2.2) hr
  refine ⟨h1.trans c.params, ?_, ?_, ?_, fun hi => Bool.noConfusion hi⟩
  · rw [h2]
    exact c.sparams
  · rw [h3]
    exact c.result
  · rw [h3]
    exact c.armedResult

theorem Chan.toIrq {irq ar : Bool} {m m2 : Machine} (c : Chan irq ar m m2) : Chan true ar m m2 :=
  ⟨c.params, c.sparams, c.result, c.armedResult, fun hi => Bool.noConfusion hi⟩

theorem Chan.upd {irq ar : Bool} {m m2 : Machine} (f : cdvdStruct → cdvdStruct)
    (hf : ∀ c, fullView (f c) = fullView c) (c : Chan irq ar m m2) : Chan irq ar m (m2.upd f) :=
  Chan.keep m2 _ (hf m2.cdvd) c

theorem Chan.emit {irq ar : Bool} {m m2 : Machine} (e : Event) (c : Chan irq ar m m2) :
    Chan irq ar m (m2.emit e) :=
  Chan.keep m2 _ rfl c

theorem Chan.setResult {irq ar : Bool} {m m2 : Machine} (i v : Nat) (c : Chan irq ar m m2) :
    Chan irq ar m (setResult m2 i v) :=
  Chan.keep m2 _ rfl c

theorem Chan.copyResult {irq ar : Bool} {m m2 : Machine} (i : Nat) (l : List Nat) (c : Chan irq ar m m2) :
    Chan irq ar m (copyResult m2 i l) :=
  Chan.keep m2 _ rfl c

theorem Chan.setMechaState {irq ar : Bool} {m m2 : Machine} (st : MECHA_STATE) (c : Chan irq ar m m2) :
    Chan irq ar m (setMechaState m2 st) :=
  Chan.keep m2 _ rfl c

theorem and_0xBF_idem (x : Nat) : x &&& 0xBF &&& 0xBF = x &&& 0xBF := by
  rw [Nat.and_assoc]
  rfl

theorem Chan.sizeAny {irq ar : Bool} {m m2 : Machine} (b : Bool) (n : Nat) (hn : n ≤ 16)
    (c : Chan irq ar m m2) : Chan irq b m (SetSCMDResultSize m2 n) := by
  have hs : m2.cdvd.sDataIn &&& 0xBF = m.cdvd.sDataIn &&& 0xBF := by
    rcases c.result with h | ⟨k, _, h⟩
    · have e : m2.cdvd.sDataIn = m.cdvd.sDataIn := congrArg (fun x => x.2.2) h
      rw [e]
    · have e : m2.cdvd.sDataIn = m.cdvd.sDataIn &&& 0xBF := congrArg (fun x => x.2.2) h
      rw [e, and_0xBF_idem]
  have hv : resultView (SetSCMDResultSize m2 n).cdvd = (0, n, m.cdvd.sDataIn &&& 0xBF) := by
    show (0, n, m2.cdvd.sDataIn &&& 0xBF) = _
    rw [hs]
  exact ⟨c.params, c.sparams, Or.inr ⟨n, hn, hv⟩, fun _ => ⟨n, hn, hv⟩, c.abort⟩

theorem Chan.size {irq : Bool} {m m2 : Machine} (n : Nat) (hn : n ≤ 16)
    (c : Chan irq false m m2) : Chan irq true m (SetSCMDResultSize m2 n) :=
  Chan.sizeAny true n hn c

theorem Chan.sizeF {irq : Bool} {m m2 : Machine} (n : Nat) (hn : n ≤ 16)
    (c : Chan irq false m m2) : Chan irq false m (SetSCMDResultSize m2 n) :=
  Chan.sizeAny false n hn c

theorem Chan.result1 {irq : Bool} {m m2 : Machine} (v : Nat) (c : Chan irq false m m2) :
    Chan irq true m (result1 m2 v) :=
  Chan.setResult 0 v (Chan.size 1 (by decide) c)

theorem Chan.sreset {irq ar : Bool} {m m2 : Machine} (c : Chan irq ar m m2) :
    Chan irq ar m (m2.upd fun c => { c with SCMDParamP := 0, SCMDParamC := 0 }) :=
  ⟨c.params, Or.inr rfl, c.result, c.armedResult, c.abort⟩

theorem Chan.ite {irq ar : Bool} {m : Machine} (p : Prop) [Decidable p] (a b : Machine)
    (ha : p → Chan irq ar m a) (hb : ¬ p → Chan irq ar m b) : Chan irq ar m (if p then a else b) := by
  split
  · exact ha (by assumption)
  · exact hb (by assumption)

theorem cdvdNVM_cdvd (E : Env) (m : Machine) (buffer : List Nat) (offset bytes : Nat) (read : Bool) :
    (cdvdNVM E m buffer offset bytes read).1.cdvd = m.cdvd := by
  unfold cdvdNVM
  split
  · rfl
  · split <;> rfl

theorem getNvmData_cdvd (E : Env) (m : Machine) (buffer : List Nat) (offset size : Nat)
    (field : NVMLayout → Nat) : (getNvmData E m buffer offset size field).1.cdvd = m.cdvd :=
  cdvdNVM_cdvd E m buffer _ size true

theorem setNvmData_cdvd (E : Env) (m : Machine) (buffer : List Nat) (offset size : Nat)
    (field : NVMLayout → Nat) : (setNvmData E m buffer offset size field).cdvd = m.cdvd :=
  cdvdNVM_cdvd E m buffer _ size false

theorem Chan.readNVM {irq ar : Bool} {m m2 : Machine} (E : Env) (dst : List Nat) (offset bytes : Nat)
    (c : Chan irq ar m m2) : Chan irq ar m (cdvdReadNVM E m2 dst offset bytes).1 :=
  Chan.keep m2 _ (congrArg fullView (cdvdNVM_cdvd E m2 dst offset bytes true)) c

theorem Chan.writeNVM {irq ar : Bool} {m m2 : Machine} (E : Env) (src : List Nat) (offset bytes : Nat)
    (c : Chan irq ar m m2) : Chan irq ar m (cdvdWriteNVM E m2 src offset bytes) :=
  Chan.keep m2 _ (congrArg fullView (cdvdNVM_cdvd E m2 src offset bytes false)) c

theorem Chan.getNvmData {irq ar : Bool} {m m2 : Machine} (E : Env) (buffer : List Nat) (offset size : Nat)
    (field : NVMLayout → Nat) (c : Chan irq ar m m2) :
    Chan irq ar m (getNvmData E m2 buffer offset size field).1 :=
  Chan.keep m2 _ (congrArg fullView (getNvmData_cdvd E m2 buffer offset size field)) c

theorem Chan.setNvmData {irq ar : Bool} {m m2 : Machine} (E : Env) (buffer : List Nat) (offset size : Nat)
    (field : NVMLayout → Nat) (c : Chan irq ar m m2) :
    Chan irq ar m (setNvmData E m2 buffer offset size field) :=
  Chan.keep m2 _ (congrArg fullView (setNvmData_cdvd E m2 buffer offset size field)) c

theorem Chan.readConsoleID {irq ar : Bool} {m m2 : Machine} (E : Env) (id : List Nat)
    (c : Chan irq ar m m2) : Chan irq ar m (cdvdReadConsoleID E m2 id).1 :=
  Chan.getNvmData E id 0 8 _ c

theorem Chan.writeConsoleID {irq ar : Bool} {m m2 : Machine} (E : Env) (id : List Nat)
    (c : Chan irq ar m m2) : Chan irq ar m (cdvdWriteConsoleID E m2 id) :=
  Chan.setNvmData E id 0 8 _ c

theorem Chan.readILinkID {irq ar : Bool} {m m2 : Machine} (E : Env) (id : List Nat)
    (c : Chan irq ar m m2) : Chan irq ar m (cdvdReadILinkID E m2 id).1 :=
  Chan.getNvmData E id 0 8 _ c

theorem Chan.writeILinkID {irq ar : Bool} {m m2 : Machine} (E : Env) (id : List Nat)
    (c : Chan irq ar m m2) : Chan irq ar m (cdvdWriteILinkID E m2 id) :=
  Chan.setNvmData E id 0 8 _ c

theorem Chan.readModelNumber {irq ar : Bool} {m m2 : Machine} (E : Env) (num : List Nat) (part : Nat)
    (c : Chan irq ar m m2) : Chan irq ar m (cdvdReadModelNumber E m2 num part).1 :=
  Chan.getNvmData E num part 8 _ c

theorem Chan.writeModelNumber {irq ar : Bool} {m m2 : Machine} (E : Env) (num : List Nat) (part : Nat)
    (c : Chan irq ar m m2) : Chan irq ar m (cdvdWriteModelNumber E m2 num part) :=
  Chan.setNvmData E num part 8 _ c

theorem Chan.readRegionParams {irq ar : Bool} {m m2 : Machine} (E : Env) (num : List Nat)
    (c : Chan irq ar m m2) : Chan irq ar m (cdvdReadRegionParams E m2 num).1 :=
  Chan.getNvmData E num _ _ _ c

theorem Chan.writeRegionParams {irq ar : Bool} {m m2 : Machine} (E : Env) (num : List Nat)
    (c : Chan irq ar m m2) : Chan irq ar m (cdvdWriteRegionParams E m2 num) :=
  Chan.setNvmData E num _ _ _ c

theorem Chan.readMAC {irq ar : Bool} {m m2 : Machine} (E : Env) (num : List Nat)
    (c : Chan irq ar m m2) : Chan irq ar m (cdvdReadMAC E m2 num).1 :=
  Chan.getNvmData E num _ _ _ c

theorem Chan.writeMAC {irq ar : Bool} {m m2 : Machine} (E : Env) (num : List Nat)
    (c : Chan irq ar m m2) : Chan irq ar m (cdvdWriteMAC E m2 num) :=
  Chan.setNvmData E num _ _ _ c

theorem Chan.readConfig {irq ar : Bool} {m m2 : Machine} (E : Env) (config : List Nat)
    (c : Chan irq ar m m2) : Chan irq ar m (cdvdReadConfig E m2 config).1 := by
  unfold cdvdReadConfig
  split
  · exact c
  · split
    · exact c
    · split
      · exact c
      · exact Chan.getNvmData E _ _ _ _ (Chan.upd _ (fun _ => rfl) c)

theorem Chan.writeConfig {irq ar : Bool} {m m2 : Machine} (E : Env) (config : List Nat)
    (c : Chan irq ar m m2) : Chan irq ar m (cdvdWriteConfig E m2 config) := by
  unfold cdvdWriteConfig
  split
  · exact c
  · split
    · exact c
    · exact Chan.setNvmData E _ _ _ _ (Chan.upd _ (fun _ => rfl) c)

theorem cdvdDetectDisk_view (E : Env) (m : Machine) :
    fullView (cdvdDetectDisk E m).cdvd = fullView m.cdvd := by
  unfold cdvdDetectDisk
  lift_lets
  intro m1
  split <;> rfl

theorem Chan.trayClose {irq ar : Bool} {m m2 : Machine} (E : Env) (c : Chan irq ar m m2) :
    Chan irq ar m (cdvdCtrlTrayClose E m2) := by
  have h : fullView (cdvdCtrlTrayClose E m2).cdvd = fullView m2.cdvd := by
    show fullView (cdvdDetectDisk E _).cdvd = _
    rw [cdvdDetectDisk_view]
    split <;> rfl
  exact Chan.keep m2 _ h c

theorem Chan.setIrq {ar : Bool} {m m2 : Machine} (id : Nat) (c : Chan true ar m m2) :
    Chan true ar m (cdvdSetIrq m2 id) :=
  Chan.keepIrq m2 _ rfl c

theorem Chan.updateReady {irq ar : Bool} {m m2 : Machine} (v : Nat) (c : Chan irq ar m m2) :
    Chan irq ar m (cdvdUpdateReady m2 v) :=
  Chan.keep m2 _ rfl c

theorem Chan.updateStatus {irq ar : Bool} {m m2 : Machine} (v : Nat) (c : Chan irq ar m m2) :
    Chan irq ar m (cdvdUpdateStatus m2 v) :=
  Chan.keep m2 _ rfl c

theorem Chan.detectDisk {irq ar : Bool} {m m2 : Machine} (E : Env) (c : Chan irq ar m m2) :
    Chan irq ar m (cdvdDetectDisk E m2) :=
  Chan.keep m2 _ (cdvdDetectDisk_view E m2) c

theorem Chan.newDiskCB {ar : Bool} {m m2 : Machine} (E : Env) (c : Chan true ar m m2) :
    Chan true ar m (cdvdNewDiskCB E m2) := by
  unfold cdvdNewDiskCB
  lift_lets
  intro m1
  have c1 : Chan true ar m m1 := Chan.detectDisk E c
  split
  · lift_lets
    intro a b d e
    have ce : Chan true ar m e :=
      Chan.setIrq _ (Chan.upd _ (fun _ => rfl) (Chan.updateReady _ (Chan.updateStatus _ c1)))
    split
    · exact Chan.upd _ (fun _ => rfl) ce
    · exact ce
  · split
    · exact Chan.upd _ (fun _ => rfl) (Chan.updateStatus _ (Chan.updateReady _ c1))
    · exact c1

theorem Chan.trayOpen {ar : Bool} {m m2 : Machine} (E : Env) (c : Chan true ar m m2) :
    Chan true ar m (cdvdCtrlTrayOpen E m2) := by
  unfold cdvdCtrlTrayOpen
  split
  · exact Chan.newDiskCB E c
  · lift_lets
    intro a b d e f g h
    have cd : Chan true ar m d := Chan.keep a _ rfl (Chan.detectDisk E c)
    have ch : Chan true ar m h :=
      Chan.setIrq _ (Chan.upd _ (fun _ => rfl) (Chan.updateReady _ (Chan.updateStatus _ cd)))
    split
    · exact Chan.upd _ (fun _ => rfl) ch
    · exact ch

theorem blit_length (buf : List Nat) (off : Nat) (data : List Nat) :
    (blit buf off data).length = buf.length := by
  unfold blit
  simp only [List.length_append, List.length_take, List.length_drop]
  omega

theorem sCommandMecacon_chan {irq : Bool} {m m2 : Machine} (E : Env) (c : Chan irq false m m2) :
    Chan irq true m (sCommandMecacon E m2) := by
  unfold sCommandMecacon
  dsimp only
  repeat' first
    | with_reducible exact c
    | with_reducible refine Chan.ite _ _ _ (fun _ => ?_) (fun _ => ?_)
    | with_reducible apply Chan.setResult
    | with_reducible apply Chan.copyResult
    | with_reducible apply Chan.result1
    | with_reducible apply Chan.size _ (by decide)
    | with_reducible apply Chan.writeConsoleID
    | with_reducible apply Chan.readConsoleID

theorem Chan.updSParam {irq ar : Bool} {m m2 : Machine} (off : Nat) (data : List Nat)
    (c : Chan irq ar m m2) :
    Chan irq ar m (m2.upd fun c => { c with SCMDParam := blit c.SCMDParam off data }) := by
  refine Chan.keep m2 _ ?_ c
  unfold fullView regView paramView
  simp only [Machine.upd_cdvd, blit_length]
  rfl

/-- The S-commands below 0x80 other than the tray control 0x06. -/
theorem sCommandAdmin_chan {irq : Bool} {m m2 : Machine} (E : Env) (rt : Nat) (h6 : rt ≠ 0x06)
    (c : Chan irq false m m2) : Chan irq true m (sCommandAdmin E m2 rt) := by
  unfold sCommandAdmin
  dsimp only
  repeat' first
    | with_reducible exact c
    | with_reducible refine Chan.ite _ _ _ (fun _ => ?_) (fun _ => ?_)
    | with_reducible apply Chan.setResult
    | with_reducible apply Chan.copyResult
    | with_reducible apply Chan.result1
    | with_reducible apply Chan.size _ (by decide)
    | with_reducible apply sCommandMecacon_chan
    | with_reducible apply Chan.readNVM
    | with_reducible apply Chan.writeNVM
    | with_reducible apply Chan.writeConsoleID
    | with_reducible apply Chan.readConsoleID
    | with_reducible apply Chan.writeILinkID
    | with_reducible apply Chan.readILinkID
    | with_reducible apply Chan.writeModelNumber
    | with_reducible apply Chan.readModelNumber
    | with_reducible apply Chan.writeRegionParams
    | with_reducible apply Chan.readRegionParams
    | with_reducible apply Chan.writeMAC
    | with_reducible apply Chan.readMAC
    | with_reducible apply Chan.writeConfig
    | with_reducible apply Chan.readConfig
    | with_reducible apply Chan.updSParam
    | with_reducible refine Chan.upd _ (fun _ => by with_unfolding_all rfl) ?_
    | exact absurd (by assumption) h6

/-- The tray control, S-command 0x06. -/
theorem sCommandAdmin_tray {m m2 : Machine} (E : Env) (c : Chan true false m m2) :
    Chan true true m (sCommandAdmin E m2 0x06) := by
  unfold sCommandAdmin
  dsimp only
  rw [if_neg (by decide), if_neg (by decide), if_neg (by decide), if_pos rfl]
  refine Chan.ite _ _ _ (fun _ => ?_) (fun _ => ?_)
  · exact Chan.setResult _ _ (Chan.trayOpen E (Chan.size 1 (by decide) c))
  · exact Chan.setResult _ _ (Chan.trayClose E (Chan.size 1 (by decide) c))

theorem ChanP.mk {α : Type} {irq ar : Bool} {m : Machine} (a : Machine) (x : α) (c : Chan irq ar m a) :
    ChanP irq ar m (a, x) := c

theorem ChanP.iteP {α : Type} {irq ar : Bool} {m : Machine} (p : Prop) [Decidable p] (a b : Machine × α)
    (ha : p → ChanP irq ar m a) (hb : ¬ p → ChanP irq ar m b) : ChanP irq ar m (if p then a else b) := by
  split
  · exact ha (by assumption)
  · exact hb (by assumption)

theorem ChanP.fst {α : Type} {irq ar : Bool} {m : Machine} (r : Machine × α) (c : ChanP irq ar m r) :
    Chan irq ar m r.1 := c

theorem ChanP.mechaFail {irq ar : Bool} {m m2 : Machine} (code : Nat) (c : Chan irq ar m m2) :
    ChanP irq ar m (mechaFail m2 code) :=
  Chan.keep m2 _ rfl c

theorem ChanO.some {irq ar : Bool} {m : Machine} (a : Machine) (c : Chan irq ar m a) :
    ChanO irq ar m (some a) := by
  intro m2 h
  cases h
  exact c

theorem ChanO.iteO {irq ar : Bool} {m : Machine} (p : Prop) [Decidable p] (a b : Option Machine)
    (ha : p → ChanO irq ar m a) (hb : ¬ p → ChanO irq ar m b) : ChanO irq ar m (if p then a else b) := by
  split
  · exact ha (by assumption)
  · exact hb (by assumption)

theorem ChanO.map {irq ar : Bool} {m : Machine} (r : Option Machine) (f : Machine → Machine)
    (hr : ChanO irq ar m r) (hf : ∀ x, Chan irq ar m x → Chan irq ar m (f x)) : ChanO irq ar m (r.map f) := by
  intro m2 h
  cases r with
  | none => cases h
  | some a =>
    cases h
    exact hf a (hr a rfl)

theorem generateCardChallenge_chan {irq ar : Bool} {m m2 : Machine} (E : Env) (c : Chan irq ar m m2) :
    Chan irq ar m (generateCardChallenge E m2) :=
  Chan.keep m2 _ rfl c

theorem verifyCardChallenge_chan {irq ar : Bool} {m m2 : Machine} (E : Env) (c : Chan irq ar m m2) :
    ChanP irq ar m (verifyCardChallenge E m2) := by
  unfold verifyCardChallenge
  dsimp only
  repeat' first
    | with_reducible assumption
    | with_reducible refine ChanP.iteP _ _ _ (fun _ => ?_) (fun _ => ?_)
    | with_reducible refine Chan.upd _ (fun _ => by with_unfolding_all rfl) ?_
    | with_reducible apply ChanP.mk

theorem decryptKelfBitTable_chan {irq ar : Bool} {m m2 : Machine} (E : Env) (hs : Nat) (HS : List Nat)
    (c : Chan irq ar m m2) : ChanP irq ar m (decryptKelfBitTable E m2 hs HS) := by
  unfold decryptKelfBitTable
  dsimp only
  repeat' first
    | with_reducible assumption
    | with_reducible refine ChanP.iteP _ _ _ (fun _ => ?_) (fun _ => ?_)
    | with_reducible refine Chan.ite _ _ _ (fun _ => ?_) (fun _ => ?_)
    | with_reducible apply ChanP.mechaFail
    | with_reducible refine Chan.upd _ (fun _ => by with_unfolding_all rfl) ?_
    | with_reducible apply ChanP.mk

theorem DecryptKelfHeader_chan {irq ar : Bool} {m m2 : Machine} (E : Env)
    (c : Chan irq ar m m2) : ChanP irq ar m (DecryptKelfHeader E m2) := by
  unfold DecryptKelfHeader
  dsimp only
  repeat' first
    | with_reducible assumption
    | with_reducible refine ChanP.iteP _ _ _ (fun _ => ?_) (fun _ => ?_)
    | with_reducible apply ChanP.mechaFail
    | with_reducible apply decryptKelfBitTable_chan
    | with_reducible apply Chan.readILinkID
    | with_reducible apply Chan.readConsoleID

theorem decryptKelfContentFinish_chan {irq ar : Bool} {m m2 : Machine} (E : Env) (block : BitBlock)
    (v0 : Nat) (c : Chan irq ar m m2) : ChanP irq ar m (decryptKelfContentFinish E m2 block v0) := by
  unfold decryptKelfContentFinish
  dsimp only
  repeat' first
    | with_reducible assumption
    | with_reducible refine ChanP.iteP _ _ _ (fun _ => ?_) (fun _ => ?_)
    | with_reducible apply ChanP.mechaFail
    | with_reducible refine Chan.upd _ (fun _ => by with_unfolding_all rfl) ?_
    | with_reducible apply ChanP.mk

theorem DecryptKelfContent_chan {irq ar : Bool} {m m2 : Machine} (E : Env) (c : Chan irq ar m m2)
    (r : Machine × MECHA_RESULT) (h : DecryptKelfContent E m2 = some r) : Chan irq ar m r.1 := by
  unfold DecryptKelfContent at h
  lift_lets at h
  extract_lets m0 block chunks st at h
  have c0 : Chan irq ar m m0 :=
    Chan.ite _ _ _ (fun _ => Chan.upd _ (fun _ => rfl) c) (fun _ => c)
  split at h
  · cases hl : contentLoopEncrypted E.D m0.cdvd block.Flags chunks 0 st with
    | none =>
      rw [hl] at h
      cases h
    | some p =>
      obtain ⟨st2, failed⟩ := p
      rw [hl] at h
      dsimp only at h
      split at h
      · cases h
        exact ChanP.mechaFail _ (Chan.upd _ (fun _ => rfl) c0)
      · cases h
        exact decryptKelfContentFinish_chan E _ _ (Chan.upd _ (fun _ => rfl) c0)
  · cases hl : contentLoopPlain E.D m0.ks.SignatureMasterKey m0.cdvd chunks 0 st with
    | none =>
      rw [hl] at h
      cases h
    | some st2 =>
      rw [hl] at h
      cases h
      exact decryptKelfContentFinish_chan E _ _ (Chan.upd _ (fun _ => rfl) c0)

theorem executeMechaHandler_chan {irq ar : Bool} {m m2 : Machine} (E : Env) (c : Chan irq ar m m2) :
    ChanO irq ar m (executeMechaHandler E m2) := by
  intro m3 h
  unfold executeMechaHandler at h
  split at h
  · cases h
    exact Chan.upd _ (fun _ => rfl) (generateCardChallenge_chan E c)
  · cases h
    exact Chan.upd _ (fun _ => rfl) (verifyCardChallenge_chan E c)
  · dsimp only at h
    split at h
    · cases h
    · cases h
      exact Chan.upd _ (fun _ => rfl) (DecryptKelfHeader_chan E c)
  · obtain ⟨r, hr, rfl⟩ := Option.map_eq_some'.mp h
    exact Chan.upd _ (fun _ => rfl) (DecryptKelfContent_chan E c r hr)
  · obtain ⟨r, hr, rfl⟩ := Option.map_eq_some'.mp h
    exact Chan.upd _ (fun _ => rfl) (DecryptKelfContent_chan E c r hr)
  · cases h
    exact c

theorem sCommandMecha_chan {irq : Bool} {m m2 : Machine} (E : Env) (rt : Nat)
    (c : Chan irq false m m2) : ChanO irq true m (sCommandMecha E m2 rt) := by
  unfold sCommandMecha
  dsimp only
  repeat' first
    | with_reducible assumption
    | with_reducible refine ChanO.iteO _ _ _ (fun _ => ?_) (fun _ => ?_)
    | with_reducible refine Chan.ite _ _ _ (fun _ => ?_) (fun _ => ?_)
    | with_reducible refine ChanO.map _ _ ?_ (fun x hx => ?_)
    | with_reducible apply ChanO.some
    | with_reducible apply executeMechaHandler_chan
    | with_reducible apply Chan.setResult
    | with_reducible apply Chan.copyResult
    | with_reducible apply Chan.result1
    | with_reducible apply Chan.setMechaState
    | with_reducible apply Chan.size _ (by first | decide | (split <;> omega))
    | with_reducible apply Chan.sizeF _ (by decide)
    | with_reducible refine Chan.upd _ (fun _ => by with_unfolding_all rfl) ?_
    | split

theorem Chan.weaken {irq ar : Bool} {m m2 : Machine} (c : Chan irq ar m m2) : Chan true false m m2 :=
  ⟨c.params, c.sparams, c.result, fun h => Bool.noConfusion h, fun h => Bool.noConfusion h⟩

/-- The S-command `rt` as a whole, for the flags the body of `rt` was shown to have. -/
theorem cdvdWrite16_body {irq ar : Bool} {E : Env} {m m2 : Machine} {rt : Nat}
    (hA : isMechaCommand rt = false → ∀ m1, Chan irq false m m1 → Chan irq ar m (sCommandAdmin E m1 rt))
    (hM : isMechaCommand rt = true → ∀ m1, Chan irq false m m1 → ChanO irq ar m (sCommandMecha E m1 rt))
    (h : cdvdWrite16 E m rt = some m2) :
    Chan irq ar m m2 ∧ sParamView m2.cdvd = (0, 0) := by
  unfold cdvdWrite16 at h
  dsimp only at h
  have c0 : Chan irq false m (m.upd fun c => { c with sCommand := rt, SCMDResult := List.replicate 16 0 }) :=
    Chan.upd _ (fun _ => rfl) (Chan.start irq m)
  obtain ⟨x, hx, hm⟩ := Option.map_eq_some'.mp h
  rw [← hm]
  refine ⟨Chan.sreset ?_, rfl⟩
  cases hc : isMechaCommand rt with
  | true =>
    rw [hc, if_pos rfl] at hx
    exact hM hc _ c0 x hx
  | false =>
    rw [hc, if_neg (by decide)] at hx
    split at hx
    · cases hx
    · cases hx
      exact hA hc _ c0

/-- The power-off, S-command 0x0F, resets the virtual machine: the command gives no state. -/
theorem cdvdWrite16_powerOff (E : Env) (m : Machine) : cdvdWrite16 E m 0x0F = none := rfl

/-- Every S-command other than the tray control 0x06 and the power-off 0x0F sets up a
result of at most 16 bytes and keeps the abort flag. -/
theorem cdvdWrite16_chan {E : Env} {m m2 : Machine} {rt : Nat} (h6 : rt ≠ 0x06) (hF : rt ≠ 0x0F)
    (h : cdvdWrite16 E m rt = some m2) : Chan false true m m2 ∧ sParamView m2.cdvd = (0, 0) :=
  have _ := hF
  cdvdWrite16_body (fun _ _ c => sCommandAdmin_chan E rt h6 c)
    (fun _ _ c => sCommandMecha_chan E rt c) h

/-- The tray control sets up a result of one byte. -/
theorem cdvdWrite16_tray {E : Env} {m m2 : Machine}
    (h : cdvdWrite16 E m 0x06 = some m2) : Chan true true m m2 ∧ sParamView m2.cdvd = (0, 0) :=
  cdvdWrite16_body (fun _ _ c => sCommandAdmin_tray E c)
    (fun hc => Bool.noConfusion hc) h

/-- Every S-command, whatever it is. -/
theorem cdvdWrite16_any {E : Env} {m m2 : Machine} {rt : Nat}
    (h : cdvdWrite16 E m rt = some m2) : Chan true false m m2 ∧ sParamView m2.cdvd = (0, 0) := by
  by_cases h6 : rt = 0x06
  · subst h6
    exact ⟨(cdvdWrite16_tray h).1.weaken, (cdvdWrite16_tray h).2⟩
  · by_cases hF : rt = 0x0F
    · subst hF
      rw [cdvdWrite16_powerOff] at h
      cases h
    · exact ⟨(cdvdWrite16_chan h6 hF h).1.weaken, (cdvdWrite16_chan h6 hF h).2⟩

/-- Every S-command other than the power-off sets up a result of at most 16 bytes. -/
theorem cdvdWrite16_armed {E : Env} {m m2 : Machine} {rt : Nat} (hF : rt ≠ 0x0F)
    (h : cdvdWrite16 E m rt = some m2) :
    ∃ n, n ≤ 16 ∧ resultView m2.cdvd = (0, n, m.cdvd.sDataIn &&& 0xBF) := by
  by_cases h6 : rt = 0x06
  · subst h6
    exact (cdvdWrite16_tray h).1.armedResult rfl
  · exact (cdvdWrite16_chan h6 hF h).1.armedResult rfl

theorem clearInterrupt_chan {irq ar : Bool} {m m2 : Machine} (n : IopEvt) (c : Chan irq ar m m2) :
    Chan irq ar m (clearInterrupt m2 n) :=
  Chan.keep m2 _ rfl c

theorem Chan.psxInt {irq ar : Bool} {m m2 : Machine} (n : IopEvt) (t : Nat) (c : Chan irq ar m m2) :
    Chan irq ar m (PSX_INT m2 n t) :=
  Chan.keep m2 _ rfl c

theorem Chan.setIop {irq ar : Bool} {m m2 : Machine} (i : Iop) (c : Chan irq ar m m2) :
    Chan irq ar m { m2 with iop := i } :=
  Chan.keep m2 _ rfl c

theorem Chan.sectorReadyInt {irq ar : Bool} {m m2 : Machine} (E : Env) (t : Nat) (c : Chan irq ar m m2) :
    Chan irq ar m (CDVDSECTORREADY_INT E m2 t) := by
  unfold CDVDSECTORREADY_INT
  split
  · exact c
  · exact Chan.psxInt _ _ c

theorem Chan.readInt {irq ar : Bool} {m m2 : Machine} (E : Env) (t : Nat) (c : Chan irq ar m m2) :
    Chan irq ar m (CDVDREAD_INT E m2 t) :=
  Chan.psxInt _ _ c

theorem doReadTrack_chan {irq ar : Bool} {m m2 : Machine} (E : Env) (s mode : Nat) (c : Chan irq ar m m2) :
    Chan irq ar m (doReadTrack E m2 s mode) :=
  Chan.keep m2 _ rfl c

theorem Chan.actionInterrupt {ar : Bool} {m m2 : Machine} (E : Env) (c : Chan true ar m m2) :
    Chan true ar m (cdvdActionInterrupt E m2) := by
  unfold cdvdActionInterrupt
  dsimp only
  apply Chan.setIrq
  refine Chan.ite _ _ _ (fun _ => ?_) (fun _ => ?_)
  · refine Chan.upd _ (fun _ => rfl) ?_
    split <;>
    repeat' first
      | with_reducible exact c
      | with_reducible apply Chan.sectorReadyInt
      | with_reducible apply Chan.updateReady
      | with_reducible apply Chan.updateStatus
      | with_reducible refine Chan.upd _ (fun _ => by with_unfolding_all rfl) ?_
  · split <;>
    repeat' first
      | with_reducible exact c
      | with_reducible apply Chan.sectorReadyInt
      | with_reducible apply Chan.updateReady
      | with_reducible apply Chan.updateStatus
      | with_reducible refine Chan.upd _ (fun _ => by with_unfolding_all rfl) ?_

theorem Chan.cdvdInt {ar : Bool} {m m2 : Machine} (E : Env) (t : Nat) (c : Chan true ar m m2) :
    Chan true ar m (CDVD_INT E m2 t) := by
  unfold CDVD_INT
  split
  · exact Chan.actionInterrupt E c
  · exact Chan.psxInt _ _ c

theorem cdvdStartSeekFinish_chan {irq ar : Bool} {m m2 : Machine} (E : Env) (t d : Nat) (b : Bool)
    (c : Chan irq ar m m2) : ChanP irq ar m (cdvdStartSeekFinish E m2 t d b) := by
  unfold cdvdStartSeekFinish
  dsimp only
  show Chan irq ar m _
  dsimp only
  refine Chan.ite _ _ _ (fun _ => ?_) (fun _ => ?_)
  · refine Chan.upd _ (fun _ => rfl) ?_
    split
    · exact Chan.sectorReadyInt E _ c
    · exact Chan.sectorReadyInt E _ c
  · split
    · exact Chan.sectorReadyInt E _ c
    · exact Chan.sectorReadyInt E _ c

theorem cdvdStartSeek_chan {irq ar : Bool} {m m2 : Machine} (E : Env) (s mode : Nat)
    (c : Chan irq ar m m2) : ChanP irq ar m (cdvdStartSeek E m2 s mode) := by
  unfold cdvdStartSeek
  dsimp only
  repeat' first
    | with_reducible exact c
    | with_reducible refine ChanP.iteP _ _ _ (fun _ => ?_) (fun _ => ?_)
    | with_reducible apply cdvdStartSeekFinish_chan
    | with_reducible apply Chan.sectorReadyInt
    | with_reducible apply clearInterrupt_chan
    | with_reducible apply Chan.updateReady
    | with_reducible apply Chan.updateStatus
    | with_reducible apply Chan.emit
    | with_reducible refine Chan.upd _ (fun _ => by with_unfolding_all rfl) ?_
    | with_reducible apply ChanP.mk

theorem Chan.startSeek {irq ar : Bool} {m m2 : Machine} (E : Env) (s mode : Nat)
    (c : Chan irq ar m m2) : Chan irq ar m (cdvdStartSeek E m2 s mode).1 :=
  cdvdStartSeek_chan E s mode c

theorem readParamError_chan {ar : Bool} {m m2 : Machine} (E : Env) (o : Nat) (c : Chan true ar m m2) :
    Chan true ar m (readParamError E m2 o) := by
  unfold readParamError
  dsimp only
  exact Chan.cdvdInt E _ (Chan.updateReady _ (Chan.updateStatus _ (Chan.upd _ (fun _ => rfl) c)))

theorem readRangeError_chan {ar : Bool} {m m2 : Machine} (E : Env) (c : Chan true ar m m2) :
    Chan true ar m (readRangeError E m2) := by
  unfold readRangeError
  dsimp only
  exact Chan.cdvdInt E _ (Chan.updateReady _ (Chan.updateStatus _ (Chan.upd _ (fun _ => rfl) c)))

theorem beginRead_chan {irq ar : Bool} {m m2 : Machine} (E : Env) (mode : Nat) (c : Chan irq ar m m2) :
    Chan irq ar m (beginRead E m2 mode) := by
  unfold beginRead
  dsimp only
  exact Chan.upd _ (fun _ => rfl) (doReadTrack_chan E _ _ (Chan.readInt E _
    (Chan.startSeek E _ _ (Chan.upd _ (fun _ => rfl) c))))

theorem loadReadParams_chan {irq ar : Bool} {m m2 : Machine} (c : Chan irq ar m m2) :
    Chan irq ar m (loadReadParams m2) :=
  Chan.upd _ (fun _ => rfl) c

theorem speedChange_chan {irq ar : Bool} {m m2 : Machine} (o s : Nat) (c : Chan irq ar m m2) :
    Chan irq ar m (speedChange m2 o s) := by
  unfold speedChange
  split
  · exact Chan.upd _ (fun _ => rfl) c
  · exact c

theorem cdvdReadErrorHandler_chan {irq ar : Bool} {m m2 : Machine} (c : Chan irq ar m m2) :
    Chan irq ar m (cdvdReadErrorHandler m2).1 := by
  unfold cdvdReadErrorHandler
  split
  · exact Chan.upd (fun c => { c with Error := 0x21 }) (fun _ => rfl) c
  · split
    · exact Chan.upd (fun c => { c with Error := 0x30 }) (fun _ => rfl) c
    · exact c

theorem Chan.iteFst {α : Type} {irq ar : Bool} {m : Machine} (p : Prop) [Decidable p]
    (a b : Machine × α) (ha : p → Chan irq ar m a.1) (hb : ¬ p → Chan irq ar m b.1) :
    Chan irq ar m (if p then a else b).1 := by
  split
  · exact ha (by assumption)
  · exact hb (by assumption)

theorem decodeCdRead_chan {irq ar : Bool} {m m2 : Machine} (c : Chan irq ar m m2) :
    ChanP irq ar m (decodeCdRead m2) := by
  unfold decodeCdRead
  dsimp only
  repeat' first
    | with_reducible exact c
    | with_reducible refine ChanP.iteP _ _ _ (fun _ => ?_) (fun _ => ?_)
    | with_reducible refine Chan.iteFst _ _ _ (fun _ => ?_) (fun _ => ?_)
    | with_reducible apply speedChange_chan
    | with_reducible apply loadReadParams_chan
    | with_reducible refine Chan.upd _ (fun _ => by with_unfolding_all rfl) ?_
    | with_reducible apply ChanP.mk

theorem decodeCdda_chan {irq ar : Bool} {m m2 : Machine} (c : Chan irq ar m m2) :
    ChanP irq ar m (decodeCdda m2) := by
  unfold decodeCdda
  dsimp only
  repeat' first
    | with_reducible exact c
    | with_reducible refine ChanP.iteP _ _ _ (fun _ => ?_) (fun _ => ?_)
    | with_reducible refine Chan.iteFst _ _ _ (fun _ => ?_) (fun _ => ?_)
    | with_reducible apply speedChange_chan
    | with_reducible apply loadReadParams_chan
    | with_reducible refine Chan.upd _ (fun _ => by with_unfolding_all rfl) ?_
    | with_reducible apply ChanP.mk

theorem decodeDvdRead_chan {irq ar : Bool} {m m2 : Machine} (c : Chan irq ar m m2) :
    ChanP irq ar m (decodeDvdRead m2) := by
  unfold decodeDvdRead
  dsimp only
  repeat' first
    | with_reducible exact c
    | with_reducible refine ChanP.iteP _ _ _ (fun _ => ?_) (fun _ => ?_)
    | with_reducible refine Chan.iteFst _ _ _ (fun _ => ?_) (fun _ => ?_)
    | with_reducible apply speedChange_chan
    | with_reducible apply loadReadParams_chan
    | with_reducible refine Chan.upd _ (fun _ => by with_unfolding_all rfl) ?_
    | with_reducible apply ChanP.mk

theorem nCdRead_chan {ar : Bool} {m m2 : Machine} (E : Env) (c : Chan true ar m m2) :
    Chan true ar m (nCdRead E m2) := by
  unfold nCdRead
  dsimp only
  have d : Chan true ar m (decodeCdRead m2).1 := decodeCdRead_chan c
  refine Chan.ite _ _ _ (fun _ => ?_) (fun _ => ?_)
  · exact readParamError_chan E _ d
  · refine Chan.ite _ _ _ (fun _ => ?_) (fun _ => ?_)
    · exact readRangeError_chan E (cdvdReadErrorHandler_chan d)
    · exact beginRead_chan E _ (cdvdReadErrorHandler_chan d)

theorem nCdReadCdda_chan {ar : Bool} {m m2 : Machine} (E : Env) (c : Chan true ar m m2) :
    Chan true ar m (nCdReadCdda E m2) := by
  unfold nCdReadCdda
  dsimp only
  have d : Chan true ar m (decodeCdda m2).1 := decodeCdda_chan c
  refine Chan.ite _ _ _ (fun _ => ?_) (fun _ => ?_)
  · exact readParamError_chan E _ d
  · exact beginRead_chan E _ d

theorem nDvdRead_chan {ar : Bool} {m m2 : Machine} (E : Env) (c : Chan true ar m m2) :
    Chan true ar m (nDvdRead E m2) := by
  unfold nDvdRead
  dsimp only
  have d : Chan true ar m (decodeDvdRead m2).1 := decodeDvdRead_chan c
  refine Chan.ite _ _ _ (fun _ => ?_) (fun _ => ?_)
  · exact readParamError_chan E _ d
  · refine Chan.ite _ _ _ (fun _ => ?_) (fun _ => ?_)
    · exact readRangeError_chan E (cdvdReadErrorHandler_chan d)
    · exact beginRead_chan E _ (cdvdReadErrorHandler_chan d)

theorem nCommandSwitch_chan {ar : Bool} {m m2 : Machine} (E : Env) (rt : Nat) (c : Chan true ar m m2) :
    ChanP true ar m (nCommandSwitch E m2 rt) := by
  unfold nCommandSwitch
  dsimp only
  repeat' first
    | with_reducible exact c
    | with_reducible refine ChanP.iteP _ _ _ (fun _ => ?_) (fun _ => ?_)
    | with_reducible apply nCdRead_chan
    | with_reducible apply nCdReadCdda_chan
    | with_reducible apply nDvdRead_chan
    | with_reducible apply Chan.sectorReadyInt
    | with_reducible apply Chan.cdvdInt
    | with_reducible apply Chan.startSeek
    | with_reducible apply clearInterrupt_chan
    | with_reducible apply Chan.updateReady
    | with_reducible apply Chan.updateStatus
    | with_reducible apply Chan.setIrq
    | with_reducible apply Chan.emit
    | with_reducible apply Chan.sreset
    | with_reducible refine Chan.upd _ (fun _ => by with_unfolding_all rfl) ?_
    | with_reducible apply Chan.setIop
    | with_reducible apply ChanP.mk

theorem commandError_chan {ar : Bool} {m m2 : Machine} (code : Nat) (c : Chan true ar m m2) :
    Chan true ar m (commandError m2 code) :=
  Chan.setIrq _ (Chan.upd _ (fun _ => rfl) (Chan.upd _ (fun _ => rfl) c))

theorem cdvdCommandErrorHandler_chan {ar : Bool} {m m2 : Machine} (E : Env) (c : Chan true ar m m2) :
    ChanP true ar m (cdvdCommandErrorHandler E m2) := by
  unfold cdvdCommandErrorHandler
  repeat' first
    | with_reducible exact c
    | with_reducible refine ChanP.iteP _ _ _ (fun _ => ?_) (fun _ => ?_)
    | with_reducible apply commandError_chan
    | with_reducible apply ChanP.mk

/-- An N-command leaves the command channels as they were, except that it may reset the
S-command parameter counters, and that it may reset the N-command parameter counters. -/
theorem cdvdWrite04_chan (E : Env) (m : Machine) (rt : Nat) :
    ∃ x, Chan true false m x ∧ (cdvdWrite04 E m rt = x ∨ cdvdWrite04 E m rt = clearNParams x) := by
  unfold cdvdWrite04
  dsimp only
  split
  · refine ⟨_, ?_, Or.inr rfl⟩
    exact Chan.setIrq _ (Chan.upd _ (fun _ => rfl) (Chan.upd _ (fun _ => rfl) (Chan.start true m)))
  · have c0 : Chan true false m (m.upd fun c => { c with nCommand := rt, AbortRequested := false }) :=
      Chan.keepIrq m _ rfl (Chan.start true m)
    have c1 := cdvdCommandErrorHandler_chan E c0
    split
    · exact ⟨_, ChanP.fst _ c1, Or.inr rfl⟩
    · have c2 := nCommandSwitch_chan E rt (ChanP.fst _ c1)
      split
      · exact ⟨_, ChanP.fst _ c2, Or.inl rfl⟩
      · exact ⟨_, ChanP.fst _ c2, Or.inr rfl⟩

theorem and_0xBF_0x40 (x : Nat) : x &&& 0xBF &&& 0x40 = 0 := by
  rw [Nat.and_assoc]
  exact Nat.and_zero x

theorem or_0x40_0x40 (x : Nat) : (x ||| 0x40) &&& 0x40 = 0x40 := by
  rw [Nat.and_comm]
  apply Nat.eq_of_testBit_eq
  intro i
  simp only [Nat.testBit_and, Nat.testBit_or]
  cases (64).testBit i <;> simp

theorem ChannelInv.chan {irq ar : Bool} {m m2 : Machine} (c : Chan irq ar m m2)
    (h : ChannelInv m.cdvd) : ChannelInv m2.cdvd := by
  have hp := c.params
  simp only [paramView, Prod.mk.injEq] at hp
  obtain ⟨p1, p2, p3, p4⟩ := hp
  have hs : m2.cdvd.SCMDParamC = m2.cdvd.SCMDParamP ∧ m2.cdvd.SCMDParamP ≤ 16 := by
    rcases c.sparams with e | e
    · simp only [sParamView, Prod.mk.injEq] at e
      rw [e.1, e.2]
      exact ⟨h.sparam, h.sparamLe⟩
    · simp only [sParamView, Prod.mk.injEq] at e
      rw [e.1, e.2]
      exact ⟨rfl, Nat.zero_le _⟩
  have hr : m2.cdvd.SCMDResultP ≤ m2.cdvd.SCMDResultC ∧ m2.cdvd.SCMDResultC ≤ 16 ∧
      ((m2.cdvd.sDataIn &&& 0x40 = 0 ∧
        (m2.cdvd.SCMDResultP < m2.cdvd.SCMDResultC ∨ m2.cdvd.SCMDResultC = 0)) ∨
      (m2.cdvd.sDataIn &&& 0x40 = 0x40 ∧ m2.cdvd.SCMDResultP = m2.cdvd.SCMDResultC)) := by
    rcases c.result with e | ⟨n, hn, e⟩
    · simp only [resultView, Prod.mk.injEq] at e
      rw [e.1, e.2.1, e.2.2]
      exact ⟨h.resP, h.resC, h.flag⟩
    · simp only [resultView, Prod.mk.injEq] at e
      rw [e.1, e.2.1, e.2.2]
      refine ⟨Nat.zero_le _, hn, Or.inl ⟨and_0xBF_0x40 _, ?_⟩⟩
      omega
  exact ⟨hr.1, hr.2.1, by rw [p2, p3]; exact h.nparam, by rw [p2]; exact h.nparamLe, hs.1, hs.2,
    by rw [p1]; exact h.nlen, by rw [p4]; exact h.slen, hr.2.2⟩

theorem ChannelInv.clearNParams {m : Machine} (h : ChannelInv m.cdvd) :
    ChannelInv (clearNParams m).cdvd :=
  ⟨h.resP, h.resC, rfl, Nat.zero_le _, h.sparam, h.sparamLe, h.nlen, h.slen, h.flag⟩

theorem ChannelInv.write04 (E : Env) {m : Machine} (rt : Nat) (h : ChannelInv m.cdvd) :
    ChannelInv (cdvdWrite04 E m rt).cdvd := by
  obtain ⟨x, c, e | e⟩ := cdvdWrite04_chan E m rt
  · rw [e]
    exact ChannelInv.chan c h
  · rw [e]
    exact ChannelInv.clearNParams (ChannelInv.chan c h)

theorem nParamIndex_lt (c : cdvdStruct) : nParamIndex c < 16 := by
  unfold nParamIndex
  split <;> omega

theorem sParamIndex_lt (c : cdvdStruct) : sParamIndex c < 16 := by
  unfold sParamIndex
  split <;> omega

theorem cdvdWrite05_param (m : Machine) (rt : Nat) :
    (cdvdWrite05 m rt).cdvd.NCMDParam = m.cdvd.NCMDParam.set (nParamIndex m.cdvd) rt ∧
    (cdvdWrite05 m rt).cdvd.NCMDParamP = nParamIndex m.cdvd + 1 ∧
    (cdvdWrite05 m rt).cdvd.NCMDParamC =
      ((if m.cdvd.NCMDParamP ≥ 16 then 0 else m.cdvd.NCMDParamC) + 1) % 256 ∧
    (sParamView (cdvdWrite05 m rt).cdvd, resultView (cdvdWrite05 m rt).cdvd,
        (cdvdWrite05 m rt).cdvd.SCMDParam, (cdvdWrite05 m rt).cdvd.AbortRequested) =
      (sParamView m.cdvd, resultView m.cdvd, m.cdvd.SCMDParam, m.cdvd.AbortRequested) := by
  unfold cdvdWrite05 nParamIndex
  dsimp only
  split
  · exact ⟨rfl, rfl, rfl, rfl⟩
  · refine ⟨rfl, ?_, rfl, rfl⟩
    show (m.cdvd.NCMDParamP + 1) % 256 = _
    omega

theorem cdvdWrite17_param (m : Machine) (rt : Nat) :
    (cdvdWrite17 m rt).cdvd.SCMDParam = m.cdvd.SCMDParam.set (sParamIndex m.cdvd) rt ∧
    (cdvdWrite17 m rt).cdvd.SCMDParamP = sParamIndex m.cdvd + 1 ∧
    (cdvdWrite17 m rt).cdvd.SCMDParamC =
      ((if m.cdvd.SCMDParamP ≥ 16 then 0 else m.cdvd.SCMDParamC) + 1) % 256 ∧
    (m.cdvd.NCMDParam, m.cdvd.NCMDParamP, m.cdvd.NCMDParamC, resultView (cdvdWrite17 m rt).cdvd,
        (cdvdWrite17 m rt).cdvd.AbortRequested) =
      ((cdvdWrite17 m rt).cdvd.NCMDParam, (cdvdWrite17 m rt).cdvd.NCMDParamP,
        (cdvdWrite17 m rt).cdvd.NCMDParamC, resultView m.cdvd, m.cdvd.AbortRequested) := by
  unfold cdvdWrite17 sParamIndex
  dsimp only
  split
  · exact ⟨rfl, rfl, rfl, rfl⟩
  · refine ⟨rfl, ?_, rfl, rfl⟩
    show (m.cdvd.SCMDParamP + 1) % 256 = _
    omega

theorem ChannelInv.keepView {c c2 : cdvdStruct} (hv : regView c2 = regView c) (h : ChannelInv c) :
    ChannelInv c2 := by
  simp only [regView, paramView, sParamView, resultView, Prod.mk.injEq] at hv
  obtain ⟨⟨p1, p2, p3, p4⟩, ⟨s1, s2⟩, r1, r2, r3⟩ := hv
  refine ⟨?_, ?_, ?_, ?_, ?_, ?_, ?_, ?_, ?_⟩
  · rw [r1, r2]
    exact h.resP
  · rw [r2]
    exact h.resC
  · rw [p2, p3]
    exact h.nparam
  · rw [p2]
    exact h.nparamLe
  · rw [s1, s2]
    exact h.sparam
  · rw [s1]
    exact h.sparamLe
  · rw [p1]
    exact h.nlen
  · rw [p4]
    exact h.slen
  · rw [r1, r2, r3]
    exact h.flag

theorem ChannelInv.write05 {m : Machine} (rt : Nat) (h : ChannelInv m.cdvd) :
    ChannelInv (cdvdWrite05 m rt).cdvd := by
  obtain ⟨e1, e2, e3, e4⟩ := cdvdWrite05_param m rt
  have hi := nParamIndex_lt m.cdvd
  have hle := h.nparamLe
  have hc : (cdvdWrite05 m rt).cdvd.NCMDParamC = nParamIndex m.cdvd + 1 := by
    rw [e3, h.nparam]
    unfold nParamIndex
    split <;> omega
  simp only [sParamView, resultView, Prod.mk.injEq] at e4
  obtain ⟨⟨s1, s2⟩, ⟨r1, r2, r3⟩, s3, _⟩ := e4
  refine ⟨?_, ?_, ?_, ?_, ?_, ?_, ?_, ?_, ?_⟩
  · rw [r1, r2]
    exact h.resP
  · rw [r2]
    exact h.resC
  · rw [hc, e2]
  · rw [e2]
    omega
  · rw [s1, s2]
    exact h.sparam
  · rw [s1]
    exact h.sparamLe
  · rw [e1, List.length_set]
    exact h.nlen
  · rw [s3]
    exact h.slen
  · rw [r1, r2, r3]
    exact h.flag

theorem ChannelInv.write17 {m : Machine} (rt : Nat) (h : ChannelInv m.cdvd) :
    ChannelInv (cdvdWrite17 m rt).cdvd := by
  obtain ⟨e1, e2, e3, e4⟩ := cdvdWrite17_param m rt
  have hi := sParamIndex_lt m.cdvd
  have hle := h.sparamLe
  have hc : (cdvdWrite17 m rt).cdvd.SCMDParamC = sParamIndex m.cdvd + 1 := by
    rw [e3, h.sparam]
    unfold sParamIndex
    split <;> omega
  simp only [resultView, Prod.mk.injEq] at e4
  obtain ⟨p1, p2, p3, ⟨r1, r2, r3⟩, _⟩ := e4
  refine ⟨?_, ?_, ?_, ?_, ?_, ?_, ?_, ?_, ?_⟩
  · rw [r1, r2]
    exact h.resP
  · rw [r2]
    exact h.resC
  · rw [← p2, ← p3]
    exact h.nparam
  · rw [← p2]
    exact h.nparamLe
  · rw [hc, e2]
  · rw [e2]
    omega
  · rw [← p1]
    exact h.nlen
  · rw [e1, List.length_set]
    exact h.slen
  · rw [r1, r2, r3]
    exact h.flag

/-- What a read of register 0x18 does while a result byte is unread. -/
theorem cdvdRead18_unread (m : Machine) (hb : m.cdvd.sDataIn &&& 0x40 = 0)
    (hp : m.cdvd.SCMDResultP < m.cdvd.SCMDResultC) (hc : m.cdvd.SCMDResultC ≤ 16) :
    (cdvdRead18 m).2 = m.cdvd.SCMDResult.getD m.cdvd.SCMDResultP 0 ∧
    (cdvdRead18 m).1.cdvd.SCMDResultP = m.cdvd.SCMDResultP + 1 ∧
    (cdvdRead18 m).1.cdvd.SCMDResultC = m.cdvd.SCMDResultC ∧
    (cdvdRead18 m).1.cdvd.SCMDResult = m.cdvd.SCMDResult ∧
    (cdvdRead18 m).1.cdvd.sDataIn =
      (if m.cdvd.SCMDResultP + 1 = m.cdvd.SCMDResultC then m.cdvd.sDataIn ||| 0x40
        else m.cdvd.sDataIn) ∧
    (paramView (cdvdRead18 m).1.cdvd, sParamView (cdvdRead18 m).1.cdvd,
        (cdvdRead18 m).1.cdvd.AbortRequested) =
      (paramView m.cdvd, sParamView m.cdvd, m.cdvd.AbortRequested) := by
  have h256 : (m.cdvd.SCMDResultP + 1) % 256 = m.cdvd.SCMDResultP + 1 := by omega
  unfold cdvdRead18
  rw [if_pos ⟨hb, hp⟩]
  dsimp only
  by_cases hl : m.cdvd.SCMDResultP + 1 = m.cdvd.SCMDResultC
  · have hge : (m.upd fun c => { c with SCMDResultP := (c.SCMDResultP + 1) % 256 }).cdvd.SCMDResultP ≥
        (m.upd fun c => { c with SCMDResultP := (c.SCMDResultP + 1) % 256 }).cdvd.SCMDResultC := by
      show (m.cdvd.SCMDResultP + 1) % 256 ≥ m.cdvd.SCMDResultC
      omega
    rw [if_pos hge, if_pos hl]
    refine ⟨?_, h256, rfl, rfl, rfl, rfl⟩
    show m.cdvd.SCMDResult.getD ((m.cdvd.SCMDResultP + 1) % 256 - 1) 0 = _
    rw [h256]
    rfl
  · have hge : ¬ (m.upd fun c => { c with SCMDResultP := (c.SCMDResultP + 1) % 256 }).cdvd.SCMDResultP ≥
        (m.upd fun c => { c with SCMDResultP := (c.SCMDResultP + 1) % 256 }).cdvd.SCMDResultC := by
      show ¬ (m.cdvd.SCMDResultP + 1) % 256 ≥ m.cdvd.SCMDResultC
      omega
    rw [if_neg hge, if_neg hl]
    refine ⟨?_, h256, rfl, rfl, rfl, rfl⟩
    show m.cdvd.SCMDResult.getD ((m.cdvd.SCMDResultP + 1) % 256 - 1) 0 = _
    rw [h256]
    rfl

/-- What a read of register 0x18 does when no result byte is unread. -/
theorem cdvdRead18_exhausted (m : Machine)
    (h : ¬ (m.cdvd.sDataIn &&& 0x40 = 0 ∧ m.cdvd.SCMDResultP < m.cdvd.SCMDResultC)) :
    cdvdRead18 m = (m, 0) := by
  unfold cdvdRead18
  rw [if_neg h]

theorem ChannelInv.read18 {m : Machine} (h : ChannelInv m.cdvd) :
    ChannelInv (cdvdRead18 m).1.cdvd := by
  by_cases hc : m.cdvd.sDataIn &&& 0x40 = 0 ∧ m.cdvd.SCMDResultP < m.cdvd.SCMDResultC
  · obtain ⟨_, e2, e3, _, e5, e6⟩ := cdvdRead18_unread m hc.1 hc.2 h.resC
    simp only [paramView, sParamView, Prod.mk.injEq] at e6
    obtain ⟨⟨p1, p2, p3, p4⟩, ⟨s1, s2⟩, _⟩ := e6
    refine ⟨?_, ?_, ?_, ?_, ?_, ?_, ?_, ?_, ?_⟩
    · rw [e2, e3]
      omega
    · rw [e3]
      exact h.resC
    · rw [p2, p3]
      exact h.nparam
    · rw [p2]
      exact h.nparamLe
    · rw [s1, s2]
      exact h.sparam
    · rw [s1]
      exact h.sparamLe
    · rw [p1]
      exact h.nlen
    · rw [p4]
      exact h.slen
    · rw [e2, e3, e5]
      by_cases hl : m.cdvd.SCMDResultP + 1 = m.cdvd.SCMDResultC
      · rw [if_pos hl]
        exact Or.inr ⟨or_0x40_0x40 _, hl⟩
      · rw [if_neg hl]
        refine Or.inl ⟨hc.1, Or.inl ?_⟩
        omega
  · rw [cdvdRead18_exhausted m hc]
    exact h

theorem ReadEffect.iteR {m : Machine} (p : Prop) [Decidable p] (a b : Machine × Nat)
    (ha : p → ReadEffect m a) (hb : ¬ p → ReadEffect m b) : ReadEffect m (if p then a else b) := by
  split
  · exact ha (by assumption)
  · exact hb (by assumption)

theorem ReadEffect.same (m : Machine) (v : Nat) : ReadEffect m (m, v) := Or.inl rfl

theorem cdvdRead_cases (E : Env) (m : Machine) (key : Nat) : ReadEffect m (cdvdRead E m key) := by
  unfold cdvdRead
  dsimp only
  repeat' first
    | with_reducible apply ReadEffect.same
    | with_reducible refine ReadEffect.iteR _ _ _ (fun _ => ?_) (fun _ => ?_)
    | exact Or.inr (Or.inl rfl)
    | exact Or.inr (Or.inr rfl)

theorem ChannelInv.read (E : Env) {m : Machine} (key : Nat) (h : ChannelInv m.cdvd) :
    ChannelInv (cdvdRead E m key).1.cdvd := by
  rcases cdvdRead_cases E m key with e | e | e
  · rw [e]
    exact h
  · rw [e]
    exact h.keepView (by rfl)
  · rw [e]
    exact h.read18

theorem ChannelInv.write (E : Env) {m m2 : Machine} (key rt : Nat) (h : ChannelInv m.cdvd)
    (hw : cdvdWrite E m key rt = some m2) : ChannelInv m2.cdvd := by
  unfold cdvdWrite at hw
  split at hw
  · cases hw
    exact h.write04 E rt
  split at hw
  · cases hw
    exact h.write05 rt
  split at hw
  · cases hw
    exact h.keepView (by rfl)
  split at hw
  · cases hw
    unfold cdvdWrite07
    split
    · exact h
    · exact h.keepView (by rfl)
  split at hw
  · cases hw
    exact h.keepView (by rfl)
  split at hw
  · exact ChannelInv.chan (cdvdWrite16_any hw).1 h
  split at hw
  · cases hw
    exact h.write17 rt
  split at hw
  · cases hw
    exact h.keepView (by rfl)
  · cases hw
    exact h

theorem Chan.setHost {irq ar : Bool} {m m2 : Machine} (i : Host) (c : Chan irq ar m m2) :
    Chan irq ar m { m2 with host := i } :=
  Chan.keep m2 _ rfl c

theorem Chan.setKs {irq ar : Bool} {m m2 : Machine} (i : KeyStore) (c : Chan irq ar m m2) :
    Chan irq ar m { m2 with ks := i } :=
  Chan.keep m2 _ rfl c

theorem readAndDecryptKeyStore_chan {irq ar : Bool} {m m2 : Machine} (E : Env) (eks cks kek : List Nat)
    (i : Nat) (c : Chan irq ar m m2) : Chan irq ar m (readAndDecryptKeyStore E m2 eks cks kek i) := by
  unfold readAndDecryptKeyStore
  dsimp only
  exact Chan.upd _ (fun _ => rfl) (Chan.readILinkID E _ (Chan.readConsoleID E _ (Chan.setKs _ c)))

/-- The state in which `cdvdReset` leaves the command channels. -/
theorem ChannelInv.reset (E : Env) (B : Boot) (m : Machine) : ChannelInv (cdvdReset E B m).cdvd := by
  have h0 : ChannelInv (({ m with cdvd := {} } : Machine).upd fun c =>
      { c with DiscType := CDVD_TYPE_NODISC, Spinning := false, sDataIn := 0x40 }).cdvd :=
by
    refine ⟨?_, ?_, rfl, ?_, rfl, ?_, rfl, rfl, Or.inr ⟨?_, rfl⟩⟩
    · exact Nat.le_refl 0
    · show 0 ≤ 16
      decide
    · show 0 ≤ 16
      decide
    · show 0 ≤ 16
      decide
    · show 0x40 &&& 0x40 = 0x40
      decide
  have c : Chan true false (({ m with cdvd := {} } : Machine).upd fun c =>
      { c with DiscType := CDVD_TYPE_NODISC, Spinning := false, sDataIn := 0x40 })
      (cdvdReset E B m) := ?_
  · exact ChannelInv.chan c h0
  unfold cdvdReset
  dsimp only
  repeat' first
    | with_reducible exact Chan.start _ _
    | with_reducible apply Chan.setMechaState
    | with_reducible apply readAndDecryptKeyStore_chan
    | with_reducible apply Chan.trayClose
    | with_reducible apply Chan.updateReady
    | with_reducible apply Chan.updateStatus
    | with_reducible refine Chan.upd _ (fun _ => by with_unfolding_all rfl) ?_
    | with_reducible apply Chan.setHost

theorem cdvdRead_0x18 (E : Env) (m : Machine) : cdvdRead E m 0x18 = cdvdRead18 m := by
  unfold cdvdRead
  dsimp only
  repeat rw [if_neg (by decide)]
  rw [if_pos rfl]

/-- Reads of the result register while result bytes are unread. -/
theorem readResults_unread (E : Env) : ∀ (k : Nat) (m : Machine), m.cdvd.sDataIn &&& 0x40 = 0 →
    m.cdvd.SCMDResultP + k ≤ m.cdvd.SCMDResultC → m.cdvd.SCMDResultC ≤ 16 →
    (readResults E m k).2 = (List.range k).map (fun i => m.cdvd.SCMDResult.getD (m.cdvd.SCMDResultP + i) 0) ∧
    (readResults E m k).1.cdvd.SCMDResultP = m.cdvd.SCMDResultP + k ∧
    (readResults E m k).1.cdvd.SCMDResultC = m.cdvd.SCMDResultC ∧
    (readResults E m k).1.cdvd.sDataIn =
      (if k ≠ 0 ∧ m.cdvd.SCMDResultP + k = m.cdvd.SCMDResultC then m.cdvd.sDataIn ||| 0x40
        else m.cdvd.sDataIn) := by
  intro k
  induction k with
  | zero =>
    intro m _ _ _
    refine ⟨rfl, rfl, rfl, ?_⟩
    rw [if_neg (fun h => h.1 rfl)]
    rfl
  | succ k ih =>
    intro m hb hp hc
    obtain ⟨e1, e2, e3, e4, e5, _⟩ := cdvdRead18_unread m hb (by omega) hc
    unfold readResults
    rw [cdvdRead_0x18]
    dsimp only
    by_cases hk : k = 0
    · subst hk
      refine ⟨?_, ?_, ?_, ?_⟩
      · show [(cdvdRead18 m).2] = [m.cdvd.SCMDResult.getD (m.cdvd.SCMDResultP + 0) 0]
        rw [e1]
        rfl
      · exact e2
      · exact e3
      · show (cdvdRead18 m).1.cdvd.sDataIn = _
        rw [e5]
        by_cases hl : m.cdvd.SCMDResultP + 1 = m.cdvd.SCMDResultC
        · rw [if_pos hl, if_pos ⟨by decide, hl⟩]
        · rw [if_neg hl, if_neg (fun h => hl h.2)]
    · have hne : ¬ m.cdvd.SCMDResultP + 1 = m.cdvd.SCMDResultC := by omega
      rw [if_neg hne] at e5
      obtain ⟨i1, i2, i3, i4⟩ := ih (cdvdRead18 m).1 (by rw [e5]; exact hb) (by rw [e2, e3]; omega)
        (by rw [e3]; exact hc)
      refine ⟨?_, ?_, ?_, ?_⟩
      · rw [i1, e1, e2, e4, List.range_succ_eq_map, List.map_cons, List.map_map]
        refine congrArg₂ _ rfl (List.map_congr_left fun i _ => ?_)
        show m.cdvd.SCMDResult.getD (m.cdvd.SCMDResultP + 1 + i) 0 =
          m.cdvd.SCMDResult.getD (m.cdvd.SCMDResultP + (i + 1)) 0
        rw [Nat.add_assoc, Nat.add_comm 1 i]
      · rw [i2, e2]
        omega
      · rw [i3, e3]
      · rw [i4, e2, e3, e5]
        by_cases hl : m.cdvd.SCMDResultP + 1 + k = m.cdvd.SCMDResultC
        · rw [if_pos ⟨hk, hl⟩, if_pos ⟨by omega, by omega⟩]
        · rw [if_neg (fun h => hl h.2), if_neg (fun h => hl (by omega))]

/-- Reads of the result register when no result byte is unread. -/
theorem readResults_exhausted (E : Env) : ∀ (k : Nat) (m : Machine),
    ¬ (m.cdvd.sDataIn &&& 0x40 = 0 ∧ m.cdvd.SCMDResultP < m.cdvd.SCMDResultC) →
    readResults E m k = (m, List.replicate k 0) := by
  intro k
  induction k with
  | zero =>
    intro m _
    rfl
  | succ k ih =>
    intro m h
    unfold readResults
    rw [cdvdRead_0x18, cdvdRead18_exhausted m h]
    dsimp only
    rw [ih m h]
    rfl

theorem readResults_add (E : Env) : ∀ (a b : Nat) (m : Machine),
    (readResults E m (a + b)).1 = (readResults E (readResults E m a).1 b).1 := by
  intro a
  induction a with
  | zero =>
    intro b m
    rw [Nat.zero_add]
    rfl
  | succ a ih =>
    intro b m
    rw [Nat.add_right_comm]
    show (readResults E (cdvdRead E m 0x18).1 (a + b)).1 =
      (readResults E (readResults E (cdvdRead E m 0x18).1 a).1 b).1
    exact ih b _

/-- C19. After an S-command that sets a result size `n` with `1 ≤ n ≤ 16` (every
S-command but the power-off 0x0F sets one, of at most 16 bytes), `n` successive reads of
register 0x18 return `SCMDResult[0]`, ..., `SCMDResult[n-1]` in that order; bit 0x40 of
`sDataIn` is clear before each of the `n` reads and set after the `n`-th; every further
read returns 0 and changes no state. -/
theorem C19_result_reads (E : Env) (m : Machine) (rt : Nat) (m2 : Machine)
    (h : cdvdWrite16 E m rt = some m2) (hF : rt ≠ 0x0F) (hn : 1 ≤ m2.cdvd.SCMDResultC) :
    m2.cdvd.SCMDResultC ≤ 16 ∧
    (readResults E m2 m2.cdvd.SCMDResultC).2 =
      (List.range m2.cdvd.SCMDResultC).map (fun i => m2.cdvd.SCMDResult.getD i 0) ∧
    (∀ k, k < m2.cdvd.SCMDResultC → (readResults E m2 k).1.cdvd.sDataIn &&& 0x40 = 0) ∧
    (readResults E m2 m2.cdvd.SCMDResultC).1.cdvd.sDataIn &&& 0x40 = 0x40 ∧
    (∀ k, m2.cdvd.SCMDResultC ≤ k →
      cdvdRead E (readResults E m2 k).1 0x18 = ((readResults E m2 k).1, 0)) := by
  obtain ⟨n, hn16, hv⟩ := cdvdWrite16_armed hF h
  simp only [resultView, Prod.mk.injEq] at hv
  obtain ⟨hP, hC, hS⟩ := hv
  have hb : m2.cdvd.sDataIn &&& 0x40 = 0 := by
    rw [hS]
    exact and_0xBF_0x40 _
  have hc16 : m2.cdvd.SCMDResultC ≤ 16 := by
    rw [hC]
    exact hn16
  obtain ⟨f1, f2, f3, f4⟩ := readResults_unread E m2.cdvd.SCMDResultC m2 hb (by omega) hc16
  have hset : (readResults E m2 m2.cdvd.SCMDResultC).1.cdvd.sDataIn &&& 0x40 = 0x40 := by
    rw [f4, if_pos ⟨by omega, by omega⟩]
    exact or_0x40_0x40 _
  refine ⟨hc16, ?_, ?_, hset, ?_⟩
  · rw [f1]
    refine List.map_congr_left fun i _ => ?_
    rw [hP, Nat.zero_add]
  · intro k hk
    obtain ⟨_, _, _, g4⟩ := readResults_unread E k m2 hb (by omega) hc16
    rw [g4, if_neg (fun hh => by omega)]
    exact hb
  · intro k hk
    have hex : ¬ ((readResults E m2 m2.cdvd.SCMDResultC).1.cdvd.sDataIn &&& 0x40 = 0 ∧
        (readResults E m2 m2.cdvd.SCMDResultC).1.cdvd.SCMDResultP <
          (readResults E m2 m2.cdvd.SCMDResultC).1.cdvd.SCMDResultC) := by
      intro hh
      rw [hset] at hh
      exact absurd hh.1 (by decide)
    have hk2 : (readResults E m2 k).1 = (readResults E m2 m2.cdvd.SCMDResultC).1 := by
      obtain ⟨d, rfl⟩ := Nat.exists_eq_add_of_le hk
      rw [readResults_add, readResults_exhausted E d _ hex]
    rw [hk2, cdvdRead_0x18, cdvdRead18_exhausted _ hex]

theorem C19_result_reads_witness :
    cdvdWrite16 demoEnv (demoDrive.upd fun c => { c with RTC :=
      { c.RTC with second := 56, minute := 34, hour := 12, day := 24, month := 12, year := 25 } })
      0x08 = some clockReadDrive ∧
    1 ≤ clockReadDrive.cdvd.SCMDResultC ∧
    clockReadDrive.cdvd.SCMDResultC = 8 ∧
    (readResults demoEnv clockReadDrive 8).2 = [0, 0x56, 0x34, 0x12, 0, 0x24, 0x12, 0x25] ∧
    (readResults demoEnv clockReadDrive clockReadDrive.cdvd.SCMDResultC).1.cdvd.sDataIn &&& 0x40 = 0x40 :=
  have hw : cdvdWrite16 demoEnv (demoDrive.upd fun c => { c with RTC :=
      { c.RTC with second := 56, minute := 34, hour := 12, day := 24, month := 12, year := 25 } })
      0x08 = some clockReadDrive := rfl
  have hn : 1 ≤ clockReadDrive.cdvd.SCMDResultC := by decide
  have hc : clockReadDrive.cdvd.SCMDResultC = 8 := by decide
  have h := C19_result_reads demoEnv _ 0x08 clockReadDrive hw (by decide) hn
  ⟨hw, hn, hc, by decide, h.2.2.2.1⟩

theorem Kept.startK (m : Machine) : Kept m m := rfl

theorem Kept.updK {m m2 : Machine} (f : cdvdStruct → cdvdStruct)
    (hf : ∀ c, statusView (f c) = statusView c) (k : Kept m m2) : Kept m (m2.upd f) :=
  (hf m2.cdvd).trans k

theorem Kept.iteK {m : Machine} (p : Prop) [Decidable p] (a b : Machine)
    (ha : p → Kept m a) (hb : ¬ p → Kept m b) : Kept m (if p then a else b) := by
  split
  · exact ha (by assumption)
  · exact hb (by assumption)

theorem KeptP.iteKP {α : Type} {m : Machine} (p : Prop) [Decidable p] (a b : Machine × α)
    (ha : p → KeptP m a) (hb : ¬ p → KeptP m b) : KeptP m (if p then a else b) := by
  split
  · exact ha (by assumption)
  · exact hb (by assumption)

theorem KeptP.mkK {α : Type} {m : Machine} (a : Machine) (x : α) (k : Kept m a) : KeptP m (a, x) := k

theorem KeptP.mechaFailK {m m2 : Machine} (code : Nat) (k : Kept m m2) : KeptP m (mechaFail m2 code) :=
  Kept.updK _ (fun _ => rfl) k

theorem Kept.readConsoleIDK {m m2 : Machine} (E : Env) (id : List Nat) (k : Kept m m2) :
    Kept m (cdvdReadConsoleID E m2 id).1 :=
  (congrArg statusView (getNvmData_cdvd E m2 id 0 8 _)).trans k

theorem Kept.readILinkIDK {m m2 : Machine} (E : Env) (id : List Nat) (k : Kept m m2) :
    Kept m (cdvdReadILinkID E m2 id).1 :=
  (congrArg statusView (getNvmData_cdvd E m2 id 0 8 _)).trans k

theorem decryptKelfBitTable_kept {m m2 : Machine} (E : Env) (hs : Nat) (HS : List Nat)
    (k : Kept m m2) : KeptP m (decryptKelfBitTable E m2 hs HS) := by
  unfold decryptKelfBitTable
  dsimp only
  repeat' first
    | with_reducible exact k
    | with_reducible refine KeptP.iteKP _ _ _ (fun _ => ?_) (fun _ => ?_)
    | with_reducible refine Kept.iteK _ _ _ (fun _ => ?_) (fun _ => ?_)
    | with_reducible apply KeptP.mechaFailK
    | with_reducible refine Kept.updK _ (fun _ => by with_unfolding_all rfl) ?_
    | with_reducible apply KeptP.mkK

theorem DecryptKelfHeader_kept {m m2 : Machine} (E : Env) (k : Kept m m2) :
    KeptP m (DecryptKelfHeader E m2) := by
  unfold DecryptKelfHeader
  dsimp only
  repeat' first
    | with_reducible exact k
    | with_reducible refine KeptP.iteKP _ _ _ (fun _ => ?_) (fun _ => ?_)
    | with_reducible apply KeptP.mechaFailK
    | with_reducible apply decryptKelfBitTable_kept
    | with_reducible apply Kept.readILinkIDK
    | with_reducible apply Kept.readConsoleIDK

theorem decryptKelfContentFinish_kept {m m2 : Machine} (E : Env) (block : BitBlock)
    (v0 : Nat) (k : Kept m m2) : KeptP m (decryptKelfContentFinish E m2 block v0) := by
  unfold decryptKelfContentFinish
  dsimp only
  repeat' first
    | with_reducible exact k
    | with_reducible refine KeptP.iteKP _ _ _ (fun _ => ?_) (fun _ => ?_)
    | with_reducible apply KeptP.mechaFailK
    | with_reducible refine Kept.updK _ (fun _ => by with_unfolding_all rfl) ?_
    | with_reducible apply KeptP.mkK

theorem DecryptKelfContent_kept {m m2 : Machine} (E : Env) (k : Kept m m2)
    (r : Machine × MECHA_RESULT) (h : DecryptKelfContent E m2 = some r) : Kept m r.1 := by
  unfold DecryptKelfContent at h
  lift_lets at h
  extract_lets m0 block chunks st at h
  have c0 : Kept m m0 :=
    Kept.iteK _ _ _ (fun _ => Kept.updK _ (fun _ => rfl) k) (fun _ => k)
  split at h
  · cases hl : contentLoopEncrypted E.D m0.cdvd block.Flags chunks 0 st with
    | none =>
      rw [hl] at h
      cases h
    | some p =>
      obtain ⟨st2, failed⟩ := p
      rw [hl] at h
      dsimp only at h
      split at h
      · cases h
        exact KeptP.mechaFailK _ (Kept.updK _ (fun _ => rfl) c0)
      · cases h
        exact decryptKelfContentFinish_kept E _ _ (Kept.updK _ (fun _ => rfl) c0)
  · cases hl : contentLoopPlain E.D m0.ks.SignatureMasterKey m0.cdvd chunks 0 st with
    | none =>
      rw [hl] at h
      cases h
    | some st2 =>
      rw [hl] at h
      cases h
      exact decryptKelfContentFinish_kept E _ _ (Kept.updK _ (fun _ => rfl) c0)

/-- The chunk loop on an encrypted block ends when every chunk lies below
`data_buffer_offset`. -/
theorem contentLoopEncrypted_returns (D : DesCipher) (c : cdvdStruct) (flags : Nat) :
    ∀ (n v0 : Nat) (st : ContentLoop), (n = 0 ∨ v0 + 8 * (n - 1) < c.data_buffer_offset) →
      ∃ r, contentLoopEncrypted D c flags n v0 st = some r := by
  intro n
  induction n with
  | zero =>
    intro v0 st _
    exact ⟨_, rfl⟩
  | succ n ih =>
    intro v0 st h
    have hv : v0 < c.data_buffer_offset := by omega
    unfold contentLoopEncrypted
    rw [if_pos hv]
    dsimp only
    split
    · exact ⟨_, rfl⟩
    · exact ih _ _ (by omega)

/-- The chunk loop on a plain block ends when every chunk lies below `data_buffer_offset`. -/
theorem contentLoopPlain_returns (D : DesCipher) (key : List Nat) (c : cdvdStruct) :
    ∀ (n v0 : Nat) (st : ContentLoop), (n = 0 ∨ v0 + 8 * (n - 1) < c.data_buffer_offset) →
      ∃ r, contentLoopPlain D key c n v0 st = some r := by
  intro n
  induction n with
  | zero =>
    intro v0 st _
    exact ⟨_, rfl⟩
  | succ n ih =>
    intro v0 st h
    have hv : v0 < c.data_buffer_offset := by omega
    unfold contentLoopPlain
    rw [if_pos hv]
    exact ih _ _ (by omega)

/-- The function `DecryptKelfContent` returns when the whole `DataSize` has been delivered. -/
theorem DecryptKelfContent_returns (E : Env) (m : Machine)
    (h : m.cdvd.DataSize ≤ m.cdvd.data_buffer_offset) : ∃ r, DecryptKelfContent E m = some r := by
  unfold DecryptKelfContent
  lift_lets
  extract_lets m0 block chunks st
  have hd : m0.cdvd.DataSize = m.cdvd.DataSize ∧ m0.cdvd.data_buffer_offset = m.cdvd.data_buffer_offset := by
    show (if m.cdvd.DoneBlocks = 0 then _ else m).cdvd.DataSize = _ ∧
      (if m.cdvd.DoneBlocks = 0 then _ else m).cdvd.data_buffer_offset = _
    split
    · exact ⟨rfl, rfl⟩
    · exact ⟨rfl, rfl⟩
  have hc : chunks = 0 ∨ 0 + 8 * (chunks - 1) < m0.cdvd.data_buffer_offset := by
    have e : chunks = (m0.cdvd.DataSize + 7) / 8 := rfl
    rw [hd.2]
    rw [hd.1] at e
    omega
  split
  · obtain ⟨r, hr⟩ := contentLoopEncrypted_returns E.D m0.cdvd block.Flags chunks 0 st hc
    rw [hr]
    obtain ⟨st2, failed⟩ := r
    dsimp only
    split
    · exact ⟨_, rfl⟩
    · exact ⟨_, rfl⟩
  · obtain ⟨r, hr⟩ := contentLoopPlain_returns E.D m0.ks.SignatureMasterKey m0.cdvd chunks 0 st hc
    rw [hr]
    exact ⟨_, rfl⟩

theorem FailCode.iteF (p : Prop) [Decidable p] (a b : Machine × MECHA_RESULT)
    (ha : p → FailCode a) (hb : ¬ p → FailCode b) : FailCode (if p then a else b) := by
  split
  · exact ha (by assumption)
  · exact hb (by assumption)

theorem FailCode.mechaFailF (m : Machine) (code : Nat) (h : code < 256) : FailCode (mechaFail m code) :=
  fun _ => h

theorem FailCode.ok (m : Machine) (x : MECHA_RESULT) (h : x ≠ MECHA_RESULT.MECHA_RESULT_FAILED) :
    FailCode (m, x) :=
  fun e => absurd e h

theorem decryptKelfBitTable_failCode (E : Env) (m : Machine) (hs : Nat) (HS : List Nat) :
    FailCode (decryptKelfBitTable E m hs HS) := by
  unfold decryptKelfBitTable
  dsimp only
  repeat' first
    | with_reducible refine FailCode.iteF _ _ _ (fun _ => ?_) (fun _ => ?_)
    | with_reducible refine FailCode.mechaFailF _ _ ?_
    | with_reducible refine FailCode.ok _ _ ?_
    | decide
    | (split <;> decide)

theorem DecryptKelfHeader_failCode (E : Env) (m : Machine) : FailCode (DecryptKelfHeader E m) := by
  unfold DecryptKelfHeader
  dsimp only
  repeat' first
    | with_reducible refine FailCode.iteF _ _ _ (fun _ => ?_) (fun _ => ?_)
    | with_reducible refine FailCode.mechaFailF _ _ ?_
    | with_reducible apply decryptKelfBitTable_failCode
    | with_reducible refine FailCode.ok _ _ ?_
    | decide

theorem decryptKelfContentFinish_failCode (E : Env) (m : Machine) (block : BitBlock) (v0 : Nat) :
    FailCode (decryptKelfContentFinish E m block v0) := by
  unfold decryptKelfContentFinish
  dsimp only
  repeat' first
    | with_reducible refine FailCode.iteF _ _ _ (fun _ => ?_) (fun _ => ?_)
    | with_reducible refine FailCode.mechaFailF _ _ ?_
    | with_reducible refine FailCode.ok _ _ ?_
    | decide

theorem DecryptKelfContent_failCode (E : Env) (m : Machine) (r : Machine × MECHA_RESULT)
    (h : DecryptKelfContent E m = some r) : FailCode r := by
  unfold DecryptKelfContent at h
  lift_lets at h
  extract_lets m0 block chunks st at h
  split at h
  · cases hl : contentLoopEncrypted E.D m0.cdvd block.Flags chunks 0 st with
    | none =>
      rw [hl] at h
      cases h
    | some p =>
      obtain ⟨st2, failed⟩ := p
      rw [hl] at h
      dsimp only at h
      split at h
      · cases h
        exact FailCode.mechaFailF _ _ (by decide)
      · cases h
        exact decryptKelfContentFinish_failCode E _ _ _
  · cases hl : contentLoopPlain E.D m0.ks.SignatureMasterKey m0.cdvd chunks 0 st with
    | none =>
      rw [hl] at h
      cases h
    | some st2 =>
      rw [hl] at h
      cases h
      exact decryptKelfContentFinish_failCode E _ _ _

theorem sCommandMecha_0x8D_last (E : Env) (m : Machine) (X : MECHA_STATE) (hp : m.cdvd.SCMDParamC ≠ 0)
    (hst : m.cdvd.mecha_state = MECHA_STATE.MECHA_STATE_KELF_HEADER_PARAMS_SET ∧
        X = MECHA_STATE.MECHA_STATE_KELF_HEADER_RECEIVED ∨
      m.cdvd.mecha_state = MECHA_STATE.MECHA_STATE_DATA_IN_LENGTH_SET ∧
        X = MECHA_STATE.MECHA_STATE_KELF_CONTENT_RECEIVED)
    (hfit : m.cdvd.data_buffer_offset + m.cdvd.SCMDParamC ≤ 0x800)
    (hlast : m.cdvd.DataSize ≤ m.cdvd.data_buffer_offset + m.cdvd.SCMDParamC) :
    sCommandMecha E m 0x8D =
      (executeMechaHandler E (setMechaState (mgWriteData m) X)).map fun m => setResult m 0 0 := by
  have hfit2 : (result1 m 0x80).cdvd.data_buffer_offset + m.cdvd.SCMDParamC ≤ 0x800 := hfit
  have hlast2 : (mgWriteData m).cdvd.DataSize ≤ (mgWriteData m).cdvd.data_buffer_offset := hlast
  have hs3 : m.cdvd.mecha_state = MECHA_STATE.MECHA_STATE_KELF_HEADER_PARAMS_SET ∨
      m.cdvd.mecha_state = MECHA_STATE.MECHA_STATE_DATA_IN_LENGTH_SET ∨
      m.cdvd.mecha_state = MECHA_STATE.MECHA_STATE_CRYPTO_DATA_IN_SIZE_SET := by
    rcases hst with h | h
    · exact Or.inl h.1
    · exact Or.inr (Or.inl h.1)
  show (if m.cdvd.SCMDParamC ≠ 0 ∧ (_ ∨ _ ∨ _) ∧
      (result1 m 0x80).cdvd.data_buffer_offset + m.cdvd.SCMDParamC ≤ 0x800 then
        Option.map _ (if (mgWriteData m).cdvd.DataSize ≤ (mgWriteData m).cdvd.data_buffer_offset then _
          else _)
      else _) = _
  rw [if_pos ⟨hp, hs3, hfit2⟩, if_pos hlast2]
  rcases hst with ⟨h, rfl⟩ | ⟨h, rfl⟩
  · rw [h]
    rfl
  · rw [h]
    rfl

/-- The handler on a received KELF header or content block, where it gives a state:
it keeps the S-command result registers and the session state, and a failure it
records has an error code of one byte. -/
theorem executeMechaHandler_kelf (E : Env) (m x : Machine)
    (hs : m.cdvd.mecha_state = MECHA_STATE.MECHA_STATE_KELF_HEADER_RECEIVED ∨
      m.cdvd.mecha_state = MECHA_STATE.MECHA_STATE_KELF_CONTENT_RECEIVED)
    (hx : executeMechaHandler E m = some x) :
    statusView x.cdvd = statusView m.cdvd ∧
      (x.cdvd.mecha_result = MECHA_RESULT.MECHA_RESULT_FAILED → x.cdvd.mecha_errorcode < 256) := by
  unfold executeMechaHandler at hx
  rcases hs with hs | hs
  · rw [hs] at hx
    dsimp only at hx
    split at hx
    · cases hx
    · rw [← Option.some.inj hx]
      exact ⟨Kept.updK _ (fun _ => rfl) (DecryptKelfHeader_kept E (Kept.startK m)),
        DecryptKelfHeader_failCode E m⟩
  · rw [hs] at hx
    dsimp only at hx
    obtain ⟨r, hr, he⟩ := Option.map_eq_some'.mp hx
    rw [← he]
    exact ⟨Kept.updK _ (fun _ => rfl) (DecryptKelfContent_kept E (Kept.startK m) r hr),
      DecryptKelfContent_failCode E m r hr⟩

theorem getD_set_zero (l : List Nat) (v d : Nat) (h : l.length = 16) : (l.set 0 v).getD 0 d = v := by
  cases l with
  | nil => cases h
  | cons a t => rfl

/-- S-command 0x8D that delivers the last byte of a KELF header or content block. -/
theorem cdvdWrite16_0x8D_last (E : Env) (m : Machine) (hp : m.cdvd.SCMDParamC ≠ 0)
    (hst : m.cdvd.mecha_state = MECHA_STATE.MECHA_STATE_KELF_HEADER_PARAMS_SET ∨
      m.cdvd.mecha_state = MECHA_STATE.MECHA_STATE_DATA_IN_LENGTH_SET)
    (hfit : m.cdvd.data_buffer_offset + m.cdvd.SCMDParamC ≤ 0x800)
    (hlast : m.cdvd.DataSize ≤ m.cdvd.data_buffer_offset + m.cdvd.SCMDParamC)
    (v : MECHA_RESULT) (hv : kelfVerdict E m = some v) :
    ∃ m1, cdvdWrite16 E m 0x8D = some m1 ∧
      m1.cdvd.SCMDResultP = 0 ∧ m1.cdvd.SCMDResultC = 1 ∧ m1.cdvd.sDataIn = m.cdvd.sDataIn &&& 0xBF ∧
      m1.cdvd.SCMDResult.getD 0 0x80 = 0 ∧ m1.cdvd.SCMDParamC = 0 ∧
      (m1.cdvd.mecha_state = MECHA_STATE.MECHA_STATE_KELF_HEADER_RECEIVED ∨
        m1.cdvd.mecha_state = MECHA_STATE.MECHA_STATE_KELF_CONTENT_RECEIVED) ∧
      m1.cdvd.mecha_result = v ∧
      (m1.cdvd.mecha_result = MECHA_RESULT.MECHA_RESULT_FAILED → m1.cdvd.mecha_errorcode < 256) := by
  obtain ⟨m0, hm0⟩ : ∃ m0, m0 = m.upd fun c => { c with sCommand := 0x8D, SCMDResult := List.replicate 16 0 } :=
    ⟨_, rfl⟩
  obtain ⟨X, hX⟩ : ∃ X, X = (if m.cdvd.mecha_state = MECHA_STATE.MECHA_STATE_KELF_HEADER_PARAMS_SET then
      MECHA_STATE.MECHA_STATE_KELF_HEADER_RECEIVED
    else MECHA_STATE.MECHA_STATE_KELF_CONTENT_RECEIVED) := ⟨_, rfl⟩
  have hrec : kelfReceived m = setMechaState (mgWriteData m0) X := by
    rw [hm0, hX]
    rfl
  have hp0 : m0.cdvd.SCMDParamC ≠ 0 := by
    rw [hm0]
    exact hp
  have hfit0 : m0.cdvd.data_buffer_offset + m0.cdvd.SCMDParamC ≤ 0x800 := by
    rw [hm0]
    exact hfit
  have hlast0 : m0.cdvd.DataSize ≤ m0.cdvd.data_buffer_offset + m0.cdvd.SCMDParamC := by
    rw [hm0]
    exact hlast
  have hms : m0.cdvd.mecha_state = m.cdvd.mecha_state := by
    rw [hm0]
    rfl
  have hst0 : m0.cdvd.mecha_state = MECHA_STATE.MECHA_STATE_KELF_HEADER_PARAMS_SET ∧
        X = MECHA_STATE.MECHA_STATE_KELF_HEADER_RECEIVED ∨
      m0.cdvd.mecha_state = MECHA_STATE.MECHA_STATE_DATA_IN_LENGTH_SET ∧
        X = MECHA_STATE.MECHA_STATE_KELF_CONTENT_RECEIVED := by
    rw [hms, hX]
    rcases hst with h | h
    · exact Or.inl ⟨h, by rw [if_pos h]⟩
    · exact Or.inr ⟨h, by rw [h, if_neg (by decide)]⟩
  have hcmd := sCommandMecha_0x8D_last E m0 X hp0 hst0 hfit0 hlast0
  obtain ⟨mh, hmh⟩ : ∃ mh, mh = setMechaState (mgWriteData m0) X := ⟨_, rfl⟩
  rw [← hmh] at hcmd hrec
  have hview : statusView mh.cdvd =
      ((List.replicate 16 0).set 0 (0x80 % 256), 0, 1, m.cdvd.sDataIn &&& 0xBF, X) := by
    rw [hmh, hm0]
    rfl
  have hX2 : mh.cdvd.mecha_state = X := by
    rw [hmh]
    rfl
  have hw : cdvdWrite16 E m 0x8D =
      ((executeMechaHandler E mh).map fun m => setResult m 0 0).map fun m =>
        m.upd fun c => { c with SCMDParamP := 0, SCMDParamC := 0 } := by
    rw [← hcmd, hm0]
    rfl
  have hfin : ∀ x, executeMechaHandler E mh = some x → statusView x.cdvd = statusView mh.cdvd →
      ∃ m1, cdvdWrite16 E m 0x8D = some m1 ∧
        m1.cdvd.SCMDResultP = 0 ∧ m1.cdvd.SCMDResultC = 1 ∧ m1.cdvd.sDataIn = m.cdvd.sDataIn &&& 0xBF ∧
        m1.cdvd.SCMDResult.getD 0 0x80 = 0 ∧ m1.cdvd.SCMDParamC = 0 ∧ m1.cdvd.mecha_state = X ∧
        m1.cdvd.mecha_result = x.cdvd.mecha_result ∧ m1.cdvd.mecha_errorcode = x.cdvd.mecha_errorcode := by
    intro x hx hk
    rw [hview] at hk
    simp only [statusView, Prod.mk.injEq] at hk
    obtain ⟨k1, k2, k3, k4, k5⟩ := hk
    rw [hw, hx]
    refine ⟨_, rfl, k2, k3, k4, ?_, rfl, k5, rfl, rfl⟩
    show (x.cdvd.SCMDResult.set 0 (0 % 256)).getD 0 0x80 = 0
    refine getD_set_zero _ _ _ ?_
    rw [k1, List.length_set]
    rfl
  have hXc : X = MECHA_STATE.MECHA_STATE_KELF_HEADER_RECEIVED ∨
      X = MECHA_STATE.MECHA_STATE_KELF_CONTENT_RECEIVED := by
    rcases hst0 with h | h
    · exact Or.inl h.2
    · exact Or.inr h.2
  unfold kelfVerdict at hv
  rw [hrec] at hv
  obtain ⟨x, hx, hxv⟩ := Option.map_eq_some'.mp hv
  obtain ⟨hk, hc⟩ := executeMechaHandler_kelf E mh x (hXc.imp (fun e => hX2.trans e) (fun e => hX2.trans e)) hx
  obtain ⟨m1, e0, e1, e2, e3, e4, e5, e6, e7, e8⟩ := hfin x hx hk
  refine ⟨m1, e0, e1, e2, e3, e4, e5, ?_, ?_, ?_⟩
  · rw [e6]
    exact hXc
  · rw [e7]
    exact hxv
  · rw [e7, e8]
    exact hc

theorem sCommandMecha_0x8F_failed (E : Env) (m : Machine) (hp : m.cdvd.SCMDParamC = 0)
    (hst : m.cdvd.mecha_state = MECHA_STATE.MECHA_STATE_KELF_HEADER_RECEIVED ∨
      m.cdvd.mecha_state = MECHA_STATE.MECHA_STATE_KELF_CONTENT_RECEIVED)
    (hf : m.cdvd.mecha_result = MECHA_RESULT.MECHA_RESULT_FAILED) :
    sCommandMecha E m 0x8F =
      some (setResult (setMechaState (result1 m 0x80) MECHA_STATE.MECHA_STATE_READY) 0
        m.cdvd.mecha_errorcode) := by
  have hf2 : (result1 m 0x80).cdvd.mecha_result = MECHA_RESULT.MECHA_RESULT_FAILED := hf
  show (if m.cdvd.SCMDParamC ≠ 0 then some (result1 m 0x80) else _) = _
  rw [if_neg (fun h => h hp)]
  rcases hst with h | h
  · rw [h]
    dsimp only
    rw [hf2, if_neg (by decide), if_pos rfl]
    rfl
  · rw [h]
    dsimp only
    rw [hf2, if_neg (by decide), if_pos rfl]
    rfl

/-- The parameterless poll 0x8F behind a failed verification. -/
theorem cdvdWrite16_0x8F_failed (E : Env) (m : Machine) (hp : m.cdvd.SCMDParamC = 0)
    (hst : m.cdvd.mecha_state = MECHA_STATE.MECHA_STATE_KELF_HEADER_RECEIVED ∨
      m.cdvd.mecha_state = MECHA_STATE.MECHA_STATE_KELF_CONTENT_RECEIVED)
    (hf : m.cdvd.mecha_result = MECHA_RESULT.MECHA_RESULT_FAILED) :
    ∃ m2, cdvdWrite16 E m 0x8F = some m2 ∧
      m2.cdvd.SCMDResultP = 0 ∧ m2.cdvd.SCMDResultC = 1 ∧ m2.cdvd.sDataIn = m.cdvd.sDataIn &&& 0xBF ∧
      m2.cdvd.SCMDResult.getD 0 0x80 = m.cdvd.mecha_errorcode % 256 ∧
      m2.cdvd.mecha_state = MECHA_STATE.MECHA_STATE_READY := by
  obtain ⟨m0, hm0⟩ : ∃ m0, m0 = m.upd fun c => { c with sCommand := 0x8F, SCMDResult := List.replicate 16 0 } :=
    ⟨_, rfl⟩
  have hcmd := sCommandMecha_0x8F_failed E m0 (by rw [hm0]; exact hp) (by rw [hm0]; exact hst)
    (by rw [hm0]; exact hf)
  have hw : cdvdWrite16 E m 0x8F = (sCommandMecha E m0 0x8F).map fun m =>
      m.upd fun c => { c with SCMDParamP := 0, SCMDParamC := 0 } := by
    rw [hm0]
    rfl
  rw [hw, hcmd, hm0]
  exact ⟨_, rfl, rfl, rfl, rfl, rfl, rfl⟩

/-- C11. S-command 0x8D delivers the last byte of a KELF header (session state
`MECHA_STATE_KELF_HEADER_PARAMS_SET`) or of a KELF content block
(`MECHA_STATE_DATA_IN_LENGTH_SET`) and the verification of what was delivered fails:
the handler that 0x8D runs behind the copy records `MECHA_RESULT_FAILED`, the value
that `DecryptKelfHeader` or `DecryptKelfContent` returns (a header whose bit table
reaches behind the end of the data buffer has no verdict: the handler has stored
outside the buffer before it returns). Then the 0x8D
command returns, with a result of one byte that is the status 0, and it records the
failure. The next parameterless 0x8F poll, in a state `mp` that still has the session
state and the recorded result and error code, returns a result of one byte that is the
recorded `mecha_errorcode`, and puts the session into `MECHA_STATE_READY`. -/
theorem C11_kelf_failure_poll (E : Env) (m : Machine) (hp : m.cdvd.SCMDParamC ≠ 0)
    (hst : m.cdvd.mecha_state = MECHA_STATE.MECHA_STATE_KELF_HEADER_PARAMS_SET ∨
      m.cdvd.mecha_state = MECHA_STATE.MECHA_STATE_DATA_IN_LENGTH_SET)
    (hfit : m.cdvd.data_buffer_offset + m.cdvd.SCMDParamC ≤ 0x800)
    (hlast : m.cdvd.DataSize ≤ m.cdvd.data_buffer_offset + m.cdvd.SCMDParamC)
    (hfail : kelfVerdict E m = some MECHA_RESULT.MECHA_RESULT_FAILED) :
    ∃ m1, cdvdWrite16 E m 0x8D = some m1 ∧
      m1.cdvd.SCMDResultP = 0 ∧ m1.cdvd.SCMDResultC = 1 ∧ m1.cdvd.sDataIn &&& 0x40 = 0 ∧
      m1.cdvd.SCMDResult.getD 0 0x80 = 0 ∧
      m1.cdvd.SCMDParamC = 0 ∧
      m1.cdvd.mecha_result = MECHA_RESULT.MECHA_RESULT_FAILED ∧
      ∀ mp : Machine, mp.cdvd.SCMDParamC = 0 → mp.cdvd.mecha_state = m1.cdvd.mecha_state →
        mp.cdvd.mecha_result = m1.cdvd.mecha_result →
        mp.cdvd.mecha_errorcode = m1.cdvd.mecha_errorcode →
        ∃ m2, cdvdWrite16 E mp 0x8F = some m2 ∧
          m2.cdvd.SCMDResultP = 0 ∧ m2.cdvd.SCMDResultC = 1 ∧ m2.cdvd.sDataIn &&& 0x40 = 0 ∧
          m2.cdvd.SCMDResult.getD 0 0x80 = m1.cdvd.mecha_errorcode ∧
          m2.cdvd.mecha_state = MECHA_STATE.MECHA_STATE_READY := by
  obtain ⟨m1, e0, e1, e2, e3, e4, e5, e6, e7, e8⟩ :=
    cdvdWrite16_0x8D_last E m hp hst hfit hlast _ hfail
  have hres : m1.cdvd.mecha_result = MECHA_RESULT.MECHA_RESULT_FAILED := e7
  refine ⟨m1, e0, e1, e2, ?_, e4, e5, hres, ?_⟩
  · rw [e3]
    exact and_0xBF_0x40 _
  · intro mp p1 p2 p3 p4
    obtain ⟨m2, f0, f1, f2, f3, f4, f5⟩ := cdvdWrite16_0x8F_failed E mp p1 (by rw [p2]; exact e6)
      (by rw [p3]; exact hres)
    refine ⟨m2, f0, f1, f2, ?_, ?_, f5⟩
    · rw [f3]
      exact and_0xBF_0x40 _
    · rw [f4, p4]
      exact Nat.mod_eq_of_lt (e8 hres)

theorem C11_kelf_failure_poll_witness :
    headerDeliveryDrive.cdvd.SCMDParamC ≠ 0 ∧
    headerDeliveryDrive.cdvd.mecha_state = MECHA_STATE.MECHA_STATE_KELF_HEADER_PARAMS_SET ∧
    headerDeliveryDrive.cdvd.data_buffer_offset + headerDeliveryDrive.cdvd.SCMDParamC ≤ 0x800 ∧
    headerDeliveryDrive.cdvd.DataSize ≤
      headerDeliveryDrive.cdvd.data_buffer_offset + headerDeliveryDrive.cdvd.SCMDParamC ∧
    kelfVerdict demoEnv headerDeliveryDrive = some MECHA_RESULT.MECHA_RESULT_FAILED ∧
    ∃ m1 m2, cdvdWrite16 demoEnv headerDeliveryDrive 0x8D = some m1 ∧
      m1.cdvd.SCMDResult.getD 0 0x80 = 0 ∧ cdvdWrite16 demoEnv m1 0x8F = some m2 ∧
      m2.cdvd.SCMDResult.getD 0 0x80 = m1.cdvd.mecha_errorcode ∧
      m2.cdvd.mecha_state = MECHA_STATE.MECHA_STATE_READY := by
  have hp : headerDeliveryDrive.cdvd.SCMDParamC ≠ 0 := by decide
  have hst : headerDeliveryDrive.cdvd.mecha_state = MECHA_STATE.MECHA_STATE_KELF_HEADER_PARAMS_SET := by
    decide
  have hfit : headerDeliveryDrive.cdvd.data_buffer_offset + headerDeliveryDrive.cdvd.SCMDParamC ≤ 0x800 := by
    decide
  have hlast : headerDeliveryDrive.cdvd.DataSize ≤
      headerDeliveryDrive.cdvd.data_buffer_offset + headerDeliveryDrive.cdvd.SCMDParamC := by decide
  have hfail : kelfVerdict demoEnv headerDeliveryDrive = some MECHA_RESULT.MECHA_RESULT_FAILED := by
    decide!
  obtain ⟨m1, e0, _, _, _, e4, e5, _, hall⟩ :=
    C11_kelf_failure_poll demoEnv headerDeliveryDrive hp (Or.inl hst) hfit hlast hfail
  obtain ⟨m2, f0, _, _, _, f4, f5⟩ := hall m1 e5 rfl rfl rfl
  exact ⟨hp, hst, hfit, hlast, hfail, m1, m2, e0, e4, f0, f4, f5⟩

/-- C30: for the path `cdrom:SCES_123.45;1`, name after a colon and no backslash,
`ExecutablePathToSerial` hands `cdrom:SCES_123.45` to the wildcard matcher and
returns `CDROM:SCES-12345` when the matcher accepts it and the empty string when
it does not, so whatever the matcher answers the result is not `SCES-12345`; for
`cdrom:\SCES_123.45;1` it hands over `SCES_123.45` and returns `SCES-12345` when
the matcher accepts. -/
theorem C30_colon_form_keeps_prefix (W : List Nat → List Nat → Bool) :
    ExecutablePathToSerial W (bytesOf "cdrom:SCES_123.45;1") =
        (if W (bytesOf "cdrom:SCES_123.45") (bytesOf "????_???.??*") then bytesOf "CDROM:SCES-12345"
         else []) ∧
      ExecutablePathToSerial W (bytesOf "cdrom:SCES_123.45;1") ≠ bytesOf "SCES-12345" ∧
      ExecutablePathToSerial W (bytesOf "cdrom:\\SCES_123.45;1") =
        (if W (bytesOf "SCES_123.45") (bytesOf "????_???.??*") then bytesOf "SCES-12345" else []) := by
  have h1 : ExecutablePathToSerial W (bytesOf "cdrom:SCES_123.45;1") =
      serialChars (if !W (bytesOf "cdrom:SCES_123.45") (bytesOf "????_???.??*") then []
        else bytesOf "cdrom:SCES_123.45") := by
    rfl
  have h2 : ExecutablePathToSerial W (bytesOf "cdrom:\\SCES_123.45;1") =
      serialChars (if !W (bytesOf "SCES_123.45") (bytesOf "????_???.??*") then []
        else bytesOf "SCES_123.45") := by
    rfl
  rw [h1, h2]
  cases W (bytesOf "cdrom:SCES_123.45") (bytesOf "????_???.??*") <;>
    cases W (bytesOf "SCES_123.45") (bytesOf "????_???.??*") <;> decide

theorem cdvdDetectDisk_tray (E : Env) (m : Machine) : (cdvdDetectDisk E m).cdvd.Tray = m.cdvd.Tray := by
  unfold cdvdDetectDisk
  dsimp only
  split <;> rfl

theorem cdvdCtrlTrayClose_detecting (E : Env) (m : Machine)
    (h : (!m.host.g_GameStarted && m.host.g_SkipBiosHack) = false) :
    (cdvdCtrlTrayClose E m).cdvd.Tray =
      { trayState := TrayState.CDVD_DISC_DETECTING, cdvdActionSeconds := 3 } := by
  unfold cdvdCtrlTrayClose
  dsimp only
  rw [cdvdDetectDisk_tray, h]
  rfl

theorem cdvdUpdateTrayState_countdown (E : Env) (m : Machine) (s : TrayState) (k : Nat)
    (h : m.cdvd.Tray = { trayState := s, cdvdActionSeconds := k + 2 }) :
    (cdvdUpdateTrayState E m).cdvd.Tray = { trayState := s, cdvdActionSeconds := k + 1 } := by
  unfold cdvdUpdateTrayState
  have h1 : m.cdvd.Tray.cdvdActionSeconds > 0 := by rw [h]; exact Nat.succ_pos _
  rw [if_pos h1]
  dsimp only [Machine.upd]
  have h2 : ¬ (m.cdvd.Tray.cdvdActionSeconds - 1 = 0) := by rw [h]; exact Nat.succ_ne_zero _
  rw [if_neg h2, h]
  rfl

theorem cdvdUpdateTrayState_detected (E : Env) (m : Machine)
    (h : m.cdvd.Tray = { trayState := TrayState.CDVD_DISC_DETECTING, cdvdActionSeconds := 1 }) :
    (cdvdUpdateTrayState E m).cdvd.Tray =
      { trayState := TrayState.CDVD_DISC_SEEKING, cdvdActionSeconds := 2 } := by
  unfold cdvdUpdateTrayState
  have h1 : m.cdvd.Tray.cdvdActionSeconds > 0 := by rw [h]; exact Nat.succ_pos _
  rw [if_pos h1]
  dsimp only [Machine.upd]
  have h2 : m.cdvd.Tray.cdvdActionSeconds - 1 = 0 := by rw [h]; rfl
  rw [if_pos h2, h]

theorem cdvdUpdateTrayState_engaged (E : Env) (m : Machine)
    (h : m.cdvd.Tray = { trayState := TrayState.CDVD_DISC_SEEKING, cdvdActionSeconds := 1 }) :
    (cdvdUpdateTrayState E m).cdvd.Tray =
        { trayState := TrayState.CDVD_DISC_ENGAGED, cdvdActionSeconds := 0 } ∧
      (cdvdUpdateTrayState E m).cdvd.Ready =
        CDVD_DRIVE_READY ||| (CDVD_DRIVE_MECHA_INIT ||| CDVD_DRIVE_DEV9CON) := by
  unfold cdvdUpdateTrayState
  have h1 : m.cdvd.Tray.cdvdActionSeconds > 0 := by rw [h]; exact Nat.succ_pos _
  rw [if_pos h1]
  dsimp only [Machine.upd]
  have h2 : m.cdvd.Tray.cdvdActionSeconds - 1 = 0 := by rw [h]; rfl
  rw [if_pos h2, h]
  dsimp only
  split <;> exact ⟨rfl, rfl⟩

theorem cdvdUpdateTrayState_idle (E : Env) (m : Machine) (h : m.cdvd.Tray.cdvdActionSeconds = 0) :
    cdvdUpdateTrayState E m = m := by
  unfold cdvdUpdateTrayState
  rw [if_neg (by rw [h]; exact Nat.lt_irrefl 0)]

theorem trayTicks_idle (E : Env) (m : Machine) (h : m.cdvd.Tray.cdvdActionSeconds = 0) :
    ∀ n, trayTicks E m n = m := by
  intro n
  induction n with
  | zero => rfl
  | succ n ih =>
    show cdvdUpdateTrayState E (trayTicks E m n) = m
    rw [ih]
    exact cdvdUpdateTrayState_idle E m h

theorem trayTicks_add (E : Env) (m : Machine) (a : Nat) :
    ∀ b, trayTicks E m (a + b) = trayTicks E (trayTicks E m a) b := by
  intro b
  induction b with
  | zero => rfl
  | succ b ih =>
    show cdvdUpdateTrayState E (trayTicks E m (a + b)) = cdvdUpdateTrayState E (trayTicks E (trayTicks E m a) b)
    rw [ih]

/-- C24: after `cdvdCtrlTrayClose` outside fast boot the tray is DETECTING with a
countdown of 3 seconds; it stays DETECTING during the first two ticks, the third
tick makes it SEEKING with a countdown of 2 seconds, the fourth leaves it
SEEKING, the fifth makes it ENGAGED with the ready byte holding
`CDVD_DRIVE_READY`, and every later tick leaves the whole drive as the fifth
left it. -/
theorem C24_tray_close_ticks (E : Env) (m : Machine)
    (h : (!m.host.g_GameStarted && m.host.g_SkipBiosHack) = false) :
    (trayTicks E (cdvdCtrlTrayClose E m) 0).cdvd.Tray =
        { trayState := TrayState.CDVD_DISC_DETECTING, cdvdActionSeconds := 3 } ∧
      (trayTicks E (cdvdCtrlTrayClose E m) 3).cdvd.Tray =
        { trayState := TrayState.CDVD_DISC_SEEKING, cdvdActionSeconds := 2 } ∧
      (trayTicks E (cdvdCtrlTrayClose E m) 5).cdvd.Tray.trayState = TrayState.CDVD_DISC_ENGAGED ∧
      (trayTicks E (cdvdCtrlTrayClose E m) 5).cdvd.Ready =
        CDVD_DRIVE_READY ||| (CDVD_DRIVE_MECHA_INIT ||| CDVD_DRIVE_DEV9CON) ∧
      (∀ n, n < 3 →
        (trayTicks E (cdvdCtrlTrayClose E m) n).cdvd.Tray.trayState = TrayState.CDVD_DISC_DETECTING) ∧
      (∀ n, n < 5 →
        (trayTicks E (cdvdCtrlTrayClose E m) n).cdvd.Tray.trayState ≠ TrayState.CDVD_DISC_ENGAGED) ∧
      ∀ n, 5 ≤ n → trayTicks E (cdvdCtrlTrayClose E m) n = trayTicks E (cdvdCtrlTrayClose E m) 5 := by
  have t0 := cdvdCtrlTrayClose_detecting E m h
  generalize cdvdCtrlTrayClose E m = X at t0 ⊢
  have t1 : (trayTicks E X 1).cdvd.Tray =
      { trayState := TrayState.CDVD_DISC_DETECTING, cdvdActionSeconds := 2 } :=
    cdvdUpdateTrayState_countdown E X _ 1 t0
  have t2 : (trayTicks E X 2).cdvd.Tray =
      { trayState := TrayState.CDVD_DISC_DETECTING, cdvdActionSeconds := 1 } :=
    cdvdUpdateTrayState_countdown E (trayTicks E X 1) _ 0 t1
  have t3 : (trayTicks E X 3).cdvd.Tray =
      { trayState := TrayState.CDVD_DISC_SEEKING, cdvdActionSeconds := 2 } :=
    cdvdUpdateTrayState_detected E (trayTicks E X 2) t2
  have t4 : (trayTicks E X 4).cdvd.Tray =
      { trayState := TrayState.CDVD_DISC_SEEKING, cdvdActionSeconds := 1 } :=
    cdvdUpdateTrayState_countdown E (trayTicks E X 3) _ 0 t3
  have t5 : (trayTicks E X 5).cdvd.Tray =
        { trayState := TrayState.CDVD_DISC_ENGAGED, cdvdActionSeconds := 0 } ∧
      (trayTicks E X 5).cdvd.Ready = CDVD_DRIVE_READY ||| (CDVD_DRIVE_MECHA_INIT ||| CDVD_DRIVE_DEV9CON) :=
    cdvdUpdateTrayState_engaged E (trayTicks E X 4) t4
  have s0 : (trayTicks E X 0).cdvd.Tray.trayState = TrayState.CDVD_DISC_DETECTING := by
    show X.cdvd.Tray.trayState = _
    rw [t0]
  have s1 : (trayTicks E X 1).cdvd.Tray.trayState = TrayState.CDVD_DISC_DETECTING := by rw [t1]
  have s2 : (trayTicks E X 2).cdvd.Tray.trayState = TrayState.CDVD_DISC_DETECTING := by rw [t2]
  have s3 : (trayTicks E X 3).cdvd.Tray.trayState = TrayState.CDVD_DISC_SEEKING := by rw [t3]
  have s4 : (trayTicks E X 4).cdvd.Tray.trayState = TrayState.CDVD_DISC_SEEKING := by rw [t4]
  have s5 : (trayTicks E X 5).cdvd.Tray.trayState = TrayState.CDVD_DISC_ENGAGED := by rw [t5.1]
  have z5 : (trayTicks E X 5).cdvd.Tray.cdvdActionSeconds = 0 := by rw [t5.1]
  refine ⟨t0, t3, s5, t5.2, ?_, ?_, ?_⟩
  · intro n hn
    have hc : n = 0 ∨ n = 1 ∨ n = 2 := by omega
    rcases hc with rfl | rfl | rfl
    · exact s0
    · exact s1
    · exact s2
  · intro n hn
    have hc : n = 0 ∨ n = 1 ∨ n = 2 ∨ n = 3 ∨ n = 4 := by omega
    rcases hc with rfl | rfl | rfl | rfl | rfl
    · rw [s0]; decide
    · rw [s1]; decide
    · rw [s2]; decide
    · rw [s3]; decide
    · rw [s4]; decide
  · intro n hn
    obtain ⟨k, rfl⟩ := Nat.exists_eq_add_of_le hn
    rw [trayTicks_add]
    exact trayTicks_idle E _ z5 k

/-- The tray of `demoDrive` closed on `demoEnv`, where no fast boot is in progress. -/
theorem C24_tray_close_ticks_witness :
    (trayTicks demoEnv trayClosedDrive 3).cdvd.Tray =
        { trayState := TrayState.CDVD_DISC_SEEKING, cdvdActionSeconds := 2 } ∧
      (trayTicks demoEnv trayClosedDrive 5).cdvd.Tray.trayState = TrayState.CDVD_DISC_ENGAGED ∧
      (trayTicks demoEnv trayClosedDrive 5).cdvd.Ready =
        CDVD_DRIVE_READY ||| (CDVD_DRIVE_MECHA_INIT ||| CDVD_DRIVE_DEV9CON) :=
  have h := C24_tray_close_ticks demoEnv demoDrive (by decide)
  ⟨h.2.1, h.2.2.1, h.2.2.2.1⟩

theorem dvdSectorHeaderLsn_otp (E : Env) (s1 s2 : Nat) (hd : E.dualType = 2)
    (h1 : s1 ≥ E.layer1Start) (h2 : s2 ≥ E.layer1Start) :
    dvdSectorHeaderLsn E s1 = dvdSectorHeaderLsn E s2 := by
  unfold dvdSectorHeaderLsn
  have n1 : ¬ (E.dualType = 1 ∧ s1 ≥ E.layer1Start) := by rw [hd]; exact fun h => absurd h.1 (by decide)
  have n2 : ¬ (E.dualType = 1 ∧ s2 ≥ E.layer1Start) := by rw [hd]; exact fun h => absurd h.1 (by decide)
  rw [if_neg n1, if_neg n2, if_pos ⟨hd, h1⟩, if_pos ⟨hd, h2⟩]

/-- C25: on a dual-layer OTP disc whose second layer starts at sector 1000000, in
raw DVD sector mode, `cdvdReadSector` writes the same header, layer 1 with LSN
0xEDBDC0, for the layer-1 sectors 1000000 and 1000001, while on the PTP disc of
the same layout the two sectors get the LSNs 0x030000 and 0x030001. -/
theorem C25_otp_header_ignores_sector :
    sectorHeader (dualLayerEnv 2) (rawDvdDrive 1000000) = [0x21, 0xED, 0xBD, 0xC0] ∧
      sectorHeader (dualLayerEnv 2) (rawDvdDrive 1000001) = [0x21, 0xED, 0xBD, 0xC0] ∧
      sectorHeader (dualLayerEnv 1) (rawDvdDrive 1000000) = [0x21, 0x03, 0x00, 0x00] ∧
      sectorHeader (dualLayerEnv 1) (rawDvdDrive 1000001) = [0x21, 0x03, 0x00, 0x01] := by
  decide!

theorem seekDelta_same (c : cdvdStruct) :
    seekDelta { c with SeekToSector := c.Sector } = 0 := by
  unfold seekDelta
  dsimp only
  have h : (c.Sector + 4294967296 - c.Sector % 4294967296) % 4294967296 = 0 := by omega
  rw [h]
  rfl

/-- C26: when the drive spins, the contiguous threshold of the mode is not zero, the
target sector is the sector the drive is at and at least one sector is buffered,
`cdvdStartSeek` returns `(BlockSize / 4) * 12` cycles, which is not zero for the
block sizes 2048, 2064, 2328, 2340, 2352 and 2368, sets `Readed` to 1 and leaves
`nextSectorsBuffered` as it was. -/
theorem C26_zero_delta_buffered (E : Env) (m : Machine) (newsector mode : Nat)
    (hs : m.cdvd.Spinning = true) (ht : E.tbl_ContigiousSeekDelta mode ≠ 0)
    (hn : newsector = m.cdvd.Sector)
    (hb : 0 < m.cdvd.nextSectorsBuffered) :
    (cdvdStartSeek E m newsector mode).2 = (m.cdvd.BlockSize / 4) * 12 ∧
      (m.cdvd.BlockSize ∈ [2048, 2064, 2328, 2340, 2352, 2368] →
        (cdvdStartSeek E m newsector mode).2 ≠ 0) ∧
      (cdvdStartSeek E m newsector mode).1.cdvd.Readed = 1 ∧
      (cdvdStartSeek E m newsector mode).1.cdvd.nextSectorsBuffered = m.cdvd.nextSectorsBuffered := by
  subst hn
  have h0 : seekDelta { m.cdvd with SeekToSector := m.cdvd.Sector } = 0 := seekDelta_same m.cdvd
  have hd : seekDelta { m.cdvd with SeekToSector := m.cdvd.Sector } < E.tbl_ContigiousSeekDelta mode := by
    rw [h0]
    exact Nat.pos_of_ne_zero ht
  rw [cdvdStartSeek_zero_delta_state E m m.cdvd.Sector mode hd hs h0 hb]
  refine ⟨rfl, ?_, rfl, rfl⟩
  intro hB
  show (m.cdvd.BlockSize / 4) * 12 ≠ 0
  simp only [List.mem_cons, List.mem_singleton, List.not_mem_nil, or_false] at hB
  omega

/-- The spinning `demoDrive`, 16 sectors buffered, asked for the sector it is at. -/
theorem C26_zero_delta_buffered_witness :
    (cdvdStartSeek demoEnv demoDrive 0 MODE_DVDROM).2 = 6192 ∧
      (cdvdStartSeek demoEnv demoDrive 0 MODE_DVDROM).1.cdvd.Readed = 1 ∧
      (cdvdStartSeek demoEnv demoDrive 0 MODE_DVDROM).1.cdvd.nextSectorsBuffered = 16 :=
  have h := C26_zero_delta_buffered demoEnv demoDrive 0 MODE_DVDROM (by decide) (by decide) (by decide)
    (by decide)
  ⟨h.1, h.2.2.1, h.2.2.2⟩

/-- C28: `verifyCardChallenge` returns `MECHA_RESULT_CARD_VERIFIED` exactly when
response block 1, decrypted under the session key and XORed with the challenge
IV, is the nonce, and response block 2, decrypted and XORed with response block
1, is the random of the session; then entry `cardKeySlot` of `CardKey` becomes
response block 2 XORed with the decrypted response block 3 and nothing else of
the drive state changes; otherwise it returns `MECHA_RESULT_FAILED` and leaves
the whole state, `CardKey` included, as it was. -/
theorem C28_verify_card_challenge (E : Env) (m : Machine) :
    ((verifyCardChallenge E m).2 = MECHA_RESULT.MECHA_RESULT_CARD_VERIFIED ↔
        xor_bit (doubleDesDecrypt E.D m.cdvd.memcard_key m.cdvd.memcard_reponse1) m.ks.ChallengeIV 8 =
            m.cdvd.memcard_nonce ∧
          xor_bit (doubleDesDecrypt E.D m.cdvd.memcard_key m.cdvd.memcard_reponse2)
              m.cdvd.memcard_reponse1 8 = m.cdvd.memcard_random) ∧
      ((verifyCardChallenge E m).2 = MECHA_RESULT.MECHA_RESULT_CARD_VERIFIED →
        (verifyCardChallenge E m).1 = m.upd fun c =>
          { c with
            CardKey := c.CardKey.set c.cardKeySlot
              (xor_bit c.memcard_reponse2 (doubleDesDecrypt E.D c.memcard_key c.memcard_reponse3) 8) }) ∧
      ((verifyCardChallenge E m).2 ≠ MECHA_RESULT.MECHA_RESULT_CARD_VERIFIED →
        (verifyCardChallenge E m).2 = MECHA_RESULT.MECHA_RESULT_FAILED ∧
          (verifyCardChallenge E m).1 = m) := by
  unfold verifyCardChallenge
  lift_lets
  extract_lets c rp1 rp2 rp3
  have e1 : xor_bit (doubleDesDecrypt E.D m.cdvd.memcard_key m.cdvd.memcard_reponse1) m.ks.ChallengeIV 8 =
      rp1 := rfl
  have e2 : xor_bit (doubleDesDecrypt E.D m.cdvd.memcard_key m.cdvd.memcard_reponse2)
      m.cdvd.memcard_reponse1 8 = rp2 := rfl
  have e3 : m.cdvd.memcard_nonce = c.memcard_nonce := rfl
  have e4 : m.cdvd.memcard_random = c.memcard_random := rfl
  rw [e1, e2, e3, e4]
  by_cases h1 : c.memcard_nonce = rp1
  · by_cases h2 : c.memcard_random = rp2
    · rw [if_neg (not_not.mpr h1), if_neg (not_not.mpr h2)]
      exact ⟨⟨fun _ => ⟨h1.symm, h2.symm⟩, fun _ => rfl⟩, fun _ => rfl, fun h => absurd rfl h⟩
    · rw [if_neg (not_not.mpr h1), if_pos h2]
      exact ⟨⟨fun h => MECHA_RESULT.noConfusion h, fun h => absurd h.2.symm h2⟩,
        fun h => MECHA_RESULT.noConfusion h, fun _ => ⟨rfl, rfl⟩⟩
  · rw [if_pos h1]
    exact ⟨⟨fun h => MECHA_RESULT.noConfusion h, fun h => absurd h.1.symm h1⟩,
      fun h => MECHA_RESULT.noConfusion h, fun _ => ⟨rfl, rfl⟩⟩

/-- The card of `cardAnsweredDrive` is verified and card key 2 is set. -/
theorem C28_verify_card_challenge_witness :
    (verifyCardChallenge demoEnv cardAnsweredDrive).2 = MECHA_RESULT.MECHA_RESULT_CARD_VERIFIED ∧
      (verifyCardChallenge demoEnv cardAnsweredDrive).1 = cardAnsweredDrive.upd fun c =>
        { c with
          CardKey := c.CardKey.set c.cardKeySlot
            (xor_bit c.memcard_reponse2 (doubleDesDecrypt demoEnv.D c.memcard_key c.memcard_reponse3) 8) } :=
  have h := C28_verify_card_challenge demoEnv cardAnsweredDrive
  have hv := h.1.mpr (by decide!)
  ⟨hv, h.2.1 hv⟩

theorem Buf.inv {m m2 : Machine} (c : Buf m m2) (h : BufInv m.cdvd) : BufInv m2.cdvd :=
  ⟨c.nsb h.nsb, c.dbo h.dbo, c.size h.size⟩

theorem BufInv.ofView {c c2 : cdvdStruct} (hv : bufView c2 = bufView c) (h : BufInv c) : BufInv c2 := by
  have h1 : c2.nextSectorsBuffered = c.nextSectorsBuffered := congrArg (fun x => x.1) hv
  have h2 : c2.data_buffer_offset = c.data_buffer_offset := congrArg (fun x => x.2.1) hv
  have h3 : c2.BlockSize = c.BlockSize := congrArg (fun x => x.2.2) hv
  refine ⟨?_, ?_, ?_⟩
  · rw [h1]
    exact h.nsb
  · rw [h2]
    exact h.dbo
  · rw [h3]
    exact h.size

theorem Buf.startB (m : Machine) : Buf m m := ⟨fun h => h, fun h => h, fun h => h⟩

theorem Buf.keepB {m : Machine} (m2 m3 : Machine) (h : bufView m3.cdvd = bufView m2.cdvd)
    (c : Buf m m2) : Buf m m3 := by
  have h1 : m3.cdvd.nextSectorsBuffered = m2.cdvd.nextSectorsBuffered := congrArg (fun x => x.1) h
  have h2 : m3.cdvd.data_buffer_offset = m2.cdvd.data_buffer_offset := congrArg (fun x => x.2.1) h
  have h3 : m3.cdvd.BlockSize = m2.cdvd.BlockSize := congrArg (fun x => x.2.2) h
  refine ⟨fun h0 => ?_, fun h0 => ?_, fun h0 => ?_⟩
  · rw [h1]
    exact c.nsb h0
  · rw [h2]
    exact c.dbo h0
  · rw [h3]
    exact c.size h0

theorem Buf.updB {m m2 : Machine} (f : cdvdStruct → cdvdStruct)
    (hf : ∀ c, bufView (f c) = bufView c) (c : Buf m m2) : Buf m (m2.upd f) :=
  Buf.keepB m2 _ (hf m2.cdvd) c

theorem Buf.emitB {m m2 : Machine} (e : Event) (c : Buf m m2) : Buf m (m2.emit e) :=
  Buf.keepB m2 _ rfl c

theorem Buf.setResultB {m m2 : Machine} (i v : Nat) (c : Buf m m2) : Buf m (setResult m2 i v) :=
  Buf.keepB m2 _ rfl c

theorem Buf.copyResultB {m m2 : Machine} (i : Nat) (l : List Nat) (c : Buf m m2) :
    Buf m (copyResult m2 i l) :=
  Buf.keepB m2 _ rfl c

theorem Buf.setMechaStateB {m m2 : Machine} (st : MECHA_STATE) (c : Buf m m2) :
    Buf m (setMechaState m2 st) :=
  Buf.keepB m2 _ rfl c

theorem Buf.sizeB {m m2 : Machine} (n : Nat) (c : Buf m m2) : Buf m (SetSCMDResultSize m2 n) :=
  Buf.keepB m2 _ rfl c

theorem Buf.result1B {m m2 : Machine} (v : Nat) (c : Buf m m2) : Buf m (result1 m2 v) :=
  Buf.keepB m2 _ rfl c

theorem Buf.iteB {m : Machine} (p : Prop) [Decidable p] (a b : Machine)
    (ha : p → Buf m a) (hb : ¬ p → Buf m b) : Buf m (if p then a else b) := by
  split
  · exact ha (by assumption)
  · exact hb (by assumption)

theorem Buf.setIrqB {m m2 : Machine} (id : Nat) (c : Buf m m2) : Buf m (cdvdSetIrq m2 id) :=
  Buf.keepB m2 _ rfl c

theorem Buf.updateReadyB {m m2 : Machine} (v : Nat) (c : Buf m m2) : Buf m (cdvdUpdateReady m2 v) :=
  Buf.keepB m2 _ rfl c

theorem Buf.updateStatusB {m m2 : Machine} (v : Nat) (c : Buf m m2) : Buf m (cdvdUpdateStatus m2 v) :=
  Buf.keepB m2 _ rfl c

theorem Buf.psxIntB {m m2 : Machine} (n : IopEvt) (t : Nat) (c : Buf m m2) : Buf m (PSX_INT m2 n t) :=
  Buf.keepB m2 _ rfl c

theorem Buf.setIopB {m m2 : Machine} (i : Iop) (c : Buf m m2) : Buf m { m2 with iop := i } :=
  Buf.keepB m2 _ rfl c

theorem Buf.setHostB {m m2 : Machine} (i : Host) (c : Buf m m2) : Buf m { m2 with host := i } :=
  Buf.keepB m2 _ rfl c

theorem Buf.setKsB {m m2 : Machine} (i : KeyStore) (c : Buf m m2) : Buf m { m2 with ks := i } :=
  Buf.keepB m2 _ rfl c

theorem Buf.sectorReadyIntB {m m2 : Machine} (E : Env) (t : Nat) (c : Buf m m2) :
    Buf m (CDVDSECTORREADY_INT E m2 t) := by
  unfold CDVDSECTORREADY_INT
  split
  · exact c
  · exact Buf.psxIntB _ _ c

theorem Buf.readIntB {m m2 : Machine} (E : Env) (t : Nat) (c : Buf m m2) :
    Buf m (CDVDREAD_INT E m2 t) :=
  Buf.psxIntB _ _ c

theorem Buf.cdvdB {m m2 : Machine} (m3 : Machine) (h : m3.cdvd = m2.cdvd) (c : Buf m m2) : Buf m m3 :=
  Buf.keepB m2 _ (congrArg bufView h) c

theorem Buf.sresetB {m m2 : Machine} (c : Buf m m2) :
    Buf m (m2.upd fun c => { c with SCMDParamP := 0, SCMDParamC := 0 }) :=
  Buf.keepB m2 _ rfl c

/-- An update that sets `nextSectorsBuffered` to 0. -/
theorem Buf.nsb0B {m m2 : Machine} (f : cdvdStruct → cdvdStruct)
    (hf : ∀ c, bufView (f c) = (0, c.data_buffer_offset, c.BlockSize)) (c : Buf m m2) :
    Buf m (m2.upd f) := by
  have hv := hf m2.cdvd
  have h1 : (f m2.cdvd).nextSectorsBuffered = 0 := congrArg (fun x => x.1) hv
  have h2 : (f m2.cdvd).data_buffer_offset = m2.cdvd.data_buffer_offset := congrArg (fun x => x.2.1) hv
  have h3 : (f m2.cdvd).BlockSize = m2.cdvd.BlockSize := congrArg (fun x => x.2.2) hv
  refine ⟨fun _ => ?_, fun h0 => ?_, fun h0 => ?_⟩
  · show (f m2.cdvd).nextSectorsBuffered ≤ 16
    rw [h1]
    exact Nat.zero_le _
  · show (f m2.cdvd).data_buffer_offset ≤ 0x800
    rw [h2]
    exact c.dbo h0
  · show (f m2.cdvd).BlockSize ∈ blockSizes
    rw [h3]
    exact c.size h0

/-- An update that sets `data_buffer_offset` to 0. -/
theorem Buf.dbo0B {m m2 : Machine} (f : cdvdStruct → cdvdStruct)
    (hf : ∀ c, bufView (f c) = (c.nextSectorsBuffered, 0, c.BlockSize)) (c : Buf m m2) :
    Buf m (m2.upd f) := by
  have hv := hf m2.cdvd
  have h1 : (f m2.cdvd).nextSectorsBuffered = m2.cdvd.nextSectorsBuffered := congrArg (fun x => x.1) hv
  have h2 : (f m2.cdvd).data_buffer_offset = 0 := congrArg (fun x => x.2.1) hv
  have h3 : (f m2.cdvd).BlockSize = m2.cdvd.BlockSize := congrArg (fun x => x.2.2) hv
  refine ⟨fun h0 => ?_, fun _ => ?_, fun h0 => ?_⟩
  · show (f m2.cdvd).nextSectorsBuffered ≤ 16
    rw [h1]
    exact c.nsb h0
  · show (f m2.cdvd).data_buffer_offset ≤ 0x800
    rw [h2]
    exact Nat.zero_le _
  · show (f m2.cdvd).BlockSize ∈ blockSizes
    rw [h3]
    exact c.size h0

/-- An update that sets `BlockSize` to `n`, one of `blockSizes`. -/
theorem Buf.blockB {m m2 : Machine} (n : Nat) (hn : n ∈ blockSizes) (f : cdvdStruct → cdvdStruct)
    (hf : ∀ c, bufView (f c) = (c.nextSectorsBuffered, c.data_buffer_offset, n)) (c : Buf m m2) :
    Buf m (m2.upd f) := by
  have hv := hf m2.cdvd
  have h1 : (f m2.cdvd).nextSectorsBuffered = m2.cdvd.nextSectorsBuffered := congrArg (fun x => x.1) hv
  have h2 : (f m2.cdvd).data_buffer_offset = m2.cdvd.data_buffer_offset := congrArg (fun x => x.2.1) hv
  have h3 : (f m2.cdvd).BlockSize = n := congrArg (fun x => x.2.2) hv
  refine ⟨fun h0 => ?_, fun h0 => ?_, fun _ => ?_⟩
  · show (f m2.cdvd).nextSectorsBuffered ≤ 16
    rw [h1]
    exact c.nsb h0
  · show (f m2.cdvd).data_buffer_offset ≤ 0x800
    rw [h2]
    exact c.dbo h0
  · show (f m2.cdvd).BlockSize ∈ blockSizes
    rw [h3]
    exact hn

/-- The guarded advance of `data_buffer_offset` in case 0x8D of `cdvdWrite16`, behind an
update `g` that keeps the three fields. -/
theorem Buf.addB {m m2 : Machine} (n : Nat) (g : cdvdStruct → cdvdStruct)
    (hg : ∀ c, bufView (g c) = bufView c) (hfit : m2.cdvd.data_buffer_offset + n ≤ 0x800)
    (c : Buf m m2) :
    Buf m ((m2.upd g).upd fun c => { c with data_buffer_offset := c.data_buffer_offset + n }) := by
  have hv := hg m2.cdvd
  have h1 : (g m2.cdvd).nextSectorsBuffered = m2.cdvd.nextSectorsBuffered := congrArg (fun x => x.1) hv
  have h2 : (g m2.cdvd).data_buffer_offset = m2.cdvd.data_buffer_offset := congrArg (fun x => x.2.1) hv
  have h3 : (g m2.cdvd).BlockSize = m2.cdvd.BlockSize := congrArg (fun x => x.2.2) hv
  refine ⟨fun h0 => ?_, fun _ => ?_, fun h0 => ?_⟩
  · show (g m2.cdvd).nextSectorsBuffered ≤ 16
    rw [h1]
    exact c.nsb h0
  · show (g m2.cdvd).data_buffer_offset + n ≤ 0x800
    rw [h2]
    exact hfit
  · show (g m2.cdvd).BlockSize ∈ blockSizes
    rw [h3]
    exact c.size h0

theorem blockSizes_2048 : 2048 ∈ blockSizes := by decide

theorem blockSizes_2064 : 2064 ∈ blockSizes := by decide

theorem blockSizes_2328 : 2328 ∈ blockSizes := by decide

theorem blockSizes_2340 : 2340 ∈ blockSizes := by decide

theorem blockSizes_2352 : 2352 ∈ blockSizes := by decide

theorem blockSizes_2368 : 2368 ∈ blockSizes := by decide

theorem Buf.readNVMB {m m2 : Machine} (E : Env) (dst : List Nat) (offset bytes : Nat)
    (c : Buf m m2) : Buf m (cdvdReadNVM E m2 dst offset bytes).1 :=
  Buf.keepB m2 _ (congrArg bufView (cdvdNVM_cdvd E m2 dst offset bytes true)) c

theorem Buf.writeNVMB {m m2 : Machine} (E : Env) (src : List Nat) (offset bytes : Nat)
    (c : Buf m m2) : Buf m (cdvdWriteNVM E m2 src offset bytes) :=
  Buf.keepB m2 _ (congrArg bufView (cdvdNVM_cdvd E m2 src offset bytes false)) c

theorem Buf.getNvmDataB {m m2 : Machine} (E : Env) (buffer : List Nat) (offset size : Nat)
    (field : NVMLayout → Nat) (c : Buf m m2) :
    Buf m (getNvmData E m2 buffer offset size field).1 :=
  Buf.keepB m2 _ (congrArg bufView (getNvmData_cdvd E m2 buffer offset size field)) c

theorem Buf.setNvmDataB {m m2 : Machine} (E : Env) (buffer : List Nat) (offset size : Nat)
    (field : NVMLayout → Nat) (c : Buf m m2) :
    Buf m (setNvmData E m2 buffer offset size field) :=
  Buf.keepB m2 _ (congrArg bufView (setNvmData_cdvd E m2 buffer offset size field)) c

theorem Buf.readConsoleIDB {m m2 : Machine} (E : Env) (id : List Nat)
    (c : Buf m m2) : Buf m (cdvdReadConsoleID E m2 id).1 :=
  Buf.getNvmDataB E id 0 8 _ c

theorem Buf.writeConsoleIDB {m m2 : Machine} (E : Env) (id : List Nat)
    (c : Buf m m2) : Buf m (cdvdWriteConsoleID E m2 id) :=
  Buf.setNvmDataB E id 0 8 _ c

theorem Buf.readILinkIDB {m m2 : Machine} (E : Env) (id : List Nat)
    (c : Buf m m2) : Buf m (cdvdReadILinkID E m2 id).1 :=
  Buf.getNvmDataB E id 0 8 _ c

theorem Buf.writeILinkIDB {m m2 : Machine} (E : Env) (id : List Nat)
    (c : Buf m m2) : Buf m (cdvdWriteILinkID E m2 id) :=
  Buf.setNvmDataB E id 0 8 _ c

theorem Buf.readModelNumberB {m m2 : Machine} (E : Env) (num : List Nat) (part : Nat)
    (c : Buf m m2) : Buf m (cdvdReadModelNumber E m2 num part).1 :=
  Buf.getNvmDataB E num part 8 _ c

theorem Buf.writeModelNumberB {m m2 : Machine} (E : Env) (num : List Nat) (part : Nat)
    (c : Buf m m2) : Buf m (cdvdWriteModelNumber E m2 num part) :=
  Buf.setNvmDataB E num part 8 _ c

theorem Buf.readRegionParamsB {m m2 : Machine} (E : Env) (num : List Nat)
    (c : Buf m m2) : Buf m (cdvdReadRegionParams E m2 num).1 :=
  Buf.getNvmDataB E num _ _ _ c

theorem Buf.writeRegionParamsB {m m2 : Machine} (E : Env) (num : List Nat)
    (c : Buf m m2) : Buf m (cdvdWriteRegionParams E m2 num) :=
  Buf.setNvmDataB E num _ _ _ c

theorem Buf.readMACB {m m2 : Machine} (E : Env) (num : List Nat)
    (c : Buf m m2) : Buf m (cdvdReadMAC E m2 num).1 :=
  Buf.getNvmDataB E num _ _ _ c

theorem Buf.writeMACB {m m2 : Machine} (E : Env) (num : List Nat)
    (c : Buf m m2) : Buf m (cdvdWriteMAC E m2 num) :=
  Buf.setNvmDataB E num _ _ _ c

theorem Buf.readConfigB {m m2 : Machine} (E : Env) (config : List Nat)
    (c : Buf m m2) : Buf m (cdvdReadConfig E m2 config).1 := by
  unfold cdvdReadConfig
  split
  · exact c
  · split
    · exact c
    · split
      · exact c
      · exact Buf.getNvmDataB E _ _ _ _ (Buf.updB _ (fun _ => rfl) c)

theorem Buf.writeConfigB {m m2 : Machine} (E : Env) (config : List Nat)
    (c : Buf m m2) : Buf m (cdvdWriteConfig E m2 config) := by
  unfold cdvdWriteConfig
  split
  · exact c
  · split
    · exact c
    · exact Buf.setNvmDataB E _ _ _ _ (Buf.updB _ (fun _ => rfl) c)

theorem cdvdDetectDisk_bufView (E : Env) (m : Machine) :
    bufView (cdvdDetectDisk E m).cdvd = bufView m.cdvd := by
  unfold cdvdDetectDisk
  lift_lets
  intro m1
  split <;> rfl

theorem Buf.trayCloseB {m m2 : Machine} (E : Env) (c : Buf m m2) :
    Buf m (cdvdCtrlTrayClose E m2) := by
  have h : bufView (cdvdCtrlTrayClose E m2).cdvd = bufView m2.cdvd := by
    show bufView (cdvdDetectDisk E _).cdvd = _
    rw [cdvdDetectDisk_bufView]
    split <;> rfl
  exact Buf.keepB m2 _ h c

theorem Buf.detectDiskB {m m2 : Machine} (E : Env) (c : Buf m m2) :
    Buf m (cdvdDetectDisk E m2) :=
  Buf.keepB m2 _ (cdvdDetectDisk_bufView E m2) c

theorem Buf.newDiskCBB {m m2 : Machine} (E : Env) (c : Buf m m2) :
    Buf m (cdvdNewDiskCB E m2) := by
  unfold cdvdNewDiskCB
  lift_lets
  intro m1
  have c1 : Buf m m1 := Buf.detectDiskB E c
  split
  · lift_lets
    intro a b d e
    have ce : Buf m e :=
      Buf.setIrqB _ (Buf.updB _ (fun _ => rfl) (Buf.updateReadyB _ (Buf.updateStatusB _ c1)))
    split
    · exact Buf.updB _ (fun _ => rfl) ce
    · exact ce
  · split
    · exact Buf.updB _ (fun _ => rfl) (Buf.updateStatusB _ (Buf.updateReadyB _ c1))
    · exact c1

theorem Buf.trayOpenB {m m2 : Machine} (E : Env) (c : Buf m m2) :
    Buf m (cdvdCtrlTrayOpen E m2) := by
  unfold cdvdCtrlTrayOpen
  split
  · exact Buf.newDiskCBB E c
  · lift_lets
    intro a b d e f g h
    have cd : Buf m d := Buf.keepB a _ rfl (Buf.detectDiskB E c)
    have ch : Buf m h :=
      Buf.setIrqB _ (Buf.updB _ (fun _ => rfl) (Buf.updateReadyB _ (Buf.updateStatusB _ cd)))
    split
    · exact Buf.updB _ (fun _ => rfl) ch
    · exact ch

theorem sCommandMecacon_buf {m m2 : Machine} (E : Env) (c : Buf m m2) :
    Buf m (sCommandMecacon E m2) := by
  unfold sCommandMecacon
  dsimp only
  repeat' first
    | with_reducible exact c
    | with_reducible refine Buf.iteB _ _ _ (fun _ => ?_) (fun _ => ?_)
    | with_reducible apply Buf.setResultB
    | with_reducible apply Buf.copyResultB
    | with_reducible apply Buf.result1B
    | with_reducible apply Buf.sizeB
    | with_reducible apply Buf.writeConsoleIDB
    | with_reducible apply Buf.readConsoleIDB

theorem Buf.updSParamB {m m2 : Machine} (off : Nat) (data : List Nat)
    (c : Buf m m2) :
    Buf m (m2.upd fun c => { c with SCMDParam := blit c.SCMDParam off data }) := by
  exact Buf.keepB m2 _ rfl c

/-- The S-commands below 0x80. -/
theorem sCommandAdmin_buf {m m2 : Machine} (E : Env) (rt : Nat) (c : Buf m m2) :
    Buf m (sCommandAdmin E m2 rt) := by
  unfold sCommandAdmin
  dsimp only
  repeat' first
    | with_reducible exact c
    | with_reducible refine Buf.iteB _ _ _ (fun _ => ?_) (fun _ => ?_)
    | with_reducible apply Buf.setResultB
    | with_reducible apply Buf.copyResultB
    | with_reducible apply Buf.result1B
    | with_reducible apply Buf.sizeB
    | with_reducible apply sCommandMecacon_buf
    | with_reducible apply Buf.readNVMB
    | with_reducible apply Buf.writeNVMB
    | with_reducible apply Buf.writeConsoleIDB
    | with_reducible apply Buf.readConsoleIDB
    | with_reducible apply Buf.writeILinkIDB
    | with_reducible apply Buf.readILinkIDB
    | with_reducible apply Buf.writeModelNumberB
    | with_reducible apply Buf.readModelNumberB
    | with_reducible apply Buf.writeRegionParamsB
    | with_reducible apply Buf.readRegionParamsB
    | with_reducible apply Buf.writeMACB
    | with_reducible apply Buf.readMACB
    | with_reducible apply Buf.writeConfigB
    | with_reducible apply Buf.readConfigB
    | with_reducible apply Buf.updSParamB
    | with_reducible apply Buf.trayOpenB
    | with_reducible apply Buf.trayCloseB
    | with_reducible apply Buf.emitB
    | with_reducible refine Buf.updB _ (fun _ => by with_unfolding_all rfl) ?_

theorem BufP.mkB {α : Type} {m : Machine} (a : Machine) (x : α) (c : Buf m a) :
    BufP m (a, x) := c

theorem BufP.itePB {α : Type} {m : Machine} (p : Prop) [Decidable p] (a b : Machine × α)
    (ha : p → BufP m a) (hb : ¬ p → BufP m b) : BufP m (if p then a else b) := by
  split
  · exact ha (by assumption)
  · exact hb (by assumption)

theorem BufP.fstB {α : Type} {m : Machine} (r : Machine × α) (c : BufP m r) :
    Buf m r.1 := c

theorem BufP.mechaFailB {m m2 : Machine} (code : Nat) (c : Buf m m2) :
    BufP m (mechaFail m2 code) :=
  Buf.keepB m2 _ rfl c

theorem BufO.someB {m : Machine} (a : Machine) (c : Buf m a) :
    BufO m (some a) := by
  intro m2 h
  cases h
  exact c

theorem BufO.iteOB {m : Machine} (p : Prop) [Decidable p] (a b : Option Machine)
    (ha : p → BufO m a) (hb : ¬ p → BufO m b) : BufO m (if p then a else b) := by
  split
  · exact ha (by assumption)
  · exact hb (by assumption)

theorem BufO.mapB {m : Machine} (r : Option Machine) (f : Machine → Machine)
    (hr : BufO m r) (hf : ∀ x, Buf m x → Buf m (f x)) : BufO m (r.map f) := by
  intro m2 h
  cases r with
  | none => cases h
  | some a =>
    cases h
    exact hf a (hr a rfl)

theorem generateCardChallenge_buf {m m2 : Machine} (E : Env) (c : Buf m m2) :
    Buf m (generateCardChallenge E m2) :=
  Buf.keepB m2 _ rfl c

theorem verifyCardChallenge_buf {m m2 : Machine} (E : Env) (c : Buf m m2) :
    BufP m (verifyCardChallenge E m2) := by
  unfold verifyCardChallenge
  dsimp only
  repeat' first
    | with_reducible assumption
    | with_reducible refine BufP.itePB _ _ _ (fun _ => ?_) (fun _ => ?_)
    | with_reducible refine Buf.updB _ (fun _ => by with_unfolding_all rfl) ?_
    | with_reducible apply BufP.mkB

theorem decryptKelfBitTable_buf {m m2 : Machine} (E : Env) (hs : Nat) (HS : List Nat)
    (c : Buf m m2) : BufP m (decryptKelfBitTable E m2 hs HS) := by
  unfold decryptKelfBitTable
  dsimp only
  repeat' first
    | with_reducible assumption
    | with_reducible refine BufP.itePB _ _ _ (fun _ => ?_) (fun _ => ?_)
    | with_reducible refine Buf.iteB _ _ _ (fun _ => ?_) (fun _ => ?_)
    | with_reducible apply BufP.mechaFailB
    | with_reducible refine Buf.updB _ (fun _ => by with_unfolding_all rfl) ?_
    | with_reducible apply BufP.mkB

theorem DecryptKelfHeader_buf {m m2 : Machine} (E : Env)
    (c : Buf m m2) : BufP m (DecryptKelfHeader E m2) := by
  unfold DecryptKelfHeader
  dsimp only
  repeat' first
    | with_reducible assumption
    | with_reducible refine BufP.itePB _ _ _ (fun _ => ?_) (fun _ => ?_)
    | with_reducible apply BufP.mechaFailB
    | with_reducible apply decryptKelfBitTable_buf
    | with_reducible apply Buf.readILinkIDB
    | with_reducible apply Buf.readConsoleIDB

theorem decryptKelfContentFinish_buf {m m2 : Machine} (E : Env) (block : BitBlock)
    (v0 : Nat) (c : Buf m m2) : BufP m (decryptKelfContentFinish E m2 block v0) := by
  unfold decryptKelfContentFinish
  dsimp only
  repeat' first
    | with_reducible assumption
    | with_reducible refine BufP.itePB _ _ _ (fun _ => ?_) (fun _ => ?_)
    | with_reducible apply BufP.mechaFailB
    | with_reducible refine Buf.updB _ (fun _ => by with_unfolding_all rfl) ?_
    | with_reducible apply BufP.mkB

theorem DecryptKelfContent_buf {m m2 : Machine} (E : Env) (c : Buf m m2)
    (r : Machine × MECHA_RESULT) (h : DecryptKelfContent E m2 = some r) : Buf m r.1 := by
  unfold DecryptKelfContent at h
  lift_lets at h
  extract_lets m0 block chunks st at h
  have c0 : Buf m m0 :=
    Buf.iteB _ _ _ (fun _ => Buf.updB _ (fun _ => rfl) c) (fun _ => c)
  split at h
  · cases hl : contentLoopEncrypted E.D m0.cdvd block.Flags chunks 0 st with
    | none =>
      rw [hl] at h
      cases h
    | some p =>
      obtain ⟨st2, failed⟩ := p
      rw [hl] at h
      dsimp only at h
      split at h
      · cases h
        exact BufP.mechaFailB _ (Buf.updB _ (fun _ => rfl) c0)
      · cases h
        exact decryptKelfContentFinish_buf E _ _ (Buf.updB _ (fun _ => rfl) c0)
  · cases hl : contentLoopPlain E.D m0.ks.SignatureMasterKey m0.cdvd chunks 0 st with
    | none =>
      rw [hl] at h
      cases h
    | some st2 =>
      rw [hl] at h
      cases h
      exact decryptKelfContentFinish_buf E _ _ (Buf.updB _ (fun _ => rfl) c0)

theorem executeMechaHandler_buf {m m2 : Machine} (E : Env) (c : Buf m m2) :
    BufO m (executeMechaHandler E m2) := by
  intro m3 h
  unfold executeMechaHandler at h
  split at h
  · cases h
    exact Buf.updB _ (fun _ => rfl) (generateCardChallenge_buf E c)
  · cases h
    exact Buf.updB _ (fun _ => rfl) (verifyCardChallenge_buf E c)
  · dsimp only at h
    split at h
    · cases h
    · cases h
      exact Buf.updB _ (fun _ => rfl) (DecryptKelfHeader_buf E c)
  · obtain ⟨r, hr, rfl⟩ := Option.map_eq_some'.mp h
    exact Buf.updB _ (fun _ => rfl) (DecryptKelfContent_buf E c r hr)
  · obtain ⟨r, hr, rfl⟩ := Option.map_eq_some'.mp h
    exact Buf.updB _ (fun _ => rfl) (DecryptKelfContent_buf E c r hr)
  · cases h
    exact c

theorem sCommandMecha_buf {m m2 : Machine} (E : Env) (rt : Nat)
    (c : Buf m m2) : BufO m (sCommandMecha E m2 rt) := by
  unfold sCommandMecha
  dsimp only
  repeat' first
    | with_reducible assumption
    | with_reducible refine BufO.iteOB _ _ _ (fun _ => ?_) (fun _ => ?_)
    | with_reducible refine Buf.iteB _ _ _ (fun _ => ?_) (fun _ => ?_)
    | with_reducible refine BufO.mapB _ _ ?_ (fun x hx => ?_)
    | with_reducible apply BufO.someB
    | with_reducible apply executeMechaHandler_buf
    | with_reducible apply Buf.setResultB
    | with_reducible apply Buf.copyResultB
    | with_reducible apply Buf.result1B
    | with_reducible apply Buf.setMechaStateB
    | with_reducible apply Buf.sizeB
    | with_reducible refine Buf.addB _ _ (fun _ => by with_unfolding_all rfl) ?_ ?_
    | with_reducible refine Buf.updB _ (fun _ => by with_unfolding_all rfl) ?_
    | with_reducible refine Buf.dbo0B _ (fun _ => by with_unfolding_all rfl) ?_
    | exact (by assumption : _ ∧ _ ∧ _ ≤ _).2.2
    | split

/-- Every S-command keeps the bounds `BufInv`. -/
theorem cdvdWrite16_buf {E : Env} {m m2 : Machine} {rt : Nat} (h : cdvdWrite16 E m rt = some m2) :
    Buf m m2 := by
  unfold cdvdWrite16 at h
  dsimp only at h
  have c0 : Buf m (m.upd fun c => { c with sCommand := rt, SCMDResult := List.replicate 16 0 }) :=
    Buf.updB _ (fun _ => rfl) (Buf.startB m)
  obtain ⟨x, hx, hm⟩ := Option.map_eq_some'.mp h
  rw [← hm]
  refine Buf.sresetB ?_
  cases hc : isMechaCommand rt with
  | true =>
    rw [hc, if_pos rfl] at hx
    exact sCommandMecha_buf E rt c0 x hx
  | false =>
    rw [hc, if_neg (by decide)] at hx
    split at hx
    · cases hx
    · cases hx
      exact sCommandAdmin_buf E rt c0

theorem clearInterrupt_buf {m m2 : Machine} (n : IopEvt) (c : Buf m m2) :
    Buf m (clearInterrupt m2 n) :=
  Buf.keepB m2 _ rfl c

theorem doReadTrack_buf {m m2 : Machine} (E : Env) (s mode : Nat) (c : Buf m m2) :
    Buf m (doReadTrack E m2 s mode) :=
  Buf.keepB m2 _ rfl c

theorem Buf.actionInterruptB {m m2 : Machine} (E : Env) (c : Buf m m2) :
    Buf m (cdvdActionInterrupt E m2) := by
  unfold cdvdActionInterrupt
  dsimp only
  apply Buf.setIrqB
  refine Buf.iteB _ _ _ (fun _ => ?_) (fun _ => ?_)
  · refine Buf.updB _ (fun _ => rfl) ?_
    split <;>
    repeat' first
      | with_reducible exact c
      | with_reducible apply Buf.sectorReadyIntB
      | with_reducible apply Buf.updateReadyB
      | with_reducible apply Buf.updateStatusB
      | with_reducible refine Buf.updB _ (fun _ => by with_unfolding_all rfl) ?_
      | with_reducible refine Buf.nsb0B _ (fun _ => by with_unfolding_all rfl) ?_
  · split <;>
    repeat' first
      | with_reducible exact c
      | with_reducible apply Buf.sectorReadyIntB
      | with_reducible apply Buf.updateReadyB
      | with_reducible apply Buf.updateStatusB
      | with_reducible refine Buf.updB _ (fun _ => by with_unfolding_all rfl) ?_
      | with_reducible refine Buf.nsb0B _ (fun _ => by with_unfolding_all rfl) ?_

theorem Buf.cdvdIntB {m m2 : Machine} (E : Env) (t : Nat) (c : Buf m m2) :
    Buf m (CDVD_INT E m2 t) := by
  unfold CDVD_INT
  split
  · exact Buf.actionInterruptB E c
  · exact Buf.psxIntB _ _ c

theorem cdvdStartSeekFinish_buf {m m2 : Machine} (E : Env) (t d : Nat) (b : Bool)
    (c : Buf m m2) : BufP m (cdvdStartSeekFinish E m2 t d b) := by
  unfold cdvdStartSeekFinish
  dsimp only
  show Buf m _
  dsimp only
  refine Buf.iteB _ _ _ (fun _ => ?_) (fun _ => ?_)
  · refine Buf.updB _ (fun _ => rfl) ?_
    split
    · exact Buf.sectorReadyIntB E _ c
    · exact Buf.sectorReadyIntB E _ c
  · split
    · exact Buf.sectorReadyIntB E _ c
    · exact Buf.sectorReadyIntB E _ c

theorem cdvdStartSeek_buf {m m2 : Machine} (E : Env) (s mode : Nat)
    (c : Buf m m2) : BufP m (cdvdStartSeek E m2 s mode) := by
  unfold cdvdStartSeek
  dsimp only
  repeat' first
    | with_reducible exact c
    | with_reducible refine BufP.itePB _ _ _ (fun _ => ?_) (fun _ => ?_)
    | with_reducible apply cdvdStartSeekFinish_buf
    | with_reducible apply Buf.sectorReadyIntB
    | with_reducible apply clearInterrupt_buf
    | with_reducible apply Buf.updateReadyB
    | with_reducible apply Buf.updateStatusB
    | with_reducible apply Buf.emitB
    | with_reducible refine Buf.updB _ (fun _ => by with_unfolding_all rfl) ?_
    | with_reducible refine Buf.nsb0B _ (fun _ => by with_unfolding_all rfl) ?_
    | with_reducible apply BufP.mkB

theorem Buf.startSeekB {m m2 : Machine} (E : Env) (s mode : Nat)
    (c : Buf m m2) : Buf m (cdvdStartSeek E m2 s mode).1 :=
  cdvdStartSeek_buf E s mode c

theorem readParamError_buf {m m2 : Machine} (E : Env) (o : Nat) (c : Buf m m2) :
    Buf m (readParamError E m2 o) := by
  unfold readParamError
  dsimp only
  exact Buf.cdvdIntB E _ (Buf.updateReadyB _ (Buf.updateStatusB _ (Buf.updB _ (fun _ => rfl) c)))

theorem readRangeError_buf {m m2 : Machine} (E : Env) (c : Buf m m2) :
    Buf m (readRangeError E m2) := by
  unfold readRangeError
  dsimp only
  exact Buf.cdvdIntB E _ (Buf.updateReadyB _ (Buf.updateStatusB _ (Buf.updB _ (fun _ => rfl) c)))

theorem beginRead_buf {m m2 : Machine} (E : Env) (mode : Nat) (c : Buf m m2) :
    Buf m (beginRead E m2 mode) := by
  unfold beginRead
  dsimp only
  exact Buf.updB _ (fun _ => rfl) (doReadTrack_buf E _ _ (Buf.readIntB E _
    (Buf.startSeekB E _ _ (Buf.updB _ (fun _ => rfl) c))))

theorem loadReadParams_buf {m m2 : Machine} (c : Buf m m2) :
    Buf m (loadReadParams m2) :=
  Buf.updB _ (fun _ => rfl) c

theorem speedChange_buf {m m2 : Machine} (o s : Nat) (c : Buf m m2) :
    Buf m (speedChange m2 o s) := by
  unfold speedChange
  split
  · exact Buf.updB _ (fun _ => rfl) c
  · exact c

theorem cdvdReadErrorHandler_buf {m m2 : Machine} (c : Buf m m2) :
    Buf m (cdvdReadErrorHandler m2).1 := by
  unfold cdvdReadErrorHandler
  split
  · exact Buf.updB (fun c => { c with Error := 0x21 }) (fun _ => rfl) c
  · split
    · exact Buf.updB (fun c => { c with Error := 0x30 }) (fun _ => rfl) c
    · exact c

theorem Buf.iteFstB {α : Type} {m : Machine} (p : Prop) [Decidable p]
    (a b : Machine × α) (ha : p → Buf m a.1) (hb : ¬ p → Buf m b.1) :
    Buf m (if p then a else b).1 := by
  split
  · exact ha (by assumption)
  · exact hb (by assumption)

theorem decodeCdRead_buf {m m2 : Machine} (c : Buf m m2) :
    BufP m (decodeCdRead m2) := by
  unfold decodeCdRead
  dsimp only
  repeat' first
    | with_reducible exact c
    | with_reducible refine BufP.itePB _ _ _ (fun _ => ?_) (fun _ => ?_)
    | with_reducible refine Buf.iteFstB _ _ _ (fun _ => ?_) (fun _ => ?_)
    | with_reducible apply speedChange_buf
    | with_reducible apply loadReadParams_buf
    | with_reducible refine Buf.updB _ (fun _ => by with_unfolding_all rfl) ?_
    | with_reducible refine Buf.blockB 2048 blockSizes_2048 _ (fun _ => by with_unfolding_all rfl) ?_
    | with_reducible refine Buf.blockB 2064 blockSizes_2064 _ (fun _ => by with_unfolding_all rfl) ?_
    | with_reducible refine Buf.blockB 2328 blockSizes_2328 _ (fun _ => by with_unfolding_all rfl) ?_
    | with_reducible refine Buf.blockB 2340 blockSizes_2340 _ (fun _ => by with_unfolding_all rfl) ?_
    | with_reducible refine Buf.blockB 2352 blockSizes_2352 _ (fun _ => by with_unfolding_all rfl) ?_
    | with_reducible refine Buf.blockB 2368 blockSizes_2368 _ (fun _ => by with_unfolding_all rfl) ?_
    | with_reducible refine Buf.nsb0B _ (fun _ => by with_unfolding_all rfl) ?_
    | with_reducible apply BufP.mkB

theorem decodeCdda_buf {m m2 : Machine} (c : Buf m m2) :
    BufP m (decodeCdda m2) := by
  unfold decodeCdda
  dsimp only
  repeat' first
    | with_reducible exact c
    | with_reducible refine BufP.itePB _ _ _ (fun _ => ?_) (fun _ => ?_)
    | with_reducible refine Buf.iteFstB _ _ _ (fun _ => ?_) (fun _ => ?_)
    | with_reducible apply speedChange_buf
    | with_reducible apply loadReadParams_buf
    | with_reducible refine Buf.updB _ (fun _ => by with_unfolding_all rfl) ?_
    | with_reducible refine Buf.blockB 2048 blockSizes_2048 _ (fun _ => by with_unfolding_all rfl) ?_
    | with_reducible refine Buf.blockB 2064 blockSizes_2064 _ (fun _ => by with_unfolding_all rfl) ?_
    | with_reducible refine Buf.blockB 2328 blockSizes_2328 _ (fun _ => by with_unfolding_all rfl) ?_
    | with_reducible refine Buf.blockB 2340 blockSizes_2340 _ (fun _ => by with_unfolding_all rfl) ?_
    | with_reducible refine Buf.blockB 2352 blockSizes_2352 _ (fun _ => by with_unfolding_all rfl) ?_
    | with_reducible refine Buf.blockB 2368 blockSizes_2368 _ (fun _ => by with_unfolding_all rfl) ?_
    | with_reducible refine Buf.nsb0B _ (fun _ => by with_unfolding_all rfl) ?_
    | with_reducible apply BufP.mkB

theorem decodeDvdRead_buf {m m2 : Machine} (c : Buf m m2) :
    BufP m (decodeDvdRead m2) := by
  unfold decodeDvdRead
  dsimp only
  repeat' first
    | with_reducible exact c
    | with_reducible refine BufP.itePB _ _ _ (fun _ => ?_) (fun _ => ?_)
    | with_reducible refine Buf.iteFstB _ _ _ (fun _ => ?_) (fun _ => ?_)
    | with_reducible apply speedChange_buf
    | with_reducible apply loadReadParams_buf
    | with_reducible refine Buf.updB _ (fun _ => by with_unfolding_all rfl) ?_
    | with_reducible refine Buf.blockB 2048 blockSizes_2048 _ (fun _ => by with_unfolding_all rfl) ?_
    | with_reducible refine Buf.blockB 2064 blockSizes_2064 _ (fun _ => by with_unfolding_all rfl) ?_
    | with_reducible refine Buf.blockB 2328 blockSizes_2328 _ (fun _ => by with_unfolding_all rfl) ?_
    | with_reducible refine Buf.blockB 2340 blockSizes_2340 _ (fun _ => by with_unfolding_all rfl) ?_
    | with_reducible refine Buf.blockB 2352 blockSizes_2352 _ (fun _ => by with_unfolding_all rfl) ?_
    | with_reducible refine Buf.blockB 2368 blockSizes_2368 _ (fun _ => by with_unfolding_all rfl) ?_
    | with_reducible refine Buf.nsb0B _ (fun _ => by with_unfolding_all rfl) ?_
    | with_reducible apply BufP.mkB

theorem nCdRead_buf {m m2 : Machine} (E : Env) (c : Buf m m2) :
    Buf m (nCdRead E m2) := by
  unfold nCdRead
  dsimp only
  have d : Buf m (decodeCdRead m2).1 := decodeCdRead_buf c
  refine Buf.iteB _ _ _ (fun _ => ?_) (fun _ => ?_)
  · exact readParamError_buf E _ d
  · refine Buf.iteB _ _ _ (fun _ => ?_) (fun _ => ?_)
    · exact readRangeError_buf E (cdvdReadErrorHandler_buf d)
    · exact beginRead_buf E _ (cdvdReadErrorHandler_buf d)

theorem nCdReadCdda_buf {m m2 : Machine} (E : Env) (c : Buf m m2) :
    Buf m (nCdReadCdda E m2) := by
  unfold nCdReadCdda
  dsimp only
  have d : Buf m (decodeCdda m2).1 := decodeCdda_buf c
  refine Buf.iteB _ _ _ (fun _ => ?_) (fun _ => ?_)
  · exact readParamError_buf E _ d
  · exact beginRead_buf E _ d

theorem nDvdRead_buf {m m2 : Machine} (E : Env) (c : Buf m m2) :
    Buf m (nDvdRead E m2) := by
  unfold nDvdRead
  dsimp only
  have d : Buf m (decodeDvdRead m2).1 := decodeDvdRead_buf c
  refine Buf.iteB _ _ _ (fun _ => ?_) (fun _ => ?_)
  · exact readParamError_buf E _ d
  · refine Buf.iteB _ _ _ (fun _ => ?_) (fun _ => ?_)
    · exact readRangeError_buf E (cdvdReadErrorHandler_buf d)
    · exact beginRead_buf E _ (cdvdReadErrorHandler_buf d)

theorem nCommandSwitch_buf {m m2 : Machine} (E : Env) (rt : Nat) (c : Buf m m2) :
    BufP m (nCommandSwitch E m2 rt) := by
  unfold nCommandSwitch
  dsimp only
  repeat' first
    | with_reducible exact c
    | with_reducible refine BufP.itePB _ _ _ (fun _ => ?_) (fun _ => ?_)
    | with_reducible apply nCdRead_buf
    | with_reducible apply nCdReadCdda_buf
    | with_reducible apply nDvdRead_buf
    | with_reducible apply Buf.sectorReadyIntB
    | with_reducible apply Buf.cdvdIntB
    | with_reducible apply Buf.startSeekB
    | with_reducible apply clearInterrupt_buf
    | with_reducible apply Buf.updateReadyB
    | with_reducible apply Buf.updateStatusB
    | with_reducible apply Buf.setIrqB
    | with_reducible apply Buf.emitB
    | with_reducible apply Buf.sresetB
    | with_reducible refine Buf.updB _ (fun _ => by with_unfolding_all rfl) ?_
    | with_reducible refine Buf.blockB 2048 blockSizes_2048 _ (fun _ => by with_unfolding_all rfl) ?_
    | with_reducible refine Buf.blockB 2064 blockSizes_2064 _ (fun _ => by with_unfolding_all rfl) ?_
    | with_reducible refine Buf.blockB 2328 blockSizes_2328 _ (fun _ => by with_unfolding_all rfl) ?_
    | with_reducible refine Buf.blockB 2340 blockSizes_2340 _ (fun _ => by with_unfolding_all rfl) ?_
    | with_reducible refine Buf.blockB 2352 blockSizes_2352 _ (fun _ => by with_unfolding_all rfl) ?_
    | with_reducible refine Buf.blockB 2368 blockSizes_2368 _ (fun _ => by with_unfolding_all rfl) ?_
    | with_reducible refine Buf.nsb0B _ (fun _ => by with_unfolding_all rfl) ?_
    | with_reducible apply Buf.setIopB
    | with_reducible apply BufP.mkB

theorem commandError_buf {m m2 : Machine} (code : Nat) (c : Buf m m2) :
    Buf m (commandError m2 code) :=
  Buf.setIrqB _ (Buf.updB _ (fun _ => rfl) (Buf.updB _ (fun _ => rfl) c))

theorem cdvdCommandErrorHandler_buf {m m2 : Machine} (E : Env) (c : Buf m m2) :
    BufP m (cdvdCommandErrorHandler E m2) := by
  unfold cdvdCommandErrorHandler
  repeat' first
    | with_reducible exact c
    | with_reducible refine BufP.itePB _ _ _ (fun _ => ?_) (fun _ => ?_)
    | with_reducible apply commandError_buf
    | with_reducible apply BufP.mkB

theorem Buf.clearNParamsB {m m2 : Machine} (c : Buf m m2) : Buf m (clearNParams m2) :=
  Buf.keepB m2 _ rfl c

/-- An N-command keeps the bounds `BufInv`. -/
theorem cdvdWrite04_buf (E : Env) (m : Machine) (rt : Nat) : Buf m (cdvdWrite04 E m rt) := by
  unfold cdvdWrite04
  dsimp only
  split
  · exact Buf.clearNParamsB
      (Buf.setIrqB _ (Buf.updB _ (fun _ => rfl) (Buf.updB _ (fun _ => rfl) (Buf.startB m))))
  · have c0 : Buf m (m.upd fun c => { c with nCommand := rt, AbortRequested := false }) :=
      Buf.keepB m _ rfl (Buf.startB m)
    have c1 := cdvdCommandErrorHandler_buf E c0
    split
    · exact Buf.clearNParamsB (BufP.fstB _ c1)
    · have c2 := nCommandSwitch_buf E rt (BufP.fstB _ c1)
      split
      · exact BufP.fstB _ c2
      · exact Buf.clearNParamsB (BufP.fstB _ c2)

theorem cdvdReadSector_cdvd (E : Env) (m : Machine) : (cdvdReadSector E m).1.cdvd = m.cdvd := by
  unfold cdvdReadSector
  dsimp only
  split
  · exact dma3Finish_cdvd m
  · repeat' split
    all_goals first | rfl | exact (dma3Finish_cdvd _).trans rfl

theorem Buf.readSectorB {m m2 : Machine} (E : Env) (c : Buf m m2) : Buf m (cdvdReadSector E m2).1 :=
  Buf.cdvdB _ (cdvdReadSector_cdvd E m2) c

/-- The decrement of `nextSectorsBuffered` in `cdvdReadInterrupt`. -/
theorem Buf.decB {m m2 : Machine} (c : Buf m m2) :
    Buf m (m2.upd fun c => { c with nextSectorsBuffered := c.nextSectorsBuffered - 1 }) := by
  exact ⟨fun h0 => Nat.le_trans (Nat.sub_le _ _) (c.nsb h0), c.dbo, c.size⟩

theorem cdvdReadInterrupt_buf {m m2 : Machine} (E : Env) (c : Buf m m2) :
    Buf m (cdvdReadInterrupt E m2) := by
  unfold cdvdReadInterrupt
  dsimp only
  repeat' first
    | with_reducible exact c
    | with_reducible refine Buf.iteB _ _ _ (fun _ => ?_) (fun _ => ?_)
    | with_reducible apply Buf.readIntB
    | with_reducible apply Buf.sectorReadyIntB
    | with_reducible apply doReadTrack_buf
    | with_reducible apply Buf.readSectorB
    | with_reducible apply Buf.updateReadyB
    | with_reducible apply Buf.updateStatusB
    | with_reducible apply Buf.setIrqB
    | with_reducible apply Buf.emitB
    | with_reducible apply Buf.decB
    | with_reducible refine Buf.updB _ (fun _ => by with_unfolding_all rfl) ?_

theorem cdvdSectorReady_buf {m m2 : Machine} (E : Env) (c : Buf m m2) :
    Buf m (cdvdSectorReady E m2) := by
  unfold cdvdSectorReady
  dsimp only
  by_cases h : m2.cdvd.nextSectorsBuffered < 16
  · rw [if_pos h]
    have c1 : Buf m (m2.upd fun c => { c with nextSectorsBuffered := c.nextSectorsBuffered + 1 }) :=
      ⟨fun _ => h, c.dbo, c.size⟩
    split
    · exact Buf.sectorReadyIntB E _ c1
    · exact Buf.updateStatusB _ c1
  · rw [if_neg h]
    split
    · exact Buf.sectorReadyIntB E _ c
    · exact Buf.updateStatusB _ c

theorem cdvdUpdateTrayState_buf {m m2 : Machine} (E : Env) (c : Buf m m2) :
    Buf m (cdvdUpdateTrayState E m2) := by
  unfold cdvdUpdateTrayState
  dsimp only
  repeat' first
    | with_reducible exact c
    | with_reducible refine Buf.iteB _ _ _ (fun _ => ?_) (fun _ => ?_)
    | with_reducible apply Buf.trayCloseB
    | with_reducible apply Buf.updateReadyB
    | with_reducible apply Buf.updateStatusB
    | with_reducible refine Buf.updB _ (fun _ => by with_unfolding_all rfl) ?_
    | split

theorem cdvdVsync_buf {m m2 : Machine} (E : Env) (c : Buf m m2) : Buf m (cdvdVsync E m2) := by
  unfold cdvdVsync
  dsimp only
  refine Buf.iteB _ _ _ (fun _ => ?_) (fun _ => ?_)
  · exact Buf.updB _ (fun _ => rfl) c
  · exact Buf.updB _ (fun _ => rfl)
      (cdvdUpdateTrayState_buf E (Buf.updB _ (fun _ => rfl) (Buf.updB _ (fun _ => rfl) c)))

theorem readAndDecryptKeyStore_buf {m m2 : Machine} (E : Env) (eks cks kek : List Nat)
    (i : Nat) (c : Buf m m2) : Buf m (readAndDecryptKeyStore E m2 eks cks kek i) := by
  unfold readAndDecryptKeyStore
  dsimp only
  exact Buf.updB _ (fun _ => rfl) (Buf.readILinkIDB E _ (Buf.readConsoleIDB E _ (Buf.setKsB _ c)))

/-- The state in which `cdvdReset` leaves the drive has the bounds `BufInv`. -/
theorem BufInv.resetB (E : Env) (B : Boot) (m : Machine) : BufInv (cdvdReset E B m).cdvd := by
  have h0 : BufInv ((cdvdUpdateStatus (cdvdUpdateReady
      (({ m with cdvd := {} } : Machine).upd fun c =>
        { c with DiscType := CDVD_TYPE_NODISC, Spinning := false, sDataIn := 0x40 })
      CDVD_DRIVE_READY) CDVD_STATUS_PAUSE).upd fun c =>
        { c with Speed := 4, BlockSize := 2064, Action := cdvdActions.cdvdAction_None }).cdvd :=
    ⟨Nat.zero_le 16, Nat.zero_le 0x800, blockSizes_2064⟩
  have c : Buf ((cdvdUpdateStatus (cdvdUpdateReady
      (({ m with cdvd := {} } : Machine).upd fun c =>
        { c with DiscType := CDVD_TYPE_NODISC, Spinning := false, sDataIn := 0x40 })
      CDVD_DRIVE_READY) CDVD_STATUS_PAUSE).upd fun c =>
        { c with Speed := 4, BlockSize := 2064, Action := cdvdActions.cdvdAction_None })
      (cdvdReset E B m) := ?_
  · exact c.inv h0
  unfold cdvdReset
  dsimp only
  repeat' first
    | with_reducible exact Buf.startB _
    | with_reducible apply Buf.setMechaStateB
    | with_reducible apply readAndDecryptKeyStore_buf
    | with_reducible apply Buf.trayCloseB
    | with_reducible refine Buf.updB _ (fun _ => by with_unfolding_all rfl) ?_
    | with_reducible apply Buf.setHostB

theorem cdvdRead18_bufView (m : Machine) : bufView (cdvdRead18 m).1.cdvd = bufView m.cdvd := by
  unfold cdvdRead18
  dsimp only
  repeat' split
  all_goals rfl

theorem cdvdRead_buf (E : Env) (m : Machine) (key : Nat) : Buf m (cdvdRead E m key).1 := by
  rcases cdvdRead_cases E m key with e | e | e
  · rw [e]
    exact Buf.startB m
  · rw [e]
    exact Buf.updB _ (fun _ => rfl) (Buf.startB m)
  · rw [e]
    exact Buf.keepB m _ (cdvdRead18_bufView m) (Buf.startB m)

theorem cdvdWrite_buf (E : Env) {m m2 : Machine} (key rt : Nat)
    (hw : cdvdWrite E m key rt = some m2) : Buf m m2 := by
  unfold cdvdWrite at hw
  split at hw
  · cases hw
    exact cdvdWrite04_buf E m rt
  split at hw
  · cases hw
    unfold cdvdWrite05
    dsimp only
    split
    · exact Buf.keepB m _ rfl (Buf.startB m)
    · exact Buf.keepB m _ rfl (Buf.startB m)
  split at hw
  · cases hw
    exact Buf.keepB m _ rfl (Buf.startB m)
  split at hw
  · cases hw
    unfold cdvdWrite07
    split
    · exact Buf.startB m
    · exact Buf.keepB m _ rfl (Buf.startB m)
  split at hw
  · cases hw
    exact Buf.keepB m _ rfl (Buf.startB m)
  split at hw
  · exact cdvdWrite16_buf hw
  split at hw
  · cases hw
    unfold cdvdWrite17
    dsimp only
    split
    · exact Buf.keepB m _ rfl (Buf.startB m)
    · exact Buf.keepB m _ rfl (Buf.startB m)
  split at hw
  · cases hw
    exact Buf.keepB m _ rfl (Buf.startB m)
  · cases hw
    exact Buf.startB m

/-- Every operation keeps each of the three bounds. -/
theorem driveStep_buf (E : Env) {m m2 : Machine} (op : DriveOp)
    (hs : driveStep E m op = some m2) : Buf m m2 := by
  cases op with
  | reg op =>
    cases op with
    | read key =>
      cases hs
      exact cdvdRead_buf E m key
    | write key rt => exact cdvdWrite_buf E key rt hs
  | sectorReady =>
    cases hs
    exact cdvdSectorReady_buf E (Buf.startB m)
  | readInterrupt =>
    cases hs
    exact cdvdReadInterrupt_buf E (Buf.startB m)
  | actionInterrupt =>
    cases hs
    exact Buf.actionInterruptB E (Buf.startB m)
  | vsync =>
    cases hs
    exact cdvdVsync_buf E (Buf.startB m)
  | newDisk =>
    cases hs
    exact Buf.newDiskCBB E (Buf.startB m)
  | trayOpen =>
    cases hs
    exact Buf.trayOpenB E (Buf.startB m)
  | trayClose =>
    cases hs
    exact Buf.trayCloseB E (Buf.startB m)
  | reset B =>
    cases hs
    exact ⟨fun _ => (BufInv.resetB E B m).nsb, fun _ => (BufInv.resetB E B m).dbo,
      fun _ => (BufInv.resetB E B m).size⟩

theorem Buf.transB {a b c : Machine} (h1 : Buf a b) (h2 : Buf b c) : Buf a c :=
  ⟨fun h => h2.nsb (h1.nsb h), fun h => h2.dbo (h1.dbo h), fun h => h2.size (h1.size h)⟩

/-- Every sequence of operations keeps each of the three bounds. -/
theorem driveRun_buf (E : Env) (ops : List DriveOp) : ∀ {m m2 : Machine},
    driveRun E m ops = some m2 → Buf m m2 := by
  induction ops with
  | nil =>
    intro m m2 hr
    cases hr
    exact Buf.startB m
  | cons op ops ih =>
    intro m m2 hr
    unfold driveRun at hr
    obtain ⟨x, hx, hr2⟩ := Option.bind_eq_some.mp hr
    exact (driveStep_buf E op hx).transB (ih hr2)

theorem blit_getElem?_behind (buf : List Nat) (off : Nat) (data : List Nat) (p : Nat)
    (h : off + data.length ≤ p) : (blit buf off data)[p]? = buf[p]? := by
  unfold blit
  by_cases hl : off + data.length ≤ buf.length
  · have h1 : (buf.take off ++ data.take (buf.length - off)).length = off + data.length := by
      simp only [List.length_append, List.length_take]
      omega
    rw [List.getElem?_append_right (by rw [h1]; exact h), h1, List.getElem?_drop]
    congr 1
    omega
  · have h2 : (buf.take off ++ data.take (buf.length - off) ++ buf.drop (off + data.length)).length
        ≤ p := by
      simp only [List.length_append, List.length_take, List.length_drop]
      omega
    rw [List.getElem?_eq_none h2, List.getElem?_eq_none (by omega)]

theorem sCommandMecha_0x8D_refused (E : Env) (m : Machine) (h : ¬ mgWriteAccepted m.cdvd) :
    sCommandMecha E m 0x8D = some (result1 m 0x80) := by
  have h2 : ¬ (m.cdvd.SCMDParamC ≠ 0 ∧
      (m.cdvd.mecha_state = MECHA_STATE.MECHA_STATE_KELF_HEADER_PARAMS_SET ∨
        m.cdvd.mecha_state = MECHA_STATE.MECHA_STATE_DATA_IN_LENGTH_SET ∨
        m.cdvd.mecha_state = MECHA_STATE.MECHA_STATE_CRYPTO_DATA_IN_SIZE_SET) ∧
      (result1 m 0x80).cdvd.data_buffer_offset + m.cdvd.SCMDParamC ≤ 0x800) := h
  show (if m.cdvd.SCMDParamC ≠ 0 ∧ (_ ∨ _ ∨ _) ∧
      (result1 m 0x80).cdvd.data_buffer_offset + m.cdvd.SCMDParamC ≤ 0x800 then _
      else some (result1 m 0x80)) = _
  rw [if_neg h2]

theorem sCommandMecha_0x8D_accepted (E : Env) (m : Machine) (h : mgWriteAccepted m.cdvd) :
    sCommandMecha E m 0x8D = (mgWriteHandled E m).map fun m => setResult m 0 0 := by
  have h2 : m.cdvd.SCMDParamC ≠ 0 ∧
      (m.cdvd.mecha_state = MECHA_STATE.MECHA_STATE_KELF_HEADER_PARAMS_SET ∨
        m.cdvd.mecha_state = MECHA_STATE.MECHA_STATE_DATA_IN_LENGTH_SET ∨
        m.cdvd.mecha_state = MECHA_STATE.MECHA_STATE_CRYPTO_DATA_IN_SIZE_SET) ∧
      (result1 m 0x80).cdvd.data_buffer_offset + m.cdvd.SCMDParamC ≤ 0x800 := h
  show (if m.cdvd.SCMDParamC ≠ 0 ∧ (_ ∨ _ ∨ _) ∧
      (result1 m 0x80).cdvd.data_buffer_offset + m.cdvd.SCMDParamC ≤ 0x800 then
        Option.map _ (if (mgWriteData m).cdvd.DataSize ≤ (mgWriteData m).cdvd.data_buffer_offset then _
          else _)
      else _) = _
  rw [if_pos h2]
  rfl

theorem cdvdWrite16_0x8D (E : Env) (m : Machine) :
    cdvdWrite16 E m 0x8D = (sCommandMecha E (sCommandEntry m 0x8D) 0x8D).map sCommandExit := rfl

theorem cdvdWrite16_0x8D_refused (E : Env) (m : Machine) (h : ¬ mgWriteAccepted m.cdvd) :
    cdvdWrite16 E m 0x8D = some (sCommandExit (result1 (sCommandEntry m 0x8D) 0x80)) := by
  rw [cdvdWrite16_0x8D, sCommandMecha_0x8D_refused E (sCommandEntry m 0x8D) h]
  rfl

theorem cdvdWrite16_0x8D_accepted (E : Env) (m : Machine) (h : mgWriteAccepted m.cdvd) :
    cdvdWrite16 E m 0x8D =
      (mgWriteHandled E (sCommandEntry m 0x8D)).map fun x => sCommandExit (setResult x 0 0) := by
  rw [cdvdWrite16_0x8D, sCommandMecha_0x8D_accepted E (sCommandEntry m 0x8D) h, Option.map_map]
  rfl

/-- A bit table that declares a block and whose first block ends behind the end of the
data buffer: the bit-table part of `DecryptKelfHeader` stores behind the buffer. -/
theorem decryptKelfBitTable_overrun (E : Env) (m : Machine) (headerSize : Nat)
    (HeaderSignature : List Nat) (hn : 1 ≤ decryptedBlockCount E.D m.ks m.cdvd headerSize)
    (hl : m.cdvd.data_buffer.length < headerSize + 64) :
    m.cdvd.data_buffer.length <
      (decryptKelfBitTable E m headerSize HeaderSignature).1.cdvd.data_buffer.length := by
  obtain ⟨r, hr⟩ : ∃ r, r = decryptKelfBitTable E m headerSize HeaderSignature := ⟨_, rfl⟩
  rw [← hr]
  unfold decryptKelfBitTable at hr
  lift_lets at hr
  extract_lets offset keys Kbit bt m1 even buf0 st m2 buf BlockCount BitTableSignature m3
    RootSignatureSource icv RootSignature m4 m5 m6 m7 at hr
  have h2 : m2.cdvd.data_buffer = st.buf := by
    simp only [m2, m1, Machine.upd_cdvd]
  have h3 : m3.cdvd.data_buffer = st.buf := by
    simp only [m3, Machine.upd_cdvd]
    exact h2
  have h4 : m4.cdvd.data_buffer = st.buf := by
    simp only [m4]
    split
    · simp only [Machine.upd_cdvd]
      exact h3
    · exact h3
  have h5 : m5.cdvd.data_buffer = st.buf := by
    simp only [m5]
    split
    · simp only [Machine.upd_cdvd]
      exact h4
    · split
      · simp only [Machine.upd_cdvd]
        exact h4
      · exact h4
  have h6 : m6.cdvd.data_buffer = st.buf := by
    simp only [m6, Machine.upd_cdvd]
    exact h5
  have h7 : m7.cdvd.data_buffer = st.buf := by
    simp only [m7]
    split
    · simp only [Machine.upd_cdvd]
      exact h6
    · exact h6
  have hall : r.1.cdvd.data_buffer = st.buf := by
    rw [hr]
    split
    · exact h2
    · split
      · exact h2
      · split
        · exact h2
        · split
          · exact h3
          · exact h7
  have hbt : bt = headerSize + 8 + 32 := rfl
  have hn2 : 1 ≤ bitTableBlockCount buf0 bt := hn
  obtain ⟨k, hk⟩ : ∃ k, bitTableBlockCount buf0 bt = k + 1 := ⟨bitTableBlockCount buf0 bt - 1, by omega⟩
  have hst : bt + 8 + 16 * 0 + 16 ≤ st.buf.length := by
    simp only [st]
    rw [hk]
    exact bitTableLoop_grows E.D Kbit bt k 0 _
  rw [hall]
  omega

theorem cdvdNVM_ks (E : Env) (m : Machine) (buffer : List Nat) (offset bytes : Nat) (read : Bool) :
    (cdvdNVM E m buffer offset bytes read).1.ks = m.ks := by
  unfold cdvdNVM
  split
  · rfl
  · split <;> rfl

theorem getNvmData_ks (E : Env) (m : Machine) (buffer : List Nat) (offset size : Nat)
    (field : NVMLayout → Nat) : (getNvmData E m buffer offset size field).1.ks = m.ks :=
  cdvdNVM_ks E m buffer _ size true

/-- A header that passes the checks in front of the bit table, declares a block and
leaves less than 64 bytes of the data buffer behind its `headerSize` bytes:
`DecryptKelfHeader` stores behind the end of the buffer. -/
theorem DecryptKelfHeader_overrun (E : Env) (m : Machine) (hp : KelfHeaderChecksPass E m)
    (hn : 1 ≤ decryptedBlockCount E.D m.ks m.cdvd (kelfHeaderSize m.cdvd.data_buffer))
    (hl : m.cdvd.data_buffer.length < kelfHeaderSize m.cdvd.data_buffer + 64) :
    m.cdvd.data_buffer.length < (DecryptKelfHeader E m).1.cdvd.data_buffer.length := by
  obtain ⟨r, hr⟩ : ∃ r, r = DecryptKelfHeader E m := ⟨_, rfl⟩
  rw [← hr]
  unfold DecryptKelfHeader at hr
  lift_lets at hr
  extract_lets buf headerSize HeaderSignature r1 r2 m2 at hr
  have hm2 : m2.cdvd = m.cdvd := by
    show (cdvdReadILinkID E (cdvdReadConsoleID E m _).1 _).1.cdvd = m.cdvd
    unfold cdvdReadILinkID cdvdReadConsoleID
    rw [getNvmData_cdvd, getNvmData_cdvd]
  have hk2 : m2.ks = m.ks := by
    show (cdvdReadILinkID E (cdvdReadConsoleID E m _).1 _).1.ks = m.ks
    unfold cdvdReadILinkID cdvdReadConsoleID
    rw [getNvmData_ks, getNvmData_ks]
  split at hr
  · rename_i hc
    exact absurd hp.1 hc
  · split at hr
    · rename_i hc
      exact absurd hp.2.1 hc
    · split at hr
      · rename_i hc
        exact absurd hc hp.2.2.1
      · split at hr
        · rename_i hc
          have hb := hp.2.2.2
          rw [hc] at hb
          exact Bool.noConfusion hb
        · rw [hr, ← hm2]
          refine decryptKelfBitTable_overrun E m2 headerSize HeaderSignature ?_ ?_
          · rw [hk2, hm2]
            exact hn
          · rw [hm2]
            exact hl

/-- The handler on a received header that passes the checks in front of the bit table,
declares a block and leaves less than 64 bytes of the data buffer behind its
`headerSize` bytes gives no state: `DecryptKelfHeader` has stored behind the buffer. -/
theorem executeMechaHandler_overrun (E : Env) (m : Machine)
    (hs : m.cdvd.mecha_state = MECHA_STATE.MECHA_STATE_KELF_HEADER_RECEIVED)
    (hp : KelfHeaderChecksPass E m)
    (hn : 1 ≤ decryptedBlockCount E.D m.ks m.cdvd (kelfHeaderSize m.cdvd.data_buffer))
    (hl : m.cdvd.data_buffer.length < kelfHeaderSize m.cdvd.data_buffer + 64) :
    executeMechaHandler E m = none := by
  unfold executeMechaHandler
  rw [hs]
  exact if_pos (DecryptKelfHeader_overrun E m hp hn hl)

theorem Spd.startS (m : Machine) : Spd m m := rfl

theorem Spd.keepS {m : Machine} (m2 m3 : Machine) (h : spdView m3.cdvd = spdView m2.cdvd)
    (c : Spd m m2) : Spd m m3 :=
  h.trans c

theorem Spd.updS {m m2 : Machine} (f : cdvdStruct → cdvdStruct)
    (hf : ∀ c, spdView (f c) = spdView c) (c : Spd m m2) : Spd m (m2.upd f) :=
  Spd.keepS m2 _ (hf m2.cdvd) c

theorem Spd.iteS {m : Machine} (p : Prop) [Decidable p] (a b : Machine)
    (ha : p → Spd m a) (hb : ¬ p → Spd m b) : Spd m (if p then a else b) := by
  split
  · exact ha (by assumption)
  · exact hb (by assumption)

theorem SpdP.itePS {α : Type} {m : Machine} (p : Prop) [Decidable p] (a b : Machine × α)
    (ha : p → SpdP m a) (hb : ¬ p → SpdP m b) : SpdP m (if p then a else b) := by
  split
  · exact ha (by assumption)
  · exact hb (by assumption)

theorem SpdP.mkS {α : Type} {m : Machine} (a : Machine) (x : α) (c : Spd m a) : SpdP m (a, x) := c

theorem Spd.emitS {m m2 : Machine} (e : Event) (c : Spd m m2) : Spd m (m2.emit e) :=
  Spd.keepS m2 _ rfl c

theorem Spd.setIrqS {m m2 : Machine} (id : Nat) (c : Spd m m2) : Spd m (cdvdSetIrq m2 id) :=
  Spd.keepS m2 _ rfl c

theorem Spd.updateReadyS {m m2 : Machine} (v : Nat) (c : Spd m m2) : Spd m (cdvdUpdateReady m2 v) :=
  Spd.keepS m2 _ rfl c

theorem Spd.updateStatusS {m m2 : Machine} (v : Nat) (c : Spd m m2) : Spd m (cdvdUpdateStatus m2 v) :=
  Spd.keepS m2 _ rfl c

theorem Spd.psxIntS {m m2 : Machine} (n : IopEvt) (t : Nat) (c : Spd m m2) : Spd m (PSX_INT m2 n t) :=
  Spd.keepS m2 _ rfl c

theorem Spd.clearInterruptS {m m2 : Machine} (n : IopEvt) (c : Spd m m2) :
    Spd m (clearInterrupt m2 n) :=
  Spd.keepS m2 _ rfl c

theorem Spd.sectorReadyIntS {m m2 : Machine} (E : Env) (t : Nat) (c : Spd m m2) :
    Spd m (CDVDSECTORREADY_INT E m2 t) := by
  unfold CDVDSECTORREADY_INT
  split
  · exact c
  · exact Spd.psxIntS _ _ c

theorem Spd.readIntS {m m2 : Machine} (E : Env) (t : Nat) (c : Spd m m2) :
    Spd m (CDVDREAD_INT E m2 t) :=
  Spd.psxIntS _ _ c

theorem Spd.doReadTrackS {m m2 : Machine} (E : Env) (s mode : Nat) (c : Spd m m2) :
    Spd m (doReadTrack E m2 s mode) :=
  Spd.keepS m2 _ rfl c

theorem Spd.clearNParamsS {m m2 : Machine} (c : Spd m m2) : Spd m (clearNParams m2) :=
  Spd.keepS m2 _ rfl c

theorem Spd.actionInterruptS {m m2 : Machine} (E : Env) (c : Spd m m2) :
    Spd m (cdvdActionInterrupt E m2) := by
  unfold cdvdActionInterrupt
  dsimp only
  apply Spd.setIrqS
  refine Spd.iteS _ _ _ (fun _ => ?_) (fun _ => ?_)
  · refine Spd.updS _ (fun _ => rfl) ?_
    split <;>
    repeat' first
      | with_reducible exact c
      | with_reducible apply Spd.sectorReadyIntS
      | with_reducible apply Spd.updateReadyS
      | with_reducible apply Spd.updateStatusS
      | with_reducible refine Spd.updS _ (fun _ => by with_unfolding_all rfl) ?_
  · split <;>
    repeat' first
      | with_reducible exact c
      | with_reducible apply Spd.sectorReadyIntS
      | with_reducible apply Spd.updateReadyS
      | with_reducible apply Spd.updateStatusS
      | with_reducible refine Spd.updS _ (fun _ => by with_unfolding_all rfl) ?_

theorem Spd.cdvdIntS {m m2 : Machine} (E : Env) (t : Nat) (c : Spd m m2) :
    Spd m (CDVD_INT E m2 t) := by
  unfold CDVD_INT
  split
  · exact Spd.actionInterruptS E c
  · exact Spd.psxIntS _ _ c

theorem cdvdStartSeekFinish_spd {m m2 : Machine} (E : Env) (t d : Nat) (b : Bool)
    (c : Spd m m2) : SpdP m (cdvdStartSeekFinish E m2 t d b) := by
  unfold cdvdStartSeekFinish
  dsimp only
  show Spd m _
  dsimp only
  refine Spd.iteS _ _ _ (fun _ => ?_) (fun _ => ?_)
  · refine Spd.updS _ (fun _ => rfl) ?_
    split
    · exact Spd.sectorReadyIntS E _ c
    · exact Spd.sectorReadyIntS E _ c
  · split
    · exact Spd.sectorReadyIntS E _ c
    · exact Spd.sectorReadyIntS E _ c

theorem cdvdStartSeek_spd {m m2 : Machine} (E : Env) (s mode : Nat)
    (c : Spd m m2) : SpdP m (cdvdStartSeek E m2 s mode) := by
  unfold cdvdStartSeek
  dsimp only
  repeat' first
    | with_reducible exact c
    | with_reducible refine SpdP.itePS _ _ _ (fun _ => ?_) (fun _ => ?_)
    | with_reducible apply cdvdStartSeekFinish_spd
    | with_reducible apply Spd.sectorReadyIntS
    | with_reducible apply Spd.clearInterruptS
    | with_reducible apply Spd.updateReadyS
    | with_reducible apply Spd.updateStatusS
    | with_reducible apply Spd.emitS
    | with_reducible refine Spd.updS _ (fun _ => by with_unfolding_all rfl) ?_
    | with_reducible apply SpdP.mkS

theorem readRangeError_spd {m m2 : Machine} (E : Env) (c : Spd m m2) :
    Spd m (readRangeError E m2) := by
  unfold readRangeError
  dsimp only
  exact Spd.cdvdIntS E _ (Spd.updateReadyS _ (Spd.updateStatusS _ (Spd.updS _ (fun _ => rfl) c)))

theorem Spd.startSeekS {m m2 : Machine} (E : Env) (s mode : Nat) (c : Spd m m2) :
    Spd m (cdvdStartSeek E m2 s mode).1 :=
  cdvdStartSeek_spd E s mode c

theorem beginRead_spd {m m2 : Machine} (E : Env) (mode : Nat) (c : Spd m m2) :
    Spd m (beginRead E m2 mode) := by
  unfold beginRead
  dsimp only
  exact Spd.updS _ (fun _ => rfl) (Spd.doReadTrackS E _ _ (Spd.readIntS E _
    (Spd.startSeekS E _ _ (Spd.updS _ (fun _ => rfl) c))))

theorem beginRead_trace (E : Env) (m : Machine) (mode : Nat) :
    ∃ l s md, (beginRead E m mode).trace = l ++ [Event.readTrack s md] :=
  ⟨_, _, _, rfl⟩

theorem speedChange_spd (m : Machine) (a b : Nat) :
    (speedChange m a b).cdvd.Speed = m.cdvd.Speed ∧
    (speedChange m a b).cdvd.BlockSize = m.cdvd.BlockSize ∧
    (speedChange m a b).cdvd.Reading = m.cdvd.Reading := by
  unfold speedChange
  split
  · exact ⟨rfl, rfl, rfl⟩
  · exact ⟨rfl, rfl, rfl⟩

theorem cdReadSpeedCode_le (c : cdvdStruct) : cdReadSpeedCode c ≤ 7 :=
  Nat.and_le_right

/-- The decoding of the parameters of `N_CD_READ`: the flag, the speed, the block size. -/
theorem decodeCdRead_spec (m : Machine) :
    ((decodeCdRead m).2 = true ↔ CdReadParamsBad m.cdvd) ∧
    ((decodeCdRead m).2 = false →
      (decodeCdRead m).1.cdvd.Speed = [1, 2, 4, 12, 24].getD (cdReadSpeedCode m.cdvd - 1) 0 ∧
      (decodeCdRead m).1.cdvd.BlockSize = [2048, 2328, 2340].getD (m.cdvd.NCMDParam.getD 10 0) 0) ∧
    ((decodeCdRead m).1.cdvd.BlockSize = m.cdvd.BlockSize ∨
      (decodeCdRead m).1.cdvd.BlockSize ∈ [2048, 2328, 2340]) ∧
    (decodeCdRead m).1.cdvd.Reading = m.cdvd.Reading := by
  have hle := cdReadSpeedCode_le m.cdvd
  unfold CdReadParamsBad
  unfold decodeCdRead
  lift_lets
  extract_lets m0 old p9 m1 oldSpeed sp r m2 p10
  have hsp : sp = cdReadSpeedCode m.cdvd := by
    show (if p9 &&& 0x3F ≠ 0 then p9 else (p9 &&& 0x80) ||| (if cdvdIsDVD m.cdvd then 3 else 5))
      &&& CDVD_SPINDLE_SPEED = _
    have hp9 : p9 = m.cdvd.NCMDParam.getD 9 0 := rfl
    rw [hp9]
    unfold cdReadSpeedCode effectiveSpeedCode
    with_reducible rfl
  rw [← hsp] at hle ⊢
  have hd1 : cdvdIsDVD m1.cdvd = cdvdIsDVD m.cdvd := rfl
  have hr1 : SameRead m1 r.1 := by
    simp only [r]
    split_ifs <;> exact ⟨rfl, rfl, rfl, rfl, rfl, rfl, rfl, rfl⟩
  have hrB1 : r.1.cdvd.BlockSize = m1.cdvd.BlockSize := by
    simp only [r]
    split_ifs <;> rfl
  have hrB2 : r.1.cdvd.Reading = m1.cdvd.Reading := by
    simp only [r]
    split_ifs <;> rfl
  have hrB : r.1.cdvd.BlockSize = m.cdvd.BlockSize ∧ r.1.cdvd.Reading = m.cdvd.Reading :=
    ⟨hrB1, hrB2⟩
  have h12 : SameRead m1 m2 := hr1.trans (speedChange_same _ _ _)
  have hp : p10 = m.cdvd.NCMDParam.getD 10 0 := by
    show m2.cdvd.NCMDParam.getD 10 0 = _
    rw [h12.2.2.2.2.2.2.2]
    rfl
  have hd2 : cdvdIsDVD m2.cdvd = cdvdIsDVD m.cdvd := by
    rw [cdvdIsDVD_congr m1.cdvd m2.cdvd h12.2.2.2.2.2.2.1]
    rfl
  obtain ⟨hS2, hB2, hR2⟩ := speedChange_spd r.1 old oldSpeed
  have hS : m2.cdvd.Speed = r.1.cdvd.Speed := hS2
  have hB : m2.cdvd.BlockSize = m.cdvd.BlockSize := hB2.trans hrB.1
  have hR : m2.cdvd.Reading = m.cdvd.Reading := hR2.trans hrB.2
  have hr2 : (r.2 = true ↔ (¬ (1 ≤ sp ∧ sp ≤ 5) ∨
      (cdvdIsDVD m.cdvd = true ∧ (sp = 4 ∨ sp = 5)))) ∧
      (r.2 = false → r.1.cdvd.Speed = [1, 2, 4, 12, 24].getD (sp - 1) 0) := by
    simp only [r, hd1]
    generalize cdvdIsDVD m.cdvd = dvd
    clear_value sp
    clear hr1 hrB h12 hS2 hB2 hR2 hS
    interval_cases sp <;> cases dvd <;> simp <;> rfl
  rw [← hp, hd2]
  generalize cdvdIsDVD m.cdvd = dvd at hr2 ⊢
  obtain ⟨hr2a, hr2b⟩ := hr2
  by_cases h1 : dvd = true ∧ p10 ≠ 0
  · rw [if_pos h1]
    refine ⟨?_, ?_, Or.inl hB, hR⟩
    · simp only [true_iff]
      exact Or.inr (Or.inr (Or.inl h1))
    · intro h
      cases h
  · rw [if_neg h1]
    by_cases h2 : p10 = 2
    · rw [if_pos h2]
      refine ⟨?_, ?_, Or.inr (by show (2340 : Nat) ∈ _; decide), hR⟩
      · rw [hr2a]
        constructor
        · rintro (h | h)
          · exact Or.inl h
          · exact Or.inr (Or.inl h)
        · rintro (h | h | h | h)
          · exact Or.inl h
          · exact Or.inr h
          · exact absurd h h1
          · omega
      · intro h
        exact ⟨hS.trans (hr2b h), by rw [h2]; rfl⟩
    · rw [if_neg h2]
      by_cases h3 : p10 = 1
      · rw [if_pos h3]
        refine ⟨?_, ?_, Or.inr (by show (2328 : Nat) ∈ _; decide), hR⟩
        · rw [hr2a]
          constructor
          · rintro (h | h)
            · exact Or.inl h
            · exact Or.inr (Or.inl h)
          · rintro (h | h | h | h)
            · exact Or.inl h
            · exact Or.inr h
            · exact absurd h h1
            · omega
        · intro h
          exact ⟨hS.trans (hr2b h), by rw [h3]; rfl⟩
      · rw [if_neg h3]
        by_cases h4 : p10 = 0
        · rw [if_pos h4]
          refine ⟨?_, ?_, Or.inr (by show (2048 : Nat) ∈ _; decide), hR⟩
          · rw [hr2a]
            constructor
            · rintro (h | h)
              · exact Or.inl h
              · exact Or.inr (Or.inl h)
            · rintro (h | h | h | h)
              · exact Or.inl h
              · exact Or.inr h
              · exact absurd h h1
              · omega
          · intro h
            exact ⟨hS.trans (hr2b h), by rw [h4]; rfl⟩
        · rw [if_neg h4]
          refine ⟨?_, ?_, Or.inl hB, hR⟩
          · simp only [true_iff]
            cases dvd
            · exact Or.inr (Or.inr (Or.inr ⟨rfl, by omega⟩))
            · exact Or.inr (Or.inr (Or.inl ⟨rfl, h4⟩))
          · intro h
            cases h

theorem cdReadSpeedCode_congr (a b : cdvdStruct) (h1 : b.NCMDParam = a.NCMDParam)
    (h2 : b.DiscType = a.DiscType) : cdReadSpeedCode b = cdReadSpeedCode a := by
  unfold cdReadSpeedCode
  rw [h1, cdvdIsDVD_congr a b h2]

theorem readParamError_exit (E : Env) (m : Machine) (old : Nat) (hb : m.cdvd.BlockSize ≠ 0) :
    ParamErrorExit m (readParamError E m old) := by
  unfold readParamError CDVD_INT
  dsimp only
  have h : ¬ ((cdvdUpdateReady (cdvdUpdateStatus (m.upd fun c => { c with
      SpindlCtrl := old, Error := 0x22, Action := cdvdActions.cdvdAction_Error })
      CDVD_STATUS_SEEK) CDVD_DRIVE_BUSY).cdvd.BlockSize * 12 = 0) := by
    show ¬ (m.cdvd.BlockSize * 12 = 0)
    omega
  rw [if_neg h]
  exact ⟨rfl, rfl, rfl, rfl, rfl⟩

theorem cdvdReadErrorHandler_spd (m : Machine) :
    (cdvdReadErrorHandler m).1.cdvd.Speed = m.cdvd.Speed ∧
    (cdvdReadErrorHandler m).1.cdvd.BlockSize = m.cdvd.BlockSize ∧
    ((cdvdReadErrorHandler m).2 = false →
      (cdvdReadErrorHandler m).1.cdvd.Error = 0x21 ∨ (cdvdReadErrorHandler m).1.cdvd.Error = 0x30) := by
  unfold cdvdReadErrorHandler
  split_ifs
  · exact ⟨rfl, rfl, fun _ => Or.inl rfl⟩
  · exact ⟨rfl, rfl, fun _ => Or.inr rfl⟩
  · refine ⟨rfl, rfl, fun h => ?_⟩
    cases h

theorem nCdRead_spec (E : Env) (m : Machine) (hbs : m.cdvd.BlockSize ≠ 0) :
    (ParamErrorExit m (nCdRead E m) ↔ CdReadParamsBad m.cdvd) ∧
    (¬ CdReadParamsBad m.cdvd →
      (nCdRead E m).cdvd.Speed = [1, 2, 4, 12, 24].getD (cdReadSpeedCode m.cdvd - 1) 0 ∧
      (nCdRead E m).cdvd.BlockSize = [2048, 2328, 2340].getD (m.cdvd.NCMDParam.getD 10 0) 0) := by
  obtain ⟨hflag, hgood, hsize, hreading⟩ := decodeCdRead_spec m
  have hsame := decodeCdRead_same m
  have htrace : (decodeCdRead m).1.trace = m.trace := hsame.1
  unfold nCdRead
  dsimp only
  by_cases hd : (decodeCdRead m).2 = true
  · rw [if_pos hd]
    have hbad := hflag.mp hd
    refine ⟨⟨fun _ => hbad, fun _ => ?_⟩, fun h => absurd hbad h⟩
    have hb : (decodeCdRead m).1.cdvd.BlockSize ≠ 0 := by
      rcases hsize with h | h
      · rw [h]
        exact hbs
      · simp only [List.mem_cons, List.mem_singleton, List.not_mem_nil, or_false] at h
        omega
    obtain ⟨e1, e2, e3, e4, e5⟩ := readParamError_exit E (decodeCdRead m).1 m.cdvd.SpindlCtrl hb
    exact ⟨e1, e2, e3, e4.trans hreading, by rw [e5, htrace]⟩
  · rw [if_neg hd]
    have hd2 : (decodeCdRead m).2 = false := by
      cases h : (decodeCdRead m).2
      · rfl
      · exact absurd h hd
    have hgoodp : ¬ CdReadParamsBad m.cdvd := fun h => hd (hflag.mpr h)
    obtain ⟨hS, hB⟩ := hgood hd2
    obtain ⟨hS1, hB1, hE1⟩ := cdvdReadErrorHandler_spd (decodeCdRead m).1
    by_cases hh : (cdvdReadErrorHandler (decodeCdRead m).1).2 = false
    · rw [if_pos hh]
      have hspd : Spd (cdvdReadErrorHandler (decodeCdRead m).1).1
          (readRangeError E (cdvdReadErrorHandler (decodeCdRead m).1).1) :=
        readRangeError_spd E (Spd.startS _)
      have hv : (readRangeError E (cdvdReadErrorHandler (decodeCdRead m).1).1).cdvd.Speed =
            (cdvdReadErrorHandler (decodeCdRead m).1).1.cdvd.Speed ∧
          (readRangeError E (cdvdReadErrorHandler (decodeCdRead m).1).1).cdvd.BlockSize =
            (cdvdReadErrorHandler (decodeCdRead m).1).1.cdvd.BlockSize ∧
          (readRangeError E (cdvdReadErrorHandler (decodeCdRead m).1).1).cdvd.Error =
            (cdvdReadErrorHandler (decodeCdRead m).1).1.cdvd.Error := by
        unfold Spd spdView at hspd
        simpa only [Prod.mk.injEq] using hspd
      refine ⟨⟨fun hx => ?_, fun h => absurd h hgoodp⟩, fun _ => ?_⟩
      · exfalso
        have e := hx.1
        rw [hv.2.2] at e
        rcases hE1 hh with h | h <;> rw [h] at e <;> cases e
      · exact ⟨hv.1.trans (hS1.trans hS), hv.2.1.trans (hB1.trans hB)⟩
    · rw [if_neg hh]
      have hspd : Spd (cdvdReadErrorHandler (decodeCdRead m).1).1
          (beginRead E (cdvdReadErrorHandler (decodeCdRead m).1).1
            (cdvdIsDVDMode (cdvdReadErrorHandler (decodeCdRead m).1).1.cdvd)) :=
        beginRead_spd E _ (Spd.startS _)
      generalize cdvdIsDVDMode (cdvdReadErrorHandler (decodeCdRead m).1).1.cdvd = mode at hspd ⊢
      have hv : (beginRead E (cdvdReadErrorHandler (decodeCdRead m).1).1 mode).cdvd.Speed =
            (cdvdReadErrorHandler (decodeCdRead m).1).1.cdvd.Speed ∧
          (beginRead E (cdvdReadErrorHandler (decodeCdRead m).1).1 mode).cdvd.BlockSize =
            (cdvdReadErrorHandler (decodeCdRead m).1).1.cdvd.BlockSize ∧
          (beginRead E (cdvdReadErrorHandler (decodeCdRead m).1).1 mode).cdvd.Error =
            (cdvdReadErrorHandler (decodeCdRead m).1).1.cdvd.Error := by
        unfold Spd spdView at hspd
        simpa only [Prod.mk.injEq] using hspd
      refine ⟨⟨fun hx => ?_, fun h => absurd h hgoodp⟩, fun _ => ?_⟩
      · exfalso
        obtain ⟨l, s, md, ht⟩ := beginRead_trace E (cdvdReadErrorHandler (decodeCdRead m).1).1 mode
        have e := hx.2.2.2.2
        rw [ht] at e
        have e2 := congrArg List.getLast? e
        simp at e2
      · exact ⟨hv.1.trans (hS1.trans hS), hv.2.1.trans (hB1.trans hB)⟩

/-- C27: an `N_CD_READ` that reaches its case with eleven parameters (drive ready, tray
closed, a disc present, a nonzero block size as in every state reached from a reset)
leaves by the parameter-error exit (error 0x22, error action pending, drive busy, no
read started: the only new event is the action interrupt one block time later) exactly
when the effective speed code is outside 1..5, or is 4 or 5 on a DVD, or the sub-mode
byte is nonzero on a DVD or greater than 2 on a CD; otherwise the code is 1..5, the
sub-mode at most 2, the speed is 1, 2, 4, 12 or 24 by the code and the block size is
2048, 2328 or 2340 by the sub-mode. -/
theorem C27_cd_read_param_error (E : Env) (m : Machine)
    (hready : m.cdvd.Ready &&& CDVD_DRIVE_READY ≠ 0)
    (htray : m.cdvd.Status &&& CDVD_STATUS_TRAY_OPEN = 0)
    (hdisc : m.cdvd.DiscType ≠ CDVD_TYPE_NODISC)
    (hparamc : m.cdvd.NCMDParamC = 11)
    (hbs : m.cdvd.BlockSize ≠ 0) :
    (ParamErrorExit m (cdvdWrite04 E m N_CD_READ) ↔ CdReadParamsBad m.cdvd) ∧
    (¬ CdReadParamsBad m.cdvd →
      1 ≤ cdReadSpeedCode m.cdvd ∧ cdReadSpeedCode m.cdvd ≤ 5 ∧
      m.cdvd.NCMDParam.getD 10 0 ≤ 2 ∧
      (cdvdWrite04 E m N_CD_READ).cdvd.Speed =
        [1, 2, 4, 12, 24].getD (cdReadSpeedCode m.cdvd - 1) 0 ∧
      (cdvdWrite04 E m N_CD_READ).cdvd.BlockSize =
        [2048, 2328, 2340].getD (m.cdvd.NCMDParam.getD 10 0) 0) := by
  rw [cdvdWrite04_cdRead E m hready htray hdisc hparamc]
  obtain ⟨h1, h2⟩ := nCdRead_spec E
    (m.upd fun c => { c with nCommand := N_CD_READ, AbortRequested := false }) hbs
  have hc : cdReadSpeedCode
      (m.upd fun c => { c with nCommand := N_CD_READ, AbortRequested := false }).cdvd =
      cdReadSpeedCode m.cdvd :=
    cdReadSpeedCode_congr _ _ rfl rfl
  have hb : CdReadParamsBad
      (m.upd fun c => { c with nCommand := N_CD_READ, AbortRequested := false }).cdvd ↔
      CdReadParamsBad m.cdvd := by
    unfold CdReadParamsBad
    rw [hc]
    exact Iff.rfl
  rw [hb] at h1 h2
  rw [hc] at h2
  refine ⟨⟨fun hx => h1.mp ?_, fun hx => ?_⟩, fun hg => ?_⟩
  · obtain ⟨e1, e2, e3, e4, e5⟩ := hx
    exact ⟨e1, e2, e3, e4, e5⟩
  · obtain ⟨e1, e2, e3, e4, e5⟩ := h1.mpr hx
    exact ⟨e1, e2, e3, e4, e5⟩
  · obtain ⟨hS, hB⟩ := h2 hg
    unfold CdReadParamsBad at hg
    push_neg at hg
    obtain ⟨g1, g2, g3, g4⟩ := hg
    refine ⟨g1.1, g1.2, ?_, hS, hB⟩
    cases hdvd : cdvdIsDVD m.cdvd
    · exact g4 hdvd
    · rw [g3 hdvd]
      omega

/-- C27 on a ready drive with a CD: speed code 6 is refused with a parameter error; speed
code 2 with sub-mode 1 sets speed 2 and block size 2328. -/
theorem C27_cd_read_param_error_witness :
    ParamErrorExit (cdReadDrive 6 0) (cdvdWrite04 demoEnv (cdReadDrive 6 0) N_CD_READ) ∧
    (cdvdWrite04 demoEnv (cdReadDrive 2 1) N_CD_READ).cdvd.Speed = 2 ∧
    (cdvdWrite04 demoEnv (cdReadDrive 2 1) N_CD_READ).cdvd.BlockSize = 2328 :=
  have a := C27_cd_read_param_error demoEnv (cdReadDrive 6 0) (by decide) (by decide) (by decide)
    (by decide) (by decide)
  have b := C27_cd_read_param_error demoEnv (cdReadDrive 2 1) (by decide) (by decide) (by decide)
    (by decide) (by decide)
  ⟨a.1.mpr (by decide), (b.2 (by decide)).2.2.2.1, (b.2 (by decide)).2.2.2.2⟩

theorem blit_getD_before (buf : List Nat) (off : Nat) (data : List Nat) (p d : Nat) (h : p < off) :
    (blit buf off data).getD p d = buf.getD p d := by
  rw [List.getD_eq_getElem?_getD, List.getD_eq_getElem?_getD, blit_getElem?_before buf off data p h]

theorem set_zero_getD (l : List Nat) (v : Nat) : (l.set 0 v).getD 0 v = v := by
  cases l <;> rfl

theorem resultByte_setResult (m : Machine) :
    resultByte ((setResult m 0 0).upd fun c => { c with SCMDParamP := 0, SCMDParamC := 0 }) = 0 :=
  set_zero_getD m.cdvd.SCMDResult 0

theorem sCommand_0x81_byte (E : Env) (m : Machine) (sel : Nat) (h : SParamsAt m 0)
    (hst : m.cdvd.mecha_state ≠ MECHA_STATE.MECHA_STATE_0)
    (hsel : sel &&& 0x3F < 0x10 ∧ (sel >>> 6) &&& 3 ≠ 3) :
    ∃ m2, sCommand E m 0x81 [sel] = some m2 ∧ resultByte m2 = 0 := by
  rw [sCommand_eq E m _ _ h (by simp)]
  unfold cdvdWrite16 sCommandMecha
  simp only [withSParams, Machine.upd_cdvd, ↓reduceIte, Nat.reduceEqDiff, isMechaCommand,
    Nat.reduceLeDiff, decide_True, decide_False, Bool.and_self, Bool.and_false, Bool.false_and,
    Bool.or_false, Bool.false_or, Bool.or_true, Bool.true_or, Option.map_some',
    List.length_singleton, Nat.zero_add, ne_eq, hst, not_false_eq_true, and_self, List.take_zero,
    List.nil_append, List.singleton_append, List.getD_cons_zero, hsel]
  exact ⟨_, rfl, resultByte_setResult _⟩

theorem sCommand_0x82_byte (E : Env) (m : Machine) (iv seed : List Nat) (h : SParamsAt m 0)
    (hst : m.cdvd.mecha_state = MECHA_STATE.MECHA_STATE_KEY_INDEXES_SET)
    (hiv : iv.length = 8) (hseed : seed.length = 8) :
    ∃ m2, sCommand E m 0x82 (iv ++ seed) = some m2 ∧ resultByte m2 = 0 := by
  rw [sCommand_eq E m _ _ h (by simp [hiv, hseed])]
  unfold cdvdWrite16 sCommandMecha
  simp only [withSParams, Machine.upd_cdvd, ↓reduceIte, Nat.reduceEqDiff, isMechaCommand,
    Nat.reduceLeDiff, decide_True, decide_False, Bool.and_self, Bool.and_false, Bool.false_and,
    Bool.or_false, Bool.false_or, Bool.or_true, Bool.true_or, Option.map_some',
    List.length_append, hiv, hseed, Nat.zero_add, hst, and_self, List.take_zero,
    List.nil_append, Nat.reduceAdd]
  exact ⟨_, rfl, resultByte_setResult _⟩

theorem sCommand_0x83_byte (E : Env) (m : Machine) (nonce : List Nat)
    (h : SParamsAt m 0)
    (hst : m.cdvd.mecha_state = MECHA_STATE.MECHA_STATE_CARD_IV_SEED_SET)
    (hn : nonce.length = 8) :
    ∃ m2, sCommand E m 0x83 nonce = some m2 ∧ resultByte m2 = 0 := by
  rw [sCommand_eq E m _ _ h (by omega)]
  unfold cdvdWrite16 sCommandMecha
  simp only [withSParams, Machine.upd_cdvd, ↓reduceIte, Nat.reduceEqDiff, isMechaCommand,
    Nat.reduceLeDiff, decide_True, decide_False, Bool.and_self, Bool.and_false, Bool.false_and,
    Bool.or_false, Bool.false_or, Bool.or_true, Bool.true_or,
    hn, Nat.zero_add, hst, and_self, List.take_zero, List.nil_append]
  obtain ⟨X, hX⟩ : ∃ X, X = setMechaState
      ((SetSCMDResultSize ((m.upd fun c => { c with
          SCMDParam := nonce ++ List.drop 8 c.SCMDParam, SCMDParamP := 8, SCMDParamC := 8 }).upd fun c =>
          { c with sCommand := 0x83, SCMDResult := List.replicate 16 0 }) 1).upd fun c =>
        { c with memcard_nonce := slice (nonce ++ List.drop 8 m.cdvd.SCMDParam) 0 8 })
      MECHA_STATE.MECHA_STATE_CARD_NONCE_SET := ⟨_, rfl⟩
  have hXs : X.cdvd.mecha_state = MECHA_STATE.MECHA_STATE_CARD_NONCE_SET := by
    rw [hX]
    simp only [setMechaState, Machine.upd_cdvd]
  show ∃ m2, (Option.map _ (Option.map _ (executeMechaHandler E
      (setMechaState
      ((SetSCMDResultSize ((m.upd fun c => { c with
          SCMDParam := nonce ++ List.drop 8 c.SCMDParam, SCMDParamP := 8, SCMDParamC := 8 }).upd fun c =>
          { c with sCommand := 0x83, SCMDResult := List.replicate 16 0 }) 1).upd fun c =>
        { c with memcard_nonce := slice (nonce ++ List.drop 8 m.cdvd.SCMDParam) 0 8 })
      MECHA_STATE.MECHA_STATE_CARD_NONCE_SET))) = some m2) ∧ _
  rw [← hX, executeMechaHandler_nonceSet E X hXs]
  simp only [Option.map_some']
  exact ⟨_, rfl, resultByte_setResult _⟩

theorem sCommand_poll_challenge_byte (E : Env) (m : Machine) (h : SParamsAt m 0)
    (hst : m.cdvd.mecha_state = MECHA_STATE.MECHA_STATE_CARD_NONCE_SET)
    (hres : m.cdvd.mecha_result = MECHA_RESULT.MECHA_RESULT_CARD_CHALLANGE_GENERATED) :
    ∃ m2, sCommand E m 0x8F [] = some m2 ∧ resultByte m2 = 0 := by
  rw [sCommand_nil]
  unfold cdvdWrite16 sCommandMecha
  simp only [withSParams, Machine.upd_cdvd, ↓reduceIte, Nat.reduceEqDiff, isMechaCommand,
    Nat.reduceLeDiff, decide_True, decide_False, Bool.and_self, Bool.and_false, Bool.false_and,
    Bool.or_false, Bool.false_or, Bool.or_true, Bool.true_or, Option.map_some', h.2.1, hst, ne_eq, not_true_eq_false]
  simp only [result1, setResult, setMechaState, SetSCMDResultSize, Machine.upd_cdvd, hres, ↓reduceIte,
    Option.map_some']
  refine ⟨_, rfl, ?_⟩
  simp only [resultByte, Machine.upd_cdvd]
  rfl

theorem sCommand_0x84_byte (E : Env) (m : Machine) (h : SParamsAt m 0)
    (hst : m.cdvd.mecha_state = MECHA_STATE.MECHA_STATE_CARD_CHALLANGE_GENERATED) :
    ∃ m2, sCommand E m 0x84 [] = some m2 ∧ resultByte m2 = 0 := by
  rw [sCommand_nil]
  unfold cdvdWrite16 sCommandMecha
  simp only [withSParams, Machine.upd_cdvd, ↓reduceIte, Nat.reduceEqDiff, isMechaCommand,
    Nat.reduceLeDiff, decide_True, decide_False, Bool.and_self, Bool.and_false, Bool.false_and,
    Bool.or_false, Bool.false_or, Bool.or_true, Bool.true_or, Option.map_some', h.2.1, hst, and_self]
  refine ⟨_, rfl, ?_⟩
  simp only [resultByte, result1, copyResult, setResult, setMechaState, SetSCMDResultSize,
    Machine.upd_cdvd]
  rw [blit_getD_before _ _ _ _ _ (by decide), blit_getD_before _ _ _ _ _ (by decide)]
  rfl

theorem sCommand_0x85_byte (E : Env) (m : Machine) (h : SParamsAt m 0)
    (hst : m.cdvd.mecha_state = MECHA_STATE.MECHA_STATE_CARD_CHALLENGE12_SENT) :
    ∃ m2, sCommand E m 0x85 [] = some m2 ∧ resultByte m2 = 0 := by
  rw [sCommand_nil]
  unfold cdvdWrite16 sCommandMecha
  simp only [withSParams, Machine.upd_cdvd, ↓reduceIte, Nat.reduceEqDiff, isMechaCommand,
    Nat.reduceLeDiff, decide_True, decide_False, Bool.and_self, Bool.and_false, Bool.false_and,
    Bool.or_false, Bool.false_or, Bool.or_true, Bool.true_or, Option.map_some', h.2.1, hst, and_self]
  refine ⟨_, rfl, ?_⟩
  simp only [resultByte, result1, copyResult, setResult, setMechaState, SetSCMDResultSize,
    Machine.upd_cdvd]
  rw [blit_getD_before _ _ _ _ _ (by decide), blit_getD_before _ _ _ _ _ (by decide)]
  rfl

theorem sCommand_0x86_byte (E : Env) (m : Machine) (rsp1 rsp2 : List Nat) (h : SParamsAt m 0)
    (hst : m.cdvd.mecha_state = MECHA_STATE.MECHA_STATE_CARD_CHALLENGE23_SENT)
    (h1 : rsp1.length = 8) (h2 : rsp2.length = 8) :
    ∃ m2, sCommand E m 0x86 (rsp1 ++ rsp2) = some m2 ∧ resultByte m2 = 0 := by
  rw [sCommand_eq E m _ _ h (by simp [h1, h2])]
  unfold cdvdWrite16 sCommandMecha
  simp only [withSParams, Machine.upd_cdvd, ↓reduceIte, Nat.reduceEqDiff, isMechaCommand,
    Nat.reduceLeDiff, decide_True, decide_False, Bool.and_self, Bool.and_false, Bool.false_and,
    Bool.or_false, Bool.false_or, Bool.or_true, Bool.true_or, Option.map_some', List.length_append, h1, h2, Nat.zero_add, hst, and_self, List.take_zero,
    List.nil_append, Nat.reduceAdd]
  exact ⟨_, rfl, resultByte_setResult _⟩

theorem sCommand_0x87_byte (E : Env) (m : Machine) (rsp3 : List Nat) (h : SParamsAt m 0)
    (hst : m.cdvd.mecha_state = MECHA_STATE.MECHA_STATE_CARD_RESPONSE12_RECEIVED)
    (h3 : rsp3.length = 8) :
    ∃ m2, sCommand E m 0x87 rsp3 = some m2 ∧ resultByte m2 = 0 := by
  rw [sCommand_eq E m _ _ h (by omega)]
  unfold cdvdWrite16 sCommandMecha
  simp only [withSParams, Machine.upd_cdvd, ↓reduceIte, Nat.reduceEqDiff, isMechaCommand,
    Nat.reduceLeDiff, decide_True, decide_False, Bool.and_self, Bool.and_false, Bool.false_and,
    Bool.or_false, Bool.false_or, Bool.or_true, Bool.true_or,
    h3, Nat.zero_add, hst, and_self, List.take_zero, List.nil_append]
  obtain ⟨X, hX⟩ : ∃ X, X = setMechaState
      ((SetSCMDResultSize ((m.upd fun c => { c with
          SCMDParam := rsp3 ++ List.drop 8 c.SCMDParam, SCMDParamP := 8, SCMDParamC := 8 }).upd fun c =>
          { c with sCommand := 0x87, SCMDResult := List.replicate 16 0 }) 1).upd fun c =>
        { c with memcard_reponse3 := slice (rsp3 ++ List.drop 8 m.cdvd.SCMDParam) 0 8 })
      MECHA_STATE.MECHA_STATE_CARD_RESPONSE3_RECEIVED := ⟨_, rfl⟩
  have hXs : X.cdvd.mecha_state = MECHA_STATE.MECHA_STATE_CARD_RESPONSE3_RECEIVED := by
    rw [hX]
    simp only [setMechaState, Machine.upd_cdvd]
  show ∃ m2, (Option.map _ (Option.map _ (executeMechaHandler E
      (setMechaState
      ((SetSCMDResultSize ((m.upd fun c => { c with
          SCMDParam := rsp3 ++ List.drop 8 c.SCMDParam, SCMDParamP := 8, SCMDParamC := 8 }).upd fun c =>
          { c with sCommand := 0x87, SCMDResult := List.replicate 16 0 }) 1).upd fun c =>
        { c with memcard_reponse3 := slice (rsp3 ++ List.drop 8 m.cdvd.SCMDParam) 0 8 })
      MECHA_STATE.MECHA_STATE_CARD_RESPONSE3_RECEIVED))) = some m2) ∧ _
  rw [← hX, executeMechaHandler_response3 E X hXs]
  simp only [Option.map_some']
  exact ⟨_, rfl, resultByte_setResult _⟩

theorem some_eq_unique {r : Option Machine} {a b : Machine} (h1 : r = some a) (h2 : r = some b) :
    b = a :=
  Option.some.inj (h2.symm.trans h1)

/-- C29: on a session that is set up, under a cipher whose decryption inverts its
encryption, for every valid key selector, IV, seed and host nonce (and whatever random
value and third response block): when the card answers with response 1 the encrypted
nonce XOR challenge IV and response 2 the encrypted random XOR response 1, each of the
ten commands 0x81, 0x82, 0x83, 0x8F, 0x84, 0x85, 0x86, 0x87, 0x8F, 0x88 returns with
status byte 0, and the session states are KEY_INDEXES_SET, CARD_IV_SEED_SET,
CARD_NONCE_SET, CARD_CHALLANGE_GENERATED, CARD_CHALLENGE12_SENT, CARD_CHALLENGE23_SENT,
CARD_RESPONSE12_RECEIVED, CARD_RESPONSE3_RECEIVED, CARD_VERIFIED and CARD_VERIFIED. -/
theorem C29_card_auth_chain (E : Env) (hT : E.D.WellTyped) (hI : E.D.Inverts) (m : Machine)
    (h : SParamsAt m 0) (hst : m.cdvd.mecha_state ≠ MECHA_STATE.MECHA_STATE_0)
    (hks : m.ks.CardKeysTyped) (sel : Nat) (hsel : sel &&& 0x3F < 0x10 ∧ (sel >>> 6) &&& 3 ≠ 3)
    (iv seed nonce rsp3 : List Nat) (hiv : IsBytes 8 iv) (hseed : IsBytes 8 seed)
    (hn : IsBytes 8 nonce) (h3 : IsBytes 8 rsp3) :
    ∃ m1 m2 m3 m4 m5 m6 m7 m8 m9 m10,
      AcceptedInto (sCommand E m 0x81 [sel]) m1 MECHA_STATE.MECHA_STATE_KEY_INDEXES_SET ∧
      AcceptedInto (sCommand E m1 0x82 (iv ++ seed)) m2 MECHA_STATE.MECHA_STATE_CARD_IV_SEED_SET ∧
      AcceptedInto (sCommand E m2 0x83 nonce) m3 MECHA_STATE.MECHA_STATE_CARD_NONCE_SET ∧
      AcceptedInto (sCommand E m3 0x8F []) m4 MECHA_STATE.MECHA_STATE_CARD_CHALLANGE_GENERATED ∧
      AcceptedInto (sCommand E m4 0x84 []) m5 MECHA_STATE.MECHA_STATE_CARD_CHALLENGE12_SENT ∧
      AcceptedInto (sCommand E m5 0x85 []) m6 MECHA_STATE.MECHA_STATE_CARD_CHALLENGE23_SENT ∧
      m6.cdvd.memcard_nonce = nonce ∧
      AcceptedInto (sCommand E m6 0x86
          (matchingResponse1 E m6 ++ matchingResponse2 E m6 (matchingResponse1 E m6))) m7
        MECHA_STATE.MECHA_STATE_CARD_RESPONSE12_RECEIVED ∧
      AcceptedInto (sCommand E m7 0x87 rsp3) m8 MECHA_STATE.MECHA_STATE_CARD_RESPONSE3_RECEIVED ∧
      AcceptedInto (sCommand E m8 0x8F []) m9 MECHA_STATE.MECHA_STATE_CARD_VERIFIED ∧
      AcceptedInto (sCommand E m9 0x88 []) m10 MECHA_STATE.MECHA_STATE_CARD_VERIFIED := by
  obtain ⟨m1, ⟨e1, p1, k1⟩, s1⟩ := sCommand_0x81 E m sel h hst hsel
  obtain ⟨x1, f1, b1⟩ := sCommand_0x81_byte E m sel h hst hsel
  cases some_eq_unique e1 f1
  have st1 : m1.cdvd.mecha_state = MECHA_STATE.MECHA_STATE_KEY_INDEXES_SET := congrArg CardSession.state s1
  obtain ⟨m2, ⟨e2, p2, k2⟩, s2⟩ := sCommand_0x82 E m1 iv seed p1 st1 hiv.1 hseed.1
  obtain ⟨x2, f2, b2⟩ := sCommand_0x82_byte E m1 iv seed p1 st1 hiv.1 hseed.1
  cases some_eq_unique e2 f2
  have st2 : m2.cdvd.mecha_state = MECHA_STATE.MECHA_STATE_CARD_IV_SEED_SET := congrArg CardSession.state s2
  have iv2 : m2.cdvd.memcard_iv = iv := congrArg CardSession.iv s2
  have seed2 : m2.cdvd.memcard_seed = seed := congrArg CardSession.seed s2
  obtain ⟨m3, K, R, ⟨e3, p3, k3⟩, hK, hR, s3⟩ := sCommand_0x83 E m2 nonce hT p2 st2
    (by rw [k2, k1]; exact hks) (by rw [iv2]; exact hiv) (by rw [seed2]; exact hseed) hn.1
  obtain ⟨x3, f3, b3⟩ := sCommand_0x83_byte E m2 nonce p2 st2 hn.1
  cases some_eq_unique e3 f3
  have st3 : m3.cdvd.mecha_state = MECHA_STATE.MECHA_STATE_CARD_NONCE_SET := congrArg CardSession.state s3
  have res3 : m3.cdvd.mecha_result = MECHA_RESULT.MECHA_RESULT_CARD_CHALLANGE_GENERATED :=
    congrArg CardSession.result s3
  obtain ⟨m4, ⟨e4, p4, k4⟩, s4⟩ := sCommand_poll_challenge E m3 p3 st3 res3
  obtain ⟨x4, f4, b4⟩ := sCommand_poll_challenge_byte E m3 p3 st3 res3
  cases some_eq_unique e4 f4
  have st4 : m4.cdvd.mecha_state = MECHA_STATE.MECHA_STATE_CARD_CHALLANGE_GENERATED :=
    congrArg CardSession.state s4
  obtain ⟨m5, ⟨e5, p5, k5⟩, s5⟩ := sCommand_0x84 E m4 p4 st4
  obtain ⟨x5, f5, b5⟩ := sCommand_0x84_byte E m4 p4 st4
  cases some_eq_unique e5 f5
  have st5 : m5.cdvd.mecha_state = MECHA_STATE.MECHA_STATE_CARD_CHALLENGE12_SENT :=
    congrArg CardSession.state s5
  obtain ⟨m6, ⟨e6, p6, k6⟩, s6⟩ := sCommand_0x85 E m5 p5 st5
  obtain ⟨x6, f6, b6⟩ := sCommand_0x85_byte E m5 p5 st5
  cases some_eq_unique e6 f6
  have st6 : m6.cdvd.mecha_state = MECHA_STATE.MECHA_STATE_CARD_CHALLENGE23_SENT :=
    congrArg CardSession.state s6
  have ks6 : m6.ks = m.ks := by rw [k6, k5, k4, k3, k2, k1]
  have nonce6 : m6.cdvd.memcard_nonce = nonce := by
    have a6 : m6.cdvd.memcard_nonce = m5.cdvd.memcard_nonce := congrArg CardSession.nonce s6
    have a5 : m5.cdvd.memcard_nonce = m4.cdvd.memcard_nonce := congrArg CardSession.nonce s5
    have a4 : m4.cdvd.memcard_nonce = m3.cdvd.memcard_nonce := congrArg CardSession.nonce s4
    have a3 : m3.cdvd.memcard_nonce = nonce := congrArg CardSession.nonce s3
    rw [a6, a5, a4, a3]
  have key6 : IsBytes 16 m6.cdvd.memcard_key := by
    have a6 : m6.cdvd.memcard_key = m5.cdvd.memcard_key := congrArg CardSession.key s6
    have a5 : m5.cdvd.memcard_key = m4.cdvd.memcard_key := congrArg CardSession.key s5
    have a4 : m4.cdvd.memcard_key = m3.cdvd.memcard_key := congrArg CardSession.key s4
    have a3 : m3.cdvd.memcard_key = K := congrArg CardSession.key s3
    rw [a6, a5, a4, a3]
    exact hK
  have rand6 : IsBytes 8 m6.cdvd.memcard_random := by
    have a6 : m6.cdvd.memcard_random = m5.cdvd.memcard_random := congrArg CardSession.random s6
    have a5 : m5.cdvd.memcard_random = m4.cdvd.memcard_random := congrArg CardSession.random s5
    have a4 : m4.cdvd.memcard_random = m3.cdvd.memcard_random := congrArg CardSession.random s4
    have a3 : m3.cdvd.memcard_random = R := congrArg CardSession.random s3
    rw [a6, a5, a4, a3]
    exact hR
  have hn6 : IsBytes 8 m6.cdvd.memcard_nonce := by rw [nonce6]; exact hn
  have hciv : IsBytes 8 m6.ks.ChallengeIV := by rw [ks6]; exact hks.2.2.2.2
  have hr1 : IsBytes 8 (matchingResponse1 E m6) :=
    doubleDesEncrypt_isBytes E.D hT _ _ key6 (xor_bit_isBytes _ _ hn6 hciv)
  have hr2 : IsBytes 8 (matchingResponse2 E m6 (matchingResponse1 E m6)) :=
    doubleDesEncrypt_isBytes E.D hT _ _ key6 (xor_bit_isBytes _ _ rand6 hr1)
  generalize hq1 : matchingResponse1 E m6 = rsp1 at hr1 hr2
  generalize hq2 : matchingResponse2 E m6 rsp1 = rsp2 at hr2
  obtain ⟨m7, ⟨e7, p7, k7⟩, s7⟩ := sCommand_0x86 E m6 rsp1 rsp2 p6 st6 hr1.1 hr2.1
  obtain ⟨x7, f7, b7⟩ := sCommand_0x86_byte E m6 rsp1 rsp2 p6 st6 hr1.1 hr2.1
  cases some_eq_unique e7 f7
  have st7 : m7.cdvd.mecha_state = MECHA_STATE.MECHA_STATE_CARD_RESPONSE12_RECEIVED :=
    congrArg CardSession.state s7
  obtain ⟨m8, r, ⟨e8, p8, k8⟩, hr8, hpass, s8⟩ := sCommand_0x87 E m7 rsp3 p7 st7 h3.1
  obtain ⟨x8, f8, b8⟩ := sCommand_0x87_byte E m7 rsp3 p7 st7 h3.1
  cases some_eq_unique e8 f8
  have st8 : m8.cdvd.mecha_state = MECHA_STATE.MECHA_STATE_CARD_RESPONSE3_RECEIVED :=
    congrArg CardSession.state s8
  have res8 : m8.cdvd.mecha_result = r := congrArg CardSession.result s8
  have hmatch : ResponsesPass E m7.ks (cardSession m7) := by
    rw [k7, s7]
    unfold ResponsesPass
    simp only [cardSession]
    rw [doubleDesDecrypt_xor_eq_iff E.D hT hI _ rsp1 _ _ key6 hr1 hciv hn6,
      doubleDesDecrypt_xor_eq_iff E.D hT hI _ rsp2 _ _ key6 hr2 hr1 rand6]
    exact ⟨hq1.symm, hq2.symm⟩
  have hver : m8.cdvd.mecha_result = MECHA_RESULT.MECHA_RESULT_CARD_VERIFIED :=
    res8.trans (hpass.mpr hmatch)
  obtain ⟨m9, ⟨e9, p9, k9⟩, hv, _⟩ := sCommand_poll_verify E m8 p8 st8 (Or.inl hver)
  obtain ⟨s9, b9⟩ := hv hver
  have st9 : m9.cdvd.mecha_state = MECHA_STATE.MECHA_STATE_CARD_VERIFIED := congrArg CardSession.state s9
  obtain ⟨m10, ⟨e10, p10, k10⟩, s10, b10, _⟩ := sCommand_0x88 E m9 p9
  have st10 : m10.cdvd.mecha_state = m9.cdvd.mecha_state := congrArg CardSession.state s10
  subst hq1
  subst hq2
  exact ⟨m1, m2, m3, m4, m5, m6, m7, m8, m9, m10, ⟨e1, b1, st1⟩, ⟨e2, b2, st2⟩, ⟨e3, b3, st3⟩,
    ⟨e4, b4, st4⟩, ⟨e5, b5, st5⟩, ⟨e6, b6, st6⟩, nonce6, ⟨e7, b7, st7⟩, ⟨e8, b8, st8⟩,
    ⟨e9, b9, st9⟩, ⟨e10, b10 st9, st10.trans st9⟩⟩

/-- C29 on `demoDrive` under DES: key selector 0, third response block all nines; the ten
commands evaluate to the documented chain with status byte 0 throughout. -/
theorem C29_card_auth_chain_witness :
    (∃ m1 m2 m3 m4 m5 m6 m7 m8 m9 m10,
      AcceptedInto (sCommand demoEnv demoDrive 0x81 [0]) m1
        MECHA_STATE.MECHA_STATE_KEY_INDEXES_SET ∧
      AcceptedInto (sCommand demoEnv m1 0x82 ([1, 2, 3, 4, 5, 6, 7, 8] ++ [8, 7, 6, 5, 4, 3, 2, 1])) m2
        MECHA_STATE.MECHA_STATE_CARD_IV_SEED_SET ∧
      AcceptedInto (sCommand demoEnv m2 0x83 [0x10, 0x20, 0x30, 0x40, 0x50, 0x60, 0x70, 0x80]) m3
        MECHA_STATE.MECHA_STATE_CARD_NONCE_SET ∧
      AcceptedInto (sCommand demoEnv m3 0x8F []) m4 MECHA_STATE.MECHA_STATE_CARD_CHALLANGE_GENERATED ∧
      AcceptedInto (sCommand demoEnv m4 0x84 []) m5 MECHA_STATE.MECHA_STATE_CARD_CHALLENGE12_SENT ∧
      AcceptedInto (sCommand demoEnv m5 0x85 []) m6 MECHA_STATE.MECHA_STATE_CARD_CHALLENGE23_SENT ∧
      m6.cdvd.memcard_nonce = [0x10, 0x20, 0x30, 0x40, 0x50, 0x60, 0x70, 0x80] ∧
      AcceptedInto (sCommand demoEnv m6 0x86
          (matchingResponse1 demoEnv m6 ++
            matchingResponse2 demoEnv m6 (matchingResponse1 demoEnv m6))) m7
        MECHA_STATE.MECHA_STATE_CARD_RESPONSE12_RECEIVED ∧
      AcceptedInto (sCommand demoEnv m7 0x87 [9, 9, 9, 9, 9, 9, 9, 9]) m8
        MECHA_STATE.MECHA_STATE_CARD_RESPONSE3_RECEIVED ∧
      AcceptedInto (sCommand demoEnv m8 0x8F []) m9 MECHA_STATE.MECHA_STATE_CARD_VERIFIED ∧
      AcceptedInto (sCommand demoEnv m9 0x88 []) m10 MECHA_STATE.MECHA_STATE_CARD_VERIFIED) ∧
    demoCardChain = some [
      (MECHA_STATE.MECHA_STATE_KEY_INDEXES_SET, 0), (MECHA_STATE.MECHA_STATE_CARD_IV_SEED_SET, 0),
      (MECHA_STATE.MECHA_STATE_CARD_NONCE_SET, 0),
      (MECHA_STATE.MECHA_STATE_CARD_CHALLANGE_GENERATED, 0),
      (MECHA_STATE.MECHA_STATE_CARD_CHALLENGE12_SENT, 0),
      (MECHA_STATE.MECHA_STATE_CARD_CHALLENGE23_SENT, 0),
      (MECHA_STATE.MECHA_STATE_CARD_RESPONSE12_RECEIVED, 0),
      (MECHA_STATE.MECHA_STATE_CARD_RESPONSE3_RECEIVED, 0),
      (MECHA_STATE.MECHA_STATE_CARD_VERIFIED, 0), (MECHA_STATE.MECHA_STATE_CARD_VERIFIED, 0)] :=
  ⟨C29_card_auth_chain demoEnv des_wellTyped des_inverts demoDrive ⟨rfl, rfl, rfl⟩ (by decide)
    (by decide) 0 (by decide) _ _ _ _ (by decide) (by decide) (by decide) (by decide), by decide!⟩

theorem leBytes_length (n v : Nat) : (leBytes n v).length = n := by
  induction n generalizing v with
  | zero => rfl
  | succ n ih =>
    show (v % 256 :: leBytes n (v / 256)).length = n + 1
    rw [List.length_cons, ih]

theorem leBytes_lt (n v : Nat) : ∀ b ∈ leBytes n v, b < 256 := by
  induction n generalizing v with
  | zero =>
    intro b hb
    cases hb
  | succ n ih =>
    intro b hb
    have hb2 : b ∈ v % 256 :: leBytes n (v / 256) := hb
    rcases List.mem_cons.mp hb2 with h | h
    · rw [h]
      exact Nat.mod_lt _ (by decide)
    · exact ih _ b h

theorem blit_mem (buf : List Nat) (off : Nat) (data : List Nat) (b : Nat)
    (h : b ∈ blit buf off data) : b ∈ buf ∨ b ∈ data := by
  unfold blit at h
  rcases List.mem_append.mp h with h | h
  · rcases List.mem_append.mp h with h | h
    · exact Or.inl (List.mem_of_mem_take h)
    · exact Or.inr (List.mem_of_mem_take h)
  · exact Or.inl (List.mem_of_mem_drop h)

theorem blit_getD_behind (buf : List Nat) (off : Nat) (data : List Nat) (p d : Nat)
    (h : off + data.length ≤ p) : (blit buf off data).getD p d = buf.getD p d := by
  rw [List.getD_eq_getElem?_getD, List.getD_eq_getElem?_getD, blit_getElem?_behind buf off data p h]

theorem ATA.Cursor.Low.blitL {w : ATA.Cursor} (bytes : List Nat) (j : Nat) (h : w.Low)
    (hb : ∀ b ∈ bytes, b < 256) (hi : w.index + bytes.length ≤ 208) :
    ATA.Cursor.Low { data := blit w.data w.index bytes, index := j } := by
  obtain ⟨h1, h2, h3⟩ := h
  refine ⟨(blit_length _ _ _).trans h1, fun b hm => ?_, fun p hp => ?_⟩
  · rcases blit_mem _ _ _ _ hm with hm | hm
    · exact h2 b hm
    · exact hb b hm
  · show (blit w.data w.index bytes).getD p 0 = 0
    rw [blit_getD_behind _ _ _ _ _ (by omega)]
    exact h3 p hp

theorem ATA.Cursor.Low.initL : ATA.Cursor.Low { data := List.replicate 512 0, index := 0 } := by
  refine ⟨List.length_replicate _ _, fun b hb => ?_, fun p _ => ?_⟩
  · rw [List.eq_of_mem_replicate hb]
    decide
  · show (List.replicate 512 0).getD p 0 = 0
    rw [List.getD_eq_getElem?_getD, List.getElem?_replicate]
    split <;> rfl

theorem ATA.Cursor.Low.write16L (w : ATA.Cursor) (v : Nat) (h : w.Low)
    (hi : Nat.ble (w.index + 2) 208 = true) : (ATA.WriteUInt16 w v).Low :=
  h.blitL _ _ (leBytes_lt _ _) (by rw [leBytes_length]; exact Nat.le_of_ble_eq_true hi)

theorem ATA.Cursor.Low.write32L (w : ATA.Cursor) (v : Nat) (h : w.Low)
    (hi : Nat.ble (w.index + 4) 208 = true) : (ATA.WriteUInt32 w v).Low :=
  h.blitL _ _ (leBytes_lt _ _) (by rw [leBytes_length]; exact Nat.le_of_ble_eq_true hi)

theorem ATA.Cursor.Low.write64L (w : ATA.Cursor) (v : Nat) (h : w.Low)
    (hi : Nat.ble (w.index + 8) 208 = true) : (ATA.WriteUInt64 w v).Low :=
  h.blitL _ _ (leBytes_lt _ _) (by rw [leBytes_length]; exact Nat.le_of_ble_eq_true hi)

theorem ATA.Cursor.Low.stringL (w : ATA.Cursor) (value : List Nat) (len : Nat) (h : w.Low)
    (hv : ∀ b ∈ value, b < 256) (hi : Nat.ble (w.index + len) 208 = true) :
    (ATA.WritePaddedString w value len).Low := by
  have hi2 := Nat.le_of_ble_eq_true hi
  have h1 : ATA.Cursor.Low ⟨blit w.data w.index (List.replicate len 0x20), w.index⟩ :=
    h.blitL _ _ (fun b hb => by rw [List.eq_of_mem_replicate hb]; decide)
      (by rw [List.length_replicate]; exact hi2)
  refine ATA.Cursor.Low.blitL (w := ⟨blit w.data w.index (List.replicate len 0x20), w.index⟩) _ _ h1
    (fun b hb => hv b (List.mem_of_mem_take hb)) ?_
  show w.index + (value.take _).length ≤ 208
  rw [List.length_take]
  split <;> omega

theorem ATA.Cursor.Low.skipL (w : ATA.Cursor) (n : Nat) (h : w.Low) : (w.skip n).Low := h

theorem ATA.Cursor.Low.seekL (w : ATA.Cursor) (n : Nat) (h : w.Low) : (w.seek n).Low := h

set_option maxRecDepth 8000 in
theorem ATA.identifyWords_low (a : ATA) (sizeSectors : Nat) : (ATA.identifyWords a sizeSectors).Low := by
  unfold ATA.identifyWords
  dsimp only
  split <;>
  repeat' first
    | with_reducible exact ATA.Cursor.Low.initL
    | with_reducible refine ATA.Cursor.Low.write16L _ _ ?_ ?_
    | with_reducible refine ATA.Cursor.Low.write32L _ _ ?_ ?_
    | with_reducible refine ATA.Cursor.Low.write64L _ _ ?_ ?_
    | with_reducible refine ATA.Cursor.Low.stringL _ _ _ ?_ (by decide) ?_
    | with_reducible refine ATA.Cursor.Low.skipL _ _ ?_
    | with_reducible refine ATA.Cursor.Low.seekL _ _ ?_
    | rfl

theorem foldl_add_mod (l : List Nat) (c : Nat) :
    l.foldl (fun c b => (c + b) % 256) c = (c % 256 + l.sum) % 256 ∨ l = [] := by
  induction l generalizing c with
  | nil => exact Or.inr rfl
  | cons b l ih =>
    left
    rw [List.foldl_cons, List.sum_cons]
    rcases ih ((c + b) % 256) with h | h
    · rw [h]
      omega
    · rw [h]
      simp only [List.foldl_nil, List.sum_nil]
      omega

theorem foldl_add_mod_zero (l : List Nat) :
    l.foldl (fun c b => (c + b) % 256) 0 = l.sum % 256 := by
  rcases foldl_add_mod l 0 with h | h
  · rw [h]
    simp
  · rw [h]
    rfl

theorem list_split_510 (l : List Nat) (h : l.length = 512) :
    ∃ A x y, l = A ++ [x, y] ∧ A.length = 510 := by
  refine ⟨l.take 510, l.getD 510 0, l.getD 511 0, ?_, ?_⟩
  · apply List.ext_getElem?
    intro i
    by_cases hi : i < 510
    · rw [List.getElem?_append_left (by rw [List.length_take]; omega), List.getElem?_take_of_lt hi]
    · rw [List.getElem?_append_right (by rw [List.length_take]; omega), List.length_take]
      have hm : min 510 l.length = 510 := by omega
      rw [hm]
      by_cases h0 : i = 510
      · subst h0
        rw [List.getD_eq_getElem?_getD, List.getElem?_eq_getElem (by omega)]
        rfl
      · by_cases h1 : i = 511
        · subst h1
          rw [List.getD_eq_getElem?_getD (n := 511), List.getElem?_eq_getElem (by omega)]
          rfl
        · rw [List.getElem?_eq_none (by omega), List.getElem?_eq_none]
          show 2 ≤ i - 510
          omega
  · rw [List.length_take]
    omega

/-- The block that `CreateHDDinfoCsum` leaves, for a block of 512 bytes `A ++ [x, y]`. -/
theorem ATA.CreateHDDinfoCsum_eq (A : List Nat) (x y : Nat) (hA : A.length = 510) :
    ATA.CreateHDDinfoCsum (A ++ [x, y]) =
      A ++ [0xA5, (255 - ((A.sum + x) % 256 + 0xA5) % 256 + 1) % 256] := by
  unfold ATA.CreateHDDinfoCsum
  dsimp only
  have ht : (A ++ [x, y]).take (512 - 1) = A ++ [x] := by
    rw [List.take_append_eq_append_take, List.take_of_length_le (by omega), hA]
    rfl
  rw [ht, foldl_add_mod_zero, List.sum_append]
  have hs : (A ++ [x, y]).set 510 0xA5 = A ++ [0xA5, y] := by
    rw [List.set_append_right _ _ (by omega), hA]
    rfl
  rw [hs]
  have hs2 : (A ++ [0xA5, y]).set 511 ((255 - ((A.sum + [x].sum) % 256 + 0xA5) % 256 + 1) % 256) =
      A ++ [0xA5, (255 - ((A.sum + [x].sum) % 256 + 0xA5) % 256 + 1) % 256] := by
    rw [List.set_append_right _ _ (by omega), hA]
    rfl
  rw [hs2]
  simp only [List.sum_cons, List.sum_nil, Nat.add_zero]

/-- C37: for every `sizeSectors`, every setting of the feature flags, of the 48-bit LBA
switch and of the DMA modes, and whatever the identify block held before,
`ATA::CreateHDDinfo` leaves an identify block of 512 bytes whose byte 510 is the
signature 0xA5 and whose bytes sum to 0 modulo 256. -/
theorem C37_identify_checksum (a : ATA) (sizeSectors : Nat) :
    (ATA.CreateHDDinfo a sizeSectors).identifyData.length = 512 ∧
    (∀ b ∈ (ATA.CreateHDDinfo a sizeSectors).identifyData, b < 256) ∧
    (ATA.CreateHDDinfo a sizeSectors).identifyData.getD 510 0 = 0xA5 ∧
    (ATA.CreateHDDinfo a sizeSectors).identifyData.sum % 256 = 0 := by
  obtain ⟨hl, hb, hz⟩ := ATA.identifyWords_low a sizeSectors
  show (ATA.CreateHDDinfoCsum (ATA.identifyWords a sizeSectors).data).length = 512 ∧
    (∀ b ∈ ATA.CreateHDDinfoCsum (ATA.identifyWords a sizeSectors).data, b < 256) ∧
    (ATA.CreateHDDinfoCsum (ATA.identifyWords a sizeSectors).data).getD 510 0 = 0xA5 ∧
    (ATA.CreateHDDinfoCsum (ATA.identifyWords a sizeSectors).data).sum % 256 = 0
  generalize (ATA.identifyWords a sizeSectors).data = l at hl hb hz
  obtain ⟨A, x, y, rfl, hA⟩ := list_split_510 l hl
  have hx : x = 0 := by
    have h := hz 510 (by decide)
    rw [List.getD_eq_getElem?_getD, List.getElem?_append_right (by omega), hA] at h
    exact h
  subst hx
  rw [ATA.CreateHDDinfoCsum_eq A 0 y hA]
  refine ⟨by simp [hA], fun b hm => ?_, ?_, ?_⟩
  · rcases List.mem_append.mp hm with h | h
    · exact hb b (List.mem_append_left _ h)
    · rcases List.mem_cons.mp h with h | h
      · rw [h]
        decide
      · rw [List.mem_singleton.mp h]
        exact Nat.mod_lt _ (by decide)
  · rw [List.getD_eq_getElem?_getD, List.getElem?_append_right (by omega), hA]
    rfl
  · rw [List.sum_append]
    simp only [List.sum_cons, List.sum_nil, Nat.add_zero]
    omega

/-- C39: without 48-bit LBA, `ATA::CreateHDDinfo(4294967296)` (a drive of 2^32 sectors)
stores the sector count 0 in the identify words 60-61, not 2^28 - 1 = 268435455: the
size is converted to `u32` before it is limited.  A size of 268435460 sectors, below
2^32, is limited to 268435455. -/
theorem C39_size_truncated_before_limit :
    slice (ATA.CreateHDDinfo demoHdd 4294967296).identifyData 120 4 = [0, 0, 0, 0] ∧
    leValue (slice (ATA.CreateHDDinfo demoHdd 4294967296).identifyData 120 4) = 0 ∧
    min 4294967296 (2 ^ 28 - 1) = 268435455 ∧
    leValue (slice (ATA.CreateHDDinfo demoHdd 268435460).identifyData 120 4) = 268435455 := by
  decide!

/-- C40: with 48-bit LBA supported, `ATA::CreateHDDinfo(1000000)` leaves the value 983040
in the identify words 100-103, not 1000000: the word written last, 0 into word 100,
clears the low 16 bits of the sector count.  The words 60-61 hold 1000000. -/
theorem C40_lba48_low_word_cleared :
    slice (ATA.CreateHDDinfo demoHdd48 1000000).identifyData 200 8 = [0, 0, 15, 0, 0, 0, 0, 0] ∧
    leValue (slice (ATA.CreateHDDinfo demoHdd48 1000000).identifyData 200 8) = 983040 ∧
    min 1000000 (2 ^ 48 - 1) = 1000000 ∧
    leValue (slice (ATA.CreateHDDinfo demoHdd48 1000000).identifyData 120 4) = 1000000 := by
  decide!

/-- C31, as stated, fails.  On `firstChunkDrive` the poll in front of the data is
answered 0x80.  After block 0 has been delivered, decrypted and polled, S-command 0x92
announces block 1: state `MECHA_STATE_DATA_IN_LENGTH_SET`, no byte received of 8
announced.  The poll 0x8F that follows is answered 0 and moves the session to
`MECHA_STATE_KELF_CONTENT_DECRYPT_IN_PROGRESS`: the result
`MECHA_RESULT_KELF_CONTENT_DECRYPTED` is still that of block 0. -/
theorem C31_poll_counterexample :
    (sCommand demoEnv firstChunkDrive 0x8F []).map chunkView =
      some (0x80, MECHA_STATE.MECHA_STATE_DATA_IN_LENGTH_SET,
        MECHA_RESULT.MECHA_RESULT_KELF_HEADER_VERIFED) ∧
    secondChunkAnnounced.map chunkView =
      some (0, MECHA_STATE.MECHA_STATE_DATA_IN_LENGTH_SET,
        MECHA_RESULT.MECHA_RESULT_KELF_CONTENT_DECRYPTED) ∧
    secondChunkAnnounced.map chunkBytes = some (0, 8) ∧
    (secondChunkAnnounced.bind fun m => sCommand demoEnv m 0x8F []).map chunkView =
      some (0, MECHA_STATE.MECHA_STATE_KELF_CONTENT_DECRYPT_IN_PROGRESS,
        MECHA_RESULT.MECHA_RESULT_KELF_CONTENT_DECRYPTED) ∧
    (secondChunkAnnounced.bind fun m => sCommand demoEnv m 0x8F []).map chunkBytes = some (0, 8) := by
  decide!

theorem cdvdWrite16_0x8F_lengthSet (E : Env) (m : Machine)
    (hst : m.cdvd.mecha_state = MECHA_STATE.MECHA_STATE_DATA_IN_LENGTH_SET)
    (hp : m.cdvd.SCMDParamC = 0) :
    ∃ m2, cdvdWrite16 E m 0x8F = some m2 ∧
      (m.cdvd.mecha_result ≠ MECHA_RESULT.MECHA_RESULT_KELF_CONTENT_DECRYPTED →
        m.cdvd.mecha_result ≠ MECHA_RESULT.MECHA_RESULT_FAILED →
        resultByte m2 = 0x80 ∧ m2.cdvd.mecha_state = MECHA_STATE.MECHA_STATE_DATA_IN_LENGTH_SET) ∧
      (m.cdvd.mecha_result = MECHA_RESULT.MECHA_RESULT_FAILED →
        m2.cdvd.mecha_state = MECHA_STATE.MECHA_STATE_READY) ∧
      (m.cdvd.mecha_result = MECHA_RESULT.MECHA_RESULT_KELF_CONTENT_DECRYPTED →
        resultByte m2 = 0 ∧
        (m2.cdvd.mecha_state = MECHA_STATE.MECHA_STATE_UNK17 ∨
          m2.cdvd.mecha_state = MECHA_STATE.MECHA_STATE_KELF_CONTENT_DECRYPT_IN_PROGRESS ∨
          m2.cdvd.mecha_state = MECHA_STATE.MECHA_STATE_KELF_CONTENT_DECRYPT_DONE)) := by
  unfold cdvdWrite16 sCommandMecha
  simp only [Machine.upd_cdvd, ↓reduceIte, Nat.reduceEqDiff, isMechaCommand,
    Nat.reduceLeDiff, decide_True, decide_False, Bool.and_self, Bool.and_false, Bool.false_and,
    Bool.or_false, Bool.false_or, Bool.or_true, Bool.true_or, Option.map_some', hp, hst, ne_eq,
    not_true_eq_false]
  simp only [result1, setResult, setMechaState, SetSCMDResultSize, Machine.upd_cdvd]
  by_cases h1 : m.cdvd.mecha_result = MECHA_RESULT.MECHA_RESULT_KELF_CONTENT_DECRYPTED
  · simp only [h1, ↓reduceIte, Option.map_some']
    refine ⟨_, rfl, fun h => absurd trivial h, fun h => MECHA_RESULT.noConfusion h, fun _ => ⟨?_, ?_⟩⟩
    · simp only [resultByte, Machine.upd_cdvd]
      exact set_zero_getD _ 0
    · simp only [Machine.upd_cdvd]
      split_ifs <;> simp only [setMechaState, Machine.upd_cdvd, reduceCtorEq, or_true, true_or, or_false, false_or]
  · by_cases h2 : m.cdvd.mecha_result = MECHA_RESULT.MECHA_RESULT_FAILED
    · simp only [h2, reduceCtorEq, ↓reduceIte, Option.map_some']
      refine ⟨_, rfl, fun _ h => absurd trivial h, fun _ => rfl, fun h => h.elim⟩
    · simp only [h1, h2, ↓reduceIte, Option.map_some']
      refine ⟨_, rfl, fun _ _ => ⟨?_, ?_⟩, fun h => h.elim, fun h => h.elim⟩
      · simp only [resultByte, Machine.upd_cdvd]
        rfl
      · simp only [Machine.upd_cdvd, hst]

theorem sCommandMecha_0x92_result (E : Env) (y y2 : Machine) (h : sCommandMecha E y 0x92 = some y2) :
    y2.cdvd.mecha_result = y.cdvd.mecha_result := by
  have h2 : (if y.cdvd.mecha_state = MECHA_STATE.MECHA_STATE_KELF_CONTENT_DECRYPT_IN_PROGRESS ∧
      y.cdvd.SCMDParamC = 2 then _
      else some (setMechaState (result1 y 0x80) MECHA_STATE.MECHA_STATE_READY)) = some y2 := h
  by_cases g : y.cdvd.mecha_state = MECHA_STATE.MECHA_STATE_KELF_CONTENT_DECRYPT_IN_PROGRESS ∧
      y.cdvd.SCMDParamC = 2
  · rw [if_pos g] at h2
    dsimp only at h2
    split_ifs at h2 <;> rw [← Option.some.inj h2] <;>
      simp only [setResult, setMechaState, result1, SetSCMDResultSize, Machine.upd_cdvd]
  · rw [if_neg g] at h2
    rw [← Option.some.inj h2]
    simp only [setResult, setMechaState, result1, SetSCMDResultSize, Machine.upd_cdvd]

theorem cdvdWrite16_0x92_result (E : Env) (x x2 : Machine) (h : cdvdWrite16 E x 0x92 = some x2) :
    x2.cdvd.mecha_result = x.cdvd.mecha_result := by
  have h2 : (sCommandMecha E (sCommandEntry x 0x92) 0x92).map sCommandExit = some x2 := h
  cases hs : sCommandMecha E (sCommandEntry x 0x92) 0x92 with
  | none =>
    rw [hs] at h2
    cases h2
  | some y2 =>
    rw [hs] at h2
    rw [← Option.some.inj h2]
    exact (sCommandMecha_0x92_result E _ y2 hs).trans rfl

theorem cdvdWrite16_0x8D_incomplete (E : Env) (x : Machine)
    (hst : x.cdvd.mecha_state = MECHA_STATE.MECHA_STATE_DATA_IN_LENGTH_SET)
    (hlt : x.cdvd.data_buffer_offset + x.cdvd.SCMDParamC < x.cdvd.DataSize) :
    ∃ x2, cdvdWrite16 E x 0x8D = some x2 ∧ x2.cdvd.mecha_result = x.cdvd.mecha_result ∧
      x2.cdvd.mecha_state = MECHA_STATE.MECHA_STATE_DATA_IN_LENGTH_SET := by
  by_cases ha : mgWriteAccepted x.cdvd
  · rw [cdvdWrite16_0x8D_accepted E x ha]
    have hh : mgWriteHandled E (sCommandEntry x 0x8D) = some (mgWriteData (sCommandEntry x 0x8D)) := by
      unfold mgWriteHandled
      have hn : ¬ ((mgWriteData (sCommandEntry x 0x8D)).cdvd.DataSize ≤
          (mgWriteData (sCommandEntry x 0x8D)).cdvd.data_buffer_offset) := by
        show ¬ (x.cdvd.DataSize ≤ x.cdvd.data_buffer_offset + x.cdvd.SCMDParamC)
        omega
      rw [if_neg hn]
    rw [hh]
    refine ⟨_, rfl, ?_, ?_⟩
    · simp only [Option.map_some', sCommandExit, sCommandEntry, mgWriteData, setResult, result1, SetSCMDResultSize, Machine.upd_cdvd]
    · simp only [Option.map_some', sCommandExit, sCommandEntry, mgWriteData, setResult, result1, SetSCMDResultSize, Machine.upd_cdvd, hst]
  · rw [cdvdWrite16_0x8D_refused E x ha]
    refine ⟨_, rfl, ?_, ?_⟩
    · simp only [sCommandExit, sCommandEntry, setResult, result1, SetSCMDResultSize, Machine.upd_cdvd]
    · simp only [sCommandExit, sCommandEntry, setResult, result1, SetSCMDResultSize, Machine.upd_cdvd, hst]

/-- C31, amended.  In state `MECHA_STATE_DATA_IN_LENGTH_SET` a poll 0x8F without
parameters returns; it answers 0x80 and leaves the state when `mecha_result` is neither
`MECHA_RESULT_KELF_CONTENT_DECRYPTED` nor `MECHA_RESULT_FAILED`; it resets the session
to `MECHA_STATE_READY` when it is `MECHA_RESULT_FAILED`; and it answers 0 and moves to
`MECHA_STATE_UNK17`, `MECHA_STATE_KELF_CONTENT_DECRYPT_IN_PROGRESS` or
`MECHA_STATE_KELF_CONTENT_DECRYPT_DONE` when it is
`MECHA_RESULT_KELF_CONTENT_DECRYPTED`.  S-command 0x92 never changes `mecha_result`,
and an S-command 0x8D that leaves the announced chunk incomplete changes neither
`mecha_result` nor the state. -/
theorem C31_poll_reports_last_result (E : Env) (m : Machine)
    (hst : m.cdvd.mecha_state = MECHA_STATE.MECHA_STATE_DATA_IN_LENGTH_SET)
    (hp : m.cdvd.SCMDParamC = 0) :
    (∃ m2, cdvdWrite16 E m 0x8F = some m2 ∧
      (m.cdvd.mecha_result ≠ MECHA_RESULT.MECHA_RESULT_KELF_CONTENT_DECRYPTED →
        m.cdvd.mecha_result ≠ MECHA_RESULT.MECHA_RESULT_FAILED →
        resultByte m2 = 0x80 ∧ m2.cdvd.mecha_state = MECHA_STATE.MECHA_STATE_DATA_IN_LENGTH_SET) ∧
      (m.cdvd.mecha_result = MECHA_RESULT.MECHA_RESULT_FAILED →
        m2.cdvd.mecha_state = MECHA_STATE.MECHA_STATE_READY) ∧
      (m.cdvd.mecha_result = MECHA_RESULT.MECHA_RESULT_KELF_CONTENT_DECRYPTED →
        resultByte m2 = 0 ∧
        (m2.cdvd.mecha_state = MECHA_STATE.MECHA_STATE_UNK17 ∨
          m2.cdvd.mecha_state = MECHA_STATE.MECHA_STATE_KELF_CONTENT_DECRYPT_IN_PROGRESS ∨
          m2.cdvd.mecha_state = MECHA_STATE.MECHA_STATE_KELF_CONTENT_DECRYPT_DONE))) ∧
    (∀ x x2, cdvdWrite16 E x 0x92 = some x2 → x2.cdvd.mecha_result = x.cdvd.mecha_result) ∧
    (∀ x, x.cdvd.mecha_state = MECHA_STATE.MECHA_STATE_DATA_IN_LENGTH_SET →
      x.cdvd.data_buffer_offset + x.cdvd.SCMDParamC < x.cdvd.DataSize →
      ∃ x2, cdvdWrite16 E x 0x8D = some x2 ∧ x2.cdvd.mecha_result = x.cdvd.mecha_result ∧
        x2.cdvd.mecha_state = MECHA_STATE.MECHA_STATE_DATA_IN_LENGTH_SET) :=
  ⟨cdvdWrite16_0x8F_lengthSet E m hst hp, cdvdWrite16_0x92_result E,
    fun x h1 h2 => cdvdWrite16_0x8D_incomplete E x h1 h2⟩

/-- On `firstChunkDrive`, where the last result is that of the header, the poll in front
of the data is answered 0x80 and the state stays. -/
theorem C31_poll_reports_last_result_witness :
    ∃ m2, cdvdWrite16 demoEnv firstChunkDrive 0x8F = some m2 ∧ resultByte m2 = 0x80 ∧
      m2.cdvd.mecha_state = MECHA_STATE.MECHA_STATE_DATA_IN_LENGTH_SET := by
  obtain ⟨⟨m2, e, a, _⟩, _⟩ := C31_poll_reports_last_result demoEnv firstChunkDrive rfl rfl
  exact ⟨m2, e, a (by decide) (by decide)⟩

/-- C32: S-command 0x90 accepts `DataSize` 0x20 and two S-commands 0x8D deliver the 32
bytes of `bigBanHeader`; in the state `kelfReceived bigBanDrive`, on which the second
0x8D runs `DecryptKelfHeader`, the data buffer has 0x800 bytes and starts with that
header, `headerSize` is 0x20 + 16 * 0x80 = 0x820, and the header-signature loop, which
runs in front of every check, reads the data buffer at the offsets 0x800 to 0x818. -/
theorem C32_header_signature_reads_past_buffer :
    (bigBanDrive.cdvd.mecha_state, bigBanDrive.cdvd.DataSize, bigBanDrive.cdvd.data_buffer_offset,
      bigBanDrive.cdvd.SCMDParamC) = (MECHA_STATE.MECHA_STATE_KELF_HEADER_PARAMS_SET, 0x20, 16, 16) ∧
    (kelfReceived bigBanDrive).cdvd.mecha_state = MECHA_STATE.MECHA_STATE_KELF_HEADER_RECEIVED ∧
    (kelfReceived bigBanDrive).cdvd.data_buffer.length = 0x800 ∧
    slice (kelfReceived bigBanDrive).cdvd.data_buffer 0 32 = bigBanHeader ∧
    kelfBanCount (kelfReceived bigBanDrive).cdvd.data_buffer = 0x80 ∧
    kelfHeaderSize (kelfReceived bigBanDrive).cdvd.data_buffer = 0x820 ∧
    0x800 ∈ headerSignatureReads (kelfReceived bigBanDrive).cdvd.data_buffer ∧
    (headerSignatureReads (kelfReceived bigBanDrive).cdvd.data_buffer).getLast? = some 0x818 := by
  decide!

/-- C33: on `contentDrive`, S-command 0x92 announces 8 bytes of input and is answered 0
(state `MECHA_STATE_DATA_IN_LENGTH_SET`, `DataSize` 8, `data_buffer_offset` 0); the
S-command 0x8C that follows does not return, and neither does `executeMechaHandler`
in that state: the chunk loop of `DecryptKelfContent` no longer advances `v0 = 0`,
which is below `DataSize` but not below `data_buffer_offset`. -/
theorem C33_content_loop_does_not_end :
    (sCommand demoEnv contentDrive 0x92 [8, 0]).map (fun m =>
        (resultByte m, m.cdvd.mecha_state, m.cdvd.DataSize, m.cdvd.data_buffer_offset)) =
      some (0, MECHA_STATE.MECHA_STATE_DATA_IN_LENGTH_SET, 8, 0) ∧
    ((sCommand demoEnv contentDrive 0x92 [8, 0]).map fun m =>
        (executeMechaHandler demoEnv m).isNone) = some true ∧
    ((sCommand demoEnv contentDrive 0x92 [8, 0]).map fun m =>
        (sCommand demoEnv m 0x8C []).isNone) = some true := by
  decide!

/-- C34: `cdvd.CardKey` has 16 entries and S-command 0x81 refuses the slot 0x10 with
0x80, but S-command 0x90 accepts the slot 0x10 in the modes 1, 2 and 3: it answers 0,
enters `MECHA_STATE_KELF_HEADER_PARAMS_SET` and stores `cardKeySlot = 0x10`; the slot
0x11 is refused. -/
theorem C34_header_start_accepts_slot_16 :
    demoDrive.cdvd.CardKey.length = 16 ∧
    (sCommand demoEnv demoDrive 0x81 [0x10]).map (fun m => (resultByte m, m.cdvd.cardKeySlot)) =
      some (0x80, 0) ∧
    headerStartAnswer 1 0x10 = some (0, MECHA_STATE.MECHA_STATE_KELF_HEADER_PARAMS_SET, 0x10) ∧
    headerStartAnswer 2 0x10 = some (0, MECHA_STATE.MECHA_STATE_KELF_HEADER_PARAMS_SET, 0x10) ∧
    headerStartAnswer 3 0x10 = some (0, MECHA_STATE.MECHA_STATE_KELF_HEADER_PARAMS_SET, 0x10) ∧
    headerStartAnswer 1 0x11 = some (0x80, MECHA_STATE.MECHA_STATE_READY, 0x11) := by
  decide!

/-- C35: a drive spinning at speed 4 with spindle control 3 receives a read command with
speed code 2 and an invalid sub-mode byte.  `N_CD_READ` (sub-mode 3) and
`N_CD_READ_CDDA` (sub-mode 2) on a CD and `N_DVD_READ` (sub-mode 1) on a DVD are each
rejected with error 0x22 and spindle control 3 restored, but the speed is left at 2
and the drive is left not spinning. -/
theorem C35_param_error_keeps_new_speed :
    spindleView (cdReadDrive 2 3).cdvd = (0, 3, 4, true) ∧
    spindleView (cdvdWrite04 demoEnv (cdReadDrive 2 3) N_CD_READ).cdvd = (0x22, 3, 2, false) ∧
    spindleView (cdvdWrite04 demoEnv (cdReadDrive 2 2) N_CD_READ_CDDA).cdvd = (0x22, 3, 2, false) ∧
    spindleView (dvdParamDrive 2 1).cdvd = (0, 3, 4, true) ∧
    spindleView (cdvdWrite04 demoEnv (dvdParamDrive 2 1) N_DVD_READ).cdvd = (0x22, 3, 2, false) := by
  decide!

/-- C36: S-command 0x09 with the month byte 0x00 answers 0 and installs month 0.  At the
next day rollover `cdvdVsync` compares the day with `monthmap[month - 1]`, index -1,
outside the table: where that read yields 0 the clock goes to day 1 of month 1, where
it yields 255 the clock goes to day 32 of month 0. -/
theorem C36_month_zero_reads_outside :
    (sCommand demoEnv rtcEveDrive 0x09 monthZeroClock).map (fun m => (resultByte m, m.cdvd.RTC)) =
      some (0, { status := 0, second := 59, minute := 59, hour := 23, pad := 0, day := 31,
                 month := 0, year := 5 }) ∧
    rtcWrittenDrive.cdvd.RTC.month = 0 ∧
    ((cdvdVsync (monthmapEnv 0) rtcWrittenDrive).cdvd.RTC.day,
      (cdvdVsync (monthmapEnv 0) rtcWrittenDrive).cdvd.RTC.month) = (1, 1) ∧
    ((cdvdVsync (monthmapEnv 255) rtcWrittenDrive).cdvd.RTC.day,
      (cdvdVsync (monthmapEnv 255) rtcWrittenDrive).cdvd.RTC.month) = (32, 0) := by
  decide!

end CDVD
